import Mathlib

/-!
# WebRTC AECM: a shallow embedding of `aecm.c` and its checked properties

The C program is embedded as pure Lean functions over explicit state.

* C integers are mathematical integers; every conversion or store that can leave the
  range of its C type is written out with `toInt16`, `toInt32`, `toUint16`, `toUint32`
  or `toSizeT` (two's complement, `int` = 32 bit, `size_t` = 64 bit, i.e. LP64).
* Arrays are lists; the storage of a ring buffer is a function from element index to value.
* A pointer argument that may be `NULL` is an `Option`.

Part I holds the definitions, Part II the lemmas and theorems.
-/

namespace AECM

/-! ## Part I. Definitions -/

/-! ### Machine integers -/

/-- Conversion to `int16_t`. -/
def toInt16 (x : Int) : Int := (x + 32768) % 65536 - 32768

/-- Conversion to `int32_t` (and to `int`). -/
def toInt32 (x : Int) : Int := (x + 2147483648) % 4294967296 - 2147483648

/-- Conversion to `uint16_t`. -/
def toUint16 (x : Int) : Int := x % 65536

/-- Conversion to `uint32_t`. -/
def toUint32 (x : Int) : Int := x % 4294967296

/-- Conversion to `size_t` (64 bit). -/
def toSizeT (x : Int) : Nat := (x % 18446744073709551616).toNat

/-- Largest value of `int`. -/
def INT_MAX : Nat := 2147483647

/-- C `x >> k` on a signed or unsigned value: division by `2 ^ k` rounding down. -/
def shr (x : Int) (k : Nat) : Int := x / 2 ^ k

/-- C `x << k` before any conversion to the result type. -/
def shl (x : Int) (k : Nat) : Int := x * 2 ^ k

/-- Sequential loop `for (i = lo; i < hi; i += step) s = body(s, i)`; `fuel` bounds the
number of iterations. -/
def forStep {σ : Type} : Nat → Nat → Nat → Nat → (σ → Nat → σ) → σ → σ
  | 0, _, _, _, _, s => s
  | fuel + 1, i, hi, step, body, s =>
    if i < hi then forStep fuel (i + step) hi step body (body s i) else s

/-- Sequential loop `for (i = 0; i < n; i++) s = body(s, i)`. -/
def forRange {σ : Type} (n : Nat) (body : σ → Nat → σ) (s : σ) : σ :=
  (List.range n).foldl body s

/-! ### Signal processing library helpers (`aecm.c` 17-134, 1263-1343) -/

/-- `WebRtcSpl_AddSatW32`. -/
def WebRtcSpl_AddSatW32 (a b : Int) : Int :=
  let sum := toInt32 (toUint32 a + toUint32 b)
  if (decide (a < 0) == decide (b < 0)) && (decide (a < 0) != decide (sum < 0)) then
    (if sum < 0 then 2147483647 else -2147483648)
  else sum

/-- Number of binary digits of `v` (0 for `v = 0`), by repeated halving; `fuel` bounds
the number of halvings, and `fuel = v` always suffices. -/
def bitLength : Nat → Nat → Nat
  | 0, _ => 0
  | fuel + 1, v => if v = 0 then 0 else bitLength fuel (v / 2) + 1

/-- `__clz_uint32`: number of leading zero bits of a 32-bit value. The source asserts
`v > 0`; at `v = 0` the model returns 32, the result of the `lzcnt` instruction. -/
def __clz_uint32 (v : Int) : Int :=
  if v ≤ 0 then 32 else 32 - (bitLength 32 v.toNat : Int)

/-- `WebRtcSpl_NormW16`. -/
def WebRtcSpl_NormW16 (a : Int) : Int :=
  if a = 0 then 0
  else toInt16 (toUint32 (__clz_uint32 (toUint32 (if a < 0 then -a - 1 else a))) - 17)

/-- `NormU32`. -/
def NormU32 (a : Int) : Int :=
  if a = 0 then 0 else toInt16 (__clz_uint32 a)

/-- `NormW32`. -/
def NormW32 (a : Int) : Int :=
  if a = 0 then 0
  else toInt16 (toUint32 (__clz_uint32 (toUint32 (if a < 0 then -a - 1 else a))) - 1)

/-- `WebRtcSpl_NormW32` (the same body as `NormW32`). -/
def WebRtcSpl_NormW32 (a : Int) : Int :=
  if a = 0 then 0
  else toInt16 (toUint32 (__clz_uint32 (toUint32 (if a < 0 then -a - 1 else a))) - 1)

/-- `WebRtcSpl_SatW32ToW16`. -/
def WebRtcSpl_SatW32ToW16 (value32 : Int) : Int :=
  if value32 > 32767 then 32767
  else if value32 < -32768 then -32768
  else toInt16 value32

/-- `WebRtcSpl_AddSatW16`. -/
def WebRtcSpl_AddSatW16 (a b : Int) : Int :=
  WebRtcSpl_SatW32ToW16 (a + b)

/-- `WebRtcSpl_DivW32W16`: C division truncates toward zero. -/
def WebRtcSpl_DivW32W16 (num den : Int) : Int :=
  if den ≠ 0 then toInt32 (Int.tdiv num den) else 2147483647

/-- `WebRtcSpl_DivU32U16`. -/
def WebRtcSpl_DivU32U16 (num den : Int) : Int :=
  if den ≠ 0 then toUint32 (num / den) else 4294967295

/-- `WEBRTC_SPL_ABS_W16`, evaluated in `int`. -/
def WEBRTC_SPL_ABS_W16 (a : Int) : Int :=
  if toInt16 a ≥ 0 then toInt16 a else -(toInt16 a)

/-- `WEBRTC_SPL_ABS_W32`. -/
def WEBRTC_SPL_ABS_W32 (a : Int) : Int :=
  if toInt32 a ≥ 0 then toInt32 a else toInt32 (-(toInt32 a))

/-- `WEBRTC_SPL_UMUL_32_16`. -/
def WEBRTC_SPL_UMUL_32_16 (a b : Int) : Int :=
  toUint32 (toUint32 a * toUint16 b)

/-- `WEBRTC_SPL_MUL_16_U16`. -/
def WEBRTC_SPL_MUL_16_U16 (a b : Int) : Int :=
  toInt32 (toInt16 a * toUint16 b)

/-- `WEBRTC_SPL_MUL_16_16`. -/
def WEBRTC_SPL_MUL_16_16 (a b : Int) : Int :=
  toInt32 (toInt16 a * toInt16 b)

/-- `WEBRTC_SPL_MUL_16_16_RSFT_WITH_ROUND`. -/
def WEBRTC_SPL_MUL_16_16_RSFT_WITH_ROUND (a b : Int) (c : Nat) : Int :=
  shr (toInt32 (WEBRTC_SPL_MUL_16_16 a b + shl 1 (c - 1))) c

/-- `WEBRTC_SPL_SAT(a, b, c)`. -/
def WEBRTC_SPL_SAT (a b c : Int) : Int :=
  if b > a then a else if b < c then c else b

/-- `WEBRTC_SPL_SHIFT_W32(x, c)` for an `int32_t` operand. -/
def WEBRTC_SPL_SHIFT_W32 (x c : Int) : Int :=
  if c ≥ 0 then toInt32 (x * toInt32 (shl 1 c.toNat)) else shr x (-c).toNat

/-- `WEBRTC_SPL_SHIFT_W32(x, c)` for a `uint32_t` operand. -/
def WEBRTC_SPL_SHIFT_W32_U (x c : Int) : Int :=
  if c ≥ 0 then toUint32 (x * toUint32 (shl 1 c.toNat)) else shr x (-c).toNat

/-- `IncreaseSeed`: the new seed (which is also the return value). -/
def IncreaseSeed (seed : Int) : Int :=
  toUint32 (Int.land (toUint32 (toUint32 (seed * 69069) + 1)) (2147483648 - 1))

/-- `WebRtcSpl_RandU`: the returned value and the new seed. -/
def WebRtcSpl_RandU (seed : Int) : Int × Int :=
  let s := IncreaseSeed seed
  (toInt16 (shr s 16), s)

/-- `WebRtcSpl_RandUArray`: the filled vector and the new seed. -/
def WebRtcSpl_RandUArray (vector_length : Nat) (seed : Int) : List Int × Int :=
  forRange vector_length
    (fun (acc : List Int × Int) _ =>
      let r := WebRtcSpl_RandU acc.2
      (acc.1 ++ [r.1], r.2))
    ([], seed)

/-- One `WEBRTC_SPL_SQRT_ITER(N)`: the pair is `(value, root)`. -/
def WEBRTC_SPL_SQRT_ITER (N : Nat) (vr : Int × Int) : Int × Int :=
  let try1 := toInt32 (vr.2 + shl 1 N)
  if vr.1 ≥ toInt32 (shl try1 N) then
    (toInt32 (vr.1 - toInt32 (shl try1 N)), Int.lor vr.2 (shl 2 N))
  else vr

/-- `WebRtcSpl_SqrtFloor`. -/
def WebRtcSpl_SqrtFloor (value : Int) : Int :=
  let vr := [15, 14, 13, 12, 11, 10, 9, 8, 7, 6, 5, 4, 3, 2, 1, 0].foldl
    (fun vr N => WEBRTC_SPL_SQRT_ITER N vr) (value, 0)
  shr vr.2 1

/-- `WebRtcSpl_MaxAbsValueW16` (and its copy `WebRtcSpl_MaxAbsValueW16C`) over the first
`length` elements. -/
def WebRtcSpl_MaxAbsValueW16 (vector : List Int) (length : Nat) : Int :=
  let maximum := forRange length
    (fun (maximum : Int) i =>
      let absolute := Int.natAbs (vector.getD i 0)
      if (absolute : Int) > maximum then absolute else maximum) 0
  if maximum > 32767 then 32767 else toInt16 maximum


/-! ### Constant tables of `aecm.c` -/

/-- Entries 0 to 31 of `WebRtcAecm_kCosTable`. -/
def WebRtcAecm_kCosTable_part0 : List Int :=
  [8192, 8190, 8187, 8180, 8172, 8160, 8147, 8130, 8112, 8091, 8067, 8041, 8012, 7982, 7948,
   7912, 7874, 7834, 7791, 7745, 7697, 7647, 7595, 7540, 7483, 7424, 7362, 7299, 7233, 7164,
   7094, 7021]

/-- Entries 32 to 63 of `WebRtcAecm_kCosTable`. -/
def WebRtcAecm_kCosTable_part1 : List Int :=
  [6947, 6870, 6791, 6710, 6627, 6542, 6455, 6366, 6275, 6182, 6087, 5991, 5892, 5792, 5690,
   5586, 5481, 5374, 5265, 5155, 5043, 4930, 4815, 4698, 4580, 4461, 4341, 4219, 4096, 3971,
   3845, 3719]

/-- Entries 64 to 95 of `WebRtcAecm_kCosTable`. -/
def WebRtcAecm_kCosTable_part2 : List Int :=
  [3591, 3462, 3331, 3200, 3068, 2935, 2801, 2667, 2531, 2395, 2258, 2120, 1981, 1842, 1703,
   1563, 1422, 1281, 1140, 998, 856, 713, 571, 428, 285, 142, 0, -142, -285, -428, -571, -713]

/-- Entries 96 to 127 of `WebRtcAecm_kCosTable`. -/
def WebRtcAecm_kCosTable_part3 : List Int :=
  [-856, -998, -1140, -1281, -1422, -1563, -1703, -1842, -1981, -2120, -2258, -2395, -2531,
   -2667, -2801, -2935, -3068, -3200, -3331, -3462, -3591, -3719, -3845, -3971, -4095,
   -4219, -4341, -4461, -4580, -4698, -4815, -4930]

/-- Entries 128 to 159 of `WebRtcAecm_kCosTable`. -/
def WebRtcAecm_kCosTable_part4 : List Int :=
  [-5043, -5155, -5265, -5374, -5481, -5586, -5690, -5792, -5892, -5991, -6087, -6182,
   -6275, -6366, -6455, -6542, -6627, -6710, -6791, -6870, -6947, -7021, -7094, -7164,
   -7233, -7299, -7362, -7424, -7483, -7540, -7595, -7647]

/-- Entries 160 to 191 of `WebRtcAecm_kCosTable`. -/
def WebRtcAecm_kCosTable_part5 : List Int :=
  [-7697, -7745, -7791, -7834, -7874, -7912, -7948, -7982, -8012, -8041, -8067, -8091,
   -8112, -8130, -8147, -8160, -8172, -8180, -8187, -8190, -8191, -8190, -8187, -8180,
   -8172, -8160, -8147, -8130, -8112, -8091, -8067, -8041]

/-- Entries 192 to 223 of `WebRtcAecm_kCosTable`. -/
def WebRtcAecm_kCosTable_part6 : List Int :=
  [-8012, -7982, -7948, -7912, -7874, -7834, -7791, -7745, -7697, -7647, -7595, -7540,
   -7483, -7424, -7362, -7299, -7233, -7164, -7094, -7021, -6947, -6870, -6791, -6710,
   -6627, -6542, -6455, -6366, -6275, -6182, -6087, -5991]

/-- Entries 224 to 255 of `WebRtcAecm_kCosTable`. -/
def WebRtcAecm_kCosTable_part7 : List Int :=
  [-5892, -5792, -5690, -5586, -5481, -5374, -5265, -5155, -5043, -4930, -4815, -4698,
   -4580, -4461, -4341, -4219, -4096, -3971, -3845, -3719, -3591, -3462, -3331, -3200,
   -3068, -2935, -2801, -2667, -2531, -2395, -2258, -2120]

/-- Entries 256 to 287 of `WebRtcAecm_kCosTable`. -/
def WebRtcAecm_kCosTable_part8 : List Int :=
  [-1981, -1842, -1703, -1563, -1422, -1281, -1140, -998, -856, -713, -571, -428, -285,
   -142, 0, 142, 285, 428, 571, 713, 856, 998, 1140, 1281, 1422, 1563, 1703, 1842, 1981,
   2120, 2258, 2395]

/-- Entries 288 to 319 of `WebRtcAecm_kCosTable`. -/
def WebRtcAecm_kCosTable_part9 : List Int :=
  [2531, 2667, 2801, 2935, 3068, 3200, 3331, 3462, 3591, 3719, 3845, 3971, 4095, 4219, 4341,
   4461, 4580, 4698, 4815, 4930, 5043, 5155, 5265, 5374, 5481, 5586, 5690, 5792, 5892, 5991,
   6087, 6182]

/-- Entries 320 to 351 of `WebRtcAecm_kCosTable`. -/
def WebRtcAecm_kCosTable_part10 : List Int :=
  [6275, 6366, 6455, 6542, 6627, 6710, 6791, 6870, 6947, 7021, 7094, 7164, 7233, 7299, 7362,
   7424, 7483, 7540, 7595, 7647, 7697, 7745, 7791, 7834, 7874, 7912, 7948, 7982, 8012, 8041,
   8067, 8091]

/-- Entries 352 to 359 of `WebRtcAecm_kCosTable`. -/
def WebRtcAecm_kCosTable_part11 : List Int :=
  [8112, 8130, 8147, 8160, 8172, 8180, 8187, 8190]

/-- Cosine table in Q13, one entry per degree (360 entries). -/
def WebRtcAecm_kCosTable : List Int :=
  WebRtcAecm_kCosTable_part0 ++
  WebRtcAecm_kCosTable_part1 ++
  WebRtcAecm_kCosTable_part2 ++
  WebRtcAecm_kCosTable_part3 ++
  WebRtcAecm_kCosTable_part4 ++
  WebRtcAecm_kCosTable_part5 ++
  WebRtcAecm_kCosTable_part6 ++
  WebRtcAecm_kCosTable_part7 ++
  WebRtcAecm_kCosTable_part8 ++
  WebRtcAecm_kCosTable_part9 ++
  WebRtcAecm_kCosTable_part10 ++
  WebRtcAecm_kCosTable_part11

/-- Entries 0 to 31 of `WebRtcAecm_kSinTable`. -/
def WebRtcAecm_kSinTable_part0 : List Int :=
  [0, 142, 285, 428, 571, 713, 856, 998, 1140, 1281, 1422, 1563, 1703, 1842, 1981, 2120,
   2258, 2395, 2531, 2667, 2801, 2935, 3068, 3200, 3331, 3462, 3591, 3719, 3845, 3971, 4095,
   4219]

/-- Entries 32 to 63 of `WebRtcAecm_kSinTable`. -/
def WebRtcAecm_kSinTable_part1 : List Int :=
  [4341, 4461, 4580, 4698, 4815, 4930, 5043, 5155, 5265, 5374, 5481, 5586, 5690, 5792, 5892,
   5991, 6087, 6182, 6275, 6366, 6455, 6542, 6627, 6710, 6791, 6870, 6947, 7021, 7094, 7164,
   7233, 7299]

/-- Entries 64 to 95 of `WebRtcAecm_kSinTable`. -/
def WebRtcAecm_kSinTable_part2 : List Int :=
  [7362, 7424, 7483, 7540, 7595, 7647, 7697, 7745, 7791, 7834, 7874, 7912, 7948, 7982, 8012,
   8041, 8067, 8091, 8112, 8130, 8147, 8160, 8172, 8180, 8187, 8190, 8191, 8190, 8187, 8180,
   8172, 8160]

/-- Entries 96 to 127 of `WebRtcAecm_kSinTable`. -/
def WebRtcAecm_kSinTable_part3 : List Int :=
  [8147, 8130, 8112, 8091, 8067, 8041, 8012, 7982, 7948, 7912, 7874, 7834, 7791, 7745, 7697,
   7647, 7595, 7540, 7483, 7424, 7362, 7299, 7233, 7164, 7094, 7021, 6947, 6870, 6791, 6710,
   6627, 6542]

/-- Entries 128 to 159 of `WebRtcAecm_kSinTable`. -/
def WebRtcAecm_kSinTable_part4 : List Int :=
  [6455, 6366, 6275, 6182, 6087, 5991, 5892, 5792, 5690, 5586, 5481, 5374, 5265, 5155, 5043,
   4930, 4815, 4698, 4580, 4461, 4341, 4219, 4096, 3971, 3845, 3719, 3591, 3462, 3331, 3200,
   3068, 2935]

/-- Entries 160 to 191 of `WebRtcAecm_kSinTable`. -/
def WebRtcAecm_kSinTable_part5 : List Int :=
  [2801, 2667, 2531, 2395, 2258, 2120, 1981, 1842, 1703, 1563, 1422, 1281, 1140, 998, 856,
   713, 571, 428, 285, 142, 0, -142, -285, -428, -571, -713, -856, -998, -1140, -1281,
   -1422, -1563]

/-- Entries 192 to 223 of `WebRtcAecm_kSinTable`. -/
def WebRtcAecm_kSinTable_part6 : List Int :=
  [-1703, -1842, -1981, -2120, -2258, -2395, -2531, -2667, -2801, -2935, -3068, -3200,
   -3331, -3462, -3591, -3719, -3845, -3971, -4095, -4219, -4341, -4461, -4580, -4698,
   -4815, -4930, -5043, -5155, -5265, -5374, -5481, -5586]

/-- Entries 224 to 255 of `WebRtcAecm_kSinTable`. -/
def WebRtcAecm_kSinTable_part7 : List Int :=
  [-5690, -5792, -5892, -5991, -6087, -6182, -6275, -6366, -6455, -6542, -6627, -6710,
   -6791, -6870, -6947, -7021, -7094, -7164, -7233, -7299, -7362, -7424, -7483, -7540,
   -7595, -7647, -7697, -7745, -7791, -7834, -7874, -7912]

/-- Entries 256 to 287 of `WebRtcAecm_kSinTable`. -/
def WebRtcAecm_kSinTable_part8 : List Int :=
  [-7948, -7982, -8012, -8041, -8067, -8091, -8112, -8130, -8147, -8160, -8172, -8180,
   -8187, -8190, -8191, -8190, -8187, -8180, -8172, -8160, -8147, -8130, -8112, -8091,
   -8067, -8041, -8012, -7982, -7948, -7912, -7874, -7834]

/-- Entries 288 to 319 of `WebRtcAecm_kSinTable`. -/
def WebRtcAecm_kSinTable_part9 : List Int :=
  [-7791, -7745, -7697, -7647, -7595, -7540, -7483, -7424, -7362, -7299, -7233, -7164,
   -7094, -7021, -6947, -6870, -6791, -6710, -6627, -6542, -6455, -6366, -6275, -6182,
   -6087, -5991, -5892, -5792, -5690, -5586, -5481, -5374]

/-- Entries 320 to 351 of `WebRtcAecm_kSinTable`. -/
def WebRtcAecm_kSinTable_part10 : List Int :=
  [-5265, -5155, -5043, -4930, -4815, -4698, -4580, -4461, -4341, -4219, -4096, -3971,
   -3845, -3719, -3591, -3462, -3331, -3200, -3068, -2935, -2801, -2667, -2531, -2395,
   -2258, -2120, -1981, -1842, -1703, -1563, -1422, -1281]

/-- Entries 352 to 359 of `WebRtcAecm_kSinTable`. -/
def WebRtcAecm_kSinTable_part11 : List Int :=
  [-1140, -998, -856, -713, -571, -428, -285, -142]

/-- Sine table in Q13, one entry per degree (360 entries). -/
def WebRtcAecm_kSinTable : List Int :=
  WebRtcAecm_kSinTable_part0 ++
  WebRtcAecm_kSinTable_part1 ++
  WebRtcAecm_kSinTable_part2 ++
  WebRtcAecm_kSinTable_part3 ++
  WebRtcAecm_kSinTable_part4 ++
  WebRtcAecm_kSinTable_part5 ++
  WebRtcAecm_kSinTable_part6 ++
  WebRtcAecm_kSinTable_part7 ++
  WebRtcAecm_kSinTable_part8 ++
  WebRtcAecm_kSinTable_part9 ++
  WebRtcAecm_kSinTable_part10 ++
  WebRtcAecm_kSinTable_part11

/-- Entries 0 to 31 of `kChannelStored8kHz`. -/
def kChannelStored8kHz_part0 : List Int :=
  [2040, 1815, 1590, 1498, 1405, 1395, 1385, 1418, 1451, 1506, 1562, 1644, 1726, 1804, 1882,
   1918, 1953, 1982, 2010, 2025, 2040, 2034, 2027, 2021, 2014, 1997, 1980, 1925, 1869, 1800,
   1732, 1683]

/-- Entries 32 to 63 of `kChannelStored8kHz`. -/
def kChannelStored8kHz_part1 : List Int :=
  [1635, 1604, 1572, 1545, 1517, 1481, 1444, 1405, 1367, 1331, 1294, 1270, 1245, 1239, 1233,
   1247, 1260, 1282, 1303, 1338, 1373, 1407, 1441, 1470, 1499, 1524, 1549, 1565, 1582, 1601,
   1621, 1649]

/-- Entries 64 to 64 of `kChannelStored8kHz`. -/
def kChannelStored8kHz_part2 : List Int :=
  [1676]

/-- Initialization table for the echo channel at 8 kHz. -/
def kChannelStored8kHz : List Int :=
  kChannelStored8kHz_part0 ++
  kChannelStored8kHz_part1 ++
  kChannelStored8kHz_part2

/-- Entries 0 to 31 of `kChannelStored16kHz`. -/
def kChannelStored16kHz_part0 : List Int :=
  [2040, 1590, 1405, 1385, 1451, 1562, 1726, 1882, 1953, 2010, 2040, 2027, 2014, 1980, 1869,
   1732, 1635, 1572, 1517, 1444, 1367, 1294, 1245, 1233, 1260, 1303, 1373, 1441, 1499, 1549,
   1582, 1621]

/-- Entries 32 to 63 of `kChannelStored16kHz`. -/
def kChannelStored16kHz_part1 : List Int :=
  [1676, 1741, 1802, 1861, 1921, 1983, 2040, 2102, 2170, 2265, 2375, 2515, 2651, 2781, 2922,
   3075, 3253, 3471, 3738, 3976, 4151, 4258, 4308, 4288, 4270, 4253, 4237, 4179, 4086, 3947,
   3757, 3484]

/-- Entries 64 to 64 of `kChannelStored16kHz`. -/
def kChannelStored16kHz_part2 : List Int :=
  [3153]

/-- Initialization table for the echo channel at 16 kHz. -/
def kChannelStored16kHz : List Int :=
  kChannelStored16kHz_part0 ++
  kChannelStored16kHz_part1 ++
  kChannelStored16kHz_part2

/-- Entries 0 to 31 of `WebRtcAecm_kSqrtHanning`. -/
def WebRtcAecm_kSqrtHanning_part0 : List Int :=
  [0, 399, 798, 1196, 1594, 1990, 2386, 2780, 3172, 3562, 3951, 4337, 4720, 5101, 5478,
   5853, 6224, 6591, 6954, 7313, 7668, 8019, 8364, 8705, 9040, 9370, 9695, 10013, 10326,
   10633, 10933, 11227]

/-- Entries 32 to 63 of `WebRtcAecm_kSqrtHanning`. -/
def WebRtcAecm_kSqrtHanning_part1 : List Int :=
  [11514, 11795, 12068, 12335, 12594, 12845, 13089, 13325, 13553, 13773, 13985, 14189,
   14384, 14571, 14749, 14918, 15079, 15231, 15373, 15506, 15631, 15746, 15851, 15947,
   16034, 16111, 16179, 16237, 16286, 16325, 16354, 16373]

/-- Entries 64 to 64 of `WebRtcAecm_kSqrtHanning`. -/
def WebRtcAecm_kSqrtHanning_part2 : List Int :=
  [16384]

/-- Square root of the Hanning window in Q14 (65 entries). -/
def WebRtcAecm_kSqrtHanning : List Int :=
  WebRtcAecm_kSqrtHanning_part0 ++
  WebRtcAecm_kSqrtHanning_part1 ++
  WebRtcAecm_kSqrtHanning_part2

/-- Entries 0 to 31 of `index_7`. -/
def index_7_part0 : List Int :=
  [1, 64, 2, 32, 3, 96, 4, 16, 5, 80, 6, 48, 7, 112, 9, 72, 10, 40, 11, 104, 12, 24, 13, 88,
   14, 56, 15, 120, 17, 68, 18, 36]

/-- Entries 32 to 63 of `index_7`. -/
def index_7_part1 : List Int :=
  [19, 100, 21, 84, 22, 52, 23, 116, 25, 76, 26, 44, 27, 108, 29, 92, 30, 60, 31, 124, 33,
   66, 35, 98, 37, 82, 38, 50, 39, 114, 41, 74]

/-- Entries 64 to 95 of `index_7`. -/
def index_7_part2 : List Int :=
  [43, 106, 45, 90, 46, 58, 47, 122, 49, 70, 51, 102, 53, 86, 55, 118, 57, 78, 59, 110, 61,
   94, 63, 126, 67, 97, 69, 81, 71, 113, 75, 105]

/-- Entries 96 to 111 of `index_7`. -/
def index_7_part3 : List Int :=
  [77, 89, 79, 121, 83, 101, 87, 117, 91, 109, 95, 125, 103, 115, 111, 123]

/-- Bit-reversal swap pairs for an FFT of 2^7 points. -/
def index_7 : List Int :=
  index_7_part0 ++ index_7_part1 ++ index_7_part2 ++ index_7_part3

/-- Entries 0 to 31 of `index_8`. -/
def index_8_part0 : List Int :=
  [1, 128, 2, 64, 3, 192, 4, 32, 5, 160, 6, 96, 7, 224, 8, 16, 9, 144, 10, 80, 11, 208, 12,
   48, 13, 176, 14, 112, 15, 240, 17, 136]

/-- Entries 32 to 63 of `index_8`. -/
def index_8_part1 : List Int :=
  [18, 72, 19, 200, 20, 40, 21, 168, 22, 104, 23, 232, 25, 152, 26, 88, 27, 216, 28, 56, 29,
   184, 30, 120, 31, 248, 33, 132, 34, 68, 35, 196]

/-- Entries 64 to 95 of `index_8`. -/
def index_8_part2 : List Int :=
  [37, 164, 38, 100, 39, 228, 41, 148, 42, 84, 43, 212, 44, 52, 45, 180, 46, 116, 47, 244,
   49, 140, 50, 76, 51, 204, 53, 172, 54, 108, 55, 236]

/-- Entries 96 to 127 of `index_8`. -/
def index_8_part3 : List Int :=
  [57, 156, 58, 92, 59, 220, 61, 188, 62, 124, 63, 252, 65, 130, 67, 194, 69, 162, 70, 98,
   71, 226, 73, 146, 74, 82, 75, 210, 77, 178, 78, 114]

/-- Entries 128 to 159 of `index_8`. -/
def index_8_part4 : List Int :=
  [79, 242, 81, 138, 83, 202, 85, 170, 86, 106, 87, 234, 89, 154, 91, 218, 93, 186, 94, 122,
   95, 250, 97, 134, 99, 198, 101, 166, 103, 230, 105, 150]

/-- Entries 160 to 191 of `index_8`. -/
def index_8_part5 : List Int :=
  [107, 214, 109, 182, 110, 118, 111, 246, 113, 142, 115, 206, 117, 174, 119, 238, 121, 158,
   123, 222, 125, 190, 127, 254, 131, 193, 133, 161, 135, 225, 137, 145]

/-- Entries 192 to 223 of `index_8`. -/
def index_8_part6 : List Int :=
  [139, 209, 141, 177, 143, 241, 147, 201, 149, 169, 151, 233, 155, 217, 157, 185, 159, 249,
   163, 197, 167, 229, 171, 213, 173, 181, 175, 245, 179, 205, 183, 237]

/-- Entries 224 to 239 of `index_8`. -/
def index_8_part7 : List Int :=
  [187, 221, 191, 253, 199, 227, 203, 211, 207, 243, 215, 235, 223, 251, 239, 247]

/-- Bit-reversal swap pairs for an FFT of 2^8 points. -/
def index_8 : List Int :=
  index_8_part0 ++
  index_8_part1 ++
  index_8_part2 ++
  index_8_part3 ++
  index_8_part4 ++
  index_8_part5 ++
  index_8_part6 ++
  index_8_part7

/-- Entries 0 to 31 of `kSinTable1024`. -/
def kSinTable1024_part0 : List Int :=
  [0, 201, 402, 603, 804, 1005, 1206, 1406, 1607, 1808, 2009, 2209, 2410, 2610, 2811, 3011,
   3211, 3411, 3611, 3811, 4011, 4210, 4409, 4608, 4807, 5006, 5205, 5403, 5601, 5799, 5997,
   6195]

/-- Entries 32 to 63 of `kSinTable1024`. -/
def kSinTable1024_part1 : List Int :=
  [6392, 6589, 6786, 6982, 7179, 7375, 7571, 7766, 7961, 8156, 8351, 8545, 8739, 8932, 9126,
   9319, 9511, 9703, 9895, 10087, 10278, 10469, 10659, 10849, 11038, 11227, 11416, 11604,
   11792, 11980, 12166, 12353]

/-- Entries 64 to 95 of `kSinTable1024`. -/
def kSinTable1024_part2 : List Int :=
  [12539, 12724, 12909, 13094, 13278, 13462, 13645, 13827, 14009, 14191, 14372, 14552,
   14732, 14911, 15090, 15268, 15446, 15623, 15799, 15975, 16150, 16325, 16499, 16672,
   16845, 17017, 17189, 17360, 17530, 17699, 17868, 18036]

/-- Entries 96 to 127 of `kSinTable1024`. -/
def kSinTable1024_part3 : List Int :=
  [18204, 18371, 18537, 18702, 18867, 19031, 19194, 19357, 19519, 19680, 19840, 20000,
   20159, 20317, 20474, 20631, 20787, 20942, 21096, 21249, 21402, 21554, 21705, 21855,
   22004, 22153, 22301, 22448, 22594, 22739, 22883, 23027]

/-- Entries 128 to 159 of `kSinTable1024`. -/
def kSinTable1024_part4 : List Int :=
  [23169, 23311, 23452, 23592, 23731, 23869, 24006, 24143, 24278, 24413, 24546, 24679,
   24811, 24942, 25072, 25201, 25329, 25456, 25582, 25707, 25831, 25954, 26077, 26198,
   26318, 26437, 26556, 26673, 26789, 26905, 27019, 27132]

/-- Entries 160 to 191 of `kSinTable1024`. -/
def kSinTable1024_part5 : List Int :=
  [27244, 27355, 27466, 27575, 27683, 27790, 27896, 28001, 28105, 28208, 28309, 28410,
   28510, 28608, 28706, 28802, 28897, 28992, 29085, 29177, 29268, 29358, 29446, 29534,
   29621, 29706, 29790, 29873, 29955, 30036, 30116, 30195]

/-- Entries 192 to 223 of `kSinTable1024`. -/
def kSinTable1024_part6 : List Int :=
  [30272, 30349, 30424, 30498, 30571, 30643, 30713, 30783, 30851, 30918, 30984, 31049,
   31113, 31175, 31236, 31297, 31356, 31413, 31470, 31525, 31580, 31633, 31684, 31735,
   31785, 31833, 31880, 31926, 31970, 32014, 32056, 32097]

/-- Entries 224 to 255 of `kSinTable1024`. -/
def kSinTable1024_part7 : List Int :=
  [32137, 32176, 32213, 32249, 32284, 32318, 32350, 32382, 32412, 32441, 32468, 32495,
   32520, 32544, 32567, 32588, 32609, 32628, 32646, 32662, 32678, 32692, 32705, 32717,
   32727, 32736, 32744, 32751, 32757, 32761, 32764, 32766]

/-- Entries 256 to 287 of `kSinTable1024`. -/
def kSinTable1024_part8 : List Int :=
  [32767, 32766, 32764, 32761, 32757, 32751, 32744, 32736, 32727, 32717, 32705, 32692,
   32678, 32662, 32646, 32628, 32609, 32588, 32567, 32544, 32520, 32495, 32468, 32441,
   32412, 32382, 32350, 32318, 32284, 32249, 32213, 32176]

/-- Entries 288 to 319 of `kSinTable1024`. -/
def kSinTable1024_part9 : List Int :=
  [32137, 32097, 32056, 32014, 31970, 31926, 31880, 31833, 31785, 31735, 31684, 31633,
   31580, 31525, 31470, 31413, 31356, 31297, 31236, 31175, 31113, 31049, 30984, 30918,
   30851, 30783, 30713, 30643, 30571, 30498, 30424, 30349]

/-- Entries 320 to 351 of `kSinTable1024`. -/
def kSinTable1024_part10 : List Int :=
  [30272, 30195, 30116, 30036, 29955, 29873, 29790, 29706, 29621, 29534, 29446, 29358,
   29268, 29177, 29085, 28992, 28897, 28802, 28706, 28608, 28510, 28410, 28309, 28208,
   28105, 28001, 27896, 27790, 27683, 27575, 27466, 27355]

/-- Entries 352 to 383 of `kSinTable1024`. -/
def kSinTable1024_part11 : List Int :=
  [27244, 27132, 27019, 26905, 26789, 26673, 26556, 26437, 26318, 26198, 26077, 25954,
   25831, 25707, 25582, 25456, 25329, 25201, 25072, 24942, 24811, 24679, 24546, 24413,
   24278, 24143, 24006, 23869, 23731, 23592, 23452, 23311]

/-- Entries 384 to 415 of `kSinTable1024`. -/
def kSinTable1024_part12 : List Int :=
  [23169, 23027, 22883, 22739, 22594, 22448, 22301, 22153, 22004, 21855, 21705, 21554,
   21402, 21249, 21096, 20942, 20787, 20631, 20474, 20317, 20159, 20000, 19840, 19680,
   19519, 19357, 19194, 19031, 18867, 18702, 18537, 18371]

/-- Entries 416 to 447 of `kSinTable1024`. -/
def kSinTable1024_part13 : List Int :=
  [18204, 18036, 17868, 17699, 17530, 17360, 17189, 17017, 16845, 16672, 16499, 16325,
   16150, 15975, 15799, 15623, 15446, 15268, 15090, 14911, 14732, 14552, 14372, 14191,
   14009, 13827, 13645, 13462, 13278, 13094, 12909, 12724]

/-- Entries 448 to 479 of `kSinTable1024`. -/
def kSinTable1024_part14 : List Int :=
  [12539, 12353, 12166, 11980, 11792, 11604, 11416, 11227, 11038, 10849, 10659, 10469,
   10278, 10087, 9895, 9703, 9511, 9319, 9126, 8932, 8739, 8545, 8351, 8156, 7961, 7766,
   7571, 7375, 7179, 6982, 6786, 6589]

/-- Entries 480 to 511 of `kSinTable1024`. -/
def kSinTable1024_part15 : List Int :=
  [6392, 6195, 5997, 5799, 5601, 5403, 5205, 5006, 4807, 4608, 4409, 4210, 4011, 3811, 3611,
   3411, 3211, 3011, 2811, 2610, 2410, 2209, 2009, 1808, 1607, 1406, 1206, 1005, 804, 603,
   402, 201]

/-- Entries 512 to 543 of `kSinTable1024`. -/
def kSinTable1024_part16 : List Int :=
  [0, -201, -402, -603, -804, -1005, -1206, -1406, -1607, -1808, -2009, -2209, -2410, -2610,
   -2811, -3011, -3211, -3411, -3611, -3811, -4011, -4210, -4409, -4608, -4807, -5006,
   -5205, -5403, -5601, -5799, -5997, -6195]

/-- Entries 544 to 575 of `kSinTable1024`. -/
def kSinTable1024_part17 : List Int :=
  [-6392, -6589, -6786, -6982, -7179, -7375, -7571, -7766, -7961, -8156, -8351, -8545,
   -8739, -8932, -9126, -9319, -9511, -9703, -9895, -10087, -10278, -10469, -10659, -10849,
   -11038, -11227, -11416, -11604, -11792, -11980, -12166, -12353]

/-- Entries 576 to 607 of `kSinTable1024`. -/
def kSinTable1024_part18 : List Int :=
  [-12539, -12724, -12909, -13094, -13278, -13462, -13645, -13827, -14009, -14191, -14372,
   -14552, -14732, -14911, -15090, -15268, -15446, -15623, -15799, -15975, -16150, -16325,
   -16499, -16672, -16845, -17017, -17189, -17360, -17530, -17699, -17868, -18036]

/-- Entries 608 to 639 of `kSinTable1024`. -/
def kSinTable1024_part19 : List Int :=
  [-18204, -18371, -18537, -18702, -18867, -19031, -19194, -19357, -19519, -19680, -19840,
   -20000, -20159, -20317, -20474, -20631, -20787, -20942, -21096, -21249, -21402, -21554,
   -21705, -21855, -22004, -22153, -22301, -22448, -22594, -22739, -22883, -23027]

/-- Entries 640 to 671 of `kSinTable1024`. -/
def kSinTable1024_part20 : List Int :=
  [-23169, -23311, -23452, -23592, -23731, -23869, -24006, -24143, -24278, -24413, -24546,
   -24679, -24811, -24942, -25072, -25201, -25329, -25456, -25582, -25707, -25831, -25954,
   -26077, -26198, -26318, -26437, -26556, -26673, -26789, -26905, -27019, -27132]

/-- Entries 672 to 703 of `kSinTable1024`. -/
def kSinTable1024_part21 : List Int :=
  [-27244, -27355, -27466, -27575, -27683, -27790, -27896, -28001, -28105, -28208, -28309,
   -28410, -28510, -28608, -28706, -28802, -28897, -28992, -29085, -29177, -29268, -29358,
   -29446, -29534, -29621, -29706, -29790, -29873, -29955, -30036, -30116, -30195]

/-- Entries 704 to 735 of `kSinTable1024`. -/
def kSinTable1024_part22 : List Int :=
  [-30272, -30349, -30424, -30498, -30571, -30643, -30713, -30783, -30851, -30918, -30984,
   -31049, -31113, -31175, -31236, -31297, -31356, -31413, -31470, -31525, -31580, -31633,
   -31684, -31735, -31785, -31833, -31880, -31926, -31970, -32014, -32056, -32097]

/-- Entries 736 to 767 of `kSinTable1024`. -/
def kSinTable1024_part23 : List Int :=
  [-32137, -32176, -32213, -32249, -32284, -32318, -32350, -32382, -32412, -32441, -32468,
   -32495, -32520, -32544, -32567, -32588, -32609, -32628, -32646, -32662, -32678, -32692,
   -32705, -32717, -32727, -32736, -32744, -32751, -32757, -32761, -32764, -32766]

/-- Entries 768 to 799 of `kSinTable1024`. -/
def kSinTable1024_part24 : List Int :=
  [-32767, -32766, -32764, -32761, -32757, -32751, -32744, -32736, -32727, -32717, -32705,
   -32692, -32678, -32662, -32646, -32628, -32609, -32588, -32567, -32544, -32520, -32495,
   -32468, -32441, -32412, -32382, -32350, -32318, -32284, -32249, -32213, -32176]

/-- Entries 800 to 831 of `kSinTable1024`. -/
def kSinTable1024_part25 : List Int :=
  [-32137, -32097, -32056, -32014, -31970, -31926, -31880, -31833, -31785, -31735, -31684,
   -31633, -31580, -31525, -31470, -31413, -31356, -31297, -31236, -31175, -31113, -31049,
   -30984, -30918, -30851, -30783, -30713, -30643, -30571, -30498, -30424, -30349]

/-- Entries 832 to 863 of `kSinTable1024`. -/
def kSinTable1024_part26 : List Int :=
  [-30272, -30195, -30116, -30036, -29955, -29873, -29790, -29706, -29621, -29534, -29446,
   -29358, -29268, -29177, -29085, -28992, -28897, -28802, -28706, -28608, -28510, -28410,
   -28309, -28208, -28105, -28001, -27896, -27790, -27683, -27575, -27466, -27355]

/-- Entries 864 to 895 of `kSinTable1024`. -/
def kSinTable1024_part27 : List Int :=
  [-27244, -27132, -27019, -26905, -26789, -26673, -26556, -26437, -26318, -26198, -26077,
   -25954, -25831, -25707, -25582, -25456, -25329, -25201, -25072, -24942, -24811, -24679,
   -24546, -24413, -24278, -24143, -24006, -23869, -23731, -23592, -23452, -23311]

/-- Entries 896 to 927 of `kSinTable1024`. -/
def kSinTable1024_part28 : List Int :=
  [-23169, -23027, -22883, -22739, -22594, -22448, -22301, -22153, -22004, -21855, -21705,
   -21554, -21402, -21249, -21096, -20942, -20787, -20631, -20474, -20317, -20159, -20000,
   -19840, -19680, -19519, -19357, -19194, -19031, -18867, -18702, -18537, -18371]

/-- Entries 928 to 959 of `kSinTable1024`. -/
def kSinTable1024_part29 : List Int :=
  [-18204, -18036, -17868, -17699, -17530, -17360, -17189, -17017, -16845, -16672, -16499,
   -16325, -16150, -15975, -15799, -15623, -15446, -15268, -15090, -14911, -14732, -14552,
   -14372, -14191, -14009, -13827, -13645, -13462, -13278, -13094, -12909, -12724]

/-- Entries 960 to 991 of `kSinTable1024`. -/
def kSinTable1024_part30 : List Int :=
  [-12539, -12353, -12166, -11980, -11792, -11604, -11416, -11227, -11038, -10849, -10659,
   -10469, -10278, -10087, -9895, -9703, -9511, -9319, -9126, -8932, -8739, -8545, -8351,
   -8156, -7961, -7766, -7571, -7375, -7179, -6982, -6786, -6589]

/-- Entries 992 to 1023 of `kSinTable1024`. -/
def kSinTable1024_part31 : List Int :=
  [-6392, -6195, -5997, -5799, -5601, -5403, -5205, -5006, -4807, -4608, -4409, -4210,
   -4011, -3811, -3611, -3411, -3211, -3011, -2811, -2610, -2410, -2209, -2009, -1808,
   -1607, -1406, -1206, -1005, -804, -603, -402, -201]

/-- Sine table of 1024 entries in Q15. -/
def kSinTable1024 : List Int :=
  kSinTable1024_part0 ++
  kSinTable1024_part1 ++
  kSinTable1024_part2 ++
  kSinTable1024_part3 ++
  kSinTable1024_part4 ++
  kSinTable1024_part5 ++
  kSinTable1024_part6 ++
  kSinTable1024_part7 ++
  kSinTable1024_part8 ++
  kSinTable1024_part9 ++
  kSinTable1024_part10 ++
  kSinTable1024_part11 ++
  kSinTable1024_part12 ++
  kSinTable1024_part13 ++
  kSinTable1024_part14 ++
  kSinTable1024_part15 ++
  kSinTable1024_part16 ++
  kSinTable1024_part17 ++
  kSinTable1024_part18 ++
  kSinTable1024_part19 ++
  kSinTable1024_part20 ++
  kSinTable1024_part21 ++
  kSinTable1024_part22 ++
  kSinTable1024_part23 ++
  kSinTable1024_part24 ++
  kSinTable1024_part25 ++
  kSinTable1024_part26 ++
  kSinTable1024_part27 ++
  kSinTable1024_part28 ++
  kSinTable1024_part29 ++
  kSinTable1024_part30 ++
  kSinTable1024_part31

/-! ### Complex and real FFT (`aecm.c` 3525-4081)

The interleaved array `frfi` holds the real part of point `p` at index `2 * p` and the
imaginary part at `2 * p + 1`. -/

/-- `WebRtcSpl_ComplexBitReverse`, table driven for `stages` 7 and 8. For other values of
`stages` the source computes the swaps; the instance only uses order 7. -/
def WebRtcSpl_ComplexBitReverse (complex_data : List Int) (stages : Nat) : List Int :=
  if stages = 7 ∨ stages = 8 then
    let length := if stages = 8 then 240 else 112
    let index := if stages = 8 then index_8 else index_7
    forStep length 0 length 2
      (fun (d : List Int) m =>
        let a := (index.getD m 0).toNat
        let b := (index.getD (m + 1) 0).toNat
        let tr := d.getD (2 * a) 0
        let ti := d.getD (2 * a + 1) 0
        let d1 := (d.set (2 * a) (d.getD (2 * b) 0)).set (2 * a + 1) (d.getD (2 * b + 1) 0)
        (d1.set (2 * b) tr).set (2 * b + 1) ti)
      complex_data
  else
    let n := 2 ^ stages
    let nn := n - 1
    (forStep nn 1 (nn + 1) 1
      (fun (st : List Int × Nat) m =>
        let l := forStep (stages + 1) 0 (stages + 1) 1
          (fun (l : Nat) _ => if l = n ∨ l > nn - st.2 then l / 2 else l) n
        let mr := Nat.land st.2 (l - 1) + l
        if mr ≤ m then (st.1, mr)
        else
          let d := st.1
          let tr := d.getD (2 * m) 0
          let ti := d.getD (2 * m + 1) 0
          let d1 := (d.set (2 * m) (d.getD (2 * mr) 0)).set (2 * m + 1) (d.getD (2 * mr + 1) 0)
          ((d1.set (2 * mr) tr).set (2 * mr + 1) ti, mr))
      (complex_data, 0)).1

/-- The body of the innermost loop of `WebRtcSpl_ComplexFFT` in mode 1 (`CFFTSFT = 14`,
`CFFTRND = 1`, `CFFTRND2 = 16384`). -/
def complexFFTButterfly (wr wi : Int) (l : Nat) (frfi : List Int) (i : Nat) : List Int :=
  let j := i + l
  let tr32 := shr (toInt32 (wr * frfi.getD (2 * j) 0 - wi * frfi.getD (2 * j + 1) 0 + 1)) 1
  let ti32 := shr (toInt32 (wr * frfi.getD (2 * j + 1) 0 + wi * frfi.getD (2 * j) 0 + 1)) 1
  let qr32 := toInt32 (frfi.getD (2 * i) 0 * 16384)
  let qi32 := toInt32 (frfi.getD (2 * i + 1) 0 * 16384)
  let f1 := frfi.set (2 * j) (toInt16 (shr (toInt32 (qr32 - tr32 + 16384)) 15))
  let f2 := f1.set (2 * j + 1) (toInt16 (shr (toInt32 (qi32 - ti32 + 16384)) 15))
  let f3 := f2.set (2 * i) (toInt16 (shr (toInt32 (qr32 + tr32 + 16384)) 15))
  f3.set (2 * i + 1) (toInt16 (shr (toInt32 (qi32 + ti32 + 16384)) 15))

/-- The state of the outer `while (l < n)` loop of the FFT routines. -/
structure FFTLoop where
  frfi : List Int
  l : Nat
  k : Nat
  scale : Int

/-- `WebRtcSpl_ComplexFFT` in mode 1: `none` is the return value -1 (more than 1024
points); otherwise the transformed array (the return value is 0). -/
def WebRtcSpl_ComplexFFT (frfi : List Int) (stages : Nat) : Option (List Int) :=
  let n := 2 ^ stages
  if n > 1024 then none
  else
    some (forStep stages 0 stages 1
      (fun (st : FFTLoop) _ =>
        if st.l < n then
          let istep := 2 * st.l
          let f := forRange st.l
            (fun (f : List Int) m =>
              let j := m * 2 ^ st.k
              let wr := kSinTable1024.getD (j + 256) 0
              let wi := -(kSinTable1024.getD j 0)
              forStep n m n istep (complexFFTButterfly wr wi st.l) f)
            st.frfi
          { frfi := f, l := istep, k := st.k - 1, scale := 0 }
        else st)
      { frfi := frfi, l := 1, k := 9, scale := 0 }).frfi

/-- The body of the innermost loop of `WebRtcSpl_ComplexIFFT` in mode 1
(`CIFFTSFT = 14`, `CIFFTRND = 1`). -/
def complexIFFTButterfly (wr wi : Int) (l shift : Nat) (round2 : Int) (frfi : List Int)
    (i : Nat) : List Int :=
  let j := i + l
  let tr32 := shr (toInt32 (wr * frfi.getD (2 * j) 0 - wi * frfi.getD (2 * j + 1) 0 + 1)) 1
  let ti32 := shr (toInt32 (wr * frfi.getD (2 * j + 1) 0 + wi * frfi.getD (2 * j) 0 + 1)) 1
  let qr32 := toInt32 (frfi.getD (2 * i) 0 * 16384)
  let qi32 := toInt32 (frfi.getD (2 * i + 1) 0 * 16384)
  let f1 := frfi.set (2 * j) (toInt16 (shr (toInt32 (qr32 - tr32 + round2)) (shift + 14)))
  let f2 := f1.set (2 * j + 1) (toInt16 (shr (toInt32 (qi32 - ti32 + round2)) (shift + 14)))
  let f3 := f2.set (2 * i) (toInt16 (shr (toInt32 (qr32 + tr32 + round2)) (shift + 14)))
  f3.set (2 * i + 1) (toInt16 (shr (toInt32 (qi32 + ti32 + round2)) (shift + 14)))

/-- `WebRtcSpl_ComplexIFFT` in mode 1: `none` is the return value -1; otherwise the
transformed array and the returned scale. -/
def WebRtcSpl_ComplexIFFT (frfi : List Int) (stages : Nat) : Option (List Int × Int) :=
  let n := 2 ^ stages
  if n > 1024 then none
  else
    let r := forStep stages 0 stages 1
      (fun (st : FFTLoop) _ =>
        if st.l < n then
          let tmp32 := WebRtcSpl_MaxAbsValueW16 st.frfi (2 * n)
          let s1 : Nat := if tmp32 > 13573 then 1 else 0
          let s2 : Nat := if tmp32 > 27146 then 1 else 0
          let shift := s1 + s2
          let round2 : Int := 8192 * 2 ^ shift
          let istep := 2 * st.l
          let f := forRange st.l
            (fun (f : List Int) m =>
              let j := m * 2 ^ st.k
              let wr := kSinTable1024.getD (j + 256) 0
              let wi := kSinTable1024.getD j 0
              forStep n m n istep (complexIFFTButterfly wr wi st.l shift round2) f)
            st.frfi
          { frfi := f, l := istep, k := st.k - 1, scale := st.scale + shift }
        else st)
      { frfi := frfi, l := 1, k := 9, scale := 0 }
    some (r.frfi, r.scale)

/-- `struct RealFFT`. -/
structure RealFFT where
  order : Int
  deriving DecidableEq, Repr

/-- `kMaxFFTOrder`. -/
def kMaxFFTOrder : Int := 10

/-- `WebRtcSpl_CreateRealFFT`: `none` is the `NULL` return. -/
def WebRtcSpl_CreateRealFFT (order : Int) : Option RealFFT :=
  if order > kMaxFFTOrder ∨ order < 0 then none else some { order := order }

/-- `WebRtcSpl_RealForwardFFT`: the `n + 2` output values and the return value. -/
def WebRtcSpl_RealForwardFFT (self : RealFFT) (real_data_in : List Int) : List Int × Int :=
  let order := self.order.toNat
  let n := 2 ^ order
  let complex_buffer := forRange n
    (fun (b : List Int) i => (b.set (2 * i) (real_data_in.getD i 0)).set (2 * i + 1) 0)
    (List.replicate (2 * n) 0)
  let reversed := WebRtcSpl_ComplexBitReverse complex_buffer order
  match WebRtcSpl_ComplexFFT reversed order with
  | none => (reversed.take (n + 2), -1)
  | some out => (out.take (n + 2), 0)

/-- `WebRtcSpl_RealInverseFFT`: the `n` real output values and the returned scale. -/
def WebRtcSpl_RealInverseFFT (self : RealFFT) (complex_data_in : List Int) :
    List Int × Int :=
  let order := self.order.toNat
  let n := 2 ^ order
  let head := forRange (n + 2)
    (fun (b : List Int) i => b.set i (complex_data_in.getD i 0))
    (List.replicate (2 * n) 0)
  let complex_buffer := forStep n (n + 2) (2 * n) 2
    (fun (b : List Int) i =>
      (b.set i (complex_data_in.getD (2 * n - i) 0)).set (i + 1)
        (toInt16 (-(complex_data_in.getD (2 * n - i + 1) 0))))
    head
  let reversed := WebRtcSpl_ComplexBitReverse complex_buffer order
  match WebRtcSpl_ComplexIFFT reversed order with
  | none => (forRange n (fun (o : List Int) i => o ++ [reversed.getD (2 * i) 0]) [], -1)
  | some (out, scale) =>
    (forRange n (fun (o : List Int) i => o ++ [out.getD (2 * i) 0]) [], scale)

/-! ### Ring buffer (`WebRtc_*Buffer`, `aecm.c` 2024-2239)

Positions and counts are in elements: the factor `element_size` that the C code applies to
every byte offset and byte count is the same on both sides of each copy and is left out.
The handle `self` is taken to be non-`NULL`. -/

/-- `enum Wrap`. -/
inductive Wrap where
  | SAME_WRAP
  | DIFF_WRAP
  deriving DecidableEq, Repr

/-- `struct RingBuffer`; `data` maps an element index to the stored element. -/
structure RingBuffer where
  read_pos : Nat
  write_pos : Nat
  element_count : Nat
  element_size : Nat
  rw_wrap : Wrap
  data : Nat → Int

/-- `memcpy(dst_base + dst, src + off, n)` into element storage. -/
def memcpyIn (mem : Nat → Int) (dst : Nat) (src : List Int) (off n : Nat) : Nat → Int :=
  fun i => if dst ≤ i ∧ i < dst + n then src.getD (off + (i - dst)) 0 else mem i

/-- The `n` elements of storage starting at element `start`. -/
def readRegion (mem : Nat → Int) (start n : Nat) : List Int :=
  (List.range n).map (fun i => mem (start + i))

/-- `WebRtc_available_read`. -/
def WebRtc_available_read (self : RingBuffer) : Nat :=
  if self.rw_wrap = Wrap.SAME_WRAP then
    toSizeT ((self.write_pos : Int) - self.read_pos)
  else
    toSizeT ((self.element_count : Int) - self.read_pos + self.write_pos)

/-- `WebRtc_available_write`. -/
def WebRtc_available_write (self : RingBuffer) : Nat :=
  toSizeT ((self.element_count : Int) - WebRtc_available_read self)

/-- `WebRtc_InitBuffer`: positions reset, the `element_count` elements zeroed. -/
def WebRtc_InitBuffer (self : RingBuffer) : RingBuffer :=
  { self with
    read_pos := 0
    write_pos := 0
    rw_wrap := Wrap.SAME_WRAP
    data := fun i => if i < self.element_count then 0 else self.data i }

/-- `WebRtc_CreateBuffer`: `none` is the `NULL` return for a zero count or size. -/
def WebRtc_CreateBuffer (element_count element_size : Nat) : Option RingBuffer :=
  if element_count = 0 ∨ element_size = 0 then none
  else some (WebRtc_InitBuffer
    { read_pos := 0, write_pos := 0, element_count := element_count,
      element_size := element_size, rw_wrap := Wrap.SAME_WRAP, data := fun _ => 0 })

/-- The out-parameters and return value of `GetBufferReadRegions`. -/
structure ReadRegions where
  read_elements : Nat
  data_ptr_1 : Nat
  data_ptr_bytes_1 : Nat
  data_ptr_2 : Option Nat
  data_ptr_bytes_2 : Nat

/-- `GetBufferReadRegions`. -/
def GetBufferReadRegions (buf : RingBuffer) (element_count : Nat) : ReadRegions :=
  let readable_elements := WebRtc_available_read buf
  let read_elements :=
    if readable_elements < element_count then readable_elements else element_count
  let margin := toSizeT ((buf.element_count : Int) - buf.read_pos)
  if read_elements > margin then
    { read_elements := read_elements
      data_ptr_1 := buf.read_pos
      data_ptr_bytes_1 := margin
      data_ptr_2 := some 0
      data_ptr_bytes_2 := toSizeT ((read_elements : Int) - margin) }
  else
    { read_elements := read_elements
      data_ptr_1 := buf.read_pos
      data_ptr_bytes_1 := read_elements
      data_ptr_2 := none
      data_ptr_bytes_2 := 0 }

/-- `WebRtc_MoveReadPtr`: the returned pair is the (clamped) count and the new buffer. -/
def WebRtc_MoveReadPtr (self : RingBuffer) (element_count : Int) : Int × RingBuffer :=
  let free_elements := toInt32 (WebRtc_available_write self)
  let readable_elements := toInt32 (WebRtc_available_read self)
  let read_pos0 := toInt32 self.read_pos
  let element_count1 :=
    if element_count > readable_elements then readable_elements else element_count
  let element_count2 :=
    if element_count1 < toInt32 (-free_elements) then toInt32 (-free_elements)
    else element_count1
  let read_pos1 := toInt32 (read_pos0 + element_count2)
  let wrapped := decide (read_pos1 > toInt32 self.element_count)
  let read_pos2 := if wrapped then toInt32 (read_pos1 - toInt32 self.element_count) else read_pos1
  let rw1 := if wrapped then Wrap.SAME_WRAP else self.rw_wrap
  let under := decide (read_pos2 < 0)
  let read_pos3 := if under then toInt32 (read_pos2 + toInt32 self.element_count) else read_pos2
  let rw2 := if under then Wrap.DIFF_WRAP else rw1
  (element_count2, { self with read_pos := toSizeT read_pos3, rw_wrap := rw2 })

/-- What a `WebRtc_ReadBuffer` call hands back. `elements` are the `read_count` elements
the caller sees: through `*data_ptr` when that pointer was requested and the region is
contiguous, in the staging buffer `data` otherwise. -/
structure ReadResult where
  read_count : Nat
  elements : List Int
  self : RingBuffer

/-- `WebRtc_ReadBuffer` (with `self` and `data` non-`NULL`). -/
def WebRtc_ReadBuffer (self : RingBuffer) (element_count : Nat) : ReadResult :=
  let rg := GetBufferReadRegions self element_count
  let elements :=
    if rg.data_ptr_bytes_2 > 0 then
      readRegion self.data rg.data_ptr_1 rg.data_ptr_bytes_1 ++
        readRegion self.data (rg.data_ptr_2.getD 0) rg.data_ptr_bytes_2
    else
      readRegion self.data rg.data_ptr_1 rg.data_ptr_bytes_1
  { read_count := rg.read_elements
    elements := elements
    self := (WebRtc_MoveReadPtr self (toInt32 rg.read_elements)).2 }

/-- `WebRtc_WriteBuffer` (with `self` and `data` non-`NULL`): the returned pair is the number
of elements written and the new buffer. -/
def WebRtc_WriteBuffer (self : RingBuffer) (data : List Int) (element_count : Nat) :
    Nat × RingBuffer :=
  let free_elements := WebRtc_available_write self
  let write_elements :=
    if free_elements < element_count then free_elements else element_count
  let margin := toSizeT ((self.element_count : Int) - self.write_pos)
  if write_elements > margin then
    let mem1 := memcpyIn self.data self.write_pos data 0 margin
    let n := toSizeT ((write_elements : Int) - margin)
    let mem2 := memcpyIn mem1 0 data (toSizeT ((write_elements : Int) - n)) n
    (write_elements,
      { self with data := mem2, write_pos := toSizeT ((0 : Int) + n), rw_wrap := Wrap.DIFF_WRAP })
  else
    let n := write_elements
    let mem2 := memcpyIn self.data self.write_pos data (toSizeT ((write_elements : Int) - n)) n
    (write_elements,
      { self with data := mem2, write_pos := toSizeT ((self.write_pos : Int) + n) })

/-- One call of the ring-buffer interface after `WebRtc_InitBuffer`; counts are values of
their C types (`size_t`, `int`). -/
inductive RingStep : RingBuffer → RingBuffer → Prop where
  | write (b : RingBuffer) (data : List Int) (n : Nat) (hn : n < 18446744073709551616) :
      RingStep b (WebRtc_WriteBuffer b data n).2
  | read (b : RingBuffer) (n : Nat) (hn : n < 18446744073709551616) :
      RingStep b (WebRtc_ReadBuffer b n).self
  | move (b : RingBuffer) (k : Int) (hk : -2147483648 ≤ k ∧ k ≤ 2147483647) :
      RingStep b (WebRtc_MoveReadPtr b k).2

/-- States reachable from `WebRtc_InitBuffer` applied to a buffer `b0`. -/
inductive RingReachable (b0 : RingBuffer) : RingBuffer → Prop where
  | init : RingReachable b0 (WebRtc_InitBuffer b0)
  | step {b b' : RingBuffer} : RingReachable b0 b → RingStep b b' → RingReachable b0 b'

/-! ### Single-precision values

A finite `float` is the dyadic number `m * 2 ^ e`, kept with `m` odd (or `m = 0`, `e = 0`).
Every operation rounds its exact result to the nearest value with a 24-bit significand
and an exponent of at least -149 (round to nearest, ties to even). Infinities and NaN are
not represented: the program only stores values between 0 and 3000. -/

/-- A finite binary32 value `m * 2 ^ e`. -/
structure F32 where
  m : Int
  e : Int
  deriving DecidableEq, Repr

/-- Removes factors of two from the significand (`fuel` bounds their number). -/
def F32.strip : Nat → Int → Int → F32
  | 0, m, e => { m := m, e := e }
  | fuel + 1, m, e =>
    if m = 0 then { m := 0, e := 0 }
    else if m % 2 = 0 then F32.strip fuel (m / 2) (e + 1)
    else { m := m, e := e }

/-- The binary32 value nearest to `m * 2 ^ e`. -/
def F32.round (m e : Int) : F32 :=
  if m = 0 then { m := 0, e := 0 }
  else
    let a := m.natAbs
    let len : Int := (bitLength a a : Int)
    let u : Int := if e + len - 24 ≥ -149 then e + len - 24 else -149
    if u ≤ e then F32.strip (bitLength a a) m e
    else
      let s := (u - e).toNat
      let q := a / 2 ^ s
      let rem := a % 2 ^ s
      let half := 2 ^ (s - 1)
      let q1 := if rem > half ∨ (rem = half ∧ q % 2 = 1) then q + 1 else q
      F32.strip 32 (if m < 0 then -(q1 : Int) else (q1 : Int)) u

/-- Conversion of an integer to `float`. -/
def F32.ofInt (i : Int) : F32 := F32.round i 0

/-- The significands of two values over their common (smaller) exponent. -/
def F32.align (a b : F32) : Int × Int × Int :=
  let e0 := if a.e ≤ b.e then a.e else b.e
  (a.m * 2 ^ (a.e - e0).toNat, b.m * 2 ^ (b.e - e0).toNat, e0)

/-- `a + b` in `float`. -/
def F32.add (a b : F32) : F32 :=
  let t := F32.align a b
  F32.round (t.1 + t.2.1) t.2.2

/-- `a - b` in `float`. -/
def F32.sub (a b : F32) : F32 :=
  let t := F32.align a b
  F32.round (t.1 - t.2.1) t.2.2

/-- `a * b` in `float`. -/
def F32.mul (a b : F32) : F32 := F32.round (a.m * b.m) (a.e + b.e)

/-- `a < b` on `float` values. -/
def F32.lt (a b : F32) : Bool :=
  let t := F32.align a b
  decide (t.1 < t.2.1)

/-- `a <= b` on `float` values. -/
def F32.le (a b : F32) : Bool :=
  let t := F32.align a b
  decide (t.1 ≤ t.2.1)

/-- The `float` zero. -/
def F32.zero : F32 := { m := 0, e := 0 }

/-! ### Binary delay estimator (`aecm.c` 2241-2964, `aecm.h` 27-70)

Array accesses with an index outside the array are undefined in C; the model reads 0 there
and drops the write. -/

/-- Read of `a[i]` for a C `int` index. -/
def getI (a : List Int) (i : Int) : Int :=
  if i < 0 then 0 else a.getD i.toNat 0

/-- Store `a[i] = v` for a C `int` index. -/
def setI (a : List Int) (i : Int) (v : Int) : List Int :=
  if i < 0 then a else a.set i.toNat v

/-- Read of a `float` array element for a C `int` index. -/
def getF (a : List F32) (i : Int) : F32 :=
  if i < 0 then F32.zero else a.getD i.toNat F32.zero

/-- Store into a `float` array for a C `int` index. -/
def setF (a : List F32) (i : Int) (v : F32) : List F32 :=
  if i < 0 then a else a.set i.toNat v

/-- `memcpy(dst + dpos, src + spos, n)` on arrays of the same element type; with
`src = dst` it is `memmove`. -/
def memcpyList (dst : List Int) (dpos : Nat) (src : List Int) (spos n : Nat) : List Int :=
  forRange n (fun (d : List Int) i => d.set (dpos + i) (src.getD (spos + i) 0)) dst

/-- `kMaxBitCountsQ9`: 32 matching bits in Q9. -/
def kMaxBitCountsQ9 : Int := 16384

/-- `kShiftsAtZero`. -/
def kShiftsAtZero : Int := 13

/-- `kShiftsLinearSlope`. -/
def kShiftsLinearSlope : Int := 3

/-- `kProbabilityOffset`: 2 in Q9. -/
def kProbabilityOffset : Int := 1024

/-- `kProbabilityLowerLimit`: 17 in Q9. -/
def kProbabilityLowerLimit : Int := 8704

/-- `kProbabilityMinSpread`: 5.5 in Q9. -/
def kProbabilityMinSpread : Int := 2816

/-- `kHistogramMax = 3000.f`. -/
def kHistogramMax : F32 := F32.ofInt 3000

/-- `kLastHistogramMax = 250.f`. -/
def kLastHistogramMax : F32 := F32.ofInt 250

/-- `kMinHistogramThreshold = 1.5f`. -/
def kMinHistogramThreshold : F32 := { m := 3, e := -1 }

/-- `kMinRequiredHits`. -/
def kMinRequiredHits : Int := 10

/-- `kMaxHitsWhenPossiblyNonCausal`. -/
def kMaxHitsWhenPossiblyNonCausal : Int := 10

/-- `kMaxHitsWhenPossiblyCausal`. -/
def kMaxHitsWhenPossiblyCausal : Int := 1000

/-- `kQ14Scaling = 1.f / (1 << 14)`. -/
def kQ14Scaling : F32 := { m := 1, e := -14 }

/-- `kFractionSlope = 0.05f`, the binary32 value 13421773 * 2^-28. -/
def kFractionSlope : F32 := { m := 13421773, e := -28 }

/-- `kMinFractionWhenPossiblyCausal = 0.5f`. -/
def kMinFractionWhenPossiblyCausal : F32 := { m := 1, e := -1 }

/-- `kMinFractionWhenPossiblyNonCausal = 0.25f`. -/
def kMinFractionWhenPossiblyNonCausal : F32 := { m := 1, e := -2 }

/-- `BinaryDelayEstimatorFarend`. -/
structure BinaryDelayEstimatorFarend where
  far_bit_counts : List Int
  binary_far_history : List Int
  history_size : Int
  deriving DecidableEq, Repr

/-- `BinaryDelayEstimator`; the far end it points to is passed alongside. -/
structure BinaryDelayEstimator where
  mean_bit_counts : List Int
  bit_counts : List Int
  binary_near_history : List Int
  near_history_size : Int
  history_size : Int
  minimum_probability : Int
  last_delay_probability : Int
  last_delay : Int
  robust_validation_enabled : Int
  allowed_offset : Int
  last_candidate_delay : Int
  compare_delay : Int
  candidate_hits : Int
  histogram : List F32
  last_delay_histogram : F32
  lookahead : Int
  deriving DecidableEq, Repr

/-- `BitCount`. The octal masks are 033333333333, 011111111111, 030707070707 and 077. -/
def BitCount (u32 : Int) : Int :=
  let t1 := toUint32 (toUint32 (u32 - Int.land (shr u32 1) 3681400539) -
    Int.land (shr u32 2) 1227133513)
  let t2 := Int.land (toUint32 (t1 + shr t1 3)) 3340530119
  let t3 := toUint32 (t2 + shr t2 6)
  let t4 := Int.land (toUint32 (toUint32 (t3 + shr t3 12) + shr t3 24)) 63
  toInt32 t4

/-- `BitCountComparison`: the first `matrix_size` entries of `bit_counts` are rewritten. -/
def BitCountComparison (binary_vector : Int) (binary_matrix : List Int) (matrix_size : Int)
    (bit_counts : List Int) : List Int :=
  forRange matrix_size.toNat
    (fun (bc : List Int) n =>
      bc.set n (toInt32 (BitCount (toUint32 (Int.xor binary_vector (binary_matrix.getD n 0))))))
    bit_counts

/-- `WebRtc_MeanEstimatorFix`: the new `*mean_value`. -/
def WebRtc_MeanEstimatorFix (new_value factor mean_value : Int) : Int :=
  let diff := toInt32 (new_value - mean_value)
  let diff1 :=
    if diff < 0 then toInt32 (-(shr (toInt32 (-diff)) factor.toNat))
    else shr diff factor.toNat
  toInt32 (mean_value + diff1)

/-- `UpdateRobustValidationStatistics`. -/
def UpdateRobustValidationStatistics (self : BinaryDelayEstimator) (candidate_delay : Int)
    (valley_depth_q14 valley_level_q14 : Int) : BinaryDelayEstimator :=
  let valley_depth := F32.mul (F32.ofInt valley_depth_q14) kQ14Scaling
  let max_hits_for_slow_change :=
    if candidate_delay < self.last_delay then kMaxHitsWhenPossiblyNonCausal
    else kMaxHitsWhenPossiblyCausal
  let hits0 := if candidate_delay ≠ self.last_candidate_delay then 0 else self.candidate_hits
  let candidate_hits := toInt32 (hits0 + 1)
  let h1 := F32.add (getF self.histogram candidate_delay) valley_depth
  let h2 := if F32.lt kHistogramMax h1 then kHistogramMax else h1
  let histogram1 := setF self.histogram candidate_delay h2
  let decrease_in_last_set :=
    if candidate_hits < max_hits_for_slow_change then
      F32.mul (F32.ofInt (toInt32 (getI self.mean_bit_counts self.compare_delay -
        valley_level_q14))) kQ14Scaling
    else valley_depth
  let histogram2 := forRange self.history_size.toNat
    (fun (h : List F32) n =>
      let i : Int := n
      let is_in_last_set : Int :=
        if i ≥ self.last_delay - 2 ∧ i ≤ self.last_delay + 1 ∧ i ≠ candidate_delay
        then 1 else 0
      let is_in_candidate_set : Int :=
        if i ≥ candidate_delay - 2 ∧ i ≤ candidate_delay + 1 then 1 else 0
      let neither : Int := if is_in_last_set = 0 ∧ is_in_candidate_set = 0 then 1 else 0
      let dec := F32.add (F32.mul decrease_in_last_set (F32.ofInt is_in_last_set))
        (F32.mul valley_depth (F32.ofInt neither))
      let v := F32.sub (h.getD n F32.zero) dec
      h.set n (if F32.lt v F32.zero then F32.zero else v))
    histogram1
  { self with
    candidate_hits := candidate_hits
    last_candidate_delay := candidate_delay
    histogram := histogram2 }

/-- `HistogramBasedValidation`. -/
def HistogramBasedValidation (self : BinaryDelayEstimator) (candidate_delay : Int) : Int :=
  let delay_difference := candidate_delay - self.last_delay
  let fraction : F32 :=
    if delay_difference > self.allowed_offset then
      let f := F32.sub (F32.ofInt 1)
        (F32.mul kFractionSlope (F32.ofInt (delay_difference - self.allowed_offset)))
      if F32.lt kMinFractionWhenPossiblyCausal f then f else kMinFractionWhenPossiblyCausal
    else if delay_difference < 0 then
      let f := F32.sub kMinFractionWhenPossiblyNonCausal
        (F32.mul kFractionSlope (F32.ofInt delay_difference))
      if F32.lt (F32.ofInt 1) f then F32.ofInt 1 else f
    else F32.ofInt 1
  let t1 := F32.mul (getF self.histogram self.compare_delay) fraction
  let histogram_threshold :=
    if F32.lt kMinHistogramThreshold t1 then t1 else kMinHistogramThreshold
  if F32.le histogram_threshold (getF self.histogram candidate_delay) ∧
      self.candidate_hits > kMinRequiredHits then 1 else 0

/-- `RobustValidation`. -/
def RobustValidation (self : BinaryDelayEstimator) (candidate_delay : Int)
    (is_instantaneous_valid is_histogram_valid : Int) : Int :=
  let r1 : Int :=
    if self.last_delay < 0 ∧ (is_instantaneous_valid ≠ 0 ∨ is_histogram_valid ≠ 0)
    then 1 else 0
  let r2 : Int :=
    Int.lor r1 (if is_instantaneous_valid ≠ 0 ∧ is_histogram_valid ≠ 0 then 1 else 0)
  Int.lor r2
    (if is_histogram_valid ≠ 0 ∧
        F32.lt self.last_delay_histogram (getF self.histogram candidate_delay) then 1 else 0)

/-- `WebRtc_InitBinaryDelayEstimatorFarend`. -/
def WebRtc_InitBinaryDelayEstimatorFarend (self : BinaryDelayEstimatorFarend) :
    BinaryDelayEstimatorFarend :=
  { self with
    binary_far_history :=
      forRange self.history_size.toNat (fun (h : List Int) i => h.set i 0)
        self.binary_far_history
    far_bit_counts :=
      forRange self.history_size.toNat (fun (h : List Int) i => h.set i 0)
        self.far_bit_counts }

/-- `WebRtc_CreateBinaryDelayEstimatorFarend` with successful allocations: `none` is the
`NULL` return for `history_size <= 1`. -/
def WebRtc_CreateBinaryDelayEstimatorFarend (history_size : Int) :
    Option BinaryDelayEstimatorFarend :=
  if history_size > 1 then
    some { far_bit_counts := List.replicate history_size.toNat 0
           binary_far_history := List.replicate history_size.toNat 0
           history_size := history_size }
  else none

/-- `WebRtc_AddBinaryFarSpectrum`. -/
def WebRtc_AddBinaryFarSpectrum (handle : BinaryDelayEstimatorFarend)
    (binary_far_spectrum : Int) : BinaryDelayEstimatorFarend :=
  let n := (handle.history_size - 1).toNat
  { handle with
    binary_far_history :=
      (memcpyList handle.binary_far_history 1 handle.binary_far_history 0 n).set 0
        binary_far_spectrum
    far_bit_counts :=
      (memcpyList handle.far_bit_counts 1 handle.far_bit_counts 0 n).set 0
        (BitCount binary_far_spectrum) }

/-- `WebRtc_CreateBinaryDelayEstimator` with successful allocations, for a far end
`farend`: `none` is the `NULL` return for a negative `max_lookahead`. The arrays are
zero-filled as by `WebRtc_AllocateHistoryBufferMemory`. -/
def WebRtc_CreateBinaryDelayEstimator (farend : BinaryDelayEstimatorFarend)
    (max_lookahead : Int) : Option BinaryDelayEstimator :=
  if max_lookahead ≥ 0 then
    some { mean_bit_counts := List.replicate (farend.history_size.toNat + 1) 0
           bit_counts := List.replicate farend.history_size.toNat 0
           binary_near_history := List.replicate (max_lookahead.toNat + 1) 0
           near_history_size := max_lookahead + 1
           history_size := farend.history_size
           minimum_probability := 0
           last_delay_probability := 0
           last_delay := 0
           robust_validation_enabled := 0
           allowed_offset := 0
           last_candidate_delay := 0
           compare_delay := 0
           candidate_hits := 0
           histogram := List.replicate (farend.history_size.toNat + 1) F32.zero
           last_delay_histogram := F32.zero
           lookahead := max_lookahead }
  else none

/-- `WebRtc_InitBinaryDelayEstimator`. -/
def WebRtc_InitBinaryDelayEstimator (self : BinaryDelayEstimator) : BinaryDelayEstimator :=
  { self with
    bit_counts :=
      forRange self.history_size.toNat (fun (h : List Int) i => h.set i 0) self.bit_counts
    binary_near_history :=
      forRange self.near_history_size.toNat (fun (h : List Int) i => h.set i 0)
        self.binary_near_history
    mean_bit_counts :=
      forRange (self.history_size + 1).toNat (fun (h : List Int) i => h.set i 10240)
        self.mean_bit_counts
    histogram :=
      forRange (self.history_size + 1).toNat (fun (h : List F32) i => h.set i F32.zero)
        self.histogram
    minimum_probability := kMaxBitCountsQ9
    last_delay_probability := kMaxBitCountsQ9
    last_delay := -2
    last_candidate_delay := -2
    compare_delay := self.history_size
    candidate_hits := 0
    last_delay_histogram := F32.zero }

/-- The values found by the search loop of `WebRtc_ProcessBinarySpectrum`. -/
structure Candidate where
  candidate_delay : Int
  value_best_candidate : Int
  value_worst_candidate : Int
  deriving DecidableEq, Repr

/-- One pass (index `i`) of the loop of `WebRtc_ProcessBinarySpectrum` that finds
`candidate_delay`, `value_best_candidate` and `value_worst_candidate`. -/
def candidateStep (mean_bit_counts : List Int) (c : Candidate) (i : Nat) : Candidate :=
  let v := mean_bit_counts.getD i 0
  let c1 :=
    if v < c.value_best_candidate then
      { c with value_best_candidate := v, candidate_delay := (i : Int) }
    else c
  if v > c1.value_worst_candidate then { c1 with value_worst_candidate := v } else c1

/-- The loop of `WebRtc_ProcessBinarySpectrum` that finds `candidate_delay`,
`value_best_candidate` and `value_worst_candidate`, from their initial values. -/
def findCandidate (mean_bit_counts : List Int) (history_size : Int) : Candidate :=
  forRange history_size.toNat (candidateStep mean_bit_counts)
    { candidate_delay := -1, value_best_candidate := kMaxBitCountsQ9,
      value_worst_candidate := 0 }

/-- The update of the delay estimate for a valid candidate `c`, lines 2907-2922 of
`WebRtc_ProcessBinarySpectrum`. -/
def acceptCandidate (s2 : BinaryDelayEstimator) (c : Candidate) : BinaryDelayEstimator :=
  let hc := getF s2.histogram c.candidate_delay
  let s2a :=
    if c.candidate_delay ≠ s2.last_delay then
      { s2 with
        last_delay_histogram :=
          if F32.lt kLastHistogramMax hc then kLastHistogramMax else hc
        histogram :=
          if F32.lt hc (getF s2.histogram s2.compare_delay) then
            setF s2.histogram s2.compare_delay hc
          else s2.histogram }
    else s2
  { s2a with
    last_delay := c.candidate_delay
    last_delay_probability :=
      if c.value_best_candidate < s2a.last_delay_probability then
        c.value_best_candidate
      else s2a.last_delay_probability
    compare_delay := c.candidate_delay }

/-- The loop of `WebRtc_ProcessBinarySpectrum` that updates `mean_bit_counts`. -/
def updateMeanBitCounts (mean_bit_counts bit_counts far_bit_counts : List Int)
    (history_size : Int) : List Int :=
  forRange history_size.toNat
    (fun (mbc : List Int) i =>
      let bit_count := toInt32 (shl (bit_counts.getD i 0) 9)
      if far_bit_counts.getD i 0 > 0 then
        let shifts := kShiftsAtZero -
          shr (toInt32 (kShiftsLinearSlope * far_bit_counts.getD i 0)) 4
        mbc.set i (WebRtc_MeanEstimatorFix bit_count shifts (mbc.getD i 0))
      else mbc)
    mean_bit_counts

/-- The values `WebRtc_ProcessBinarySpectrum` has computed when it reaches the robust
validation (line 2890). -/
structure BinaryStatistics where
  state : BinaryDelayEstimator
  candidate : Candidate
  valley_depth : Int
  valid_candidate : Int
  non_stationary_farend : Int

/-- Lines 2789-2884 of `WebRtc_ProcessBinarySpectrum`: near-end history, bit counts, mean
bit counts, the candidate search, the probability thresholds and the far-end check. -/
def binaryStatistics (self : BinaryDelayEstimator) (farend : BinaryDelayEstimatorFarend)
    (binary_near_spectrum : Int) : BinaryStatistics :=
  let near_history :=
    if self.near_history_size > 1 then
      (memcpyList self.binary_near_history 1 self.binary_near_history 0
        (self.near_history_size - 1).toNat).set 0 binary_near_spectrum
    else self.binary_near_history
  let near_spectrum :=
    if self.near_history_size > 1 then getI near_history self.lookahead
    else binary_near_spectrum
  let bit_counts := BitCountComparison near_spectrum farend.binary_far_history
    self.history_size self.bit_counts
  let mean_bit_counts := updateMeanBitCounts self.mean_bit_counts bit_counts
    farend.far_bit_counts self.history_size
  let c := findCandidate mean_bit_counts self.history_size
  let valley_depth := toInt32 (c.value_worst_candidate - c.value_best_candidate)
  let minimum_probability :=
    if self.minimum_probability > kProbabilityLowerLimit ∧
        valley_depth > kProbabilityMinSpread then
      let threshold0 := toInt32 (c.value_best_candidate + kProbabilityOffset)
      let threshold :=
        if threshold0 < kProbabilityLowerLimit then kProbabilityLowerLimit else threshold0
      if self.minimum_probability > threshold then threshold else self.minimum_probability
    else self.minimum_probability
  let last_delay_probability := toInt32 (self.last_delay_probability + 1)
  { state :=
      { self with
        binary_near_history := near_history
        bit_counts := bit_counts
        mean_bit_counts := mean_bit_counts
        minimum_probability := minimum_probability
        last_delay_probability := last_delay_probability }
    candidate := c
    valley_depth := valley_depth
    valid_candidate :=
      if valley_depth > kProbabilityOffset ∧
          (c.value_best_candidate < minimum_probability ∨
            c.value_best_candidate < last_delay_probability) then 1 else 0
    non_stationary_farend :=
      if (List.range self.history_size.toNat).any
          (fun n => decide (farend.far_bit_counts.getD n 0 > 0)) then 1 else 0 }

/-- `WebRtc_ProcessBinarySpectrum`: the return value and the new estimator state; `farend`
is `self->farend`, which the call only reads. -/
def WebRtc_ProcessBinarySpectrum (self : BinaryDelayEstimator)
    (farend : BinaryDelayEstimatorFarend) (binary_near_spectrum : Int) :
    Int × BinaryDelayEstimator :=
  if farend.history_size ≠ self.history_size then (-1, self)
  else
    let st := binaryStatistics self farend binary_near_spectrum
    let s2 :=
      if st.non_stationary_farend ≠ 0 then
        UpdateRobustValidationStatistics st.state st.candidate.candidate_delay st.valley_depth
          st.candidate.value_best_candidate
      else st.state
    let valid_candidate :=
      if s2.robust_validation_enabled ≠ 0 then
        RobustValidation s2 st.candidate.candidate_delay st.valid_candidate
          (HistogramBasedValidation s2 st.candidate.candidate_delay)
      else st.valid_candidate
    let s3 :=
      if st.non_stationary_farend ≠ 0 ∧ valid_candidate ≠ 0 then
        acceptCandidate s2 st.candidate
      else s2
    (s3.last_delay, s3)

/-- `WebRtc_binary_last_delay`. -/
def WebRtc_binary_last_delay (self : BinaryDelayEstimator) : Int := self.last_delay

/-! ### Delay estimator wrapper (`aecm.c` 2241-2268, 2966-3435) -/

/-- `kBandFirst`. -/
def kBandFirst : Nat := 12

/-- `kBandLast`. -/
def kBandLast : Nat := 43

/-- `DelayEstimatorFarend`; `mean_far_spectrum` holds the `int32_` view of the union. -/
structure DelayEstimatorFarend where
  mean_far_spectrum : List Int
  far_spectrum_initialized : Int
  spectrum_size : Int
  binary_farend : BinaryDelayEstimatorFarend
  deriving DecidableEq, Repr

/-- `DelayEstimator`; `mean_near_spectrum` holds the `int32_` view of the union. -/
structure DelayEstimator where
  mean_near_spectrum : List Int
  near_spectrum_initialized : Int
  spectrum_size : Int
  binary_handle : BinaryDelayEstimator
  deriving DecidableEq, Repr

/-- `SetBit`. -/
def SetBit (inp : Int) (pos : Nat) : Int :=
  toUint32 (Int.lor inp (toUint32 (shl 1 pos)))

/-- `BinarySpectrumFix`: the binary spectrum, the new thresholds and the new
initialization flag. -/
def BinarySpectrumFix (spectrum threshold_spectrum : List Int) (q_domain : Int)
    (threshold_initialized : Int) : Int × List Int × Int :=
  let seeded : List Int × Int :=
    if threshold_initialized = 0 then
      forStep 32 kBandFirst (kBandLast + 1) 1
        (fun (st : List Int × Int) i =>
          if spectrum.getD i 0 > 0 then
            let spectrum_q15 := toInt32 (shl (spectrum.getD i 0) (15 - q_domain).toNat)
            (st.1.set i (shr spectrum_q15 1), 1)
          else st)
        (threshold_spectrum, threshold_initialized)
    else (threshold_spectrum, threshold_initialized)
  let r := forStep 32 kBandFirst (kBandLast + 1) 1
    (fun (st : Int × List Int) i =>
      let spectrum_q15 := toInt32 (shl (spectrum.getD i 0) (15 - q_domain).toNat)
      let t := WebRtc_MeanEstimatorFix spectrum_q15 6 (st.2.getD i 0)
      (if spectrum_q15 > t then SetBit st.1 (i - kBandFirst) else st.1, st.2.set i t))
    (0, seeded.1)
  (r.1, r.2, seeded.2)

/-- `WebRtc_CreateDelayEstimatorFarend` with successful allocations: `none` is `NULL`. -/
def WebRtc_CreateDelayEstimatorFarend (spectrum_size history_size : Int) :
    Option DelayEstimatorFarend :=
  if spectrum_size ≥ kBandLast then
    match WebRtc_CreateBinaryDelayEstimatorFarend history_size with
    | none => none
    | some bf =>
      some { mean_far_spectrum := List.replicate spectrum_size.toNat 0
             far_spectrum_initialized := 0
             spectrum_size := spectrum_size
             binary_farend := bf }
  else none

/-- `WebRtc_InitDelayEstimatorFarend` on a non-`NULL` handle (the return value is 0). -/
def WebRtc_InitDelayEstimatorFarend (self : DelayEstimatorFarend) : DelayEstimatorFarend :=
  { self with
    binary_farend := WebRtc_InitBinaryDelayEstimatorFarend self.binary_farend
    mean_far_spectrum :=
      forRange self.spectrum_size.toNat (fun (h : List Int) i => h.set i 0)
        self.mean_far_spectrum
    far_spectrum_initialized := 0 }

/-- `WebRtc_AddFarSpectrumFix` on a non-`NULL` handle and spectrum: the return value and
the new far-end state. -/
def WebRtc_AddFarSpectrumFix (self : DelayEstimatorFarend) (far_spectrum : List Int)
    (spectrum_size far_q : Int) : Int × DelayEstimatorFarend :=
  if spectrum_size ≠ self.spectrum_size then (-1, self)
  else if far_q > 15 then (-1, self)
  else
    let r := BinarySpectrumFix far_spectrum self.mean_far_spectrum far_q
      self.far_spectrum_initialized
    (0, { self with
          mean_far_spectrum := r.2.1
          far_spectrum_initialized := r.2.2
          binary_farend := WebRtc_AddBinaryFarSpectrum self.binary_farend r.1 })

/-- `WebRtc_CreateDelayEstimator` with successful allocations: `none` is `NULL`. -/
def WebRtc_CreateDelayEstimator (farend : DelayEstimatorFarend) (max_lookahead : Int) :
    Option DelayEstimator :=
  match WebRtc_CreateBinaryDelayEstimator farend.binary_farend max_lookahead with
  | none => none
  | some bh =>
    some { mean_near_spectrum := List.replicate farend.spectrum_size.toNat 0
           near_spectrum_initialized := 0
           spectrum_size := farend.spectrum_size
           binary_handle := bh }

/-- `WebRtc_InitDelayEstimator` on a non-`NULL` handle (the return value is 0). -/
def WebRtc_InitDelayEstimator (self : DelayEstimator) : DelayEstimator :=
  { self with
    binary_handle := WebRtc_InitBinaryDelayEstimator self.binary_handle
    mean_near_spectrum :=
      forRange self.spectrum_size.toNat (fun (h : List Int) i => h.set i 0)
        self.mean_near_spectrum
    near_spectrum_initialized := 0 }

/-- `WebRtc_enable_robust_validation` on a non-`NULL` handle. -/
def WebRtc_enable_robust_validation (self : DelayEstimator) (enable : Int) :
    Int × DelayEstimator :=
  if enable < 0 ∨ enable > 1 then (-1, self)
  else (0, { self with
             binary_handle := { self.binary_handle with robust_validation_enabled := enable } })

/-- `WebRtc_DelayEstimatorProcessFix` on a non-`NULL` handle and spectrum: the return
value and the new estimator state; `farend` is the far end the estimator was created
for. -/
def WebRtc_DelayEstimatorProcessFix (self : DelayEstimator)
    (farend : BinaryDelayEstimatorFarend) (near_spectrum : List Int)
    (spectrum_size near_q : Int) : Int × DelayEstimator :=
  if spectrum_size ≠ self.spectrum_size then (-1, self)
  else if near_q > 15 then (-1, self)
  else
    let r := BinarySpectrumFix near_spectrum self.mean_near_spectrum near_q
      self.near_spectrum_initialized
    let p := WebRtc_ProcessBinarySpectrum self.binary_handle farend r.1
    (p.1, { self with
            mean_near_spectrum := r.2.1
            near_spectrum_initialized := r.2.2
            binary_handle := p.2 })


/-! ### AECM core (`aecm.c` 258-2022, `aecm.h` 541-768) -/

/-- `FRAME_LEN`: total frame length, 10 ms. -/
def FRAME_LEN : Nat := 80

/-- `PART_LEN`: length of a partition. -/
def PART_LEN : Nat := 64

/-- `PART_LEN_SHIFT`: length of `2 * PART_LEN` in base 2. -/
def PART_LEN_SHIFT : Nat := 7

/-- `PART_LEN1`: unique FFT coefficients. -/
def PART_LEN1 : Nat := 65

/-- `PART_LEN2`. -/
def PART_LEN2 : Nat := 128

/-- `FAR_BUF_LEN = PART_LEN4`. -/
def FAR_BUF_LEN : Nat := 256

/-- `MAX_DELAY`. -/
def MAX_DELAY : Nat := 100

/-- `CONV_LEN`: convergence length used at startup. -/
def CONV_LEN : Int := 512

/-- `CONV_LEN2`. -/
def CONV_LEN2 : Int := 1024

/-- `MAX_BUF_LEN`: history length of energy signals. -/
def MAX_BUF_LEN : Nat := 64

/-- `FAR_ENERGY_MIN`. -/
def FAR_ENERGY_MIN : Int := 1025

/-- `FAR_ENERGY_DIFF`. -/
def FAR_ENERGY_DIFF : Int := 929

/-- `ENERGY_DEV_OFFSET`. -/
def ENERGY_DEV_OFFSET : Int := 0

/-- `ENERGY_DEV_TOL`. -/
def ENERGY_DEV_TOL : Int := 400

/-- `FAR_ENERGY_VAD_REGION`. -/
def FAR_ENERGY_VAD_REGION : Int := 230

/-- `MU_MIN`. -/
def MU_MIN : Int := 10

/-- `MU_MAX`. -/
def MU_MAX : Int := 1

/-- `MU_DIFF`. -/
def MU_DIFF : Int := 9

/-- `MIN_MSE_COUNT`. -/
def MIN_MSE_COUNT : Nat := 20

/-- `MIN_MSE_DIFF`. -/
def MIN_MSE_DIFF : Int := 29

/-- `MSE_RESOLUTION`. -/
def MSE_RESOLUTION : Nat := 5

/-- `RESOLUTION_CHANNEL16`. -/
def RESOLUTION_CHANNEL16 : Int := 12

/-- `RESOLUTION_CHANNEL32`. -/
def RESOLUTION_CHANNEL32 : Int := 28

/-- `CHANNEL_VAD`. -/
def CHANNEL_VAD : Int := 16

/-- `RESOLUTION_SUPGAIN`. -/
def RESOLUTION_SUPGAIN : Int := 8

/-- `SUPGAIN_DEFAULT = 1 << RESOLUTION_SUPGAIN`. -/
def SUPGAIN_DEFAULT : Int := 256

/-- `SUPGAIN_ERROR_PARAM_A`. -/
def SUPGAIN_ERROR_PARAM_A : Int := 3072

/-- `SUPGAIN_ERROR_PARAM_B`. -/
def SUPGAIN_ERROR_PARAM_B : Int := 1536

/-- `SUPGAIN_ERROR_PARAM_D = SUPGAIN_DEFAULT`. -/
def SUPGAIN_ERROR_PARAM_D : Int := 256

/-- `SUPGAIN_EPC_DT`. -/
def SUPGAIN_EPC_DT : Int := 200

/-- `ONE_Q14`. -/
def ONE_Q14 : Int := 16384

/-- `NLP_COMP_LOW`: 0.2 in Q14. -/
def NLP_COMP_LOW : Int := 3277

/-- `NLP_COMP_HIGH = ONE_Q14`. -/
def NLP_COMP_HIGH : Int := 16384

/-- `AecmFalse`. -/
def AecmFalse : Int := 0

/-- `AecmTrue`. -/
def AecmTrue : Int := 1

/-- `kNoiseEstQDomain`. -/
def kNoiseEstQDomain : Int := 15

/-- `kNoiseEstIncCount`. -/
def kNoiseEstIncCount : Int := 5

/-- `ComplexInt16`. -/
structure ComplexInt16 where
  real : Int
  imag : Int
  deriving DecidableEq, Repr

/-- `AecmCore`. The arrays `xBuf`, `dBufClean`, `dBufNoisy`, `outBuf`, `channelStored`,
`channelAdapt16` and `channelAdapt32` are the aligned windows the pointers of the same
name select inside the `*_buf` arrays. -/
structure AecmCore where
  farBufWritePos : Int
  farBufReadPos : Int
  knownDelay : Int
  lastKnownDelay : Int
  firstVAD : Int
  farFrameBuf : RingBuffer
  nearNoisyFrameBuf : RingBuffer
  nearCleanFrameBuf : RingBuffer
  outFrameBuf : RingBuffer
  farBuf : List Int
  mult : Int
  seed : Int
  delay_estimator_farend : DelayEstimatorFarend
  delay_estimator : DelayEstimator
  currentDelay : Int
  far_history : List Int
  far_history_pos : Int
  far_q_domains : List Int
  nlpFlag : Int
  fixedDelay : Int
  totCount : Int
  dfaCleanQDomain : Int
  dfaCleanQDomainOld : Int
  dfaNoisyQDomain : Int
  dfaNoisyQDomainOld : Int
  nearLogEnergy : List Int
  farLogEnergy : Int
  echoAdaptLogEnergy : List Int
  echoStoredLogEnergy : List Int
  channelStored : List Int
  channelAdapt16 : List Int
  channelAdapt32 : List Int
  xBuf : List Int
  dBufClean : List Int
  dBufNoisy : List Int
  outBuf : List Int
  echoFilt : List Int
  nearFilt : List Int
  noiseEst : List Int
  noiseEstTooLowCtr : List Int
  noiseEstTooHighCtr : List Int
  noiseEstCtr : Int
  cngMode : Int
  mseAdaptOld : Int
  mseStoredOld : Int
  mseThreshold : Int
  farEnergyMin : Int
  farEnergyMax : Int
  farEnergyMaxMin : Int
  farEnergyVAD : Int
  farEnergyMSE : Int
  currentVADValue : Int
  vadUpdateCount : Int
  startupState : Int
  mseChannelCount : Int
  supGain : Int
  supGainOld : Int
  supGainErrParamA : Int
  supGainErrParamD : Int
  supGainErrParamDiffAB : Int
  supGainErrParamDiffBD : Int
  real_fft : RealFFT

/-- `WebRtcAecm_UpdateFarHistory`. -/
def WebRtcAecm_UpdateFarHistory (self : AecmCore) (far_spectrum : List Int) (far_q : Int) :
    AecmCore :=
  let pos0 := toInt32 (self.far_history_pos + 1)
  let pos := if pos0 ≥ MAX_DELAY then 0 else pos0
  { self with
    far_history_pos := pos
    far_q_domains := setI self.far_q_domains pos far_q
    far_history :=
      if pos < 0 then self.far_history
      else memcpyList self.far_history (pos.toNat * PART_LEN1) far_spectrum 0 PART_LEN1 }

/-- `WebRtcAecm_AlignedFarend`: the aligned far-end spectrum and its Q-domain. -/
def WebRtcAecm_AlignedFarend (self : AecmCore) (delay : Int) : List Int × Int :=
  let bp0 := toInt32 (self.far_history_pos - delay)
  let buffer_position := if bp0 < 0 then toInt32 (bp0 + MAX_DELAY) else bp0
  ((List.range PART_LEN1).map
      (fun i => getI self.far_history (buffer_position * PART_LEN1 + i)),
    getI self.far_q_domains buffer_position)

/-- `WebRtcAecm_InitEchoPathCore`. -/
def WebRtcAecm_InitEchoPathCore (aecm : AecmCore) (echo_path : List Int) : AecmCore :=
  let channelStored := memcpyList aecm.channelStored 0 echo_path 0 PART_LEN1
  let channelAdapt16 := memcpyList aecm.channelAdapt16 0 echo_path 0 PART_LEN1
  { aecm with
    channelStored := channelStored
    channelAdapt16 := channelAdapt16
    channelAdapt32 :=
      forRange PART_LEN1
        (fun (c : List Int) i => c.set i (toInt32 (shl (channelAdapt16.getD i 0) 16)))
        aecm.channelAdapt32
    mseAdaptOld := 1000
    mseStoredOld := 1000
    mseThreshold := 2147483647
    mseChannelCount := 0 }

/-- The accumulators of `CalcLinearEnergiesC`. -/
structure LinearEnergies where
  echo_est : List Int
  far_energy : Int
  echo_energy_adapt : Int
  echo_energy_stored : Int

/-- `CalcLinearEnergiesC`, the C implementation behind `WebRtcAecm_CalcLinearEnergies`;
the three sums start at the values passed in. -/
def CalcLinearEnergiesC (aecm : AecmCore) (far_spectrum echo_est : List Int)
    (far_energy echo_energy_adapt echo_energy_stored : Int) : LinearEnergies :=
  forRange PART_LEN1
    (fun (a : LinearEnergies) i =>
      let e := WEBRTC_SPL_MUL_16_U16 (aecm.channelStored.getD i 0) (far_spectrum.getD i 0)
      { echo_est := a.echo_est.set i e
        far_energy := toUint32 (a.far_energy + toUint32 (far_spectrum.getD i 0))
        echo_energy_adapt := toUint32 (a.echo_energy_adapt +
          toInt32 (aecm.channelAdapt16.getD i 0 * far_spectrum.getD i 0))
        echo_energy_stored := toUint32 (a.echo_energy_stored + toUint32 e) })
    { echo_est := echo_est, far_energy := far_energy,
      echo_energy_adapt := echo_energy_adapt, echo_energy_stored := echo_energy_stored }

/-- `StoreAdaptiveChannelC`: the new core and the recomputed echo estimate. -/
def StoreAdaptiveChannelC (aecm : AecmCore) (far_spectrum echo_est : List Int) :
    AecmCore × List Int :=
  let channelStored := memcpyList aecm.channelStored 0 aecm.channelAdapt16 0 PART_LEN1
  let e1 := forStep PART_LEN 0 PART_LEN 4
    (fun (e : List Int) i =>
      (((e.set i (WEBRTC_SPL_MUL_16_U16 (channelStored.getD i 0) (far_spectrum.getD i 0))).set
        (i + 1)
        (WEBRTC_SPL_MUL_16_U16 (channelStored.getD (i + 1) 0) (far_spectrum.getD (i + 1) 0))).set
        (i + 2)
        (WEBRTC_SPL_MUL_16_U16 (channelStored.getD (i + 2) 0) (far_spectrum.getD (i + 2) 0))).set
        (i + 3)
        (WEBRTC_SPL_MUL_16_U16 (channelStored.getD (i + 3) 0) (far_spectrum.getD (i + 3) 0)))
    echo_est
  ({ aecm with channelStored := channelStored },
    e1.set PART_LEN
      (WEBRTC_SPL_MUL_16_U16 (channelStored.getD PART_LEN 0) (far_spectrum.getD PART_LEN 0)))

/-- `ResetAdaptiveChannelC`. -/
def ResetAdaptiveChannelC (aecm : AecmCore) : AecmCore :=
  let channelAdapt16 := memcpyList aecm.channelAdapt16 0 aecm.channelStored 0 PART_LEN1
  let c1 := forStep PART_LEN 0 PART_LEN 4
    (fun (c : List Int) i =>
      (((c.set i (toInt32 (shl (aecm.channelStored.getD i 0) 16))).set (i + 1)
        (toInt32 (shl (aecm.channelStored.getD (i + 1) 0) 16))).set (i + 2)
        (toInt32 (shl (aecm.channelStored.getD (i + 2) 0) 16))).set (i + 3)
        (toInt32 (shl (aecm.channelStored.getD (i + 3) 0) 16)))
    aecm.channelAdapt32
  { aecm with
    channelAdapt16 := channelAdapt16
    channelAdapt32 := c1.set PART_LEN (toInt32 (shl (aecm.channelStored.getD PART_LEN 0) 16)) }

/-- The pink-noise shape `WebRtcAecm_InitCore` writes to `noiseEst`. -/
def initNoiseEst (noiseEst : List Int) : List Int :=
  let r := forRange (PART_LEN1 / 2 - 1)
    (fun (st : List Int × Int × Int) i =>
      let tmp16 := toInt16 (st.2.2 - 1)
      (st.1.set i (toInt32 (shl st.2.1 8)), toInt32 (st.2.1 - toInt32 (shl tmp16 1 + 1)), tmp16))
    (noiseEst, ((PART_LEN1 * PART_LEN1 : Nat) : Int), (PART_LEN1 : Int))
  forStep PART_LEN1 (PART_LEN1 / 2 - 1) PART_LEN1 1
    (fun (n : List Int) i => n.set i (toInt32 (shl r.2.1 8))) r.1

/-- `WebRtcAecm_InitCore` for a core whose delay-estimator handles are non-`NULL`: the
return value and the new core. -/
def WebRtcAecm_InitCore (aecm : AecmCore) (samplingFreq : Int) : Int × AecmCore :=
  if samplingFreq ≠ 8000 ∧ samplingFreq ≠ 16000 then (-1, aecm)
  else
    let a1 : AecmCore :=
      { aecm with
        mult := toInt16 (Int.tdiv (toInt16 samplingFreq) 8000)
        farBufWritePos := 0
        farBufReadPos := 0
        knownDelay := 0
        lastKnownDelay := 0
        farFrameBuf := WebRtc_InitBuffer aecm.farFrameBuf
        nearNoisyFrameBuf := WebRtc_InitBuffer aecm.nearNoisyFrameBuf
        nearCleanFrameBuf := WebRtc_InitBuffer aecm.nearCleanFrameBuf
        outFrameBuf := WebRtc_InitBuffer aecm.outFrameBuf
        xBuf := List.replicate PART_LEN2 0
        dBufClean := List.replicate PART_LEN2 0
        dBufNoisy := List.replicate PART_LEN2 0
        outBuf := List.replicate PART_LEN 0
        seed := 666
        totCount := 0
        delay_estimator_farend := WebRtc_InitDelayEstimatorFarend aecm.delay_estimator_farend
        delay_estimator := WebRtc_InitDelayEstimator aecm.delay_estimator
        far_history := List.replicate (PART_LEN1 * MAX_DELAY) 0
        far_q_domains := List.replicate MAX_DELAY 0
        far_history_pos := MAX_DELAY
        nlpFlag := 1
        fixedDelay := -1
        dfaCleanQDomain := 0
        dfaCleanQDomainOld := 0
        dfaNoisyQDomain := 0
        dfaNoisyQDomainOld := 0
        nearLogEnergy := List.replicate MAX_BUF_LEN 0
        farLogEnergy := 0
        echoAdaptLogEnergy := List.replicate MAX_BUF_LEN 0
        echoStoredLogEnergy := List.replicate MAX_BUF_LEN 0 }
    let a2 :=
      if samplingFreq = 8000 then WebRtcAecm_InitEchoPathCore a1 kChannelStored8kHz
      else WebRtcAecm_InitEchoPathCore a1 kChannelStored16kHz
    (0, { a2 with
          echoFilt := List.replicate PART_LEN1 0
          nearFilt := List.replicate PART_LEN1 0
          noiseEstCtr := 0
          cngMode := AecmTrue
          noiseEstTooLowCtr := List.replicate PART_LEN1 0
          noiseEstTooHighCtr := List.replicate PART_LEN1 0
          noiseEst := initNoiseEst a2.noiseEst
          farEnergyMin := 32767
          farEnergyMax := -32768
          farEnergyMaxMin := 0
          farEnergyVAD := FAR_ENERGY_MIN
          farEnergyMSE := 0
          currentVADValue := 0
          vadUpdateCount := 0
          firstVAD := 1
          startupState := 0
          supGain := SUPGAIN_DEFAULT
          supGainOld := SUPGAIN_DEFAULT
          supGainErrParamA := SUPGAIN_ERROR_PARAM_A
          supGainErrParamD := SUPGAIN_ERROR_PARAM_D
          supGainErrParamDiffAB := SUPGAIN_ERROR_PARAM_A - SUPGAIN_ERROR_PARAM_B
          supGainErrParamDiffBD := SUPGAIN_ERROR_PARAM_B - SUPGAIN_ERROR_PARAM_D })

/-- `WebRtcAecm_Control`. -/
def WebRtcAecm_Control (aecm : AecmCore) (delay nlpFlag : Int) : Int × AecmCore :=
  (0, { aecm with nlpFlag := toInt16 nlpFlag, fixedDelay := toInt16 delay })

/-- `WebRtcAecm_AsymFilt`. -/
def WebRtcAecm_AsymFilt (filtOld inVal stepSizePos stepSizeNeg : Int) : Int :=
  if filtOld = 32767 ∨ filtOld = -32768 then inVal
  else if filtOld > inVal then
    toInt16 (filtOld - shr (filtOld - inVal) stepSizeNeg.toNat)
  else toInt16 (filtOld + shr (inVal - filtOld) stepSizePos.toNat)

/-- `ExtractFractionPart`. -/
def ExtractFractionPart (a zeros : Int) : Int :=
  toInt16 (shr (Int.land (toUint32 (shl a zeros.toNat)) 2147483647) 23)

/-- `kLogLowValue = PART_LEN_SHIFT << 7`. -/
def kLogLowValue : Int := 896

/-- `LogOfEnergyInQ8`. -/
def LogOfEnergyInQ8 (energy q_domain : Int) : Int :=
  if energy > 0 then
    let zeros := NormU32 energy
    let frac := ExtractFractionPart energy zeros
    toInt16 (kLogLowValue + toInt32 (toInt32 (shl (31 - zeros) 8) + frac -
      toInt32 (shl q_domain 8)))
  else kLogLowValue

/-- `WebRtcAecm_CalcEnergies`: the new core and the echo estimate `echoEst`. -/
def WebRtcAecm_CalcEnergies (aecm : AecmCore) (far_spectrum : List Int) (far_q nearEner : Int)
    (echoEst : List Int) : AecmCore × List Int :=
  let nearLogEnergy :=
    (memcpyList aecm.nearLogEnergy 1 aecm.nearLogEnergy 0 (MAX_BUF_LEN - 1)).set 0
      (LogOfEnergyInQ8 nearEner aecm.dfaNoisyQDomain)
  let le := CalcLinearEnergiesC aecm far_spectrum echoEst 0 0 0
  let farLogEnergy := LogOfEnergyInQ8 le.far_energy far_q
  let echoAdaptLogEnergy :=
    (memcpyList aecm.echoAdaptLogEnergy 1 aecm.echoAdaptLogEnergy 0 (MAX_BUF_LEN - 1)).set 0
      (LogOfEnergyInQ8 le.echo_energy_adapt (RESOLUTION_CHANNEL16 + far_q))
  let echoStoredLogEnergy :=
    (memcpyList aecm.echoStoredLogEnergy 1 aecm.echoStoredLogEnergy 0 (MAX_BUF_LEN - 1)).set 0
      (LogOfEnergyInQ8 le.echo_energy_stored (RESOLUTION_CHANNEL16 + far_q))
  let a1 : AecmCore :=
    { aecm with
      nearLogEnergy := nearLogEnergy
      farLogEnergy := farLogEnergy
      echoAdaptLogEnergy := echoAdaptLogEnergy
      echoStoredLogEnergy := echoStoredLogEnergy }
  let a2 : AecmCore :=
    if a1.farLogEnergy > FAR_ENERGY_MIN then
      let increase_max_shifts : Int := if a1.startupState = 0 then 2 else 4
      let decrease_max_shifts : Int := 11
      let increase_min_shifts : Int := if a1.startupState = 0 then 8 else 11
      let decrease_min_shifts : Int := if a1.startupState = 0 then 2 else 3
      let farEnergyMin := WebRtcAecm_AsymFilt a1.farEnergyMin a1.farLogEnergy
        increase_min_shifts decrease_min_shifts
      let farEnergyMax := WebRtcAecm_AsymFilt a1.farEnergyMax a1.farLogEnergy
        increase_max_shifts decrease_max_shifts
      let farEnergyMaxMin := toInt16 (farEnergyMax - farEnergyMin)
      let t0 := toInt16 (2560 - farEnergyMin)
      let t1 := if t0 > 0 then toInt16 (shr (t0 * FAR_ENERGY_VAD_REGION) 9) else 0
      let tmp16 := toInt16 (t1 + FAR_ENERGY_VAD_REGION)
      let b : AecmCore :=
        { a1 with
          farEnergyMin := farEnergyMin
          farEnergyMax := farEnergyMax
          farEnergyMaxMin := farEnergyMaxMin }
      let c : AecmCore :=
        if b.startupState = 0 ∨ b.vadUpdateCount > 1024 then
          { b with farEnergyVAD := toInt16 (b.farEnergyMin + tmp16) }
        else if b.farEnergyVAD > b.farLogEnergy then
          { b with
            farEnergyVAD := toInt16 (b.farEnergyVAD +
              shr (b.farLogEnergy + tmp16 - b.farEnergyVAD) 6)
            vadUpdateCount := 0 }
        else { b with vadUpdateCount := toInt16 (b.vadUpdateCount + 1) }
      { c with farEnergyMSE := toInt16 (c.farEnergyVAD + 256) }
    else a1
  let a3 : AecmCore :=
    if a2.farLogEnergy > a2.farEnergyVAD then
      if a2.startupState = 0 ∨ a2.farEnergyMaxMin > FAR_ENERGY_DIFF then
        { a2 with currentVADValue := 1 }
      else a2
    else { a2 with currentVADValue := 0 }
  let a4 : AecmCore :=
    if a3.currentVADValue ≠ 0 ∧ a3.firstVAD ≠ 0 then
      if a3.echoAdaptLogEnergy.getD 0 0 > a3.nearLogEnergy.getD 0 0 then
        { a3 with
          channelAdapt16 :=
            forRange PART_LEN1
              (fun (c : List Int) i => c.set i (toInt16 (shr (c.getD i 0) 3)))
              a3.channelAdapt16
          echoAdaptLogEnergy :=
            a3.echoAdaptLogEnergy.set 0 (toInt16 (a3.echoAdaptLogEnergy.getD 0 0 - 768))
          firstVAD := 1 }
      else { a3 with firstVAD := 0 }
    else a3
  (a4, le.echo_est)

/-- `WebRtcAecm_CalcStepSize`. -/
def WebRtcAecm_CalcStepSize (aecm : AecmCore) : Int :=
  if aecm.currentVADValue = 0 then 0
  else if aecm.startupState > 0 then
    let mu :=
      if aecm.farEnergyMin ≥ aecm.farEnergyMax then MU_MIN
      else
        let tmp16 := toInt16 (aecm.farLogEnergy - aecm.farEnergyMin)
        let tmp32 := WebRtcSpl_DivW32W16 (toInt32 (tmp16 * MU_DIFF)) aecm.farEnergyMaxMin
        toInt16 (MU_MIN - 1 - toInt16 tmp32)
    if mu < MU_MAX then MU_MAX else mu
  else MU_MAX

/-- The body of the NLMS loop of `WebRtcAecm_UpdateChannel` for bin `i`: the new
`channelAdapt32[i]`, and whether the bin was updated. -/
def updateChannelBin (aecm : AecmCore) (far_spectrum : List Int) (far_q : Int)
    (dfa : List Int) (mu : Int) (i : Nat) : Int × Bool :=
  let ch32 := aecm.channelAdapt32.getD i 0
  let far := far_spectrum.getD i 0
  let zerosCh := NormU32 (toUint32 ch32)
  let zerosFar := NormU32 (toUint32 far)
  let safe := decide (zerosCh + zerosFar > 31)
  let shiftChFar : Int := if safe then 0 else toInt16 (32 - zerosCh - zerosFar)
  let tmpU32no1 : Int :=
    if safe then WEBRTC_SPL_UMUL_32_16 ch32 far
    else toUint32 (toUint32 (if shiftChFar ≥ 32 then 0 else shr ch32 shiftChFar.toNat) * far)
  let zerosNum0 := NormU32 tmpU32no1
  let zerosDfa : Int := if dfa.getD i 0 ≠ 0 then NormU32 (toUint32 (dfa.getD i 0)) else 32
  let tmp16no1 := toInt16 (zerosDfa - 2 + aecm.dfaNoisyQDomain - RESOLUTION_CHANNEL32 -
    far_q + shiftChFar)
  let xfaQ : Int := if zerosNum0 > tmp16no1 + 1 then tmp16no1 else toInt16 (zerosNum0 - 2)
  let dfaQ : Int :=
    if zerosNum0 > tmp16no1 + 1 then toInt16 (zerosDfa - 2)
    else toInt16 (RESOLUTION_CHANNEL32 + far_q - aecm.dfaNoisyQDomain - shiftChFar + xfaQ)
  let tmpU32no1s := WEBRTC_SPL_SHIFT_W32_U tmpU32no1 xfaQ
  let tmpU32no2 := WEBRTC_SPL_SHIFT_W32_U (toUint32 (dfa.getD i 0)) dfaQ
  let tmp32no1 := toInt32 (toInt32 tmpU32no2 - toInt32 tmpU32no1s)
  let zerosNum := NormW32 tmp32no1
  if tmp32no1 ≠ 0 ∧ far > toInt32 (shl CHANNEL_VAD far_q.toNat) then
    let safe2 := decide (zerosNum + zerosFar > 31)
    let shiftNum : Int := if safe2 then 0 else toInt16 (32 - (zerosNum + zerosFar))
    let tmp32no2a : Int :=
      if safe2 then
        if tmp32no1 > 0 then toInt32 (WEBRTC_SPL_UMUL_32_16 tmp32no1 far)
        else toInt32 (-(toInt32 (WEBRTC_SPL_UMUL_32_16 (toInt32 (-tmp32no1)) far)))
      else
        if tmp32no1 > 0 then toInt32 (shr tmp32no1 shiftNum.toNat * far)
        else toInt32 (-(toInt32 (shr (toInt32 (-tmp32no1)) shiftNum.toNat * far)))
    let tmp32no2b := WebRtcSpl_DivW32W16 tmp32no2a (toInt16 ((i : Int) + 1))
    let shift2ResChan := toInt16 (shiftNum + shiftChFar - xfaQ - mu -
      toInt32 (shl (30 - zerosFar) 1))
    let tmp32no2c : Int :=
      if NormW32 tmp32no2b < shift2ResChan then 2147483647
      else WEBRTC_SPL_SHIFT_W32 tmp32no2b shift2ResChan
    let sum := WebRtcSpl_AddSatW32 ch32 tmp32no2c
    (if sum < 0 then 0 else sum, true)
  else (ch32, false)

/-- The sums `mseStored` and `mseAdapt` over the newest `MIN_MSE_COUNT` history entries. -/
def mseSums (aecm : AecmCore) : Int × Int :=
  forRange MIN_MSE_COUNT
    (fun (m : Int × Int) i =>
      let d1 := toInt32 (aecm.echoStoredLogEnergy.getD i 0 - aecm.nearLogEnergy.getD i 0)
      let d2 := toInt32 (aecm.echoAdaptLogEnergy.getD i 0 - aecm.nearLogEnergy.getD i 0)
      (toInt32 (m.1 + WEBRTC_SPL_ABS_W32 d1), toInt32 (m.2 + WEBRTC_SPL_ABS_W32 d2)))
    (0, 0)

/-- `WebRtcAecm_UpdateChannel`: the new core and the (possibly recomputed) `echoEst`. The
store test `(startupState == 0) & (currentVADValue)` is a bitwise and, so it reads the
lowest bit of `currentVADValue`. -/
def WebRtcAecm_UpdateChannel (aecm : AecmCore) (far_spectrum : List Int) (far_q : Int)
    (dfa : List Int) (mu : Int) (echoEst : List Int) : AecmCore × List Int :=
  let a1 : AecmCore :=
    if mu ≠ 0 then
      forRange PART_LEN1
        (fun (a : AecmCore) i =>
          let r := updateChannelBin a far_spectrum far_q dfa mu i
          if r.2 then
            { a with
              channelAdapt32 := a.channelAdapt32.set i r.1
              channelAdapt16 := a.channelAdapt16.set i (toInt16 (shr r.1 16)) }
          else a)
        aecm
    else aecm
  if a1.startupState = 0 ∧ a1.currentVADValue % 2 ≠ 0 then
    StoreAdaptiveChannelC a1 far_spectrum echoEst
  else
    let a2 : AecmCore :=
      if a1.farLogEnergy < a1.farEnergyMSE then { a1 with mseChannelCount := 0 }
      else { a1 with mseChannelCount := toInt16 (a1.mseChannelCount + 1) }
    if a2.mseChannelCount ≥ (MIN_MSE_COUNT : Int) + 10 then
      let m := mseSums a2
      let mseStored := m.1
      let mseAdapt := m.2
      let r : AecmCore × List Int :=
        if toInt32 (shl mseStored MSE_RESOLUTION) < toInt32 (MIN_MSE_DIFF * mseAdapt) ∧
            toInt32 (shl a2.mseStoredOld MSE_RESOLUTION) <
              toInt32 (MIN_MSE_DIFF * a2.mseAdaptOld) then
          (ResetAdaptiveChannelC a2, echoEst)
        else if toInt32 (MIN_MSE_DIFF * mseStored) > toInt32 (shl mseAdapt MSE_RESOLUTION) ∧
            mseAdapt < a2.mseThreshold ∧ a2.mseAdaptOld < a2.mseThreshold then
          let s := StoreAdaptiveChannelC a2 far_spectrum echoEst
          let thr :=
            if s.1.mseThreshold = 2147483647 then toInt32 (mseAdapt + s.1.mseAdaptOld)
            else
              let scaled_threshold := Int.tdiv (toInt32 (s.1.mseThreshold * 5)) 8
              toInt32 (s.1.mseThreshold +
                shr (toInt32 (toInt32 (mseAdapt - scaled_threshold) * 205)) 8)
          ({ s.1 with mseThreshold := thr }, s.2)
        else (a2, echoEst)
      ({ r.1 with mseChannelCount := 0, mseStoredOld := mseStored, mseAdaptOld := mseAdapt },
        r.2)
    else (a2, echoEst)

/-- `WebRtcAecm_CalcSuppressionGain`: the returned gain and the new core. -/
def WebRtcAecm_CalcSuppressionGain (aecm : AecmCore) : Int × AecmCore :=
  let supGain : Int :=
    if aecm.currentVADValue = 0 then 0
    else
      let tmp16no1 := toInt16 (aecm.nearLogEnergy.getD 0 0 - aecm.echoStoredLogEnergy.getD 0 0 -
        ENERGY_DEV_OFFSET)
      let dE := toInt16 (WEBRTC_SPL_ABS_W16 tmp16no1)
      if dE < ENERGY_DEV_TOL then
        if dE < SUPGAIN_EPC_DT then
          let t := toInt32 (toInt32 (aecm.supGainErrParamDiffAB * dE) + shr SUPGAIN_EPC_DT 1)
          toInt16 (aecm.supGainErrParamA - toInt16 (WebRtcSpl_DivW32W16 t SUPGAIN_EPC_DT))
        else
          let t := toInt32 (toInt32 (aecm.supGainErrParamDiffBD * (ENERGY_DEV_TOL - dE)) +
            shr (ENERGY_DEV_TOL - SUPGAIN_EPC_DT) 1)
          toInt16 (aecm.supGainErrParamD +
            toInt16 (WebRtcSpl_DivW32W16 t (ENERGY_DEV_TOL - SUPGAIN_EPC_DT)))
      else aecm.supGainErrParamD
  let tmp16no1 := if supGain > aecm.supGainOld then supGain else aecm.supGainOld
  let newGain := toInt16 (aecm.supGain + toInt16 (shr (tmp16no1 - aecm.supGain) 4))
  (newGain, { aecm with supGainOld := supGain, supGain := newGain })

/-- `WebRtcAecm_BufferFarFrame`. -/
def WebRtcAecm_BufferFarFrame (aecm : AecmCore) (farend : List Int) (farLen : Int) :
    AecmCore :=
  let r := forStep farLen.toNat 0 farLen.toNat 1
    (fun (st : AecmCore × Int × Int) _ =>
      let a := st.1
      let writeLen := st.2.1
      if a.farBufWritePos + writeLen > FAR_BUF_LEN then
        let wl := toInt32 ((FAR_BUF_LEN : Int) - a.farBufWritePos)
        ({ a with
           farBuf := memcpyList a.farBuf a.farBufWritePos.toNat farend st.2.2.toNat wl.toNat
           farBufWritePos := 0 },
          toInt32 (farLen - wl), wl)
      else st)
    (aecm, farLen, 0)
  let a := r.1
  { a with
    farBuf := memcpyList a.farBuf a.farBufWritePos.toNat farend r.2.2.toNat r.2.1.toNat
    farBufWritePos := toInt32 (a.farBufWritePos + r.2.1) }

/-- `WebRtcAecm_FetchFarFrame`: the fetched frame and the new core. -/
def WebRtcAecm_FetchFarFrame (aecm : AecmCore) (farLen knownDelay : Int) :
    List Int × AecmCore :=
  let delayChange := toInt32 (knownDelay - aecm.lastKnownDelay)
  let p0 := toInt32 (aecm.farBufReadPos - delayChange)
  let p1 := if p0 < 0 then p0 + (FAR_BUF_LEN : Int) * ((-p0 + 255) / 256) else p0
  let p2 := if p1 > (FAR_BUF_LEN : Int) - 1 then p1 - (FAR_BUF_LEN : Int) * (p1 / 256) else p1
  let a0 : AecmCore := { aecm with farBufReadPos := p2, lastKnownDelay := knownDelay }
  let r := forStep farLen.toNat 0 farLen.toNat 1
    (fun (st : AecmCore × List Int × Int × Int) _ =>
      let a := st.1
      let readLen := st.2.2.1
      if a.farBufReadPos + readLen > FAR_BUF_LEN then
        let rl := toInt32 ((FAR_BUF_LEN : Int) - a.farBufReadPos)
        ({ a with farBufReadPos := 0 },
          memcpyList st.2.1 st.2.2.2.toNat a.farBuf a.farBufReadPos.toNat rl.toNat,
          toInt32 (farLen - rl), rl)
      else st)
    (a0, List.replicate farLen.toNat 0, farLen, 0)
  let a := r.1
  (memcpyList r.2.1 r.2.2.2.toNat a.farBuf a.farBufReadPos.toNat r.2.2.1.toNat,
    { a with farBufReadPos := toInt32 (a.farBufReadPos + r.2.2.1) })

/-- `WindowAndFFT`: the 65 complex values written to `freq_signal`. -/
def WindowAndFFT (aecm : AecmCore) (time_signal : List Int) (time_signal_scaling : Int) :
    List ComplexInt16 :=
  let fft := forRange PART_LEN
    (fun (fft : List Int) i =>
      let s1 := toInt16 (time_signal.getD i 0 * toInt32 (shl 1 time_signal_scaling.toNat))
      let fft1 := fft.set i (toInt16 (shr (s1 * WebRtcAecm_kSqrtHanning.getD i 0) 14))
      let s2 := toInt16 (time_signal.getD (i + PART_LEN) 0 *
        toInt32 (shl 1 time_signal_scaling.toNat))
      fft1.set (PART_LEN + i)
        (toInt16 (shr (s2 * WebRtcAecm_kSqrtHanning.getD (PART_LEN - i) 0) 14)))
    (List.replicate PART_LEN2 0)
  let out := (WebRtcSpl_RealForwardFFT aecm.real_fft fft).1
  (List.range PART_LEN1).map
    (fun i =>
      if i < PART_LEN then
        ({ real := out.getD (2 * i) 0, imag := toInt16 (-(out.getD (2 * i + 1) 0)) } :
          ComplexInt16)
      else { real := out.getD (2 * i) 0, imag := out.getD (2 * i + 1) 0 })

/-- The outputs of `TimeToFrequencyDomain`. -/
structure FreqDomain where
  freq_signal : List ComplexInt16
  freq_signal_abs : List Int
  freq_signal_sum_abs : Int
  time_signal_scaling : Int

/-- The default complex value read outside a list. -/
def ComplexInt16.zero : ComplexInt16 := { real := 0, imag := 0 }

/-- `TimeToFrequencyDomain` (with `AECM_DYNAMIC_Q`, without `AECM_WITH_ABS_APPROX`). -/
def TimeToFrequencyDomain (aecm : AecmCore) (time_signal : List Int) : FreqDomain :=
  let tmp16no1 := WebRtcSpl_MaxAbsValueW16 time_signal PART_LEN2
  let time_signal_scaling := WebRtcSpl_NormW16 tmp16no1
  let f0 := WindowAndFFT aecm time_signal time_signal_scaling
  let f1 := f0.set 0 { real := (f0.getD 0 ComplexInt16.zero).real, imag := 0 }
  let freq_signal :=
    f1.set PART_LEN { real := (f1.getD PART_LEN ComplexInt16.zero).real, imag := 0 }
  let abs0 := toUint16 (WEBRTC_SPL_ABS_W16 (freq_signal.getD 0 ComplexInt16.zero).real)
  let absN := toUint16 (WEBRTC_SPL_ABS_W16 (freq_signal.getD PART_LEN ComplexInt16.zero).real)
  let a0 := ((List.replicate PART_LEN1 (0 : Int)).set 0 abs0).set PART_LEN absN
  let r := forStep PART_LEN 1 PART_LEN 1
    (fun (st : List Int × Int) i =>
      let c := freq_signal.getD i ComplexInt16.zero
      let v : Int :=
        if c.real = 0 then toUint16 (WEBRTC_SPL_ABS_W16 c.imag)
        else if c.imag = 0 then toUint16 (WEBRTC_SPL_ABS_W16 c.real)
        else
          let t1 := toInt16 (WEBRTC_SPL_ABS_W16 c.real)
          let t2 := toInt16 (WEBRTC_SPL_ABS_W16 c.imag)
          let s := WebRtcSpl_AddSatW32 (toInt32 (t1 * t1)) (toInt32 (t2 * t2))
          toUint16 (WebRtcSpl_SqrtFloor s)
      (st.1.set i v, toUint32 (st.2 + v)))
    (a0, toUint32 (abs0 + absN))
  { freq_signal := freq_signal
    freq_signal_abs := r.1
    freq_signal_sum_abs := r.2
    time_signal_scaling := time_signal_scaling }

/-- The values the front part of `WebRtcAecm_ProcessBlock` hands to the channel update. -/
structure BlockFront where
  core : AecmCore
  dfw : List ComplexInt16
  dfaNoisy : List Int
  dfaNoisySum : Int
  ptrDfaClean : List Int
  zerosDBufNoisy : Int
  xfa : List Int
  far_q : Int

/-- `WebRtcAecm_ProcessBlock`, lines 1645-1695: startup state, buffering of the time
signals, the three transforms and the far-history update. -/
def processBlockFront (aecm : AecmCore) (farend nearendNoisy : List Int)
    (nearendClean : Option (List Int)) : BlockFront :=
  let a0 : AecmCore :=
    if aecm.startupState < 2 then
      { aecm with
        startupState := toInt16 ((if aecm.totCount ≥ CONV_LEN then 1 else 0) +
          (if aecm.totCount ≥ CONV_LEN2 then 1 else 0)) }
    else aecm
  let a1 : AecmCore :=
    { a0 with
      xBuf := memcpyList a0.xBuf PART_LEN farend 0 PART_LEN
      dBufNoisy := memcpyList a0.dBufNoisy PART_LEN nearendNoisy 0 PART_LEN
      dBufClean :=
        match nearendClean with
        | none => a0.dBufClean
        | some c => memcpyList a0.dBufClean PART_LEN c 0 PART_LEN }
  let far := TimeToFrequencyDomain a1 a1.xBuf
  let noisy := TimeToFrequencyDomain a1 a1.dBufNoisy
  let a2 : AecmCore :=
    { a1 with
      dfaNoisyQDomainOld := a1.dfaNoisyQDomain
      dfaNoisyQDomain := toInt16 noisy.time_signal_scaling }
  match nearendClean with
  | none =>
    let a3 : AecmCore :=
      { a2 with
        dfaCleanQDomainOld := a2.dfaNoisyQDomainOld
        dfaCleanQDomain := a2.dfaNoisyQDomain }
    { core := WebRtcAecm_UpdateFarHistory a3 far.freq_signal_abs far.time_signal_scaling
      dfw := noisy.freq_signal
      dfaNoisy := noisy.freq_signal_abs
      dfaNoisySum := noisy.freq_signal_sum_abs
      ptrDfaClean := noisy.freq_signal_abs
      zerosDBufNoisy := toInt16 noisy.time_signal_scaling
      xfa := far.freq_signal_abs
      far_q := far.time_signal_scaling }
  | some _ =>
    let clean := TimeToFrequencyDomain a2 a2.dBufClean
    let a3 : AecmCore :=
      { a2 with
        dfaCleanQDomainOld := a2.dfaCleanQDomain
        dfaCleanQDomain := toInt16 clean.time_signal_scaling }
    { core := WebRtcAecm_UpdateFarHistory a3 far.freq_signal_abs far.time_signal_scaling
      dfw := clean.freq_signal
      dfaNoisy := noisy.freq_signal_abs
      dfaNoisySum := noisy.freq_signal_sum_abs
      ptrDfaClean := clean.freq_signal_abs
      zerosDBufNoisy := toInt16 noisy.time_signal_scaling
      xfa := far.freq_signal_abs
      far_q := far.time_signal_scaling }

/-- The state of `WebRtcAecm_ProcessBlock` when `WebRtcAecm_UpdateChannel` has returned. -/
structure BlockChannel where
  core : AecmCore
  echoEst32 : List Int
  far_spectrum : List Int
  zerosXBuf : Int
  mu : Int

/-- `WebRtcAecm_ProcessBlock`, lines 1719-1747, for the delay `delay` chosen before:
aligned far end, `WebRtcAecm_CalcEnergies`, `WebRtcAecm_CalcStepSize`, the block counter
and `WebRtcAecm_UpdateChannel`. -/
def processBlockChannel (aecm : AecmCore) (delay : Int) (dfaNoisy : List Int)
    (dfaNoisySum : Int) : BlockChannel :=
  let al := WebRtcAecm_AlignedFarend aecm delay
  let zerosXBuf := toInt16 al.2
  let e := WebRtcAecm_CalcEnergies aecm al.1 zerosXBuf dfaNoisySum
    (List.replicate PART_LEN1 0)
  let mu := WebRtcAecm_CalcStepSize e.1
  let a1 : AecmCore := { e.1 with totCount := toUint32 (e.1.totCount + 1) }
  let u := WebRtcAecm_UpdateChannel a1 al.1 zerosXBuf dfaNoisy mu e.2
  { core := u.1, echoEst32 := u.2, far_spectrum := al.1, zerosXBuf := zerosXBuf, mu := mu }

/-- The loop state of the Wiener-filter loop of `WebRtcAecm_ProcessBlock`. -/
structure WienerState where
  core : AecmCore
  hnl : List Int
  numPosCoef : Int

/-- The Wiener coefficient `hnl[i]` in Q14, lines 1808-1835, from the gained echo estimate,
the filtered near-end magnitude `nearFilt[i]` and the Q-domain difference. -/
def wienerCoef (echoEst32Gained nearFilt_i resolutionDiff : Int) : Int :=
  if echoEst32Gained = 0 then ONE_Q14
  else if nearFilt_i = 0 then 0
  else
    let gained := toUint32 (echoEst32Gained + toUint32 (shr nearFilt_i 1))
    let tmpU32 := WebRtcSpl_DivU32U16 gained (toUint16 nearFilt_i)
    let tmp32 := toInt32 (WEBRTC_SPL_SHIFT_W32_U tmpU32 resolutionDiff)
    if tmp32 > ONE_Q14 then 0
    else if tmp32 < 0 then ONE_Q14
    else
      let h := toInt16 (ONE_Q14 - toInt16 tmp32)
      if h < 0 then 0 else h

/-- One iteration (bin `i`) of the Wiener-filter loop, lines 1752-1839. -/
def wienerBin (echoEst32 ptrDfaClean : List Int) (supGain zerosXBuf : Int)
    (st : WienerState) (i : Nat) : WienerState :=
  let aecm := st.core
  let tmp32no1 := toInt32 (echoEst32.getD i 0 - aecm.echoFilt.getD i 0)
  let echoFilt_i := toInt32 (aecm.echoFilt.getD i 0 + toInt32 (shr (tmp32no1 * 50) 8))
  let zeros32 := toInt16 (WebRtcSpl_NormW32 echoFilt_i + 1)
  let zeros16a := toInt16 (WebRtcSpl_NormW16 supGain + 1)
  let tmp16sh := toInt16 (17 - zeros32 - zeros16a)
  let echoEst32Gained : Int :=
    if zeros32 + zeros16a > 16 then
      WEBRTC_SPL_UMUL_32_16 (toUint32 echoFilt_i) (toUint16 supGain)
    else if zeros32 > tmp16sh then
      WEBRTC_SPL_UMUL_32_16 (toUint32 echoFilt_i) (shr supGain tmp16sh.toNat)
    else toUint32 (shr echoFilt_i tmp16sh.toNat * supGain)
  let resolutionDiff : Int :=
    if zeros32 + zeros16a > 16 then
      toInt16 (toInt16 (14 - RESOLUTION_CHANNEL16 - RESOLUTION_SUPGAIN) +
        (aecm.dfaCleanQDomain - zerosXBuf))
    else
      toInt16 (toInt16 (14 + tmp16sh - RESOLUTION_CHANNEL16 - RESOLUTION_SUPGAIN) +
        (aecm.dfaCleanQDomain - zerosXBuf))
  let nearFilt0 := aecm.nearFilt.getD i 0
  let zeros16b := WebRtcSpl_NormW16 nearFilt0
  let dfa_clean_q_domain_diff := toInt16 (aecm.dfaCleanQDomain - aecm.dfaCleanQDomainOld)
  let scaled := decide (zeros16b < dfa_clean_q_domain_diff ∧ nearFilt0 ≠ 0)
  let tmp16no1 : Int :=
    if scaled then toInt16 (nearFilt0 * toInt32 (shl 1 zeros16b.toNat))
    else if dfa_clean_q_domain_diff < 0 then
      toInt16 (shr nearFilt0 (-dfa_clean_q_domain_diff).toNat)
    else toInt16 (nearFilt0 * toInt32 (shl 1 dfa_clean_q_domain_diff.toNat))
  let qDomainDiff : Int :=
    if scaled then toInt16 (zeros16b - dfa_clean_q_domain_diff) else 0
  let tmp16no2a : Int :=
    if scaled then toInt16 (shr (ptrDfaClean.getD i 0) (-qDomainDiff).toNat)
    else toInt16 (ptrDfaClean.getD i 0)
  let tmp32no1b := toInt32 (tmp16no2a - tmp16no1)
  let tmp16no2 := toInt16 (toInt16 (shr tmp32no1b 4) + tmp16no1)
  let zeros16c := WebRtcSpl_NormW16 tmp16no2
  let nearFilt_i : Int :=
    if tmp16no2 % 2 ≠ 0 ∧ -qDomainDiff > zeros16c then 32767
    else if qDomainDiff < 0 then toInt16 (tmp16no2 * toInt32 (shl 1 (-qDomainDiff).toNat))
    else toInt16 (shr tmp16no2 qDomainDiff.toNat)
  let hnl_i := wienerCoef echoEst32Gained nearFilt_i resolutionDiff
  { core := { aecm with
              echoFilt := aecm.echoFilt.set i echoFilt_i
              nearFilt := aecm.nearFilt.set i nearFilt_i }
    hnl := st.hnl.set i hnl_i
    numPosCoef := if hnl_i ≠ 0 then toInt16 (st.numPosCoef + 1) else st.numPosCoef }

/-- The Wiener-filter loop of `WebRtcAecm_ProcessBlock`, lines 1751-1839. -/
def wienerFilter (aecm : AecmCore) (echoEst32 ptrDfaClean : List Int)
    (supGain zerosXBuf : Int) : WienerState :=
  forRange PART_LEN1 (wienerBin echoEst32 ptrDfaClean supGain zerosXBuf)
    { core := aecm, hnl := List.replicate PART_LEN1 0, numPosCoef := 0 }

/-- `kMinPrefBand`. -/
def kMinPrefBand : Nat := 4

/-- `kMaxPrefBand`. -/
def kMaxPrefBand : Nat := 24

/-- The wideband post-shaping of `hnl`, lines 1842-1860. -/
def widebandShaping (mult : Int) (hnl : List Int) : List Int :=
  if mult = 2 then
    let h1 := forRange PART_LEN1
      (fun (h : List Int) i => h.set i (toInt16 (shr (h.getD i 0 * h.getD i 0) 14))) hnl
    let sum := forStep PART_LEN1 kMinPrefBand (kMaxPrefBand + 1) 1
      (fun (s : Int) i => toInt32 (s + h1.getD i 0)) 0
    let avgHnl32 := Int.tdiv sum ((kMaxPrefBand : Int) - kMinPrefBand + 1)
    forStep PART_LEN1 kMaxPrefBand PART_LEN1 1
      (fun (h : List Int) i =>
        if h.getD i 0 > toInt16 avgHnl32 then h.set i (toInt16 avgHnl32) else h)
      h1
  else hnl

/-- The NLP gain applied to one coefficient, lines 1865-1884. -/
def nlpBin (numPosCoef : Int) (h : Int) : Int :=
  let h1 : Int := if h > NLP_COMP_HIGH then ONE_Q14 else if h < NLP_COMP_LOW then 0 else h
  let nlpGain : Int := if numPosCoef < 3 then 0 else ONE_Q14
  if h1 = ONE_Q14 ∧ nlpGain = ONE_Q14 then ONE_Q14 else toInt16 (shr (h1 * nlpGain) 14)

/-- The NLP step on `hnl`, lines 1863-1900 (without the products written to `efw`). -/
def nlpStep (nlpFlag numPosCoef : Int) (hnl : List Int) : List Int :=
  if nlpFlag ≠ 0 then
    forRange PART_LEN1 (fun (h : List Int) i => h.set i (nlpBin numPosCoef (h.getD i 0))) hnl
  else hnl

/-- The products `efw[i] = dfw[i] * hnl[i]` of lines 1887-1898. -/
def applyWiener (dfw : List ComplexInt16) (hnl : List Int) : List ComplexInt16 :=
  (List.range PART_LEN1).map
    (fun i =>
      let c := dfw.getD i ComplexInt16.zero
      ({ real := toInt16 (WEBRTC_SPL_MUL_16_16_RSFT_WITH_ROUND c.real (hnl.getD i 0) 14)
         imag := toInt16 (WEBRTC_SPL_MUL_16_16_RSFT_WITH_ROUND c.imag (hnl.getD i 0) 14) } :
        ComplexInt16))

/-- The noise-power update of `ComfortNoise` for bin `i`, lines 1940-1986: the new
`noiseEst[i]`, `noiseEstTooLowCtr[i]` and `noiseEstTooHighCtr[i]`. -/
def noiseEstBin (noiseEst tooLow tooHigh outLShift32 minTrackShift : Int) :
    Int × Int × Int :=
  if outLShift32 < noiseEst then
    if noiseEst < toInt32 (shl 1 minTrackShift.toNat) then
      let th := toInt32 (tooHigh + 1)
      if th ≥ kNoiseEstIncCount then (toInt32 (noiseEst - 1), 0, 0)
      else (noiseEst, 0, th)
    else
      (toInt32 (noiseEst - shr (toInt32 (noiseEst - outLShift32)) minTrackShift.toNat), 0,
        tooHigh)
  else if shr noiseEst 19 > 0 then
    (toInt32 (shr noiseEst 11 * 2049), tooLow, 0)
  else if shr noiseEst 11 > 0 then
    (shr (toInt32 (noiseEst * 2049)) 11, tooLow, 0)
  else
    let tl := toInt32 (tooLow + 1)
    if tl ≥ kNoiseEstIncCount then (toInt32 (noiseEst + (shr noiseEst 9 + 1)), 0, 0)
    else (noiseEst, tl, 0)

/-- `ComfortNoise`: the new core and the new `out`. The shift `shiftFromNearToNoise` is
asserted to lie in `[0, 16)`. -/
def ComfortNoise (aecm : AecmCore) (dfa : List Int) (out : List ComplexInt16)
    (lambda : List Int) : AecmCore × List ComplexInt16 :=
  let shiftFromNearToNoise := toInt16 (kNoiseEstQDomain - aecm.dfaCleanQDomain)
  let a0 : AecmCore :=
    if aecm.noiseEstCtr < 100 then { aecm with noiseEstCtr := toInt16 (aecm.noiseEstCtr + 1) }
    else aecm
  let minTrackShift : Int := if aecm.noiseEstCtr < 100 then 6 else 9
  let a1 := forRange PART_LEN1
    (fun (a : AecmCore) i =>
      let outLShift32 := toInt32 (shl (dfa.getD i 0) shiftFromNearToNoise.toNat)
      let r := noiseEstBin (a.noiseEst.getD i 0) (a.noiseEstTooLowCtr.getD i 0)
        (a.noiseEstTooHighCtr.getD i 0) outLShift32 minTrackShift
      { a with
        noiseEst := a.noiseEst.set i r.1
        noiseEstTooLowCtr := a.noiseEstTooLowCtr.set i r.2.1
        noiseEstTooHighCtr := a.noiseEstTooHighCtr.set i r.2.2 })
    a0
  let r2 := forRange PART_LEN1
    (fun (st : List Int × List Int) i =>
      let t0 := shr (st.1.getD i 0) shiftFromNearToNoise.toNat
      let tmp32 : Int := if t0 > 32767 then 32767 else t0
      let noiseEst :=
        if t0 > 32767 then st.1.set i (toInt32 (shl tmp32 shiftFromNearToNoise.toNat))
        else st.1
      let tmp16 := toInt16 (ONE_Q14 - lambda.getD i 0)
      (noiseEst, st.2.set i (toInt16 (shr (tmp16 * toInt16 tmp32) 14))))
    (a1.noiseEst, List.replicate PART_LEN1 0)
  let noiseRShift16 := r2.2
  let rnd := WebRtcSpl_RandUArray PART_LEN a1.seed
  let randW16 := rnd.1
  let u := forStep PART_LEN1 1 PART_LEN1 1
    (fun (st : List Int × List Int) i =>
      let tmp16 := toInt16 (shr (359 * randW16.getD (i - 1) 0) 15)
      (st.1.set i (toInt16 (shr (noiseRShift16.getD i 0 * getI WebRtcAecm_kCosTable tmp16) 13)),
        st.2.set i
          (toInt16 (shr (-(noiseRShift16.getD i 0) * getI WebRtcAecm_kSinTable tmp16) 13))))
    (List.replicate PART_LEN1 0, List.replicate PART_LEN1 0)
  let uReal := u.1
  let uImag := u.2.set PART_LEN 0
  ({ a1 with noiseEst := r2.1, seed := rnd.2 },
    forRange PART_LEN1
      (fun (o : List ComplexInt16) i =>
        let c := o.getD i ComplexInt16.zero
        o.set i { real := WebRtcSpl_AddSatW16 c.real (uReal.getD i 0)
                  imag := WebRtcSpl_AddSatW16 c.imag (uImag.getD i 0) })
      out)

/-- `InverseFFTAndWindow`: the new core and the new `output`; `hasClean` tells whether
`nearendClean` is non-`NULL`. -/
def InverseFFTAndWindow (aecm : AecmCore) (efw : List ComplexInt16) (output : List Int)
    (hasClean : Bool) : AecmCore × List Int :=
  let fft0 := forStep PART_LEN 1 PART_LEN 1
    (fun (fft : List Int) i =>
      let c := efw.getD i ComplexInt16.zero
      (fft.set (2 * i) c.real).set (2 * i + 1) (toInt16 (-c.imag)))
    (List.replicate (PART_LEN2 + 2) 0)
  let c0 := efw.getD 0 ComplexInt16.zero
  let cN := efw.getD PART_LEN ComplexInt16.zero
  let fft := (((fft0.set 0 c0.real).set 1 (toInt16 (-c0.imag))).set PART_LEN2 cN.real).set
    (PART_LEN2 + 1) (toInt16 (-cN.imag))
  let inv := WebRtcSpl_RealInverseFFT aecm.real_fft fft
  let ifft_out := inv.1
  let outCFFT := inv.2
  let r := forRange PART_LEN
    (fun (st : List Int × List Int) i =>
      let v := toInt16 (WEBRTC_SPL_MUL_16_16_RSFT_WITH_ROUND (ifft_out.getD i 0)
        (WebRtcAecm_kSqrtHanning.getD i 0) 14)
      let t1 := WEBRTC_SPL_SHIFT_W32 v (outCFFT - aecm.dfaCleanQDomain)
      let o := toInt16 (WEBRTC_SPL_SAT 32767 (toInt32 (t1 + st.2.getD i 0)) (-32768))
      let t2 := shr (ifft_out.getD (PART_LEN + i) 0 *
        WebRtcAecm_kSqrtHanning.getD (PART_LEN - i) 0) 14
      let t3 := WEBRTC_SPL_SHIFT_W32 t2 (outCFFT - aecm.dfaCleanQDomain)
      (st.1.set i o, st.2.set i (toInt16 (WEBRTC_SPL_SAT 32767 t3 (-32768)))))
    (output, aecm.outBuf)
  ({ aecm with
     outBuf := r.2
     xBuf := memcpyList aecm.xBuf 0 aecm.xBuf PART_LEN PART_LEN
     dBufNoisy := memcpyList aecm.dBufNoisy 0 aecm.dBufNoisy PART_LEN PART_LEN
     dBufClean :=
       if hasClean then memcpyList aecm.dBufClean 0 aecm.dBufClean PART_LEN PART_LEN
       else aecm.dBufClean },
    r.1)

/-- The intermediate values of one `WebRtcAecm_ProcessBlock` call that reaches the Wiener
filter. -/
structure BlockTrace where
  channel : BlockChannel
  wiener : WienerState
  hnlShaped : List Int
  hnlNlp : List Int

/-- The part of `WebRtcAecm_ProcessBlock` from the delay selection to the NLP step, for the
delay value `delayEst` returned by `WebRtc_DelayEstimatorProcessFix`. -/
def processBlockTrace (aecm : AecmCore) (f : BlockFront) (delayEst : Int) : BlockTrace :=
  let delay0 : Int := if delayEst = -2 then 0 else delayEst
  let delay : Int := if aecm.fixedDelay ≥ 0 then aecm.fixedDelay else delay0
  let ch := processBlockChannel aecm delay f.dfaNoisy f.dfaNoisySum
  let g := WebRtcAecm_CalcSuppressionGain ch.core
  let w := wienerFilter g.2 ch.echoEst32 f.ptrDfaClean g.1 ch.zerosXBuf
  let hnl1 := widebandShaping w.core.mult w.hnl
  { channel := ch
    wiener := w
    hnlShaped := hnl1
    hnlNlp := nlpStep w.core.nlpFlag w.numPosCoef hnl1 }

/-- `WebRtcAecm_ProcessBlock`: the return value, the new core and the new `output`. -/
def WebRtcAecm_ProcessBlock (aecm : AecmCore) (farend nearendNoisy : List Int)
    (nearendClean : Option (List Int)) (output : List Int) : Int × AecmCore × List Int :=
  let f := processBlockFront aecm farend nearendNoisy nearendClean
  let add := WebRtc_AddFarSpectrumFix f.core.delay_estimator_farend f.xfa PART_LEN1 f.far_q
  let a1 : AecmCore := { f.core with delay_estimator_farend := add.2 }
  if add.1 = -1 then (-1, a1, output)
  else
    let p := WebRtc_DelayEstimatorProcessFix a1.delay_estimator
      a1.delay_estimator_farend.binary_farend f.dfaNoisy PART_LEN1 f.zerosDBufNoisy
    let a2 : AecmCore := { a1 with delay_estimator := p.2 }
    if p.1 = -1 then (-1, a2, output)
    else
      let t := processBlockTrace a2 f p.1
      let efw := applyWiener f.dfw t.hnlNlp
      let cn :=
        if t.wiener.core.cngMode = AecmTrue then
          ComfortNoise t.wiener.core f.ptrDfaClean efw t.hnlNlp
        else (t.wiener.core, efw)
      let inv := InverseFFTAndWindow cn.1 cn.2 output nearendClean.isSome
      (0, inv.1, inv.2)

/-- The loop state of the block loop of `WebRtcAecm_ProcessFrame`: `failed` records a
`-1` from `WebRtcAecm_ProcessBlock`. -/
structure FrameLoop where
  core : AecmCore
  failed : Bool

/-- One pass of `while (WebRtc_available_read(aecm->farFrameBuf) >= PART_LEN)` in
`WebRtcAecm_ProcessFrame`. -/
def processFrameBlock (hasClean : Bool) (st : FrameLoop) : FrameLoop :=
  let aecm := st.core
  let far := WebRtc_ReadBuffer aecm.farFrameBuf PART_LEN
  let noisy := WebRtc_ReadBuffer aecm.nearNoisyFrameBuf PART_LEN
  let clean := WebRtc_ReadBuffer aecm.nearCleanFrameBuf PART_LEN
  let a1 : AecmCore :=
    { aecm with
      farFrameBuf := far.self
      nearNoisyFrameBuf := noisy.self
      nearCleanFrameBuf := if hasClean then clean.self else aecm.nearCleanFrameBuf }
  let r := WebRtcAecm_ProcessBlock a1 far.elements noisy.elements
    (if hasClean then some clean.elements else none) (List.replicate PART_LEN 0)
  if r.1 = -1 then { core := r.2.1, failed := true }
  else
    { core := { r.2.1 with
                outFrameBuf := (WebRtc_WriteBuffer r.2.1.outFrameBuf r.2.2 PART_LEN).2 }
      failed := false }

/-- The block loop of `WebRtcAecm_ProcessFrame`; `fuel` bounds the number of passes. -/
def processFrameLoop (hasClean : Bool) : Nat → FrameLoop → FrameLoop
  | 0, st => st
  | fuel + 1, st =>
    if st.failed then st
    else if WebRtc_available_read st.core.farFrameBuf ≥ PART_LEN then
      processFrameLoop hasClean fuel (processFrameBlock hasClean st)
    else st

/-- `WebRtcAecm_ProcessFrame`: the return value, the new core and the new `out`. Each pass
of the block loop takes `PART_LEN` elements from `farFrameBuf`, so the number of readable
elements bounds the number of passes. -/
def WebRtcAecm_ProcessFrame (aecm : AecmCore) (farend nearendNoisy : List Int)
    (nearendClean : Option (List Int)) (out : List Int) : Int × AecmCore × List Int :=
  let a0 := WebRtcAecm_BufferFarFrame aecm farend FRAME_LEN
  let fetch := WebRtcAecm_FetchFarFrame a0 FRAME_LEN a0.knownDelay
  let a1 := fetch.2
  let a2 : AecmCore :=
    { a1 with
      farFrameBuf := (WebRtc_WriteBuffer a1.farFrameBuf fetch.1 FRAME_LEN).2
      nearNoisyFrameBuf := (WebRtc_WriteBuffer a1.nearNoisyFrameBuf nearendNoisy FRAME_LEN).2
      nearCleanFrameBuf :=
        match nearendClean with
        | none => a1.nearCleanFrameBuf
        | some c => (WebRtc_WriteBuffer a1.nearCleanFrameBuf c FRAME_LEN).2 }
  let l := processFrameLoop nearendClean.isSome
    (WebRtc_available_read a2.farFrameBuf / PART_LEN + 1) { core := a2, failed := false }
  if l.failed then (-1, l.core, out)
  else
    let size := toInt32 (WebRtc_available_read l.core.outFrameBuf)
    let ob :=
      if size < FRAME_LEN then (WebRtc_MoveReadPtr l.core.outFrameBuf (size - FRAME_LEN)).2
      else l.core.outFrameBuf
    let rd := WebRtc_ReadBuffer ob FRAME_LEN
    (0, { l.core with outFrameBuf := rd.self }, memcpyList out 0 rd.elements 0 FRAME_LEN)

/-- `WebRtcAecm_CreateCore` with successful allocations: `none` is `NULL`. The memory
`malloc` returns is not initialised; the model fills it with zeros. -/
def WebRtcAecm_CreateCore : Option AecmCore :=
  match WebRtc_CreateBuffer (FRAME_LEN + PART_LEN) 2,
    WebRtc_CreateDelayEstimatorFarend PART_LEN1 MAX_DELAY,
    WebRtcSpl_CreateRealFFT PART_LEN_SHIFT with
  | some rb, some fe, some fft =>
    match WebRtc_CreateDelayEstimator fe 0 with
    | none => none
    | some de =>
      some
        { farBufWritePos := 0, farBufReadPos := 0, knownDelay := 0, lastKnownDelay := 0
          firstVAD := 0, farFrameBuf := rb, nearNoisyFrameBuf := rb, nearCleanFrameBuf := rb
          outFrameBuf := rb, farBuf := List.replicate FAR_BUF_LEN 0, mult := 0, seed := 0
          delay_estimator_farend := fe
          delay_estimator := (WebRtc_enable_robust_validation de 0).2
          currentDelay := 0, far_history := List.replicate (PART_LEN1 * MAX_DELAY) 0
          far_history_pos := 0, far_q_domains := List.replicate MAX_DELAY 0, nlpFlag := 0
          fixedDelay := 0, totCount := 0, dfaCleanQDomain := 0, dfaCleanQDomainOld := 0
          dfaNoisyQDomain := 0, dfaNoisyQDomainOld := 0
          nearLogEnergy := List.replicate MAX_BUF_LEN 0, farLogEnergy := 0
          echoAdaptLogEnergy := List.replicate MAX_BUF_LEN 0
          echoStoredLogEnergy := List.replicate MAX_BUF_LEN 0
          channelStored := List.replicate PART_LEN1 0
          channelAdapt16 := List.replicate PART_LEN1 0
          channelAdapt32 := List.replicate PART_LEN1 0
          xBuf := List.replicate PART_LEN2 0, dBufClean := List.replicate PART_LEN2 0
          dBufNoisy := List.replicate PART_LEN2 0, outBuf := List.replicate PART_LEN 0
          echoFilt := List.replicate PART_LEN1 0, nearFilt := List.replicate PART_LEN1 0
          noiseEst := List.replicate PART_LEN1 0
          noiseEstTooLowCtr := List.replicate PART_LEN1 0
          noiseEstTooHighCtr := List.replicate PART_LEN1 0, noiseEstCtr := 0, cngMode := 0
          mseAdaptOld := 0, mseStoredOld := 0, mseThreshold := 0, farEnergyMin := 0
          farEnergyMax := 0, farEnergyMaxMin := 0, farEnergyVAD := 0, farEnergyMSE := 0
          currentVADValue := 0, vadUpdateCount := 0, startupState := 0, mseChannelCount := 0
          supGain := 0, supGainOld := 0, supGainErrParamA := 0, supGainErrParamD := 0
          supGainErrParamDiffAB := 0, supGainErrParamDiffBD := 0, real_fft := fft }
  | _, _, _ => none


/-! ### Double-precision values

The start-up logic of `WebRtcAecm_Process` compares an integer with `0.2 * msInSndCardBuf`,
a `double`. A finite `double` is the dyadic number `m * 2 ^ e` with `m` odd (or zero);
operations round to the nearest value with a 53-bit significand, ties to even. -/

/-- A finite binary64 value `m * 2 ^ e`. -/
structure F64 where
  m : Int
  e : Int
  deriving DecidableEq, Repr

/-- Removes factors of two from the significand (`fuel` bounds their number). -/
def F64.strip : Nat → Int → Int → F64
  | 0, m, e => { m := m, e := e }
  | fuel + 1, m, e =>
    if m = 0 then { m := 0, e := 0 }
    else if m % 2 = 0 then F64.strip fuel (m / 2) (e + 1)
    else { m := m, e := e }

/-- The binary64 value nearest to `m * 2 ^ e`. -/
def F64.round (m e : Int) : F64 :=
  if m = 0 then { m := 0, e := 0 }
  else
    let a := m.natAbs
    let len : Int := (bitLength a a : Int)
    let u : Int := if e + len - 53 ≥ -1074 then e + len - 53 else -1074
    if u ≤ e then F64.strip (bitLength a a) m e
    else
      let s := (u - e).toNat
      let q := a / 2 ^ s
      let rem := a % 2 ^ s
      let half := 2 ^ (s - 1)
      let q1 := if rem > half ∨ (rem = half ∧ q % 2 = 1) then q + 1 else q
      F64.strip 64 (if m < 0 then -(q1 : Int) else (q1 : Int)) u

/-- Conversion of an `int` to `double` (exact). -/
def F64.ofInt (i : Int) : F64 := F64.round i 0

/-- `a * b` in `double`. -/
def F64.mul (a b : F64) : F64 := F64.round (a.m * b.m) (a.e + b.e)

/-- `a < b` on `double` values. -/
def F64.lt (a b : F64) : Bool :=
  let e0 := if a.e ≤ b.e then a.e else b.e
  decide (a.m * 2 ^ (a.e - e0).toNat < b.m * 2 ^ (b.e - e0).toNat)

/-- The `double` constant `0.2`. -/
def kPointTwo : F64 := { m := 3602879701896397, e := -54 }

/-! ### Application interface (`aecm.c` 3436-3487, 4083-4595) -/

/-- `BUF_SIZE_FRAMES`. -/
def BUF_SIZE_FRAMES : Nat := 50

/-- `kBufSizeSamp = BUF_SIZE_FRAMES * FRAME_LEN`. -/
def kBufSizeSamp : Nat := 4000

/-- `kSampMsNb`: samples per ms in narrow band. -/
def kSampMsNb : Int := 8

/-- `kInitCheck`. -/
def kInitCheck : Int := 42

/-- `AECM_UNSPECIFIED_ERROR`. -/
def AECM_UNSPECIFIED_ERROR : Int := 12000

/-- `AECM_UNINITIALIZED_ERROR`. -/
def AECM_UNINITIALIZED_ERROR : Int := 12002

/-- `AECM_NULL_POINTER_ERROR`. -/
def AECM_NULL_POINTER_ERROR : Int := 12003

/-- `AECM_BAD_PARAMETER_ERROR`. -/
def AECM_BAD_PARAMETER_ERROR : Int := 12004

/-- `AECM_BAD_PARAMETER_WARNING`. -/
def AECM_BAD_PARAMETER_WARNING : Int := 12100

/-- `AecmConfig`. -/
structure AecmConfig where
  cngMode : Int
  echoMode : Int
  deriving DecidableEq, Repr

/-- `AecMobile`; `farendBuf` and `aecmCore` are the objects the two pointers refer to. -/
structure AecMobile where
  sampFreq : Int
  scSampFreq : Int
  bufSizeStart : Int
  knownDelay : Int
  farendOld : List (List Int)
  initFlag : Int
  counter : Int
  sum : Int
  firstVal : Int
  checkBufSizeCtr : Int
  msInSndCardBuf : Int
  filtDelay : Int
  timeForDelayChange : Int
  ECstartup : Int
  checkBuffSize : Int
  delayChange : Int
  lastDelayDiff : Int
  echoMode : Int
  farendBuf : RingBuffer
  aecmCore : AecmCore

/-- `WebRtcAecm_Create` with successful allocations: `none` is `NULL`. The memory `malloc`
returns is not initialised; the model fills it with zeros. -/
def WebRtcAecm_Create : Option AecMobile :=
  match WebRtcAecm_CreateCore, WebRtc_CreateBuffer kBufSizeSamp 2 with
  | some core, some fb =>
    some
      { sampFreq := 0, scSampFreq := 0, bufSizeStart := 0, knownDelay := 0
        farendOld := List.replicate 2 (List.replicate FRAME_LEN 0), initFlag := 0
        counter := 0, sum := 0, firstVal := 0, checkBufSizeCtr := 0, msInSndCardBuf := 0
        filtDelay := 0, timeForDelayChange := 0, ECstartup := 0, checkBuffSize := 0
        delayChange := 0, lastDelayDiff := 0, echoMode := 0, farendBuf := fb
        aecmCore := core }
  | _, _ => none

/-- The gain parameters `WebRtcAecm_set_config` writes for echo mode `echoMode`,
lines 4432-4475. -/
def setEchoMode (core : AecmCore) (echoMode : Int) : AecmCore :=
  if echoMode = 0 then
    { core with
      supGain := shr SUPGAIN_DEFAULT 3
      supGainOld := shr SUPGAIN_DEFAULT 3
      supGainErrParamA := shr SUPGAIN_ERROR_PARAM_A 3
      supGainErrParamD := shr SUPGAIN_ERROR_PARAM_D 3
      supGainErrParamDiffAB := shr SUPGAIN_ERROR_PARAM_A 3 - shr SUPGAIN_ERROR_PARAM_B 3
      supGainErrParamDiffBD := shr SUPGAIN_ERROR_PARAM_B 3 - shr SUPGAIN_ERROR_PARAM_D 3 }
  else if echoMode = 1 then
    { core with
      supGain := shr SUPGAIN_DEFAULT 2
      supGainOld := shr SUPGAIN_DEFAULT 2
      supGainErrParamA := shr SUPGAIN_ERROR_PARAM_A 2
      supGainErrParamD := shr SUPGAIN_ERROR_PARAM_D 2
      supGainErrParamDiffAB := shr SUPGAIN_ERROR_PARAM_A 2 - shr SUPGAIN_ERROR_PARAM_B 2
      supGainErrParamDiffBD := shr SUPGAIN_ERROR_PARAM_B 2 - shr SUPGAIN_ERROR_PARAM_D 2 }
  else if echoMode = 2 then
    { core with
      supGain := shr SUPGAIN_DEFAULT 1
      supGainOld := shr SUPGAIN_DEFAULT 1
      supGainErrParamA := shr SUPGAIN_ERROR_PARAM_A 1
      supGainErrParamD := shr SUPGAIN_ERROR_PARAM_D 1
      supGainErrParamDiffAB := shr SUPGAIN_ERROR_PARAM_A 1 - shr SUPGAIN_ERROR_PARAM_B 1
      supGainErrParamDiffBD := shr SUPGAIN_ERROR_PARAM_B 1 - shr SUPGAIN_ERROR_PARAM_D 1 }
  else if echoMode = 3 then
    { core with
      supGain := SUPGAIN_DEFAULT
      supGainOld := SUPGAIN_DEFAULT
      supGainErrParamA := SUPGAIN_ERROR_PARAM_A
      supGainErrParamD := SUPGAIN_ERROR_PARAM_D
      supGainErrParamDiffAB := SUPGAIN_ERROR_PARAM_A - SUPGAIN_ERROR_PARAM_B
      supGainErrParamDiffBD := SUPGAIN_ERROR_PARAM_B - SUPGAIN_ERROR_PARAM_D }
  else if echoMode = 4 then
    { core with
      supGain := shl SUPGAIN_DEFAULT 1
      supGainOld := shl SUPGAIN_DEFAULT 1
      supGainErrParamA := shl SUPGAIN_ERROR_PARAM_A 1
      supGainErrParamD := shl SUPGAIN_ERROR_PARAM_D 1
      supGainErrParamDiffAB := shl SUPGAIN_ERROR_PARAM_A 1 - shl SUPGAIN_ERROR_PARAM_B 1
      supGainErrParamDiffBD := shl SUPGAIN_ERROR_PARAM_B 1 - shl SUPGAIN_ERROR_PARAM_D 1 }
  else core

/-- `WebRtcAecm_set_config`: the return value and the instance afterwards (`none` is a
`NULL` instance pointer). -/
def WebRtcAecm_set_config (aecmInst : Option AecMobile) (config : AecmConfig) :
    Int × Option AecMobile :=
  match aecmInst with
  | none => (-1, none)
  | some aecm =>
    if aecm.initFlag ≠ kInitCheck then (AECM_UNINITIALIZED_ERROR, some aecm)
    else if config.cngMode ≠ AecmFalse ∧ config.cngMode ≠ AecmTrue then
      (AECM_BAD_PARAMETER_ERROR, some aecm)
    else
      let a1 : AecMobile :=
        { aecm with aecmCore := { aecm.aecmCore with cngMode := config.cngMode } }
      if config.echoMode < 0 ∨ config.echoMode > 4 then (AECM_BAD_PARAMETER_ERROR, some a1)
      else
        (0, some { a1 with
                   echoMode := config.echoMode
                   aecmCore := setEchoMode a1.aecmCore config.echoMode })

/-- `WebRtcAecm_Init`: the return value and the instance afterwards. -/
def WebRtcAecm_Init (aecmInst : Option AecMobile) (sampFreq : Int) : Int × Option AecMobile :=
  match aecmInst with
  | none => (-1, none)
  | some aecm =>
    if sampFreq ≠ 8000 ∧ sampFreq ≠ 16000 then (AECM_BAD_PARAMETER_ERROR, some aecm)
    else
      let a1 : AecMobile := { aecm with sampFreq := sampFreq }
      let ic := WebRtcAecm_InitCore a1.aecmCore a1.sampFreq
      if ic.1 = -1 then (AECM_UNSPECIFIED_ERROR, some { a1 with aecmCore := ic.2 })
      else
        let a2 : AecMobile :=
          { a1 with
            aecmCore := ic.2
            farendBuf := WebRtc_InitBuffer a1.farendBuf
            initFlag := kInitCheck
            delayChange := 1
            sum := 0
            counter := 0
            checkBuffSize := 1
            firstVal := 0
            ECstartup := 1
            bufSizeStart := 0
            checkBufSizeCtr := 0
            filtDelay := 0
            timeForDelayChange := 0
            knownDelay := 0
            lastDelayDiff := 0
            farendOld := List.replicate 2 (List.replicate FRAME_LEN 0) }
        let sc := WebRtcAecm_set_config (some a2) { cngMode := AecmTrue, echoMode := 3 }
        if sc.1 = -1 then (AECM_UNSPECIFIED_ERROR, sc.2) else (0, sc.2)

/-- `WebRtcAecm_GetBufferFarendError`; `farend = none` is a `NULL` buffer. -/
def WebRtcAecm_GetBufferFarendError (aecmInst : Option AecMobile)
    (farend : Option (List Int)) (nrOfSamples : Nat) : Int :=
  match aecmInst with
  | none => -1
  | some aecm =>
    if farend.isNone then AECM_NULL_POINTER_ERROR
    else if aecm.initFlag ≠ kInitCheck then AECM_UNINITIALIZED_ERROR
    else if nrOfSamples ≠ 80 ∧ nrOfSamples ≠ 160 then AECM_BAD_PARAMETER_ERROR
    else 0

/-- `WebRtcAecm_EstBufDelay`. -/
def WebRtcAecm_EstBufDelay (aecm : AecMobile) (msInSndCardBuf : Int) : AecMobile :=
  let nSampFar := toInt16 (WebRtc_available_read aecm.farendBuf)
  let nSampSndCard := toInt16 (msInSndCardBuf * kSampMsNb * aecm.aecmCore.mult)
  let delayNew0 := toInt16 (nSampSndCard - nSampFar)
  let moved := decide (delayNew0 < FRAME_LEN)
  let farendBuf :=
    if moved then (WebRtc_MoveReadPtr aecm.farendBuf FRAME_LEN).2 else aecm.farendBuf
  let delayNew := if moved then toInt16 (delayNew0 + FRAME_LEN) else delayNew0
  let fd := Int.tdiv (8 * aecm.filtDelay + 2 * delayNew) 10
  let filtDelay := toInt16 (if 0 > fd then 0 else fd)
  let diff := toInt16 (filtDelay - aecm.knownDelay)
  let timeForDelayChange : Int :=
    if diff > 224 then
      if aecm.lastDelayDiff < 96 then 0 else toInt32 (aecm.timeForDelayChange + 1)
    else if diff < 96 ∧ aecm.knownDelay > 0 then
      if aecm.lastDelayDiff > 224 then 0 else toInt32 (aecm.timeForDelayChange + 1)
    else 0
  { aecm with
    farendBuf := farendBuf
    filtDelay := filtDelay
    timeForDelayChange := timeForDelayChange
    lastDelayDiff := diff
    knownDelay :=
      if timeForDelayChange > 25 then
        (if filtDelay - 160 > 0 then filtDelay - 160 else 0)
      else aecm.knownDelay }

/-- `WebRtcAecm_DelayComp`. -/
def WebRtcAecm_DelayComp (aecm : AecMobile) : AecMobile :=
  let nSampFar := toInt32 (WebRtc_available_read aecm.farendBuf)
  let maxStuffSamp : Int := 10 * FRAME_LEN
  let nSampSndCard := toInt32 (aecm.msInSndCardBuf * kSampMsNb * aecm.aecmCore.mult)
  let delayNew := toInt32 (nSampSndCard - nSampFar)
  if delayNew > (FAR_BUF_LEN : Int) - FRAME_LEN * aecm.aecmCore.mult then
    let n0 := toInt32 (shr nSampSndCard 1 - nSampFar)
    let n1 : Int := if n0 > FRAME_LEN then n0 else FRAME_LEN
    let nSampAdd : Int := if n1 < maxStuffSamp then n1 else maxStuffSamp
    { aecm with
      farendBuf := (WebRtc_MoveReadPtr aecm.farendBuf (-nSampAdd)).2
      delayChange := 1 }
  else aecm

/-- `WebRtcAecm_BufferFarend`: the return value and the instance afterwards. -/
def WebRtcAecm_BufferFarend (aecmInst : Option AecMobile) (farend : Option (List Int))
    (nrOfSamples : Nat) : Int × Option AecMobile :=
  let err := WebRtcAecm_GetBufferFarendError aecmInst farend nrOfSamples
  if err ≠ 0 then (err, aecmInst)
  else
    match aecmInst, farend with
    | some aecm, some f =>
      let a1 := if aecm.ECstartup = 0 then WebRtcAecm_DelayComp aecm else aecm
      (0, some { a1 with farendBuf := (WebRtc_WriteBuffer a1.farendBuf f nrOfSamples).2 })
    | _, _ => (err, aecmInst)

/-- The start-up branch of `WebRtcAecm_Process`, lines 4294-4353, after the copy to `out`:
the buffer-size check and the decision to leave start-up. -/
def processStartup (aecm : AecMobile) (nBlocks10ms : Nat) : AecMobile :=
  let nmbrOfFilledBuffers :=
    toInt16 (Int.tdiv (toInt16 (WebRtc_available_read aecm.farendBuf)) FRAME_LEN)
  let a1 : AecMobile :=
    if aecm.checkBuffSize ≠ 0 then
      let b0 : AecMobile := { aecm with checkBufSizeCtr := toInt16 (aecm.checkBufSizeCtr + 1) }
      let b1 : AecMobile :=
        if b0.counter = 0 then { b0 with firstVal := b0.msInSndCardBuf, sum := 0 } else b0
      let scaled := F64.mul kPointTwo (F64.ofInt b1.msInSndCardBuf)
      let bound := if F64.lt (F64.ofInt kSampMsNb) scaled then scaled else F64.ofInt kSampMsNb
      let b2 : AecMobile :=
        if F64.lt (F64.ofInt (Int.natAbs (b1.firstVal - b1.msInSndCardBuf))) bound then
          { b1 with
            sum := toInt16 (b1.sum + b1.msInSndCardBuf)
            counter := toInt16 (b1.counter + 1) }
        else { b1 with counter := 0 }
      let b3 : AecMobile :=
        if toSizeT ((toSizeT b2.counter : Int) * nBlocks10ms) ≥ 6 then
          let q := Int.tdiv (3 * b2.sum * b2.aecmCore.mult) (b2.counter * 40)
          { b2 with
            bufSizeStart := toInt16 (if q < BUF_SIZE_FRAMES then q else BUF_SIZE_FRAMES)
            checkBuffSize := 0 }
        else b2
      if toSizeT ((toSizeT b3.checkBufSizeCtr : Int) * nBlocks10ms) > 50 then
        let q := Int.tdiv (3 * b3.msInSndCardBuf * b3.aecmCore.mult) 40
        { b3 with
          bufSizeStart := toInt16 (if q < BUF_SIZE_FRAMES then q else BUF_SIZE_FRAMES)
          checkBuffSize := 0 }
      else b3
    else aecm
  if a1.checkBuffSize = 0 then
    if nmbrOfFilledBuffers = a1.bufSizeStart then { a1 with ECstartup := 0 }
    else if nmbrOfFilledBuffers > a1.bufSizeStart then
      { a1 with
        farendBuf := (WebRtc_MoveReadPtr a1.farendBuf
          (toInt32 (toInt32 (WebRtc_available_read a1.farendBuf) -
            toInt32 (a1.bufSizeStart * FRAME_LEN)))).2
        ECstartup := 0 }
    else a1
  else a1

/-- The loop state of the frame loop of `WebRtcAecm_Process`. -/
structure ProcessLoop where
  aecm : AecMobile
  out : List Int
  failed : Bool

/-- One pass (frame `i`) of the frame loop of `WebRtcAecm_Process`, lines 4359-4398. -/
def processFrameStep (nearendNoisy : List Int) (nearendClean : Option (List Int))
    (st : ProcessLoop) (i : Nat) : ProcessLoop :=
  if st.failed then st
  else
    let aecm := st.aecm
    let nmbrOfFilledBuffers :=
      toInt16 (Int.tdiv (toInt16 (WebRtc_available_read aecm.farendBuf)) FRAME_LEN)
    let rd := WebRtc_ReadBuffer aecm.farendBuf FRAME_LEN
    let a1 : AecMobile :=
      if nmbrOfFilledBuffers > 0 then
        { aecm with
          farendBuf := rd.self
          farendOld := aecm.farendOld.set i
            (memcpyList (aecm.farendOld.getD i []) 0 rd.elements 0 FRAME_LEN) }
      else aecm
    let farend : List Int :=
      if nmbrOfFilledBuffers > 0 then rd.elements else aecm.farendOld.getD i []
    let a2 : AecMobile :=
      if (i = 0 ∧ a1.sampFreq = 8000) ∨ (i = 1 ∧ a1.sampFreq = 16000) then
        WebRtcAecm_EstBufDelay a1 a1.msInSndCardBuf
      else a1
    let r := WebRtcAecm_ProcessFrame a2.aecmCore farend (nearendNoisy.drop (FRAME_LEN * i))
      (nearendClean.map (fun c => c.drop (FRAME_LEN * i)))
      ((st.out.drop (FRAME_LEN * i)).take FRAME_LEN)
    { aecm := { a2 with aecmCore := r.2.1 }
      out := memcpyList st.out (FRAME_LEN * i) r.2.2 0 FRAME_LEN
      failed := decide (r.1 = -1) }

/-- `WebRtcAecm_Process`: the return value, the instance afterwards and the contents of
`out` afterwards. `none` is a `NULL` pointer; `nearendClean` may be `NULL`. The division
`nFrames / mult` is a `size_t` division; `WebRtcAecm_Init` sets `mult` to 1 or 2. -/
def WebRtcAecm_Process (aecmInst : Option AecMobile)
    (nearendNoisy nearendClean out : Option (List Int)) (nrOfSamples : Nat)
    (msInSndCardBuf : Int) : Int × Option AecMobile × Option (List Int) :=
  match aecmInst, nearendNoisy, out with
  | none, _, _ => (-1, aecmInst, out)
  | some _, none, _ => (AECM_NULL_POINTER_ERROR, aecmInst, out)
  | some _, some _, none => (AECM_NULL_POINTER_ERROR, aecmInst, out)
  | some aecm, some noisy, some o =>
    if aecm.initFlag ≠ kInitCheck then (AECM_UNINITIALIZED_ERROR, aecmInst, out)
    else if nrOfSamples ≠ 80 ∧ nrOfSamples ≠ 160 then (AECM_BAD_PARAMETER_ERROR, aecmInst, out)
    else
      let retVal : Int :=
        if msInSndCardBuf < 0 then AECM_BAD_PARAMETER_WARNING
        else if msInSndCardBuf > 500 then AECM_BAD_PARAMETER_WARNING
        else 0
      let ms0 : Int :=
        if msInSndCardBuf < 0 then 0 else if msInSndCardBuf > 500 then 500 else msInSndCardBuf
      let a0 : AecMobile := { aecm with msInSndCardBuf := toInt16 (ms0 + 10) }
      let nFrames := nrOfSamples / FRAME_LEN
      let nBlocks10ms := nFrames / toSizeT a0.aecmCore.mult
      if a0.ECstartup ≠ 0 then
        let o1 :=
          match nearendClean with
          | none => memcpyList o 0 noisy 0 nrOfSamples
          | some c => memcpyList o 0 c 0 nrOfSamples
        (retVal, some (processStartup a0 nBlocks10ms), some o1)
      else
        let l := forRange nFrames (processFrameStep noisy nearendClean)
          { aecm := a0, out := o, failed := false }
        if l.failed then (-1, some l.aecm, some l.out) else (retVal, some l.aecm, some l.out)

/-- `WebRtcAecm_echo_path_size_bytes`. -/
def WebRtcAecm_echo_path_size_bytes : Nat := PART_LEN1 * 2

/-- `WebRtcAecm_InitEchoPath`; `echo_path = none` is a `NULL` pointer. -/
def WebRtcAecm_InitEchoPath (aecmInst : Option AecMobile) (echo_path : Option (List Int))
    (size_bytes : Nat) : Int × Option AecMobile :=
  match aecmInst, echo_path with
  | none, _ => (-1, aecmInst)
  | some _, none => (AECM_NULL_POINTER_ERROR, aecmInst)
  | some aecm, some p =>
    if size_bytes ≠ WebRtcAecm_echo_path_size_bytes then (AECM_BAD_PARAMETER_ERROR, aecmInst)
    else if aecm.initFlag ≠ kInitCheck then (AECM_UNINITIALIZED_ERROR, aecmInst)
    else (0, some { aecm with aecmCore := WebRtcAecm_InitEchoPathCore aecm.aecmCore p })

/-- `WebRtcAecm_GetEchoPath`: the return value and the contents of `echo_path` afterwards. -/
def WebRtcAecm_GetEchoPath (aecmInst : Option AecMobile) (echo_path : Option (List Int))
    (size_bytes : Nat) : Int × Option (List Int) :=
  match aecmInst, echo_path with
  | none, _ => (-1, echo_path)
  | some _, none => (AECM_NULL_POINTER_ERROR, echo_path)
  | some aecm, some p =>
    if size_bytes ≠ WebRtcAecm_echo_path_size_bytes then (AECM_BAD_PARAMETER_ERROR, echo_path)
    else if aecm.initFlag ≠ kInitCheck then (AECM_UNINITIALIZED_ERROR, echo_path)
    else (0, some (memcpyList p 0 aecm.aecmCore.channelStored 0 PART_LEN1))


/-- Consistency of the two cursors of a ring buffer with its wrap flag. -/
def RingInv (b : RingBuffer) : Prop :=
  (b.rw_wrap = Wrap.SAME_WRAP → b.read_pos ≤ b.write_pos ∧ b.write_pos ≤ b.element_count) ∧
  (b.rw_wrap = Wrap.DIFF_WRAP → b.write_pos ≤ b.read_pos ∧ b.read_pos ≤ b.element_count)

/-- Storage index of the `i`-th readable element of a ring with capacity `N` and read
cursor `r`. -/
def ringIndex (N r i : Nat) : Nat := if r + i < N then r + i else r + i - N

/-- The first `m` elements in read order, as stored. -/
def ringSlice (b : RingBuffer) (m : Nat) : List Int :=
  (List.range m).map (fun i => b.data (ringIndex b.element_count b.read_pos i))

/-- A buffer of 2^31 one-byte elements, as `WebRtc_CreateBuffer(2147483648, 1)` returns it. -/
def bigRing : RingBuffer :=
  { read_pos := 0, write_pos := 0, element_count := 2147483648, element_size := 1,
    rw_wrap := Wrap.SAME_WRAP, data := fun _ => 0 }

/-- The state of `bigRing` after `WebRtc_InitBuffer`, `WebRtc_WriteBuffer` of the single
element 5 and `WebRtc_MoveReadPtr(-1)`. -/
def bigRingMoved : RingBuffer :=
  (WebRtc_MoveReadPtr (WebRtc_WriteBuffer (WebRtc_InitBuffer bigRing) [5] 1).2 (-1)).2

/-- The far-end FIFO of an instance: `WebRtc_CreateBuffer(kBufSizeSamp, sizeof(int16_t))`
with `kBufSizeSamp = BUF_SIZE_FRAMES * FRAME_LEN = 4000`. -/
def farendRing : RingBuffer :=
  { read_pos := 0, write_pos := 0, element_count := 4000, element_size := 2,
    rw_wrap := Wrap.SAME_WRAP, data := fun _ => 0 }

/-! ### Objects used in the statements -/

/-- The instance `WebRtcAecm_Create` returns. -/
def createdInstance : AecMobile := WebRtcAecm_Create.get (by rfl)

/-- The instance after `WebRtcAecm_Create` and `WebRtcAecm_Init(8000)`. -/
def initialisedInstance : AecMobile :=
  ((WebRtcAecm_Init (some createdInstance) 8000).2).getD createdInstance

/-- The shift the interface description gives for echo mode `m`: `x >> (3 - m)` for
`m <= 3` and `x << 1` for `m = 4`. -/
def specShift (m : Int) (x : Int) : Int :=
  if m ≤ 3 then x / 2 ^ (3 - m).toNat else x * 2


/-- A list of Q14 gains: `PART_LEN1` entries, each in `[0, ONE_Q14]` (reads outside the
list give 0). -/
def GainList (l : List Int) : Prop :=
  l.length = PART_LEN1 ∧ ∀ i : Nat, 0 ≤ l.getD i 0 ∧ l.getD i 0 ≤ 16384

/-- The states of a far-end/near-end pair of binary delay estimators that are reachable
from `WebRtc_InitBinaryDelayEstimatorFarend(f0)` and `WebRtc_InitBinaryDelayEstimator(e0)`
by `WebRtc_AddBinaryFarSpectrum` and `WebRtc_ProcessBinarySpectrum` calls; the spectra are
`uint32_t` values. -/
inductive DelayReachable (f0 : BinaryDelayEstimatorFarend) (e0 : BinaryDelayEstimator) :
    BinaryDelayEstimatorFarend → BinaryDelayEstimator → Prop where
  | init : DelayReachable f0 e0 (WebRtc_InitBinaryDelayEstimatorFarend f0)
      (WebRtc_InitBinaryDelayEstimator e0)
  | add {f : BinaryDelayEstimatorFarend} {e : BinaryDelayEstimator} (x : Int) :
      0 ≤ x → x < 4294967296 → DelayReachable f0 e0 f e →
      DelayReachable f0 e0 (WebRtc_AddBinaryFarSpectrum f x) e
  | process {f : BinaryDelayEstimatorFarend} {e : BinaryDelayEstimator} (x : Int) :
      0 ≤ x → x < 4294967296 → DelayReachable f0 e0 f e →
      DelayReachable f0 e0 f (WebRtc_ProcessBinarySpectrum e f x).2

/-- What the delay estimator keeps true: far-end bit counts in `[0, 32]`, mean bit counts in
`[0, kMaxBitCountsQ9)` and `last_delay` either -2 or a valid history index. -/
def DelayInv (f : BinaryDelayEstimatorFarend) (e : BinaryDelayEstimator) : Prop :=
  (∀ i : Nat, (i : Int) < f.history_size →
    0 ≤ f.far_bit_counts.getD i 0 ∧ f.far_bit_counts.getD i 0 ≤ 32) ∧
  (∀ i : Nat, (i : Int) < e.history_size →
    0 ≤ e.mean_bit_counts.getD i 0 ∧ e.mean_bit_counts.getD i 0 < 16384) ∧
  (e.last_delay = -2 ∨ (0 ≤ e.last_delay ∧ e.last_delay < e.history_size))

/-- A far end with three history entries, as `WebRtc_CreateBinaryDelayEstimatorFarend(3)`
returns it. -/
def delayFarend0 : BinaryDelayEstimatorFarend :=
  (WebRtc_CreateBinaryDelayEstimatorFarend 3).get (by rfl)

/-- The estimator `WebRtc_CreateBinaryDelayEstimator(delayFarend0, 0)` returns. -/
def delayEstimator0 : BinaryDelayEstimator :=
  (WebRtc_CreateBinaryDelayEstimator delayFarend0 0).get (by rfl)


/-- A buffer of 3221225472 one-byte elements, as `WebRtc_CreateBuffer(3221225472, 1)`
returns it. -/
def hugeRing : RingBuffer :=
  { read_pos := 0, write_pos := 0, element_count := 3221225472, element_size := 1,
    rw_wrap := Wrap.SAME_WRAP, data := fun _ => 0 }

/-- The `(value, root)` pair of `WebRtcSpl_SqrtFloor` after its first `k` iterations. -/
def sqrtState (value : Int) (k : Nat) : Int × Int :=
  ([15, 14, 13, 12, 11, 10, 9, 8, 7, 6, 5, 4, 3, 2, 1, 0].take k).foldl
    (fun vr N => WEBRTC_SPL_SQRT_ITER N vr) (value, 0)

/-- The values `WEBRTC_SPL_SQRT_ITER(N)` computes from the pair `(value, root)`, taken as
exact integers, all lie in the `int32_t` range: `1 << N`, `try1`, `try1 << N`, and, when
the branch is taken, `value - (try1 << N)`, `2 << N` and the new `root`. -/
def SqrtIterInRange (N : Nat) (vr : Int × Int) : Prop :=
  shl 1 N ≤ 2147483647 ∧
  -2147483648 ≤ vr.2 + shl 1 N ∧ vr.2 + shl 1 N ≤ 2147483647 ∧
  -2147483648 ≤ shl (vr.2 + shl 1 N) N ∧ shl (vr.2 + shl 1 N) N ≤ 2147483647 ∧
  (vr.1 ≥ shl (vr.2 + shl 1 N) N →
    -2147483648 ≤ vr.1 - shl (vr.2 + shl 1 N) N ∧
    vr.1 - shl (vr.2 + shl 1 N) N ≤ 2147483647 ∧
    shl 2 N ≤ 2147483647 ∧
    0 ≤ Int.lor vr.2 (shl 2 N) ∧ Int.lor vr.2 (shl 2 N) ≤ 2147483647)

/-- What `WebRtcSpl_SqrtFloor` keeps true while `m` iterations remain: `root` is twice a
partial root `r`, a multiple of `2 ^ m`, with `value = v0 - r * r` and
`r * r ≤ v0 < (r + 2 ^ m) ^ 2`; `q` stands for `r * r`. -/
def SqrtInv (m : Nat) (v0 : Int) (vr : Int × Int) : Prop :=
  ∃ r q k : Int, q = r * r ∧ 0 ≤ k ∧ vr.2 = 2 * r ∧ vr.1 = v0 - q ∧ r = 2 ^ m * k ∧
    q ≤ v0 ∧ v0 < q + 2 ^ (m + 1) * r + 4 ^ m


/-- The number of ones among the 32 low bits of `x`: the population count of a
`uint32_t`. -/
def popCount32 (x : Int) : Int :=
  ((List.range 32).map (fun i => shr x i % 2)).sum

/-- The number of bit positions below 32 in which `a` and `b` differ. -/
def hammingDistance32 (a b : Int) : Int :=
  ((List.range 32).map (fun i => if shr a i % 2 = shr b i % 2 then (0 : Int) else 1)).sum

/-- The core `b` has the frame ring buffers `farFrameBuf` and `outFrameBuf`, the `nlpFlag`
and the `far_history_pos` of the core `a`. -/
def CoreFrame (a b : AecmCore) : Prop :=
  b.farFrameBuf = a.farFrameBuf ∧ b.outFrameBuf = a.outFrameBuf ∧ b.nlpFlag = a.nlpFlag ∧
    b.far_history_pos = a.far_history_pos

/-- The values `processBlockFront` hands on for a block of silence at both ends on the core
`aecm`: all spectra zero, Q-domains 0. -/
def zeroBlockFront : BlockFront :=
  { core := initialisedInstance.aecmCore
    dfw := List.replicate PART_LEN1 ComplexInt16.zero
    dfaNoisy := List.replicate PART_LEN1 0
    dfaNoisySum := 0
    ptrDfaClean := List.replicate PART_LEN1 0
    zerosDBufNoisy := 0
    xfa := List.replicate PART_LEN1 0
    far_q := 0 }
/-- The cores reachable from a `WebRtcAecm_InitCore(c0, fs)` that returned 0 by `n` calls of
`WebRtcAecm_UpdateFarHistory` or `WebRtcAecm_ProcessBlock`, with any arguments. -/
inductive CoreReachable (c0 : AecmCore) (fs : Int) : Nat → AecmCore → Prop where
  | init : (WebRtcAecm_InitCore c0 fs).1 = 0 →
      CoreReachable c0 fs 0 (WebRtcAecm_InitCore c0 fs).2
  | update {n : Nat} {a : AecmCore} (far_spectrum : List Int) (far_q : Int) :
      CoreReachable c0 fs n a →
      CoreReachable c0 fs (n + 1) (WebRtcAecm_UpdateFarHistory a far_spectrum far_q)
  | block {n : Nat} {a : AecmCore} (farend nearendNoisy : List Int)
      (nearendClean : Option (List Int)) (output : List Int) :
      CoreReachable c0 fs n a →
      CoreReachable c0 fs (n + 1)
        (WebRtcAecm_ProcessBlock a farend nearendNoisy nearendClean output).2.1

/-- The `buffer_position` that `WebRtcAecm_AlignedFarend` computes from `far_history_pos` and
`delay`. -/
def alignedBufferPosition (self : AecmCore) (delay : Int) : Int :=
  let bp0 := toInt32 (self.far_history_pos - delay)
  if bp0 < 0 then toInt32 (bp0 + MAX_DELAY) else bp0

/-- The core after one `WebRtcAecm_UpdateFarHistory` call for each (spectrum, Q-domain) pair
of `calls`, in order. -/
def updateFarHistoryCalls (a : AecmCore) (calls : List (List Int × Int)) : AecmCore :=
  calls.foldl (fun s c => WebRtcAecm_UpdateFarHistory s c.1 c.2) a

/-- The conversion of `spectrum[i]` from Q(`q_domain`) to Q15 in `BinarySpectrumFix`:
`((int32_t) spectrum[i]) << (15 - q_domain)`. -/
def spectrumQ15 (spectrum : List Int) (q_domain : Int) (i : Nat) : Int :=
  toInt32 (shl (spectrum.getD i 0) (15 - q_domain).toNat)

/-- The threshold of bin `i` after the seeding pass of `BinarySpectrumFix`: half of the Q15
spectrum where the thresholds are not yet initialized and `spectrum[i] > 0`, the stored
threshold otherwise. -/
def seededThreshold (spectrum threshold_spectrum : List Int) (q_domain : Int)
    (threshold_initialized : Int) (i : Nat) : Int :=
  if threshold_initialized = 0 ∧ spectrum.getD i 0 > 0 then
    shr (spectrumQ15 spectrum q_domain i) 1
  else threshold_spectrum.getD i 0

/-- The first block of `WebRtcAecm_UpdateChannel`, up to `END: Adaptive channel update`: the
core after the NLMS update of the adaptive channel. -/
def updateChannelAdapt (aecm : AecmCore) (far_spectrum : List Int) (far_q : Int)
    (dfa : List Int) (mu : Int) : AecmCore :=
  if mu ≠ 0 then
    forRange PART_LEN1
      (fun (a : AecmCore) i =>
        let r := updateChannelBin a far_spectrum far_q dfa mu i
        if r.2 then
          { a with
            channelAdapt32 := a.channelAdapt32.set i r.1
            channelAdapt16 := a.channelAdapt16.set i (toInt16 (shr r.1 16)) }
        else a)
      aecm
  else aecm

/-- The second block of `WebRtcAecm_UpdateChannel`, lines 1071-1133, on the core `a1` the
adaptive channel update leaves: store or restore the channel. -/
def updateChannelStore (a1 : AecmCore) (far_spectrum echoEst : List Int) :
    AecmCore × List Int :=
  if a1.startupState = 0 ∧ a1.currentVADValue % 2 ≠ 0 then
    StoreAdaptiveChannelC a1 far_spectrum echoEst
  else
    let a2 : AecmCore :=
      if a1.farLogEnergy < a1.farEnergyMSE then { a1 with mseChannelCount := 0 }
      else { a1 with mseChannelCount := toInt16 (a1.mseChannelCount + 1) }
    if a2.mseChannelCount ≥ (MIN_MSE_COUNT : Int) + 10 then
      let m := mseSums a2
      let mseStored := m.1
      let mseAdapt := m.2
      let r : AecmCore × List Int :=
        if toInt32 (shl mseStored MSE_RESOLUTION) < toInt32 (MIN_MSE_DIFF * mseAdapt) ∧
            toInt32 (shl a2.mseStoredOld MSE_RESOLUTION) <
              toInt32 (MIN_MSE_DIFF * a2.mseAdaptOld) then
          (ResetAdaptiveChannelC a2, echoEst)
        else if toInt32 (MIN_MSE_DIFF * mseStored) > toInt32 (shl mseAdapt MSE_RESOLUTION) ∧
            mseAdapt < a2.mseThreshold ∧ a2.mseAdaptOld < a2.mseThreshold then
          let s := StoreAdaptiveChannelC a2 far_spectrum echoEst
          let thr :=
            if s.1.mseThreshold = 2147483647 then toInt32 (mseAdapt + s.1.mseAdaptOld)
            else
              let scaled_threshold := Int.tdiv (toInt32 (s.1.mseThreshold * 5)) 8
              toInt32 (s.1.mseThreshold +
                shr (toInt32 (toInt32 (mseAdapt - scaled_threshold) * 205)) 8)
          ({ s.1 with mseThreshold := thr }, s.2)
        else (a2, echoEst)
      ({ r.1 with mseChannelCount := 0, mseStoredOld := mseStored, mseAdaptOld := mseAdapt },
        r.2)
    else (a2, echoEst)

/-- The sum of `|xs[i] - ys[i]|` over `i < n`. -/
def absDiffSum (xs ys : List Int) (n : Nat) : Int :=
  ((List.range n).map (fun (i : Nat) => |xs.getD i 0 - ys.getD i 0|)).sum

/-- The fields the NLMS update of the adaptive channel leaves alone and the channel
arbitration reads. -/
def MseFrame (a b : AecmCore) : Prop :=
  b.startupState = a.startupState ∧ b.currentVADValue = a.currentVADValue ∧
    b.farLogEnergy = a.farLogEnergy ∧ b.farEnergyMSE = a.farEnergyMSE ∧
    b.mseChannelCount = a.mseChannelCount ∧ b.nearLogEnergy = a.nearLogEnergy ∧
    b.echoStoredLogEnergy = a.echoStoredLogEnergy ∧
    b.echoAdaptLogEnergy = a.echoAdaptLogEnergy ∧ b.mseStoredOld = a.mseStoredOld ∧
    b.mseAdaptOld = a.mseAdaptOld ∧ b.mseThreshold = a.mseThreshold ∧
    b.channelStored = a.channelStored


/-! ### The leading-zero count with its assertion -/

/-- `__clz_uint32` with its `assert(v > 0)` made explicit: there is no result when the
assertion fails. -/
def clzAsserted (v : Int) : Option Int :=
  if v > 0 then some (__clz_uint32 v) else none

/-- `NormW32` over `clzAsserted`: the value of `NormW32`, or `none` when the call of
`__clz_uint32` violates the assertion. -/
def NormW32Asserted (a : Int) : Option Int :=
  if a = 0 then some 0
  else
    (clzAsserted (toUint32 (if a < 0 then -a - 1 else a))).map
      (fun c => toInt16 (toUint32 c - 1))

/-- `WebRtcSpl_NormW32` over `clzAsserted`. -/
def WebRtcSpl_NormW32Asserted (a : Int) : Option Int :=
  if a = 0 then some 0
  else
    (clzAsserted (toUint32 (if a < 0 then -a - 1 else a))).map
      (fun c => toInt16 (toUint32 c - 1))

/-- `WebRtcSpl_NormW16` over `clzAsserted`. -/
def WebRtcSpl_NormW16Asserted (a : Int) : Option Int :=
  if a = 0 then some 0
  else
    (clzAsserted (toUint32 (if a < 0 then -a - 1 else a))).map
      (fun c => toInt16 (toUint32 c - 17))

/-- The number `r` is the number of steps `a` can be shifted left inside the signed range
`[-W, W)`: shifting by `r` stays inside and shifting by `r + 1` leaves it. -/
def IsNormShift (W a r : Int) : Prop :=
  0 ≤ r ∧ (-W ≤ a * 2 ^ r.toNat ∧ a * 2 ^ r.toNat < W) ∧
    ¬ (-W ≤ a * 2 ^ (r.toNat + 1) ∧ a * 2 ^ (r.toNat + 1) < W)

/-- The condition `non_stationary_farend && valid_candidate` of line 2905 of
`WebRtc_ProcessBinarySpectrum`, with `valid_candidate` as it stands after the robust
validation: the call updates the delay estimate. -/
def confirmsUpdate (self : BinaryDelayEstimator) (farend : BinaryDelayEstimatorFarend)
    (binary_near_spectrum : Int) : Bool :=
  let st := binaryStatistics self farend binary_near_spectrum
  let s2 :=
    if st.non_stationary_farend ≠ 0 then
      UpdateRobustValidationStatistics st.state st.candidate.candidate_delay st.valley_depth
        st.candidate.value_best_candidate
    else st.state
  let valid_candidate :=
    if s2.robust_validation_enabled ≠ 0 then
      RobustValidation s2 st.candidate.candidate_delay st.valid_candidate
        (HistogramBasedValidation s2 st.candidate.candidate_delay)
    else st.valid_candidate
  decide (st.non_stationary_farend ≠ 0 ∧ valid_candidate ≠ 0)

/-- One far-end spectrum followed by one near-end spectrum: `WebRtc_AddBinaryFarSpectrum`,
then `WebRtc_ProcessBinarySpectrum`. -/
def delayStep (s : BinaryDelayEstimatorFarend × BinaryDelayEstimator) (x : Int × Int) :
    BinaryDelayEstimatorFarend × BinaryDelayEstimator :=
  let f := WebRtc_AddBinaryFarSpectrum s.1 x.1
  (f, (WebRtc_ProcessBinarySpectrum s.2 f x.2).2)

/-- The pair `delayFarend0`, `delayEstimator0` after the two initialisations and a
sequence of (far-end spectrum, near-end spectrum) pairs. -/
def delayRun (xs : List (Int × Int)) : BinaryDelayEstimatorFarend × BinaryDelayEstimator :=
  xs.foldl delayStep
    (WebRtc_InitBinaryDelayEstimatorFarend delayFarend0,
      WebRtc_InitBinaryDelayEstimator delayEstimator0)

/-- Seventeen pairs of (far-end, near-end) binary spectra: the far end alternates between
`0xFFFFFFFF` and `0x0000FFFF`, the near end repeats the far end in the even steps and is
0 in the odd steps. -/
def driftInputs : List (Int × Int) :=
  (List.range 17).map
    (fun i => if i % 2 = 0 then (4294967295, 4294967295) else (65535, 0))

/-- The arguments of one `WebRtcAecm_Process` call on an instance. -/
structure ProcessArgs where
  nearendNoisy : List Int
  nearendClean : Option (List Int)
  out : List Int
  nrOfSamples : Nat
  msInSndCardBuf : Int

/-- Consecutive `WebRtcAecm_Process` calls: the instance after the last call. -/
def processCalls (inst : Option AecMobile) : List ProcessArgs → Option AecMobile
  | [] => inst
  | c :: cs =>
    processCalls
      (WebRtcAecm_Process inst (some c.nearendNoisy) c.nearendClean (some c.out)
        c.nrOfSamples c.msInSndCardBuf).2.1 cs

/-- What `WebRtcAecm_Process` keeps true of the start-up check after `k` calls: the
instance is initialised, and either the check has ended with `bufSizeStart` in `[0, 50]`,
or it is still running in start-up mode after at most 50 calls, with at most 5 stable
values counted and, when any is counted, summed. -/
def StartupCheck (mult : Int) (k : Nat) (a : AecMobile) : Prop :=
  a.initFlag = 42 ∧
    ((a.checkBuffSize = 0 ∧ 0 ≤ a.bufSizeStart ∧ a.bufSizeStart ≤ 50) ∨
      (a.checkBuffSize ≠ 0 ∧ a.ECstartup ≠ 0 ∧ a.aecmCore.mult = mult ∧
        a.checkBufSizeCtr = (k : Int) ∧ k ≤ 50 ∧ 0 ≤ a.counter ∧ a.counter ≤ 5 ∧
        (a.counter ≠ 0 → 0 ≤ a.sum ∧ a.sum ≤ 510 * a.counter)))

/-- A call of 80 silent samples with latency 0. -/
def silentCall : ProcessArgs :=
  { nearendNoisy := List.replicate 80 0, nearendClean := none, out := List.replicate 80 0,
    nrOfSamples := 80, msInSndCardBuf := 0 }

/-- The core `b` has the far-end time buffer `farBuf` with its two cursors, the two known
delays and the `mult` of the core `a`. -/
def FarFrame (a b : AecmCore) : Prop :=
  b.farBuf = a.farBuf ∧ b.farBufWritePos = a.farBufWritePos ∧
    b.farBufReadPos = a.farBufReadPos ∧ b.knownDelay = a.knownDelay ∧
    b.lastKnownDelay = a.lastKnownDelay ∧ b.mult = a.mult

/-- The far-end time buffer between two `WebRtcAecm_ProcessFrame` calls: `FAR_BUF_LEN`
samples, both known delays 0, and the read cursor equal to the write cursor, in
`[0, FAR_BUF_LEN]`. -/
def FarInv (c : AecmCore) : Prop :=
  c.farBuf.length = FAR_BUF_LEN ∧ c.knownDelay = 0 ∧ c.lastKnownDelay = 0 ∧
    c.farBufReadPos = c.farBufWritePos ∧ 0 ≤ c.farBufWritePos ∧
    c.farBufWritePos ≤ (FAR_BUF_LEN : Int)

/-- The cores reachable from a successful `WebRtcAecm_InitCore(c0, fs)` by
`WebRtcAecm_ProcessFrame` calls. -/
inductive FrameReachable (c0 : AecmCore) (fs : Int) : AecmCore → Prop where
  | init : (WebRtcAecm_InitCore c0 fs).1 = 0 →
      FrameReachable c0 fs (WebRtcAecm_InitCore c0 fs).2
  | frame {a : AecmCore} (farend nearendNoisy : List Int)
      (nearendClean : Option (List Int)) (out : List Int) :
      FrameReachable c0 fs a →
      FrameReachable c0 fs
        (WebRtcAecm_ProcessFrame a farend nearendNoisy nearendClean out).2.1

/-- The part of `WebRtcAecm_ProcessBlock` that ends when `WebRtcAecm_UpdateChannel` returns,
for a block whose far-end magnitude spectrum is `xfa` (in Q-domain `far_q`) and whose
near-end spectrum is `dfaNoisy` with sum `dfaNoisySum`, with delay estimate 0:
`WebRtcAecm_UpdateFarHistory`, `WebRtcAecm_AlignedFarend`, `WebRtcAecm_CalcEnergies`,
`WebRtcAecm_CalcStepSize` and `WebRtcAecm_UpdateChannel`. -/
def channelStep (aecm : AecmCore) (xfa : List Int) (far_q : Int) (dfaNoisy : List Int)
    (dfaNoisySum : Int) : AecmCore :=
  (processBlockChannel (WebRtcAecm_UpdateFarHistory aecm xfa far_q) 0 dfaNoisy
    dfaNoisySum).core

/-- The far-end magnitude spectrum (Q-domain 12) of a first block of 64 samples `4, -4, 4, ...`
after `WebRtcAecm_InitCore(8000)`. -/
def farSpectrumQuiet : List Int :=
  [63, 65, 63, 65, 64, 65, 63, 65, 64, 66, 65, 67, 65, 68, 67, 69, 68, 69, 69, 72, 71, 75, 73,
   76, 75, 79, 79, 82, 81, 85, 84, 89, 89, 94, 94, 99, 99, 105, 106, 113, 112, 121, 123, 131,
   134, 144, 147, 159, 165, 180, 187, 206, 217, 243, 261, 296, 326, 381, 434, 536, 660, 917,
   1415, 3898, 5254]

/-- The far-end magnitude spectrum (Q-domain 2) of a following block of 64 samples
`8000, -8000, 8000, ...`. -/
def farSpectrumLoud : List Int :=
  [123, 127, 124, 126, 123, 127, 124, 127, 126, 130, 126, 131, 128, 132, 130, 134, 133, 138,
   136, 141, 140, 145, 144, 149, 148, 154, 152, 161, 159, 167, 166, 174, 174, 183, 184, 194,
   194, 206, 207, 220, 222, 236, 240, 256, 262, 281, 288, 312, 323, 351, 367, 404, 426, 475,
   509, 579, 636, 745, 849, 1047, 1288, 1790, 2762, 7612, 10269]

/-- The far-end magnitude spectrum (Q-domain 2) of a third block, again 64 samples
`8000, -8000, 8000, ...`. -/
def farSpectrumLoud2 : List Int :=
  [3, 3, 3, 3, 3, 3, 4, 4, 3, 3, 3, 3, 3, 3, 3, 4, 4, 4, 4, 4, 4, 4, 4, 4, 4, 5, 4, 5, 4, 6, 5,
   6, 5, 6, 7, 7, 8, 8, 9, 9, 10, 11, 11, 13, 14, 15, 16, 18, 20, 24, 27, 32, 36, 43, 51, 65,
   79, 105, 140, 208, 317, 586, 1331, 6785, 20278]

/-- The core after `WebRtcAecm_CreateCore` and `WebRtcAecm_InitCore(8000)`. -/
def initialisedCore : AecmCore := (WebRtcAecm_InitCore createdInstance.aecmCore 8000).2

/-- The core state when `WebRtcAecm_UpdateChannel` returns in the third of three blocks with
a silent near end and the far-end spectra `farSpectrumQuiet`, `farSpectrumLoud`,
`farSpectrumLoud2`. -/
def thirdBlockCore : AecmCore :=
  channelStep
    (channelStep
      (channelStep initialisedCore farSpectrumQuiet 12 (List.replicate PART_LEN1 0) 0)
      farSpectrumLoud 2 (List.replicate PART_LEN1 0) 0)
    farSpectrumLoud2 2 (List.replicate PART_LEN1 0) 0

/-- The instance after `WebRtcAecm_Create`, `WebRtcAecm_Init(8000)` and six
`WebRtcAecm_Process` calls of 80 silent samples with latency 0: the start-up phase has
ended (armed). -/
def armedInstance : AecMobile :=
  (processCalls (WebRtcAecm_Init (some createdInstance) 8000).2
    (List.replicate 6 silentCall)).getD createdInstance

/-- A frame ring buffer of `FRAME_LEN + PART_LEN = 144` elements, as
`WebRtcAecm_CreateCore` allocates it, that holds `n` readable elements. -/
def RingOcc (b : RingBuffer) (n : Nat) : Prop :=
  RingInv b ∧ b.element_count = 144 ∧ WebRtc_available_read b = n

/-- The value of `size` in `WebRtcAecm_ProcessFrame` (line 711): the number of samples in
`outFrameBuf` when the block loop has ended; the stuffing branch is taken when it is
below `FRAME_LEN`. `none` when the block loop has failed. -/
def processFrameSize (aecm : AecmCore) (farend nearendNoisy : List Int)
    (nearendClean : Option (List Int)) : Option Int :=
  let a0 := WebRtcAecm_BufferFarFrame aecm farend FRAME_LEN
  let fetch := WebRtcAecm_FetchFarFrame a0 FRAME_LEN a0.knownDelay
  let a1 := fetch.2
  let a2 : AecmCore :=
    { a1 with
      farFrameBuf := (WebRtc_WriteBuffer a1.farFrameBuf fetch.1 FRAME_LEN).2
      nearNoisyFrameBuf := (WebRtc_WriteBuffer a1.nearNoisyFrameBuf nearendNoisy FRAME_LEN).2
      nearCleanFrameBuf :=
        match nearendClean with
        | none => a1.nearCleanFrameBuf
        | some c => (WebRtc_WriteBuffer a1.nearCleanFrameBuf c FRAME_LEN).2 }
  let l := processFrameLoop nearendClean.isSome
    (WebRtc_available_read a2.farFrameBuf / PART_LEN + 1) { core := a2, failed := false }
  if l.failed then none
  else some (toInt32 (WebRtc_available_read l.core.outFrameBuf))

/-- The numbers of samples left in `farFrameBuf` and in `outFrameBuf` after `n`
successful `WebRtcAecm_ProcessFrame` calls: each call adds 80 far-end samples, takes
them out in blocks of 64, adds 64 output samples per block and takes 80 out, after
stuffing up to 80 if there are fewer. -/
def frameOccupancy : Nat → Nat × Nat
  | 0 => (0, 0)
  | n + 1 =>
    let p := frameOccupancy n
    ((p.1 + 80) % 64, max (p.2 + 64 * ((p.1 + 80) / 64)) 80 - 80)

/-- The cores after a successful `WebRtcAecm_InitCore(c0, fs)` and `n`
`WebRtcAecm_ProcessFrame` calls with arbitrary arguments. -/
inductive FrameRun (c0 : AecmCore) (fs : Int) : Nat → AecmCore → Prop where
  | init : (WebRtcAecm_InitCore c0 fs).1 = 0 →
      FrameRun c0 fs 0 (WebRtcAecm_InitCore c0 fs).2
  | frame {n : Nat} {a : AecmCore} (farend nearendNoisy : List Int)
      (nearendClean : Option (List Int)) (out : List Int) :
      FrameRun c0 fs n a →
      FrameRun c0 fs (n + 1)
        (WebRtcAecm_ProcessFrame a farend nearendNoisy nearendClean out).2.1

/-! ### Call sequences of the application interface -/

/-- The far-end magnitude spectrum (Q-domain 8) of a block of the alternating signal
`113, -113, 113, ...`, as `TimeToFrequencyDomain` computes it and
`WebRtcAecm_AlignedFarend` hands it to `WebRtcAecm_CalcEnergies`. -/
def quietFarSpectrum : List Int :=
  [3, 3, 2, 3, 3, 3, 3, 3, 3, 3, 3, 3, 4, 4, 3, 4, 3, 3, 3, 4, 3, 4, 4, 4, 4, 4, 4, 4, 4, 5, 5,
   6, 5, 6, 6, 7, 7, 8, 8, 8, 9, 10, 10, 11, 12, 13, 15, 17, 18, 21, 24, 28, 32, 39, 46, 58,
   71, 96, 127, 188, 287, 529, 1203, 6133, 18332]

/-- The core on which block 1616 of the following run calls `WebRtcAecm_CalcEnergies`, in
the fields that function reads (the other fields are those of the created core).
The run: `WebRtcAecm_Init` at 8000 Hz, then for each 80-sample frame `WebRtcAecm_BufferFarend`
and `WebRtcAecm_Process` with a silent near end and latency 0. The far end is 418 frames of
the alternating signal `39, -39, ...`, then 800 frames of full-scale noise (sample by sample
`s := IncreaseSeed s` from `s = 1`, the sample being `32767` if `s >= 2^30` and `-32767`
otherwise), then frames of the alternating signal `113, -113, ...`. The far-end level
estimates have followed the noise for 1000 blocks when the first quiet block arrives. -/
def dropBlockCore : AecmCore :=
  { createdInstance.aecmCore with
    totCount := 1615
    startupState := 2
    dfaNoisyQDomain := 0
    nearLogEnergy := List.replicate MAX_BUF_LEN 896
    echoAdaptLogEnergy := List.replicate MAX_BUF_LEN 896
    echoStoredLogEnergy := List.replicate MAX_BUF_LEN 896
    channelStored := List.replicate PART_LEN1 0
    channelAdapt16 := List.replicate PART_LEN1 0
    farLogEnergy := 5069
    farEnergyMin := 3159
    farEnergyMax := 5202
    farEnergyMaxMin := 2043
    farEnergyVAD := 2592
    farEnergyMSE := 2848
    vadUpdateCount := 1001
    currentVADValue := 1
    firstVAD := 0 }

/-- The core `b` has the two delay estimators of the core `a`. -/
def EstFrame (a b : AecmCore) : Prop :=
  b.delay_estimator_farend = a.delay_estimator_farend ∧ b.delay_estimator = a.delay_estimator

/-- What `WebRtcAecm_CreateCore` fixes in the two delay estimators of a core: both work on
spectra of `PART_LEN1` bins, the far end keeps at least 44 thresholds, and the two history
sizes are equal. -/
def EstimatorShape (c : AecmCore) : Prop :=
  c.delay_estimator_farend.spectrum_size = PART_LEN1 ∧
    c.delay_estimator.spectrum_size = PART_LEN1 ∧
    c.delay_estimator_farend.binary_farend.history_size =
      c.delay_estimator.binary_handle.history_size ∧
    44 ≤ c.delay_estimator_farend.mean_far_spectrum.length

/-- The state of the two delay estimators of a core between two block-engine calls:
`EstimatorShape` and the invariant `DelayInv` of the binary estimators. -/
def EngineInv (c : AecmCore) : Prop :=
  EstimatorShape c ∧
    DelayInv c.delay_estimator_farend.binary_farend c.delay_estimator.binary_handle

/-! ## Part II. Lemmas and theorems -/

/-! ### Ring buffer -/

theorem ringInv_init (b0 : RingBuffer) : RingInv (WebRtc_InitBuffer b0) := by
  constructor <;> intro h <;> simp_all [WebRtc_InitBuffer]

theorem available_read_of_inv {b : RingBuffer} (hN : b.element_count ≤ INT_MAX)
    (h : RingInv b) :
    (b.rw_wrap = Wrap.SAME_WRAP → WebRtc_available_read b = b.write_pos - b.read_pos) ∧
    (b.rw_wrap = Wrap.DIFF_WRAP →
      WebRtc_available_read b = b.element_count - b.read_pos + b.write_pos) := by
  obtain ⟨h1, h2⟩ := h
  unfold INT_MAX at hN
  constructor
  · intro hs
    have := h1 hs
    simp only [WebRtc_available_read, hs, if_true, toSizeT]
    omega
  · intro hd
    have := h2 hd
    simp only [WebRtc_available_read, hd, toSizeT]
    simp
    omega

theorem available_read_le {b : RingBuffer} (hN : b.element_count ≤ INT_MAX)
    (h : RingInv b) : WebRtc_available_read b ≤ b.element_count := by
  obtain ⟨h1, h2⟩ := available_read_of_inv hN h
  obtain ⟨i1, i2⟩ := h
  cases hw : b.rw_wrap
  · have := h1 hw; have := i1 hw; omega
  · have := h2 hw; have := i2 hw; omega

theorem available_write_of_inv {b : RingBuffer} (hN : b.element_count ≤ INT_MAX)
    (h : RingInv b) :
    WebRtc_available_write b = b.element_count - WebRtc_available_read b := by
  have := available_read_le hN h
  unfold INT_MAX at hN
  simp only [WebRtc_available_write, toSizeT]
  omega

theorem toInt32_of_range {x : Int} (h1 : -2147483648 ≤ x) (h2 : x ≤ 2147483647) :
    toInt32 x = x := by
  unfold toInt32; omega

theorem toSizeT_of_nonneg {x : Int} (h1 : 0 ≤ x) (h2 : x ≤ 2147483647) :
    (toSizeT x : Int) = x := by
  unfold toSizeT; omega

theorem clamp_eq (k kc : Int) (A F : Nat) (hkc : kc = max (min k A) (-(F : Int))) :
    (if (if k > (A : Int) then (A : Int) else k) < -(F : Int) then -(F : Int)
      else if k > (A : Int) then (A : Int) else k) = kc ∧ -(F : Int) ≤ kc ∧ kc ≤ A := by
  subst hkc
  simp only [max_def, min_def]
  split_ifs <;> omega

theorem move_eval {b : RingBuffer} (k : Int) (N r A F : Nat) (hNe : b.element_count = N)
    (hre : b.read_pos = r) (hA : WebRtc_available_read b = A)
    (hF : WebRtc_available_write b = F) (hN : 2 * N ≤ 2147483647)
    (h1 : A ≤ N) (h2 : F ≤ N) (hr : r ≤ N) (kc : Int)
    (hkc : kc = max (min k A) (-(F : Int))) :
    WebRtc_MoveReadPtr b k = (kc,
      { b with
        read_pos := toSizeT (if (r : Int) + kc > N then (r : Int) + kc - N
          else if (r : Int) + kc < 0 then (r : Int) + kc + N else (r : Int) + kc)
        rw_wrap := if (r : Int) + kc > N then Wrap.SAME_WRAP
          else if (r : Int) + kc < 0 then Wrap.DIFF_WRAP else b.rw_wrap }) := by
  obtain ⟨e1, hkc1, hkc2⟩ := clamp_eq k kc A F hkc
  clear hkc
  simp only [WebRtc_MoveReadPtr, hA, hF, hNe, hre]
  clear hA hF hNe hre
  have hb : (-2147483648 ≤ (F : Int) ∧ (F : Int) ≤ 2147483647) ∧
      (-2147483648 ≤ (A : Int) ∧ (A : Int) ≤ 2147483647) ∧
      (-2147483648 ≤ -(F : Int) ∧ -(F : Int) ≤ 2147483647) ∧
      (-2147483648 ≤ (N : Int) ∧ (N : Int) ≤ 2147483647) ∧
      (-2147483648 ≤ (r : Int) ∧ (r : Int) ≤ 2147483647) ∧
      (-2147483648 ≤ (r : Int) + kc ∧ (r : Int) + kc ≤ 2147483647) ∧
      (-2147483648 ≤ (r : Int) + kc - N ∧ (r : Int) + kc - N ≤ 2147483647) := by
    clear e1; omega
  obtain ⟨bF, bA, bnF, bN, br, bp, bp1⟩ := hb
  simp only [toInt32_of_range bF.1 bF.2, toInt32_of_range bA.1 bA.2,
    toInt32_of_range bnF.1 bnF.2, toInt32_of_range bN.1 bN.2, toInt32_of_range br.1 br.2,
    e1, toInt32_of_range bp.1 bp.2]
  clear e1
  by_cases c1 : (r : Int) + kc > N
  · have c2 : ¬ ((r : Int) + kc - N < 0) := by omega
    simp only [c1, toInt32_of_range bp1.1 bp1.2, c2, decide_True, decide_False, if_true,
      if_false, Bool.false_eq_true]
  · by_cases c2 : (r : Int) + kc < 0
    · have bp2 : -2147483648 ≤ (r : Int) + kc + N ∧ (r : Int) + kc + N ≤ 2147483647 := by
        omega
      simp only [c1, toInt32_of_range bp2.1 bp2.2, c2, decide_True, decide_False, if_true,
        if_false, Bool.false_eq_true]
    · simp only [c1, c2, decide_True, decide_False, if_true, if_false, Bool.false_eq_true]

theorem ring_arith_move (N r w r' : Nat) (kc p' : Int) (wr wr' : Wrap)
    (hN : 2 * N ≤ 2147483647)
    (hs : wr = Wrap.SAME_WRAP → r ≤ w ∧ w ≤ N) (hd : wr = Wrap.DIFF_WRAP → w ≤ r ∧ r ≤ N)
    (hk1 : -((N : Int) - (if wr = Wrap.SAME_WRAP then (w : Int) - r else (N : Int) - r + w))
      ≤ kc)
    (hk2 : kc ≤ (if wr = Wrap.SAME_WRAP then (w : Int) - r else (N : Int) - r + w))
    (hp : p' = if (r : Int) + kc > N then (r : Int) + kc - N
          else if (r : Int) + kc < 0 then (r : Int) + kc + N else (r : Int) + kc)
    (hr' : 0 ≤ p' → p' ≤ 2147483647 → (r' : Int) = p')
    (hwr' : wr' = if (r : Int) + kc > N then Wrap.SAME_WRAP
          else if (r : Int) + kc < 0 then Wrap.DIFF_WRAP else wr) :
    (wr' = Wrap.SAME_WRAP → r' ≤ w ∧ w ≤ N) ∧ (wr' = Wrap.DIFF_WRAP → w ≤ r' ∧ r' ≤ N) ∧
    ((if wr' = Wrap.SAME_WRAP then (w : Int) - r' else (N : Int) - r' + w) =
      (if wr = Wrap.SAME_WRAP then (w : Int) - r else (N : Int) - r + w) - kc) := by
  cases wr
  · have := hs rfl
    simp only [if_true] at hk1 hk2
    by_cases c1 : (r : Int) + kc > N
    · omega
    · by_cases c2 : (r : Int) + kc < 0
      · simp only [c1, c2, if_true, if_false] at hp hwr'
        have := hr' (by omega) (by omega)
        subst hwr'
        simp only [if_true, if_false, true_implies, false_implies, true_and, and_true,
          reduceIte, reduceCtorEq]
        omega
      · simp only [c1, c2, if_false] at hp hwr'
        have := hr' (by omega) (by omega)
        subst hwr'
        simp only [if_true, if_false, true_implies, false_implies, true_and, and_true,
          reduceIte, reduceCtorEq]
        omega
  · have := hd rfl
    simp only [reduceCtorEq, if_false] at hk1 hk2
    by_cases c1 : (r : Int) + kc > N
    · simp only [c1, if_true] at hp hwr'
      have := hr' (by omega) (by omega)
      subst hwr'
      simp only [if_true, if_false, true_implies, false_implies, true_and, and_true,
        reduceIte, reduceCtorEq]
      omega
    · by_cases c2 : (r : Int) + kc < 0
      · omega
      · simp only [c1, c2, if_false] at hp hwr'
        have := hr' (by omega) (by omega)
        subst hwr'
        simp only [if_true, if_false, true_implies, false_implies, true_and, and_true,
          reduceIte, reduceCtorEq]
        omega

theorem available_read_cast {b : RingBuffer} (hN : b.element_count ≤ INT_MAX)
    (h : RingInv b) :
    (WebRtc_available_read b : Int) =
      if b.rw_wrap = Wrap.SAME_WRAP then (b.write_pos : Int) - b.read_pos
      else (b.element_count : Int) - b.read_pos + b.write_pos := by
  obtain ⟨h1, h2⟩ := available_read_of_inv hN h
  obtain ⟨i1, i2⟩ := h
  cases hw : b.rw_wrap
  · have := h1 hw; have := i1 hw; simp only [if_true]; omega
  · have := h2 hw; have := i2 hw; simp only [reduceCtorEq, if_false]; omega

theorem move_props {b : RingBuffer} (hN : 2 * b.element_count ≤ INT_MAX) (h : RingInv b)
    (k : Int) :
    RingInv (WebRtc_MoveReadPtr b k).2 ∧
    (WebRtc_MoveReadPtr b k).2.element_count = b.element_count ∧
    (WebRtc_MoveReadPtr b k).2.write_pos = b.write_pos ∧
    (WebRtc_MoveReadPtr b k).2.data = b.data ∧
    (WebRtc_MoveReadPtr b k).1 =
      max (min k (WebRtc_available_read b)) (-(WebRtc_available_write b : Int)) ∧
    (WebRtc_available_read (WebRtc_MoveReadPtr b k).2 : Int) =
      WebRtc_available_read b - (WebRtc_MoveReadPtr b k).1 := by
  have hN1 : b.element_count ≤ INT_MAX := by unfold INT_MAX at *; omega
  have hw := available_write_of_inv hN1 h
  have hle := available_read_le hN1 h
  have hac := available_read_cast hN1 h
  have hi := h
  obtain ⟨i1, i2⟩ := hi
  unfold INT_MAX at hN
  have hrN : b.read_pos ≤ b.element_count := by
    cases hwr : b.rw_wrap
    · have := i1 hwr; omega
    · have := i2 hwr; omega
  have hFle : WebRtc_available_write b ≤ b.element_count := by omega
  have hFc : (WebRtc_available_write b : Int) = b.element_count - WebRtc_available_read b := by
    omega
  have hev := move_eval k b.element_count b.read_pos (WebRtc_available_read b)
    (WebRtc_available_write b) rfl rfl rfl rfl hN hle hFle hrN _ rfl
  obtain ⟨-, hk1, hk2⟩ := clamp_eq k _ (WebRtc_available_read b) (WebRtc_available_write b) rfl
  generalize max (min k (WebRtc_available_read b : Int)) (-(WebRtc_available_write b : Int))
    = kc at hev hk1 hk2 ⊢
  rw [hFc, hac] at hk1
  rw [hac] at hk2
  have key := ring_arith_move b.element_count b.read_pos b.write_pos
    (WebRtc_MoveReadPtr b k).2.read_pos kc _ b.rw_wrap (WebRtc_MoveReadPtr b k).2.rw_wrap hN
    i1 i2 hk1 hk2 rfl (by rw [hev]; exact fun a c => toSizeT_of_nonneg a c) (by rw [hev])
  have hinv : RingInv (WebRtc_MoveReadPtr b k).2 := by
    have e1 : (WebRtc_MoveReadPtr b k).2.write_pos = b.write_pos := by rw [hev]
    have e2 : (WebRtc_MoveReadPtr b k).2.element_count = b.element_count := by rw [hev]
    unfold RingInv
    rw [e1, e2]
    exact ⟨key.1, key.2.1⟩
  have hN2 : (WebRtc_MoveReadPtr b k).2.element_count ≤ INT_MAX := by rw [hev]; exact hN1
  have hac2 := available_read_cast hN2 hinv
  refine ⟨hinv, by rw [hev], by rw [hev], by rw [hev], by rw [hev], ?_⟩
  rw [hac2, hac]
  have e3 : (WebRtc_MoveReadPtr b k).1 = kc := by rw [hev]
  rw [e3]
  have e1 : (WebRtc_MoveReadPtr b k).2.write_pos = b.write_pos := by rw [hev]
  have e2 : (WebRtc_MoveReadPtr b k).2.element_count = b.element_count := by rw [hev]
  rw [e1, e2]
  exact key.2.2

theorem toSizeT_sub {a b : Nat} (h : b ≤ a) (ha : a ≤ 4294967295) :
    toSizeT ((a : Int) - b) = a - b := by
  unfold toSizeT; omega

theorem toSizeT_add {a b : Nat} (ha : a ≤ 4294967295) (hb : b ≤ 4294967295) :
    toSizeT ((a : Int) + b) = a + b := by
  unfold toSizeT; omega

theorem toSizeT_zero_add {b : Nat} (hb : b ≤ 4294967295) :
    toSizeT ((0 : Int) + b) = b := by
  unfold toSizeT; omega

theorem write_eval {b : RingBuffer} (data : List Int) (n N w F : Nat)
    (hNe : b.element_count = N) (hwe : b.write_pos = w)
    (hF : WebRtc_available_write b = F) (hN : N ≤ 2147483647)
    (hw : w ≤ N) (hFN : F ≤ N) :
    WebRtc_WriteBuffer b data n =
      (min F n,
        if min F n > N - w then
          { b with
            data := memcpyIn (memcpyIn b.data w data 0 (N - w)) 0 data (N - w)
              (min F n - (N - w))
            write_pos := min F n - (N - w)
            rw_wrap := Wrap.DIFF_WRAP }
        else
          { b with
            data := memcpyIn b.data w data 0 (min F n)
            write_pos := w + min F n }) := by
  have hm : (if F < n then F else n) = min F n := by
    simp only [min_def]; split_ifs <;> omega
  have hmF : min F n ≤ F := min_le_left _ _
  simp only [WebRtc_WriteBuffer, hF, hNe, hwe, hm]
  clear hF hNe hwe hm
  generalize min F n = m at *
  have e0 : toSizeT ((N : Int) - w) = N - w := toSizeT_sub hw (by omega)
  have e3 : toSizeT ((m : Int) - m) = 0 := by
    have := @toSizeT_sub m m (le_refl _) (by omega); simpa using this
  have e4 : toSizeT ((w : Int) + m) = w + m := toSizeT_add (by omega) (by omega)
  simp only [e0, e3, e4]
  by_cases c : m > N - w
  · have e1 : toSizeT ((m : Int) - ((N - w : Nat) : Int)) = m - (N - w) :=
      toSizeT_sub (by omega) (by omega)
    have e2 : toSizeT ((m : Int) - ((m - (N - w) : Nat) : Int)) = N - w := by
      have := @toSizeT_sub m (m - (N - w)) (by omega) (by omega)
      rw [this]; omega
    have e5 : toSizeT ((0 : Int) + ((m - (N - w) : Nat) : Int)) = m - (N - w) :=
      toSizeT_zero_add (by omega)
    simp only [c, if_true, e1, e2, e5]
  · simp only [c, if_false]

theorem readRegion_wrap (mem : Nat → Int) (N r m : Nat) (hr : r ≤ N) (hm : N - r < m) :
    readRegion mem r (N - r) ++ readRegion mem 0 (m - (N - r)) =
      (List.range m).map (fun i => mem (ringIndex N r i)) := by
  have hsplit : m = (N - r) + (m - (N - r)) := by omega
  conv_rhs => rw [hsplit, List.range_add, List.map_append, List.map_map]
  unfold readRegion
  congr 1
  · apply List.map_congr_left
    intro i hi
    have := List.mem_range.mp hi
    simp only [ringIndex]
    rw [if_pos (by omega)]
  · apply List.map_congr_left
    intro i hi
    simp only [ringIndex, Function.comp]
    rw [if_neg (by omega)]
    congr 1
    omega

theorem readRegion_flat (mem : Nat → Int) (N r m : Nat) (hm : m ≤ N - r) :
    readRegion mem r m = (List.range m).map (fun i => mem (ringIndex N r i)) := by
  unfold readRegion
  apply List.map_congr_left
  intro i hi
  have := List.mem_range.mp hi
  simp only [ringIndex]
  rw [if_pos (by omega)]

theorem read_eval {b : RingBuffer} (n N r A : Nat)
    (hNe : b.element_count = N) (hre : b.read_pos = r)
    (hA : WebRtc_available_read b = A) (hN : N ≤ 2147483647) (hr : r ≤ N) (hAN : A ≤ N) :
    (WebRtc_ReadBuffer b n).read_count = min A n ∧
    (WebRtc_ReadBuffer b n).elements = ringSlice b (min A n) ∧
    (WebRtc_ReadBuffer b n).self = (WebRtc_MoveReadPtr b (min A n : Nat)).2 := by
  have hm : (if A < n then A else n) = min A n := by
    simp only [min_def]; split_ifs <;> omega
  have hmA : min A n ≤ A := min_le_left _ _
  have e0 : toSizeT ((N : Int) - r) = N - r := toSizeT_sub hr (by omega)
  simp only [WebRtc_ReadBuffer, GetBufferReadRegions, ringSlice, hA, hNe, hre, hm, e0]
  clear hA hNe hre hm e0
  generalize min A n = m at *
  have e6 : toInt32 ((m : Nat) : Int) = m := toInt32_of_range (by omega) (by omega)
  by_cases c : m > N - r
  · have e1 : toSizeT ((m : Int) - ((N - r : Nat) : Int)) = m - (N - r) :=
      toSizeT_sub (by omega) (by omega)
    have c2 : m - (N - r) > 0 := by omega
    simp only [c, if_true, e1, c2, e6, Option.getD_some, true_and]
    exact ⟨readRegion_wrap b.data N r m hr c, trivial⟩
  · have c2 : ¬ (0 > 0) := by omega
    simp only [c, if_false, e6, c2, true_and]
    exact ⟨readRegion_flat b.data N r m (by omega), trivial⟩

theorem write_mem_same (mem : Nat → Int) (d : List Int) (N r w m i : Nat)
    (h1 : r ≤ w) (h2 : w ≤ N) (hm : m ≤ N - (w - r)) (hi : i < (w - r) + m) :
    (if m > N - w then memcpyIn (memcpyIn mem w d 0 (N - w)) 0 d (N - w) (m - (N - w))
      else memcpyIn mem w d 0 m) (ringIndex N r i) =
    if i < w - r then mem (ringIndex N r i) else d.getD (i - (w - r)) 0 := by
  by_cases c : m > N - w
  · simp only [c, if_true, memcpyIn, ringIndex]
    split_ifs <;> first | omega | rfl | (congr 1; omega)
  · simp only [c, if_false, memcpyIn, ringIndex]
    split_ifs <;> first | omega | rfl | (congr 1; omega)

theorem write_mem_diff (mem : Nat → Int) (d : List Int) (N r w m i : Nat)
    (h1 : w ≤ r) (h2 : r ≤ N) (hm : m ≤ r - w) (hi : i < (N - r + w) + m) :
    (if m > N - w then memcpyIn (memcpyIn mem w d 0 (N - w)) 0 d (N - w) (m - (N - w))
      else memcpyIn mem w d 0 m) (ringIndex N r i) =
    if i < N - r + w then mem (ringIndex N r i) else d.getD (i - (N - r + w)) 0 := by
  by_cases c : m > N - w
  · omega
  · simp only [c, if_false, memcpyIn, ringIndex]
    split_ifs <;> first | omega | (congr 1; omega)

theorem write_props {b : RingBuffer} (hN : b.element_count ≤ INT_MAX) (h : RingInv b)
    (d : List Int) (n : Nat) :
    (WebRtc_WriteBuffer b d n).1 = min (WebRtc_available_write b) n ∧
    RingInv (WebRtc_WriteBuffer b d n).2 ∧
    (WebRtc_WriteBuffer b d n).2.element_count = b.element_count ∧
    (WebRtc_WriteBuffer b d n).2.read_pos = b.read_pos ∧
    WebRtc_available_read (WebRtc_WriteBuffer b d n).2 =
      WebRtc_available_read b + (WebRtc_WriteBuffer b d n).1 ∧
    (∀ i, i < WebRtc_available_read b + (WebRtc_WriteBuffer b d n).1 →
      (WebRtc_WriteBuffer b d n).2.data (ringIndex b.element_count b.read_pos i) =
        if i < WebRtc_available_read b then b.data (ringIndex b.element_count b.read_pos i)
        else d.getD (i - WebRtc_available_read b) 0) := by
  have hw := available_write_of_inv hN h
  have hle := available_read_le hN h
  obtain ⟨a1, a2⟩ := available_read_of_inv hN h
  have hi := h
  obtain ⟨i1, i2⟩ := hi
  have hN0 := hN
  unfold INT_MAX at hN
  have hwN : b.write_pos ≤ b.element_count := by
    cases hwr : b.rw_wrap
    · have := i1 hwr; omega
    · have := i2 hwr; omega
  have hFle : WebRtc_available_write b ≤ b.element_count := by omega
  have hev := write_eval d n b.element_count b.write_pos (WebRtc_available_write b)
    rfl rfl rfl hN hwN hFle
  have hmF : min (WebRtc_available_write b) n ≤ WebRtc_available_write b := min_le_left _ _
  generalize min (WebRtc_available_write b) n = m at hev hmF ⊢
  rw [hev]
  clear hev
  generalize WebRtc_available_write b = F at *
  generalize hA : WebRtc_available_read b = A at *
  obtain ⟨r, w, N, es, wr, mem⟩ := b
  simp only at *
  cases wr
  · have e := a1 rfl
    have i := i1 rfl
    clear a1 a2 i1 i2
    by_cases c : m > N - w
    · simp only [c, if_true]
      have hinv' : RingInv ⟨r, m - (N - w), N, es, Wrap.DIFF_WRAP,
          memcpyIn (memcpyIn mem w d 0 (N - w)) 0 d (N - w) (m - (N - w))⟩ := by
        constructor
        · intro hc; simp at hc
        · intro _; simp only; omega
      refine ⟨trivial, hinv', trivial, trivial, ?_, ?_⟩
      · rw [(available_read_of_inv hN0 hinv').2 rfl]; simp only; omega
      · intro j hj
        have := write_mem_same mem d N r w m j i.1 i.2 (by omega) (by omega)
        simp only [c, if_true] at this
        rw [e, this]
    · simp only [c, if_false]
      have hinv' : RingInv ⟨r, w + m, N, es, Wrap.SAME_WRAP, memcpyIn mem w d 0 m⟩ := by
        constructor
        · intro _; simp only; omega
        · intro hc; simp at hc
      refine ⟨trivial, hinv', trivial, trivial, ?_, ?_⟩
      · rw [(available_read_of_inv hN0 hinv').1 rfl]; simp only; omega
      · intro j hj
        have := write_mem_same mem d N r w m j i.1 i.2 (by omega) (by omega)
        simp only [c, if_false] at this
        rw [e, this]
  · have e := a2 rfl
    have i := i2 rfl
    clear a1 a2 i1 i2
    have c : ¬ (m > N - w) := by omega
    simp only [c, if_false]
    have hinv' : RingInv ⟨r, w + m, N, es, Wrap.DIFF_WRAP, memcpyIn mem w d 0 m⟩ := by
      constructor
      · intro hc; simp at hc
      · intro _; simp only; omega
    refine ⟨trivial, hinv', trivial, trivial, ?_, ?_⟩
    · rw [(available_read_of_inv hN0 hinv').2 rfl]; simp only; omega
    · intro j hj
      have := write_mem_diff mem d N r w m j i.1 i.2 (by omega) (by omega)
      simp only [c, if_false] at this
      rw [e, this]

theorem read_props {b : RingBuffer} (hN : 2 * b.element_count ≤ INT_MAX) (h : RingInv b)
    (n : Nat) :
    (WebRtc_ReadBuffer b n).read_count = min (WebRtc_available_read b) n ∧
    (WebRtc_ReadBuffer b n).elements = ringSlice b (min (WebRtc_available_read b) n) ∧
    RingInv (WebRtc_ReadBuffer b n).self ∧
    (WebRtc_ReadBuffer b n).self.element_count = b.element_count := by
  have hN1 : b.element_count ≤ INT_MAX := by unfold INT_MAX at *; omega
  have hle := available_read_le hN1 h
  have hrN : b.read_pos ≤ b.element_count := by
    obtain ⟨i1, i2⟩ := h
    cases hwr : b.rw_wrap
    · have := i1 hwr; omega
    · have := i2 hwr; omega
  obtain ⟨e1, e2, e3⟩ := read_eval n b.element_count b.read_pos (WebRtc_available_read b)
    rfl rfl rfl hN1 hrN hle
  obtain ⟨m1, m2, -⟩ := move_props hN h (min (WebRtc_available_read b) n : Nat)
  exact ⟨e1, e2, by rw [e3]; exact m1, by rw [e3]; exact m2⟩

theorem reachable_inv {b0 b : RingBuffer} (hN : 2 * b0.element_count ≤ INT_MAX)
    (h : RingReachable b0 b) : RingInv b ∧ b.element_count = b0.element_count := by
  induction h with
  | init => exact ⟨ringInv_init b0, rfl⟩
  | @step c c' _ hs ih =>
    obtain ⟨hi, he⟩ := ih
    have hN' : 2 * c.element_count ≤ INT_MAX := by rw [he]; exact hN
    have hN1 : c.element_count ≤ INT_MAX := by unfold INT_MAX at *; omega
    cases hs with
    | write data n _ =>
      obtain ⟨-, w2, w3, -⟩ := write_props hN1 hi data n
      exact ⟨w2, w3.trans he⟩
    | read n _ =>
      obtain ⟨-, -, r3, r4⟩ := read_props hN' hi n
      exact ⟨r3, r4.trans he⟩
    | move k _ =>
      obtain ⟨m1, m2, -⟩ := move_props hN' hi k
      exact ⟨m1, m2.trans he⟩

theorem ringSlice_write {b : RingBuffer} (hN : b.element_count ≤ INT_MAX) (h : RingInv b)
    (d : List Int) (hd : d.length ≤ WebRtc_available_write b) :
    ringSlice (WebRtc_WriteBuffer b d d.length).2 (WebRtc_available_read b + d.length) =
      ringSlice b (WebRtc_available_read b) ++ d := by
  obtain ⟨w1, -, w3, w4, -, w6⟩ := write_props hN h d d.length
  have hm : (WebRtc_WriteBuffer b d d.length).1 = d.length := by
    rw [w1]; exact min_eq_right hd
  rw [hm] at w6
  unfold ringSlice
  rw [w3, w4, List.range_add, List.map_append, List.map_map]
  congr 1
  · apply List.map_congr_left
    intro i hi
    have hi' := List.mem_range.mp hi
    rw [w6 i (by omega), if_pos hi']
  · apply List.ext_getElem
    · simp
    · intro i h1 h2
      simp only [List.getElem_map, List.getElem_range, Function.comp]
      rw [w6 _ (by omega), if_neg (by omega)]
      have : WebRtc_available_read b + i - WebRtc_available_read b = i := by omega
      rw [this, List.getD_eq_getElem _ _ h2]

/-- C5 (as amended): for a buffer whose capacity satisfies `2 * element_count ≤ INT_MAX`,
in every state reachable from `WebRtc_InitBuffer` by `WebRtc_WriteBuffer`,
`WebRtc_ReadBuffer` and `WebRtc_MoveReadPtr` calls, `WebRtc_available_read` is at most
`element_count`, `WebRtc_available_read + WebRtc_available_write = element_count`, and both
values equal the exact (unwrapped) integer differences of the cursors. -/
theorem ring_available_invariant (b0 b : RingBuffer)
    (hN : 2 * b0.element_count ≤ INT_MAX) (h : RingReachable b0 b) :
    WebRtc_available_read b ≤ b.element_count ∧
    WebRtc_available_read b + WebRtc_available_write b = b.element_count ∧
    (WebRtc_available_read b : Int) =
      (if b.rw_wrap = Wrap.SAME_WRAP then (b.write_pos : Int) - b.read_pos
        else (b.element_count : Int) - b.read_pos + b.write_pos) ∧
    (WebRtc_available_write b : Int) = (b.element_count : Int) - WebRtc_available_read b := by
  obtain ⟨hi, he⟩ := reachable_inv hN h
  have hN1 : b.element_count ≤ INT_MAX := by rw [he]; unfold INT_MAX at *; omega
  have h1 := available_read_le hN1 hi
  have h2 := available_write_of_inv hN1 hi
  have h3 := available_read_cast hN1 hi
  refine ⟨h1, by omega, h3, by omega⟩

/-- Witness for C5: the far-end FIFO (4000 elements) after a write of three samples and a
rewind by one. -/
theorem ring_available_invariant_witness :
    2 * farendRing.element_count ≤ INT_MAX ∧
    WebRtc_available_read
      (WebRtc_MoveReadPtr (WebRtc_WriteBuffer (WebRtc_InitBuffer farendRing) [1, 2, 3] 3).2
        (-1)).2 +
    WebRtc_available_write
      (WebRtc_MoveReadPtr (WebRtc_WriteBuffer (WebRtc_InitBuffer farendRing) [1, 2, 3] 3).2
        (-1)).2 = 4000 :=
  ⟨by decide,
    (ring_available_invariant farendRing _ (by decide)
      (.step (.step .init (.write _ [1, 2, 3] 3 (by decide))) (.move _ (-1) (by decide)))).2.1⟩

/-- Counterexample to C5 as stated: with 2^31 elements, one write and a rewind by one leave
`WebRtc_available_read` wrapped around, far above `element_count`. -/
theorem ring_available_counterexample :
    RingReachable bigRing bigRingMoved ∧
    bigRingMoved.element_count = 2147483648 ∧
    WebRtc_available_read bigRingMoved = 18446744071562067970 ∧
    ¬ (WebRtc_available_read bigRingMoved ≤ bigRingMoved.element_count) := by
  refine ⟨.step (.step .init (.write _ [5] 1 (by decide))) (.move _ (-1) (by decide)),
    by decide, by decide, by decide⟩

/-- C4 (as amended): for a buffer with `2 * element_count ≤ INT_MAX`, in every state
reachable from `WebRtc_InitBuffer`, with `r = WebRtc_available_read`, writing a sequence
`d` that fits the free space returns `length d`, and a following read of `r + length d`
elements returns `r + length d` and yields the `r` previously readable elements followed
by `d`. -/
theorem ring_write_read_round_trip (b0 b : RingBuffer)
    (hN : 2 * b0.element_count ≤ INT_MAX) (h : RingReachable b0 b)
    (d : List Int) (hd : d.length ≤ WebRtc_available_write b) :
    (WebRtc_WriteBuffer b d d.length).1 = d.length ∧
    (WebRtc_ReadBuffer (WebRtc_WriteBuffer b d d.length).2
      (WebRtc_available_read b + d.length)).read_count = WebRtc_available_read b + d.length ∧
    (WebRtc_ReadBuffer (WebRtc_WriteBuffer b d d.length).2
      (WebRtc_available_read b + d.length)).elements =
      (WebRtc_ReadBuffer b (WebRtc_available_read b)).elements ++ d := by
  obtain ⟨hi, he⟩ := reachable_inv hN h
  have hN' : 2 * b.element_count ≤ INT_MAX := by rw [he]; exact hN
  have hN1 : b.element_count ≤ INT_MAX := by unfold INT_MAX at *; omega
  obtain ⟨w1, w2, w3, -, w5, -⟩ := write_props hN1 hi d d.length
  have hm : (WebRtc_WriteBuffer b d d.length).1 = d.length := by
    rw [w1]; exact min_eq_right hd
  rw [hm] at w5
  have hN2 : 2 * (WebRtc_WriteBuffer b d d.length).2.element_count ≤ INT_MAX := by
    rw [w3]; exact hN'
  obtain ⟨r1, r2, -⟩ := read_props hN2 w2 (WebRtc_available_read b + d.length)
  obtain ⟨-, q2, -⟩ := read_props hN' hi (WebRtc_available_read b)
  rw [w5, min_self] at r1 r2
  rw [min_self] at q2
  exact ⟨hm, r1, by rw [r2, q2]; exact ringSlice_write hN1 hi d hd⟩

/-- Witness for C4: the far-end FIFO holding samples 1, 2, 3 receives 4, 5. -/
theorem ring_write_read_round_trip_witness :
    2 * farendRing.element_count ≤ INT_MAX ∧
    [4, 5].length ≤
      WebRtc_available_write (WebRtc_WriteBuffer (WebRtc_InitBuffer farendRing) [1, 2, 3] 3).2 ∧
    (WebRtc_ReadBuffer
      (WebRtc_WriteBuffer (WebRtc_WriteBuffer (WebRtc_InitBuffer farendRing) [1, 2, 3] 3).2
        [4, 5] [4, 5].length).2
      (WebRtc_available_read (WebRtc_WriteBuffer (WebRtc_InitBuffer farendRing) [1, 2, 3] 3).2
        + [4, 5].length)).elements =
    (WebRtc_ReadBuffer (WebRtc_WriteBuffer (WebRtc_InitBuffer farendRing) [1, 2, 3] 3).2
      (WebRtc_available_read
        (WebRtc_WriteBuffer (WebRtc_InitBuffer farendRing) [1, 2, 3] 3).2)).elements
      ++ [4, 5] :=
  ⟨by decide, by decide,
    (ring_write_read_round_trip farendRing _ (by decide)
      (.step .init (.write _ [1, 2, 3] 3 (by decide))) [4, 5] (by decide)).2.2⟩

theorem bigRingMoved_fields :
    bigRingMoved.read_pos = 2147483647 ∧ bigRingMoved.write_pos = 1 ∧
    bigRingMoved.element_count = 2147483648 ∧ bigRingMoved.rw_wrap = Wrap.SAME_WRAP ∧
    bigRingMoved.data 0 = 5 ∧ bigRingMoved.data 1 = 0 := by
  decide

/-- Counterexample to C4 as stated: in the reachable state `bigRingMoved` of a buffer of
2^31 elements, writing `[7]` (which fits `WebRtc_available_write`) and reading
`r + 1` elements does not yield the previously readable elements followed by 7. -/
theorem ring_write_read_round_trip_counterexample :
    RingReachable bigRing bigRingMoved ∧
    [7].length ≤ WebRtc_available_write bigRingMoved ∧
    ¬ ((WebRtc_ReadBuffer (WebRtc_WriteBuffer bigRingMoved [7] [7].length).2
        (WebRtc_available_read bigRingMoved + [7].length)).elements =
      (WebRtc_ReadBuffer bigRingMoved (WebRtc_available_read bigRingMoved)).elements
        ++ [7]) := by
  refine ⟨.step (.step .init (.write _ [5] 1 (by decide))) (.move _ (-1) (by decide)),
    by decide, ?_⟩
  intro heq
  have e1 : (WebRtc_ReadBuffer (WebRtc_WriteBuffer bigRingMoved [7] [7].length).2
        (WebRtc_available_read bigRingMoved + [7].length)).elements =
      readRegion (WebRtc_WriteBuffer bigRingMoved [7] 1).2.data 2147483647 1 ++
        readRegion (WebRtc_WriteBuffer bigRingMoved [7] 1).2.data 0 18446744071562067970 := rfl
  have e2 : (WebRtc_ReadBuffer bigRingMoved (WebRtc_available_read bigRingMoved)).elements =
      readRegion bigRingMoved.data 2147483647 1 ++
        readRegion bigRingMoved.data 0 18446744071562067969 := rfl
  rw [e1, e2] at heq
  have h2 := congrArg (fun l => l[2]?) heq
  simp only [readRegion] at h2
  rw [List.getElem?_append_right (by simp), List.getElem?_append_left (by simp),
    List.getElem?_append_right (by simp)] at h2
  simp only [List.length_map, List.length_range, List.getElem?_map] at h2
  rw [List.getElem?_range (by decide), List.getElem?_range (by decide)] at h2
  have h3 : (WebRtc_WriteBuffer bigRingMoved [7] 1).2.data (0 + (2 - 1)) =
      bigRingMoved.data (0 + (2 - 1)) := Option.some.inj h2
  revert h3
  decide


/-! ### Application interface -/

theorem forRange_succ {σ : Type} (n : Nat) (body : σ → Nat → σ) (s : σ) :
    forRange (n + 1) body s = body (forRange n body s) n := by
  simp only [forRange, List.range_succ, List.foldl_append, List.foldl_cons, List.foldl_nil]

theorem forRange_zero {σ : Type} (body : σ → Nat → σ) (s : σ) : forRange 0 body s = s := rfl

theorem memcpyList_succ (dst : List Int) (dpos : Nat) (src : List Int) (spos k : Nat) :
    memcpyList dst dpos src spos (k + 1) =
      (memcpyList dst dpos src spos k).set (dpos + k) (src.getD (spos + k) 0) := by
  simp only [memcpyList, forRange_succ]

theorem memcpyList_length (dst : List Int) (dpos : Nat) (src : List Int) (spos n : Nat) :
    (memcpyList dst dpos src spos n).length = dst.length := by
  induction n with
  | zero => rfl
  | succ k ih => rw [memcpyList_succ, List.length_set, ih]

theorem memcpyList_getElem? (dst : List Int) (dpos : Nat) (src : List Int) (spos n j : Nat) :
    (memcpyList dst dpos src spos n)[j]? =
      if dpos ≤ j ∧ j < dpos + n ∧ j < dst.length then some (src.getD (spos + (j - dpos)) 0)
      else dst[j]? := by
  induction n with
  | zero =>
    have h0 : ¬ (dpos ≤ j ∧ j < dpos + 0 ∧ j < dst.length) := by omega
    rw [if_neg h0]
    rfl
  | succ k ih =>
    rw [memcpyList_succ, List.getElem?_set, memcpyList_length, ih]
    by_cases hj : dpos + k = j
    · subst hj
      by_cases hl : dpos + k < dst.length
      · have h1 : dpos ≤ dpos + k ∧ dpos + k < dpos + (k + 1) ∧ dpos + k < dst.length := by
          omega
        rw [if_pos rfl, if_pos hl, if_pos h1, Nat.add_sub_cancel_left]
      · have h1 : ¬ (dpos ≤ dpos + k ∧ dpos + k < dpos + (k + 1) ∧ dpos + k < dst.length) := by
          omega
        rw [if_pos rfl, if_neg hl, if_neg h1]
        exact (List.getElem?_eq_none (by omega)).symm
    · rw [if_neg hj]
      by_cases hc : dpos ≤ j ∧ j < dpos + k ∧ j < dst.length
      · have h1 : dpos ≤ j ∧ j < dpos + (k + 1) ∧ j < dst.length := by omega
        rw [if_pos hc, if_pos h1]
      · have h1 : ¬ (dpos ≤ j ∧ j < dpos + (k + 1) ∧ j < dst.length) := by omega
        rw [if_neg hc, if_neg h1]

theorem memcpyList_take (dst src : List Int) (n : Nat) (hd : n ≤ dst.length)
    (hs : n ≤ src.length) : (memcpyList dst 0 src 0 n).take n = src.take n := by
  apply List.ext_getElem?
  intro j
  rw [List.getElem?_take, List.getElem?_take, memcpyList_getElem?]
  by_cases hj : j < n
  · have h1 : 0 ≤ j ∧ j < 0 + n ∧ j < dst.length := by omega
    have h2 : j < src.length := by omega
    rw [if_pos hj, if_pos h1, List.getD_eq_getElem?_getD, Nat.zero_add, Nat.sub_zero,
      List.getElem?_eq_getElem h2, if_pos hj]
    rfl
  · rw [if_neg hj, if_neg hj]

theorem memcpyList_drop (dst src : List Int) (n : Nat) :
    (memcpyList dst 0 src 0 n).drop n = dst.drop n := by
  apply List.ext_getElem?
  intro j
  rw [List.getElem?_drop, List.getElem?_drop, memcpyList_getElem?]
  have h1 : ¬ (0 ≤ n + j ∧ n + j < 0 + n ∧ n + j < dst.length) := by omega
  rw [if_neg h1]
/-- C2. For a non-null instance, `WebRtcAecm_Process` returns `AECM_NULL_POINTER_ERROR`
(12003) when `nearendNoisy` or `out` is `NULL`; otherwise `AECM_UNINITIALIZED_ERROR` (12002)
when `initFlag != 42`; otherwise `AECM_BAD_PARAMETER_ERROR` (12004) when `nrOfSamples` is
neither 80 nor 160; in each case the instance and the `out` buffer come back unchanged. -/
theorem process_error_codes (aecm : AecMobile) (nearendNoisy nearendClean out : Option (List Int))
    (nrOfSamples : Nat) (msInSndCardBuf : Int) :
    ((nearendNoisy = none ∨ out = none) →
      WebRtcAecm_Process (some aecm) nearendNoisy nearendClean out nrOfSamples msInSndCardBuf =
        (12003, some aecm, out)) ∧
    (nearendNoisy ≠ none → out ≠ none → aecm.initFlag ≠ 42 →
      WebRtcAecm_Process (some aecm) nearendNoisy nearendClean out nrOfSamples msInSndCardBuf =
        (12002, some aecm, out)) ∧
    (nearendNoisy ≠ none → out ≠ none → aecm.initFlag = 42 →
      nrOfSamples ≠ 80 → nrOfSamples ≠ 160 →
      WebRtcAecm_Process (some aecm) nearendNoisy nearendClean out nrOfSamples msInSndCardBuf =
        (12004, some aecm, out)) := by
  refine ⟨?_, ?_, ?_⟩
  · intro h
    cases nearendNoisy with
    | none => simp [WebRtcAecm_Process, AECM_NULL_POINTER_ERROR]
    | some n =>
      cases out with
      | none => simp [WebRtcAecm_Process, AECM_NULL_POINTER_ERROR]
      | some o => simp at h
  · intro hn ho hi
    cases nearendNoisy with
    | none => exact absurd rfl hn
    | some n =>
      cases out with
      | none => exact absurd rfl ho
      | some o => simp [WebRtcAecm_Process, kInitCheck, hi, AECM_UNINITIALIZED_ERROR]
  · intro hn ho hi h80 h160
    cases nearendNoisy with
    | none => exact absurd rfl hn
    | some n =>
      cases out with
      | none => exact absurd rfl ho
      | some o =>
        simp [WebRtcAecm_Process, kInitCheck, hi, h80, h160, AECM_BAD_PARAMETER_ERROR]

theorem createdInstance_initFlag : createdInstance.initFlag = 0 := by rfl

theorem initialisedInstance_initFlag : initialisedInstance.initFlag = 42 := by rfl

theorem initialisedInstance_ECstartup : initialisedInstance.ECstartup = 1 := by rfl

/-- C2, instances: a null `out`, an instance that was never initialised, and 81 samples. -/
theorem process_error_codes_witness :
    WebRtcAecm_Process (some createdInstance) (some [1, 2]) none none 80 0 =
      (12003, some createdInstance, none) ∧
    WebRtcAecm_Process (some createdInstance) (some [1, 2]) none (some [0, 0]) 80 0 =
      (12002, some createdInstance, some [0, 0]) ∧
    WebRtcAecm_Process (some initialisedInstance) (some [1, 2]) none (some [0, 0]) 81 0 =
      (12004, some initialisedInstance, some [0, 0]) :=
  ⟨(process_error_codes createdInstance (some [1, 2]) none none 80 0).1 (Or.inr rfl),
   (process_error_codes createdInstance (some [1, 2]) none (some [0, 0]) 80 0).2.1
     (by simp) (by simp) (by rw [createdInstance_initFlag]; decide),
   (process_error_codes initialisedInstance (some [1, 2]) none (some [0, 0]) 81 0).2.2
     (by simp) (by simp) initialisedInstance_initFlag (by decide) (by decide)⟩


/-- C10. For a non-null instance, `WebRtcAecm_set_config` returns `AECM_UNINITIALIZED_ERROR`
(12002) when the instance has not been initialised; otherwise it returns
`AECM_BAD_PARAMETER_ERROR` (12004) if and only if `config.cngMode` is not 0 or 1, or
`config.echoMode` is outside `[0, 4]`; otherwise it returns 0. -/
theorem set_config_return_codes (aecm : AecMobile) (config : AecmConfig) :
    (aecm.initFlag ≠ 42 → (WebRtcAecm_set_config (some aecm) config).1 = 12002) ∧
    (aecm.initFlag = 42 →
      ((WebRtcAecm_set_config (some aecm) config).1 = 12004 ↔
        ((config.cngMode ≠ 0 ∧ config.cngMode ≠ 1) ∨
          config.echoMode < 0 ∨ config.echoMode > 4)) ∧
      (¬ ((config.cngMode ≠ 0 ∧ config.cngMode ≠ 1) ∨
          config.echoMode < 0 ∨ config.echoMode > 4) →
        (WebRtcAecm_set_config (some aecm) config).1 = 0)) := by
  refine ⟨?_, ?_⟩
  · intro hi
    simp [WebRtcAecm_set_config, kInitCheck, hi, AECM_UNINITIALIZED_ERROR]
  · intro hi
    by_cases hc : config.cngMode ≠ 0 ∧ config.cngMode ≠ 1
    · simp [WebRtcAecm_set_config, kInitCheck, hi, AecmFalse, AecmTrue, hc,
        AECM_BAD_PARAMETER_ERROR]
    · by_cases he : config.echoMode < 0 ∨ config.echoMode > 4
      · simp [WebRtcAecm_set_config, kInitCheck, hi, AecmFalse, AecmTrue, hc, he,
          AECM_BAD_PARAMETER_ERROR]
      · simp [WebRtcAecm_set_config, kInitCheck, hi, AecmFalse, AecmTrue, hc, he]

/-- C10, instances: the created instance is not initialised; on the initialised one
`cngMode = 2` is rejected and the default configuration is accepted. -/
theorem set_config_return_codes_witness :
    (WebRtcAecm_set_config (some createdInstance) { cngMode := 1, echoMode := 3 }).1 = 12002 ∧
    (WebRtcAecm_set_config (some initialisedInstance) { cngMode := 2, echoMode := 3 }).1 =
      12004 ∧
    (WebRtcAecm_set_config (some initialisedInstance) { cngMode := 1, echoMode := 3 }).1 = 0 :=
  ⟨(set_config_return_codes createdInstance { cngMode := 1, echoMode := 3 }).1
     (by rw [createdInstance_initFlag]; decide),
   ((set_config_return_codes initialisedInstance { cngMode := 2, echoMode := 3 }).2
     initialisedInstance_initFlag).1.2 (Or.inl (by decide)),
   ((set_config_return_codes initialisedInstance { cngMode := 1, echoMode := 3 }).2
     initialisedInstance_initFlag).2 (by decide)⟩

/-- C9. For every initialised instance and every config with `cngMode` in `{0, 1}` and
`echoMode = m` in `{0, .., 4}`, `WebRtcAecm_set_config` returns 0 and leaves the instance
equal to the old one except for `echoMode = m`, core `cngMode = config.cngMode`,
`supGain = supGainOld = sh(256)`, `supGainErrParamA = sh(3072)`, `supGainErrParamD = sh(256)`,
`supGainErrParamDiffAB = sh(3072) - sh(1536)` and `supGainErrParamDiffBD = sh(1536) - sh(256)`,
where `sh` is `specShift m`. -/
theorem set_config_effect (aecm : AecMobile) (config : AecmConfig)
    (hi : aecm.initFlag = 42) (hc : config.cngMode = 0 ∨ config.cngMode = 1)
    (hm : 0 ≤ config.echoMode ∧ config.echoMode ≤ 4) :
    WebRtcAecm_set_config (some aecm) config =
      (0, some { aecm with
                 echoMode := config.echoMode
                 aecmCore :=
                   { aecm.aecmCore with
                     cngMode := config.cngMode
                     supGain := specShift config.echoMode 256
                     supGainOld := specShift config.echoMode 256
                     supGainErrParamA := specShift config.echoMode 3072
                     supGainErrParamD := specShift config.echoMode 256
                     supGainErrParamDiffAB :=
                       specShift config.echoMode 3072 - specShift config.echoMode 1536
                     supGainErrParamDiffBD :=
                       specShift config.echoMode 1536 - specShift config.echoMode 256 } }) := by
  obtain ⟨cm, em⟩ := config
  simp only at hc hm ⊢
  have hc' : ¬ (cm ≠ AecmFalse ∧ cm ≠ AecmTrue) := by
    simp only [AecmFalse, AecmTrue]
    omega
  have hm' : ¬ (em < 0 ∨ em > 4) := by omega
  have hem : em = 0 ∨ em = 1 ∨ em = 2 ∨ em = 3 ∨ em = 4 := by omega
  simp only [WebRtcAecm_set_config, kInitCheck, hi, ne_eq, not_true_eq_false, if_false, hc',
    hm']
  rcases hem with h | h | h | h | h <;> subst h <;> rfl

/-- C9, instance: echo mode 1 with comfort noise off on the initialised instance. -/
theorem set_config_effect_witness :
    WebRtcAecm_set_config (some initialisedInstance) { cngMode := 0, echoMode := 1 } =
      (0, some { initialisedInstance with
                 echoMode := 1
                 aecmCore :=
                   { initialisedInstance.aecmCore with
                     cngMode := 0
                     supGain := specShift 1 256
                     supGainOld := specShift 1 256
                     supGainErrParamA := specShift 1 3072
                     supGainErrParamD := specShift 1 256
                     supGainErrParamDiffAB := specShift 1 3072 - specShift 1 1536
                     supGainErrParamDiffBD := specShift 1 1536 - specShift 1 256 } }) :=
  set_config_effect initialisedInstance { cngMode := 0, echoMode := 1 }
    initialisedInstance_initFlag (Or.inl rfl) ⟨by decide, by decide⟩


theorem init_valid (aecm : AecMobile) (sampFreq : Int)
    (h : sampFreq = 8000 ∨ sampFreq = 16000) :
    ∃ a, WebRtcAecm_Init (some aecm) sampFreq = (0, some a) ∧
      a.initFlag = 42 ∧ a.ECstartup = 1 ∧ a.echoMode = 3 ∧ a.aecmCore.cngMode = AecmTrue ∧
      a.aecmCore.mult = sampFreq / 8000 ∧ WebRtc_available_read a.farendBuf = 0 := by
  rcases h with h | h <;> subst h
  · exact ⟨_, rfl, rfl, rfl, rfl, rfl, rfl, rfl⟩
  · exact ⟨_, rfl, rfl, rfl, rfl, rfl, rfl, rfl⟩

/-- C3. For every created instance, `WebRtcAecm_Init` returns 0 if and only if `sampFreq` is
8000 or 16000; for any other `sampFreq` it returns `AECM_BAD_PARAMETER_ERROR` (12004) and
leaves the instance unchanged; after a successful call `initFlag == 42`, `ECstartup == 1`,
`echoMode == 3`, `cngMode == AecmTrue`, `mult == sampFreq / 8000` and the far-end FIFO is
empty. -/
theorem init_contract (aecm : AecMobile) (sampFreq : Int) :
    ((WebRtcAecm_Init (some aecm) sampFreq).1 = 0 ↔ (sampFreq = 8000 ∨ sampFreq = 16000)) ∧
    (¬ (sampFreq = 8000 ∨ sampFreq = 16000) →
      WebRtcAecm_Init (some aecm) sampFreq = (12004, some aecm)) ∧
    ((WebRtcAecm_Init (some aecm) sampFreq).1 = 0 →
      ∃ a, (WebRtcAecm_Init (some aecm) sampFreq).2 = some a ∧
        a.initFlag = 42 ∧ a.ECstartup = 1 ∧ a.echoMode = 3 ∧ a.aecmCore.cngMode = AecmTrue ∧
        a.aecmCore.mult = sampFreq / 8000 ∧ WebRtc_available_read a.farendBuf = 0) := by
  have hbad : ¬ (sampFreq = 8000 ∨ sampFreq = 16000) →
      WebRtcAecm_Init (some aecm) sampFreq = (12004, some aecm) := by
    intro h
    have h' : sampFreq ≠ 8000 ∧ sampFreq ≠ 16000 := by omega
    simp only [WebRtcAecm_Init]
    rw [if_pos h']
    rfl
  have hiff : (WebRtcAecm_Init (some aecm) sampFreq).1 = 0 ↔
      (sampFreq = 8000 ∨ sampFreq = 16000) := by
    constructor
    · intro h0
      by_contra hn
      rw [hbad hn] at h0
      have h12 : ¬ ((12004 : Int) = 0) := by decide
      exact h12 h0
    · intro h
      obtain ⟨a, ha, _⟩ := init_valid aecm sampFreq h
      rw [ha]
  refine ⟨hiff, hbad, ?_⟩
  intro h0
  obtain ⟨a, ha, hrest⟩ := init_valid aecm sampFreq (hiff.mp h0)
  exact ⟨a, by rw [ha], hrest⟩

/-- C3, instance: `WebRtcAecm_Init(8000)` on the created instance succeeds. -/
theorem init_contract_witness :
    ∃ a, (WebRtcAecm_Init (some createdInstance) 8000).2 = some a ∧
      a.initFlag = 42 ∧ a.ECstartup = 1 ∧ a.echoMode = 3 ∧ a.aecmCore.cngMode = AecmTrue ∧
      a.aecmCore.mult = 8000 / 8000 ∧ WebRtc_available_read a.farendBuf = 0 :=
  (init_contract createdInstance 8000).2.2 (by rfl)

theorem process_startup_eq (aecm : AecMobile) (noisy : List Int) (clean : Option (List Int))
    (o : List Int) (n : Nat) (ms : Int)
    (hi : aecm.initFlag = 42) (hs : aecm.ECstartup ≠ 0) (hn : n = 80 ∨ n = 160)
    (hms : 0 ≤ ms ∧ ms ≤ 500) :
    WebRtcAecm_Process (some aecm) (some noisy) clean (some o) n ms =
      (0, some (processStartup { aecm with msInSndCardBuf := toInt16 (ms + 10) }
          (n / FRAME_LEN / toSizeT aecm.aecmCore.mult)),
        some (memcpyList o 0 (clean.getD noisy) 0 n)) := by
  have h1 : ¬ (n ≠ 80 ∧ n ≠ 160) := by omega
  have h2 : ¬ ms < 0 := by omega
  have h3 : ¬ ms > 500 := by omega
  cases clean with
  | none =>
    simp only [WebRtcAecm_Process, kInitCheck, hi, ne_eq, not_true_eq_false, if_false, h1, h2,
      h3, hs, not_false_eq_true, if_true, Option.getD_none]
  | some c =>
    simp only [WebRtcAecm_Process, kInitCheck, hi, ne_eq, not_true_eq_false, if_false, h1, h2,
      h3, hs, not_false_eq_true, if_true, Option.getD_some]

/-- C1. For every initialised instance still in start-up (`ECstartup != 0`) and every valid
call (`nearendNoisy` and `out` non-null and holding `nrOfSamples` samples, `nrOfSamples` 80
or 160, `msInSndCardBuf` in `[0, 500]`), `WebRtcAecm_Process` returns 0 and writes
`out[i] = nearendClean[i]` if `nearendClean` is non-null, otherwise `out[i] = nearendNoisy[i]`,
for all `i < nrOfSamples` (the rest of `out` keeps its contents); in particular
`WebRtcAecm_Init(8000)` followed by a call on 80 zero samples with `msInSndCardBuf = 40`
returns 0 with an all-zero output. -/
theorem process_startup_passthrough (aecm : AecMobile) (noisy : List Int)
    (clean : Option (List Int)) (o : List Int) (n : Nat) (ms : Int)
    (hi : aecm.initFlag = 42) (hs : aecm.ECstartup ≠ 0) (hn : n = 80 ∨ n = 160)
    (hms : 0 ≤ ms ∧ ms ≤ 500) (hno : n ≤ noisy.length)
    (hcl : ∀ c, clean = some c → n ≤ c.length) (ho : n ≤ o.length) :
    (∃ a o', WebRtcAecm_Process (some aecm) (some noisy) clean (some o) n ms =
        (0, some a, some o') ∧
      o'.length = o.length ∧ o'.take n = (clean.getD noisy).take n ∧ o'.drop n = o.drop n) ∧
    (∀ (inst : AecMobile) (buf : List Int), buf.length = 80 →
      ∃ a, WebRtcAecm_Process (WebRtcAecm_Init (some inst) 8000).2
          (some (List.replicate 80 0)) none (some buf) 80 40 =
        (0, some a, some (List.replicate 80 0))) := by
  constructor
  · refine ⟨_, _, process_startup_eq aecm noisy clean o n ms hi hs hn hms,
      memcpyList_length _ _ _ _ _, ?_, memcpyList_drop _ _ _⟩
    apply memcpyList_take _ _ _ ho
    cases clean with
    | none => exact hno
    | some c => exact hcl c rfl
  · intro inst buf hb
    obtain ⟨a0, h0, hif, hec, _⟩ := init_valid inst 8000 (Or.inl rfl)
    have ha := process_startup_eq a0 (List.replicate 80 0) none buf 80 40 hif
      (by rw [hec]; decide) (Or.inl rfl) ⟨by decide, by decide⟩
    have h1 : memcpyList buf 0 (List.replicate 80 0) 0 80 = List.replicate 80 0 := by
      have ht := memcpyList_take buf (List.replicate 80 0) 80 (by omega) (by simp)
      have hl := memcpyList_length buf 0 (List.replicate 80 0) 0 80
      rw [List.take_of_length_le (by omega), List.take_of_length_le (by simp)] at ht
      exact ht
    rw [Option.getD_none, h1] at ha
    exact ⟨_, by rw [h0]; exact ha⟩

/-- C1, instance: the initialised instance, 80 noisy samples, no clean signal. -/
theorem process_startup_passthrough_witness :
    ∃ a o', WebRtcAecm_Process (some initialisedInstance) (some (List.replicate 80 5)) none
        (some (List.replicate 80 1)) 80 40 = (0, some a, some o') ∧
      o'.length = (List.replicate 80 (1 : Int)).length ∧
      o'.take 80 = ((none : Option (List Int)).getD (List.replicate 80 5)).take 80 ∧
      o'.drop 80 = (List.replicate 80 (1 : Int)).drop 80 :=
  (process_startup_passthrough initialisedInstance (List.replicate 80 5) none
    (List.replicate 80 1) 80 40 initialisedInstance_initFlag
    (by rw [initialisedInstance_ECstartup]; decide) (Or.inl rfl) ⟨by decide, by decide⟩
    (by simp) (by intro c hc; cases hc) (by simp)).1



/-! ### Wiener coefficients -/

theorem forRange_invariant {σ : Type} (P : σ → Prop) (body : σ → Nat → σ)
    (hbody : ∀ s i, P s → P (body s i)) (n : Nat) (s : σ) (hs : P s) :
    P (forRange n body s) := by
  induction n with
  | zero => exact hs
  | succ k ih => rw [forRange_succ]; exact hbody _ _ ih

theorem forStep_invariant {σ : Type} (P : σ → Prop) (body : σ → Nat → σ)
    (hbody : ∀ s i, P s → P (body s i)) (fuel lo hi step : Nat) (s : σ) (hs : P s) :
    P (forStep fuel lo hi step body s) := by
  induction fuel generalizing lo s with
  | zero => exact hs
  | succ k ih =>
    unfold forStep
    split_ifs
    · exact ih _ _ (hbody _ _ hs)
    · exact hs

theorem gainList_set (l : List Int) (i : Nat) (v : Int) (hl : GainList l)
    (hv : 0 ≤ v ∧ v ≤ 16384) : GainList (l.set i v) := by
  refine ⟨by rw [List.length_set]; exact hl.1, ?_⟩
  intro j
  rw [List.getD_eq_getElem?_getD, List.getElem?_set]
  have hj := hl.2 j
  rw [List.getD_eq_getElem?_getD] at hj
  split_ifs with h1 h2
  · exact hv
  · exact ⟨le_refl 0, by decide⟩
  · exact hj

theorem toInt16_of_range {x : Int} (h1 : -32768 ≤ x) (h2 : x ≤ 32767) : toInt16 x = x := by
  unfold toInt16
  omega

theorem square_gain_range (h : Int) (h0 : 0 ≤ h) (h1 : h ≤ 16384) :
    0 ≤ toInt16 (shr (h * h) 14) ∧ toInt16 (shr (h * h) 14) ≤ 16384 := by
  have hsq : 0 ≤ h * h := mul_nonneg h0 h0
  have hle : h * h ≤ 16384 * 16384 := mul_le_mul h1 h1 h0 (by decide)
  have hq0 : 0 ≤ h * h / 16384 := Int.ediv_nonneg hsq (by decide)
  have hq1 : h * h / 16384 ≤ 16384 := by
    have := Int.ediv_le_ediv (by decide : (0 : Int) < 16384) hle
    simpa using this
  have he : shr (h * h) 14 = h * h / 16384 := by
    unfold shr
    norm_num
  rw [he, toInt16_of_range (by omega) (by omega)]
  exact ⟨hq0, hq1⟩

theorem sum_loop_range (l : List Int) (hl : GainList l) :
    ∀ (fuel i : Nat) (s : Int), 4 ≤ i → i ≤ 25 → 0 ≤ s → s ≤ 16384 * ((i : Int) - 4) →
      0 ≤ forStep fuel i 25 1 (fun (s : Int) i => toInt32 (s + l.getD i 0)) s ∧
      forStep fuel i 25 1 (fun (s : Int) i => toInt32 (s + l.getD i 0)) s ≤ 16384 * 21 := by
  intro fuel
  induction fuel with
  | zero =>
    intro i s h4 h25 hs0 hs1
    unfold forStep
    omega
  | succ k ih =>
    intro i s h4 h25 hs0 hs1
    unfold forStep
    split_ifs with hlt
    · have hg := hl.2 i
      have hv : toInt32 (s + l.getD i 0) = s + l.getD i 0 := by
        unfold toInt32
        omega
      show 0 ≤ forStep k (i + 1) 25 1 (fun (s : Int) i => toInt32 (s + l.getD i 0))
          (toInt32 (s + l.getD i 0)) ∧
        forStep k (i + 1) 25 1 (fun (s : Int) i => toInt32 (s + l.getD i 0))
          (toInt32 (s + l.getD i 0)) ≤ 16384 * 21
      rw [hv]
      exact ih (i + 1) _ (by omega) (by omega) (by omega) (by push_cast; omega)
    · omega

theorem nlpBin_range (numPosCoef h : Int) (h0 : 0 ≤ h) (h1 : h ≤ 16384) :
    0 ≤ nlpBin numPosCoef h ∧ nlpBin numPosCoef h ≤ 16384 := by
  unfold nlpBin
  simp only [NLP_COMP_HIGH, NLP_COMP_LOW, ONE_Q14]
  have hnot : ¬ h > 16384 := by omega
  rw [if_neg hnot]
  by_cases hn : numPosCoef < 3
  · have e0 : ∀ x : Int, toInt16 (shr (x * 0) 14) = 0 := by
      intro x
      simp [shr, toInt16]
    simp only [hn, if_true, e0]
    split_ifs <;> omega
  · have e1 : ∀ x : Int, shr (x * 16384) 14 = x := by
      intro x
      unfold shr
      norm_num
    have e2 : toInt16 0 = 0 := by decide
    simp only [hn, if_false, e1, and_true]
    by_cases hlow : h < 3277
    · have h16 : ¬ ((0 : Int) = 16384) := by decide
      simp only [hlow, if_true]
      rw [if_neg h16, e2]
      omega
    · simp only [hlow, if_false]
      by_cases hc : h = 16384
      · rw [if_pos hc]
        omega
      · rw [if_neg hc, toInt16_of_range (by omega) (by omega)]
        omega

theorem nlpStep_gainList (nlpFlag numPosCoef : Int) (l : List Int) (hl : GainList l) :
    GainList (nlpStep nlpFlag numPosCoef l) := by
  unfold nlpStep
  split_ifs
  · apply forRange_invariant GainList _ _ _ _ hl
    intro s i hs
    exact gainList_set _ _ _ hs (nlpBin_range _ _ (hs.2 i).1 (hs.2 i).2)
  · exact hl

theorem widebandShaping_gainList (mult : Int) (l : List Int) (hl : GainList l) :
    GainList (widebandShaping mult l) := by
  unfold widebandShaping
  split_ifs
  · have h1 : GainList (forRange PART_LEN1
        (fun (h : List Int) i => h.set i (toInt16 (shr (h.getD i 0 * h.getD i 0) 14))) l) := by
      apply forRange_invariant GainList _ _ _ _ hl
      intro s i hs
      exact gainList_set _ _ _ hs (square_gain_range _ (hs.2 i).1 (hs.2 i).2)
    simp only []
    apply forStep_invariant GainList _ _ _ _ _ _ _ h1
    intro s i hs
    split_ifs
    · apply gainList_set _ _ _ hs
      have hsum := sum_loop_range _ h1 PART_LEN1 4 0 (by decide) (by decide) (by decide)
        (by decide)
      have hk : (kMaxPrefBand : Int) - kMinPrefBand + 1 = 21 := by decide
      have hk2 : kMaxPrefBand + 1 = 25 := by decide
      have hk3 : kMinPrefBand = 4 := by decide
      rw [hk, hk2, hk3]
      have q0 := Int.tdiv_nonneg hsum.1 (by decide : (0 : Int) ≤ 21)
      have q1 : Int.tdiv (forStep PART_LEN1 4 25 1
          (fun (s : Int) i => toInt32 (s + (forRange PART_LEN1
            (fun (h : List Int) i => h.set i (toInt16 (shr (h.getD i 0 * h.getD i 0) 14)))
            l).getD i 0)) 0) 21 ≤ 16384 := by
        rw [Int.tdiv_eq_ediv hsum.1 (by decide)]
        have := Int.ediv_le_ediv (by decide : (0 : Int) < 21) hsum.2
        simpa using this
      rw [toInt16_of_range (by omega) (by omega)]
      exact ⟨q0, q1⟩
    · exact hs
  · exact hl

theorem wienerCoef_range (echoEst32Gained nearFilt_i resolutionDiff : Int) :
    0 ≤ wienerCoef echoEst32Gained nearFilt_i resolutionDiff ∧
    wienerCoef echoEst32Gained nearFilt_i resolutionDiff ≤ 16384 := by
  unfold wienerCoef
  simp only [ONE_Q14]
  generalize toInt32 (WEBRTC_SPL_SHIFT_W32_U (WebRtcSpl_DivU32U16
    (toUint32 (echoEst32Gained + toUint32 (shr nearFilt_i 1))) (toUint16 nearFilt_i))
    resolutionDiff) = t
  by_cases h1 : echoEst32Gained = 0
  · rw [if_pos h1]
    omega
  · rw [if_neg h1]
    by_cases h2 : nearFilt_i = 0
    · rw [if_pos h2]
      omega
    · rw [if_neg h2]
      by_cases h3 : t > 16384
      · rw [if_pos h3]
        omega
      · rw [if_neg h3]
        by_cases h4 : t < 0
        · rw [if_pos h4]
          omega
        · rw [if_neg h4, toInt16_of_range (x := t) (by omega) (by omega),
            toInt16_of_range (x := 16384 - t) (by omega) (by omega)]
          split_ifs <;> omega

theorem gainList_replicate : GainList (List.replicate PART_LEN1 0) := by
  refine ⟨List.length_replicate _ _, ?_⟩
  intro i
  rw [List.getD_eq_getElem?_getD, List.getElem?_replicate]
  split_ifs <;> decide

theorem wienerFilter_gainList (aecm : AecmCore) (echoEst32 ptrDfaClean : List Int)
    (supGain zerosXBuf : Int) :
    GainList (wienerFilter aecm echoEst32 ptrDfaClean supGain zerosXBuf).hnl := by
  unfold wienerFilter
  apply forRange_invariant (fun st : WienerState => GainList st.hnl) _ _ _ _
    gainList_replicate
  intro st i hs
  unfold wienerBin
  exact gainList_set _ _ _ hs (wienerCoef_range _ _ _)

/-- C7. In every `WebRtcAecm_ProcessBlock` call that reaches the Wiener filter (whatever the
core state, the transformed signals `f` and the delay estimate), for every bin `i` in
`[0, PART_LEN]` the coefficient `hnl[i]` lies in `[0, ONE_Q14] = [0, 16384]` after the
Wiener-filter loop, after the wideband post-shaping and after the NLP step. -/
theorem hnl_in_q14_range (aecm : AecmCore) (f : BlockFront) (delayEst : Int)
    (i : Fin PART_LEN1) :
    (0 ≤ (processBlockTrace aecm f delayEst).wiener.hnl.getD i 0 ∧
      (processBlockTrace aecm f delayEst).wiener.hnl.getD i 0 ≤ ONE_Q14) ∧
    (0 ≤ (processBlockTrace aecm f delayEst).hnlShaped.getD i 0 ∧
      (processBlockTrace aecm f delayEst).hnlShaped.getD i 0 ≤ ONE_Q14) ∧
    (0 ≤ (processBlockTrace aecm f delayEst).hnlNlp.getD i 0 ∧
      (processBlockTrace aecm f delayEst).hnlNlp.getD i 0 ≤ ONE_Q14) ∧
    (processBlockTrace aecm f delayEst).wiener.hnl.length = PART_LEN1 ∧
    (processBlockTrace aecm f delayEst).hnlShaped.length = PART_LEN1 ∧
    (processBlockTrace aecm f delayEst).hnlNlp.length = PART_LEN1 := by
  have hw : GainList (processBlockTrace aecm f delayEst).wiener.hnl := by
    simp only [processBlockTrace]
    exact wienerFilter_gainList _ _ _ _ _
  have hs : GainList (processBlockTrace aecm f delayEst).hnlShaped := by
    simp only [processBlockTrace]
    exact widebandShaping_gainList _ _ (wienerFilter_gainList _ _ _ _ _)
  have hn : GainList (processBlockTrace aecm f delayEst).hnlNlp := by
    simp only [processBlockTrace]
    exact nlpStep_gainList _ _ _
      (widebandShaping_gainList _ _ (wienerFilter_gainList _ _ _ _ _))
  exact ⟨hw.2 i, hs.2 i, hn.2 i, hw.1, hs.1, hn.1⟩



/-! ### `BitCount` counts at most 32 bits -/

theorem land_mod8 (y m : Nat) : (y &&& m) % 8 = (y % 8) &&& (m % 8) := by
  apply Nat.eq_of_testBit_eq
  intro i
  have e : (8 : Nat) = 2 ^ 3 := by decide
  rw [e, Nat.testBit_mod_two_pow, Nat.testBit_and, Nat.testBit_and, Nat.testBit_mod_two_pow,
    Nat.testBit_mod_two_pow]
  cases decide (i < 3) <;> simp

theorem land_div8 (y m : Nat) : (y &&& m) / 8 = (y / 8) &&& (m / 8) := by
  have e : ∀ z : Nat, z / 8 = z / 2 / 2 / 2 := by
    intro z
    omega
  rw [e (y &&& m), e y, e m, Nat.and_div_two, Nat.and_div_two, Nat.and_div_two]

theorem land_peel (y m : Nat) :
    y &&& m = ((y % 8) &&& (m % 8)) + 8 * ((y / 8) &&& (m / 8)) := by
  rw [← land_mod8, ← land_div8]
  omega

theorem land_digit7 (z : Nat) : (z % 8) &&& 7 = z % 8 := by
  have h : z % 8 < 8 := Nat.mod_lt _ (by decide)
  generalize z % 8 = w at h
  interval_cases w <;> rfl

theorem land_digit3 (z : Nat) : (z % 8) &&& 3 = z % 4 := by
  have h : z % 8 < 8 := Nat.mod_lt _ (by decide)
  have e : z % 4 = (z % 8) % 4 := by omega
  rw [e]
  generalize z % 8 = w at h
  interval_cases w <;> rfl

theorem land_digit1 (z : Nat) : (z % 8) &&& 1 = z % 2 := by
  have h : z % 8 < 8 := Nat.mod_lt _ (by decide)
  have e : z % 2 = (z % 8) % 2 := by omega
  rw [e]
  generalize z % 8 = w at h
  interval_cases w <;> rfl

theorem land_63 (z : Nat) : z &&& 63 = z % 64 := by
  rw [land_peel z 63, land_peel (z / 8) (63 / 8)]
  norm_num
  rw [land_digit7 z, land_digit7 (z / 8)]
  omega

theorem int_land_natCast (a b : Nat) : Int.land (a : Int) (b : Int) = ((a &&& b : Nat) : Int) :=
  rfl

theorem popcount_step (x m1 m2 : Nat) (h1 : m1 % 8 = 3) (h2 : m2 % 8 = 1) :
    (x : Int) - ((x / 2 &&& m1 : Nat) : Int) - ((x / 4 &&& m2 : Nat) : Int) =
      (((x % 8 : Nat) : Int) - ((x % 8 / 2 : Nat) : Int) - ((x % 8 / 4 : Nat) : Int)) +
        8 * (((x / 8 : Nat) : Int) - ((x / 8 / 2 &&& m1 / 8 : Nat) : Int) -
          ((x / 8 / 4 &&& m2 / 8 : Nat) : Int)) := by
  rw [land_peel (x / 2) m1, land_peel (x / 4) m2, h1, h2, land_digit3, land_digit1]
  have e1 : x / 2 / 8 = x / 8 / 2 := by omega
  have e2 : x / 4 / 8 = x / 8 / 4 := by omega
  rw [e1, e2]
  generalize (x / 8 / 2 &&& m1 / 8) = A
  generalize (x / 8 / 4 &&& m2 / 8) = B
  push_cast
  omega

theorem digit_pop_range (y : Nat) :
    0 ≤ ((y % 8 : Nat) : Int) - ((y % 8 / 2 : Nat) : Int) - ((y % 8 / 4 : Nat) : Int) ∧
    ((y % 8 : Nat) : Int) - ((y % 8 / 2 : Nat) : Int) - ((y % 8 / 4 : Nat) : Int) ≤ 3 := by
  omega

theorem popcount_digits (n : Nat) (hn : n < 4294967296) :
    ∃ p0 p1 p2 p3 p4 p5 p6 p7 p8 p9 p10 : Int,
      (0 ≤ p0 ∧ p0 ≤ 3) ∧ (0 ≤ p1 ∧ p1 ≤ 3) ∧ (0 ≤ p2 ∧ p2 ≤ 3) ∧ (0 ≤ p3 ∧ p3 ≤ 3) ∧
      (0 ≤ p4 ∧ p4 ≤ 3) ∧ (0 ≤ p5 ∧ p5 ≤ 3) ∧ (0 ≤ p6 ∧ p6 ≤ 3) ∧ (0 ≤ p7 ∧ p7 ≤ 3) ∧
      (0 ≤ p8 ∧ p8 ≤ 3) ∧ (0 ≤ p9 ∧ p9 ≤ 3) ∧ (0 ≤ p10 ∧ p10 ≤ 2) ∧
      (n : Int) - ((n / 2 &&& 3681400539 : Nat) : Int) - ((n / 4 &&& 1227133513 : Nat) : Int) =
        p0 + 8 * (p1 + 8 * (p2 + 8 * (p3 + 8 * (p4 + 8 * (p5 + 8 * (p6 + 8 * (p7 +
          8 * (p8 + 8 * (p9 + 8 * p10))))))))) := by
  rw [popcount_step (n) (3681400539) (1227133513) (by decide)
    (by decide)]
  rw [popcount_step (n / 8) (3681400539 / 8) (1227133513 / 8) (by decide)
    (by decide)]
  rw [popcount_step (n / 8 / 8) (3681400539 / 8 / 8) (1227133513 / 8 / 8) (by decide)
    (by decide)]
  rw [popcount_step (n / 8 / 8 / 8) (3681400539 / 8 / 8 / 8) (1227133513 / 8 / 8 / 8) (by decide)
    (by decide)]
  rw [popcount_step (n / 8 / 8 / 8 / 8) (3681400539 / 8 / 8 / 8 / 8) (1227133513 / 8 / 8 / 8 / 8) (by decide)
    (by decide)]
  rw [popcount_step (n / 8 / 8 / 8 / 8 / 8) (3681400539 / 8 / 8 / 8 / 8 / 8) (1227133513 / 8 / 8 / 8 / 8 / 8) (by decide)
    (by decide)]
  rw [popcount_step (n / 8 / 8 / 8 / 8 / 8 / 8) (3681400539 / 8 / 8 / 8 / 8 / 8 / 8) (1227133513 / 8 / 8 / 8 / 8 / 8 / 8) (by decide)
    (by decide)]
  rw [popcount_step (n / 8 / 8 / 8 / 8 / 8 / 8 / 8) (3681400539 / 8 / 8 / 8 / 8 / 8 / 8 / 8) (1227133513 / 8 / 8 / 8 / 8 / 8 / 8 / 8) (by decide)
    (by decide)]
  rw [popcount_step (n / 8 / 8 / 8 / 8 / 8 / 8 / 8 / 8) (3681400539 / 8 / 8 / 8 / 8 / 8 / 8 / 8 / 8) (1227133513 / 8 / 8 / 8 / 8 / 8 / 8 / 8 / 8) (by decide)
    (by decide)]
  rw [popcount_step (n / 8 / 8 / 8 / 8 / 8 / 8 / 8 / 8 / 8) (3681400539 / 8 / 8 / 8 / 8 / 8 / 8 / 8 / 8 / 8) (1227133513 / 8 / 8 / 8 / 8 / 8 / 8 / 8 / 8 / 8) (by decide)
    (by decide)]
  rw [popcount_step (n / 8 / 8 / 8 / 8 / 8 / 8 / 8 / 8 / 8 / 8) (3681400539 / 8 / 8 / 8 / 8 / 8 / 8 / 8 / 8 / 8 / 8) (1227133513 / 8 / 8 / 8 / 8 / 8 / 8 / 8 / 8 / 8 / 8) (by decide)
    (by decide)]
  have hz : n / 8 / 8 / 8 / 8 / 8 / 8 / 8 / 8 / 8 / 8 / 8 = 0 := by omega
  rw [hz]
  have htop : n / 8 / 8 / 8 / 8 / 8 / 8 / 8 / 8 / 8 / 8 < 4 := by omega
  refine ⟨((((n) % 8 : Nat) : Int) - (((n) % 8 / 2 : Nat) : Int) - (((n) % 8 / 4 : Nat) : Int)),
    ((((n / 8) % 8 : Nat) : Int) - (((n / 8) % 8 / 2 : Nat) : Int) - (((n / 8) % 8 / 4 : Nat) : Int)),
    ((((n / 8 / 8) % 8 : Nat) : Int) - (((n / 8 / 8) % 8 / 2 : Nat) : Int) - (((n / 8 / 8) % 8 / 4 : Nat) : Int)),
    ((((n / 8 / 8 / 8) % 8 : Nat) : Int) - (((n / 8 / 8 / 8) % 8 / 2 : Nat) : Int) - (((n / 8 / 8 / 8) % 8 / 4 : Nat) : Int)),
    ((((n / 8 / 8 / 8 / 8) % 8 : Nat) : Int) - (((n / 8 / 8 / 8 / 8) % 8 / 2 : Nat) : Int) - (((n / 8 / 8 / 8 / 8) % 8 / 4 : Nat) : Int)),
    ((((n / 8 / 8 / 8 / 8 / 8) % 8 : Nat) : Int) - (((n / 8 / 8 / 8 / 8 / 8) % 8 / 2 : Nat) : Int) - (((n / 8 / 8 / 8 / 8 / 8) % 8 / 4 : Nat) : Int)),
    ((((n / 8 / 8 / 8 / 8 / 8 / 8) % 8 : Nat) : Int) - (((n / 8 / 8 / 8 / 8 / 8 / 8) % 8 / 2 : Nat) : Int) - (((n / 8 / 8 / 8 / 8 / 8 / 8) % 8 / 4 : Nat) : Int)),
    ((((n / 8 / 8 / 8 / 8 / 8 / 8 / 8) % 8 : Nat) : Int) - (((n / 8 / 8 / 8 / 8 / 8 / 8 / 8) % 8 / 2 : Nat) : Int) - (((n / 8 / 8 / 8 / 8 / 8 / 8 / 8) % 8 / 4 : Nat) : Int)),
    ((((n / 8 / 8 / 8 / 8 / 8 / 8 / 8 / 8) % 8 : Nat) : Int) - (((n / 8 / 8 / 8 / 8 / 8 / 8 / 8 / 8) % 8 / 2 : Nat) : Int) - (((n / 8 / 8 / 8 / 8 / 8 / 8 / 8 / 8) % 8 / 4 : Nat) : Int)),
    ((((n / 8 / 8 / 8 / 8 / 8 / 8 / 8 / 8 / 8) % 8 : Nat) : Int) - (((n / 8 / 8 / 8 / 8 / 8 / 8 / 8 / 8 / 8) % 8 / 2 : Nat) : Int) - (((n / 8 / 8 / 8 / 8 / 8 / 8 / 8 / 8 / 8) % 8 / 4 : Nat) : Int)),
    ((((n / 8 / 8 / 8 / 8 / 8 / 8 / 8 / 8 / 8 / 8) % 8 : Nat) : Int) - (((n / 8 / 8 / 8 / 8 / 8 / 8 / 8 / 8 / 8 / 8) % 8 / 2 : Nat) : Int) - (((n / 8 / 8 / 8 / 8 / 8 / 8 / 8 / 8 / 8 / 8) % 8 / 4 : Nat) : Int)),
    digit_pop_range (n), digit_pop_range (n / 8), digit_pop_range (n / 8 / 8), digit_pop_range (n / 8 / 8 / 8), digit_pop_range (n / 8 / 8 / 8 / 8), digit_pop_range (n / 8 / 8 / 8 / 8 / 8), digit_pop_range (n / 8 / 8 / 8 / 8 / 8 / 8), digit_pop_range (n / 8 / 8 / 8 / 8 / 8 / 8 / 8), digit_pop_range (n / 8 / 8 / 8 / 8 / 8 / 8 / 8 / 8), digit_pop_range (n / 8 / 8 / 8 / 8 / 8 / 8 / 8 / 8 / 8),
    ?_, ?_⟩
  · omega
  · simp only [Nat.zero_div, Nat.zero_and, Nat.cast_zero, sub_zero, mul_zero, add_zero]

theorem land_pair_mask (s : Nat) (hs : s < 4294967296) :
    s &&& 3340530119 = s % 8 + 8 * (0 + 8 * (s / 8 / 8 % 8 + 8 * (0 + 8 * (s / 8 / 8 / 8 / 8 % 8 + 8 * (0 + 8 * (s / 8 / 8 / 8 / 8 / 8 / 8 % 8 + 8 * (0 + 8 * (s / 8 / 8 / 8 / 8 / 8 / 8 / 8 / 8 % 8 + 8 * (0 + 8 * (s / 8 / 8 / 8 / 8 / 8 / 8 / 8 / 8 / 8 / 8 % 4)))))))))) := by
  rw [show s &&& 3340530119 = (s % 8 &&& 7) + 8 * (s / 8 &&& 417566264) from
    land_peel _ _]
  rw [show s / 8 &&& 417566264 = (s / 8 % 8 &&& 0) + 8 * (s / 8 / 8 &&& 52195783) from
    land_peel _ _]
  rw [show s / 8 / 8 &&& 52195783 = (s / 8 / 8 % 8 &&& 7) + 8 * (s / 8 / 8 / 8 &&& 6524472) from
    land_peel _ _]
  rw [show s / 8 / 8 / 8 &&& 6524472 = (s / 8 / 8 / 8 % 8 &&& 0) + 8 * (s / 8 / 8 / 8 / 8 &&& 815559) from
    land_peel _ _]
  rw [show s / 8 / 8 / 8 / 8 &&& 815559 = (s / 8 / 8 / 8 / 8 % 8 &&& 7) + 8 * (s / 8 / 8 / 8 / 8 / 8 &&& 101944) from
    land_peel _ _]
  rw [show s / 8 / 8 / 8 / 8 / 8 &&& 101944 = (s / 8 / 8 / 8 / 8 / 8 % 8 &&& 0) + 8 * (s / 8 / 8 / 8 / 8 / 8 / 8 &&& 12743) from
    land_peel _ _]
  rw [show s / 8 / 8 / 8 / 8 / 8 / 8 &&& 12743 = (s / 8 / 8 / 8 / 8 / 8 / 8 % 8 &&& 7) + 8 * (s / 8 / 8 / 8 / 8 / 8 / 8 / 8 &&& 1592) from
    land_peel _ _]
  rw [show s / 8 / 8 / 8 / 8 / 8 / 8 / 8 &&& 1592 = (s / 8 / 8 / 8 / 8 / 8 / 8 / 8 % 8 &&& 0) + 8 * (s / 8 / 8 / 8 / 8 / 8 / 8 / 8 / 8 &&& 199) from
    land_peel _ _]
  rw [show s / 8 / 8 / 8 / 8 / 8 / 8 / 8 / 8 &&& 199 = (s / 8 / 8 / 8 / 8 / 8 / 8 / 8 / 8 % 8 &&& 7) + 8 * (s / 8 / 8 / 8 / 8 / 8 / 8 / 8 / 8 / 8 &&& 24) from
    land_peel _ _]
  rw [show s / 8 / 8 / 8 / 8 / 8 / 8 / 8 / 8 / 8 &&& 24 = (s / 8 / 8 / 8 / 8 / 8 / 8 / 8 / 8 / 8 % 8 &&& 0) + 8 * (s / 8 / 8 / 8 / 8 / 8 / 8 / 8 / 8 / 8 / 8 &&& 3) from
    land_peel _ _]
  rw [show s / 8 / 8 / 8 / 8 / 8 / 8 / 8 / 8 / 8 / 8 &&& 3 = (s / 8 / 8 / 8 / 8 / 8 / 8 / 8 / 8 / 8 / 8 % 8 &&& 3) + 8 * (s / 8 / 8 / 8 / 8 / 8 / 8 / 8 / 8 / 8 / 8 / 8 &&& 0) from
    land_peel _ _]
  have hz : s / 8 / 8 / 8 / 8 / 8 / 8 / 8 / 8 / 8 / 8 / 8 = 0 := by omega
  rw [hz]
  simp only [land_digit7, land_digit3, Nat.and_zero, Nat.zero_and, Nat.mul_zero, Nat.add_zero,
    Nat.zero_add]

theorem shr_natCast (n k : Nat) : shr (n : Int) k = ((n / 2 ^ k : Nat) : Int) := by
  unfold shr
  push_cast
  rfl

theorem int_peel_digit (s r t b : Int) (h : s = r + b * t) (hb : 0 < b) (h0 : 0 ≤ r)
    (h1 : r < b) : s % b = r ∧ s / b = t := by
  subst h
  constructor
  · rw [Int.add_mul_emod_self_left]
    exact Int.emod_eq_of_lt h0 h1
  · rw [Int.add_mul_ediv_left _ _ (ne_of_gt hb), Int.ediv_eq_zero_of_lt h0 h1]
    omega

theorem toUint32_of_range {x : Int} (h0 : 0 ≤ x) (h1 : x < 4294967296) : toUint32 x = x := by
  unfold toUint32
  exact Int.emod_eq_of_lt h0 h1


theorem bitcount_stage2 (p0 p1 p2 p3 p4 p5 p6 p7 p8 p9 p10 : Int)
    (b0 : 0 ≤ p0 ∧ p0 ≤ 3) (b1 : 0 ≤ p1 ∧ p1 ≤ 3) (b2 : 0 ≤ p2 ∧ p2 ≤ 3) (b3 : 0 ≤ p3 ∧ p3 ≤ 3) (b4 : 0 ≤ p4 ∧ p4 ≤ 3) (b5 : 0 ≤ p5 ∧ p5 ≤ 3) (b6 : 0 ≤ p6 ∧ p6 ≤ 3) (b7 : 0 ≤ p7 ∧ p7 ≤ 3) (b8 : 0 ≤ p8 ∧ p8 ≤ 3) (b9 : 0 ≤ p9 ∧ p9 ≤ 3) (b10 : 0 ≤ p10 ∧ p10 ≤ 2) :
    Int.land (toUint32 ((p0 + 8 * (p1 + 8 * (p2 + 8 * (p3 + 8 * (p4 + 8 * (p5 + 8 * (p6 + 8 * (p7 + 8 * (p8 + 8 * (p9 + 8 * (p10))))))))))) + shr (p0 + 8 * (p1 + 8 * (p2 + 8 * (p3 + 8 * (p4 + 8 * (p5 + 8 * (p6 + 8 * (p7 + 8 * (p8 + 8 * (p9 + 8 * (p10))))))))))) 3)) 3340530119 =
      (p0 + p1) + 64 * ((p2 + p3) + 64 * ((p4 + p5) + 64 * ((p6 + p7) + 64 * ((p8 + p9) + 64 * (p10))))) := by
  have hd := (int_peel_digit (p0 + 8 * (p1 + 8 * (p2 + 8 * (p3 + 8 * (p4 + 8 * (p5 + 8 * (p6 + 8 * (p7 + 8 * (p8 + 8 * (p9 + 8 * (p10))))))))))) p0 (p1 + 8 * (p2 + 8 * (p3 + 8 * (p4 + 8 * (p5 + 8 * (p6 + 8 * (p7 + 8 * (p8 + 8 * (p9 + 8 * (p10)))))))))) 8 rfl (by decide) b0.1 (by omega)).2
  have hsum : (p0 + 8 * (p1 + 8 * (p2 + 8 * (p3 + 8 * (p4 + 8 * (p5 + 8 * (p6 + 8 * (p7 + 8 * (p8 + 8 * (p9 + 8 * (p10))))))))))) + (p1 + 8 * (p2 + 8 * (p3 + 8 * (p4 + 8 * (p5 + 8 * (p6 + 8 * (p7 + 8 * (p8 + 8 * (p9 + 8 * (p10)))))))))) = (p0 + p1) + 8 * ((p1 + p2) + 8 * ((p2 + p3) + 8 * ((p3 + p4) + 8 * ((p4 + p5) + 8 * ((p5 + p6) + 8 * ((p6 + p7) + 8 * ((p7 + p8) + 8 * ((p8 + p9) + 8 * ((p9 + p10) + 8 * (p10)))))))))) := by ring
  have hs0 : 0 ≤ (p0 + p1) + 8 * ((p1 + p2) + 8 * ((p2 + p3) + 8 * ((p3 + p4) + 8 * ((p4 + p5) + 8 * ((p5 + p6) + 8 * ((p6 + p7) + 8 * ((p7 + p8) + 8 * ((p8 + p9) + 8 * ((p9 + p10) + 8 * (p10)))))))))) := by omega
  have hs1 : (p0 + p1) + 8 * ((p1 + p2) + 8 * ((p2 + p3) + 8 * ((p3 + p4) + 8 * ((p4 + p5) + 8 * ((p5 + p6) + 8 * ((p6 + p7) + 8 * ((p7 + p8) + 8 * ((p8 + p9) + 8 * ((p9 + p10) + 8 * (p10)))))))))) < 4294967296 := by omega
  have e1 : shr (p0 + 8 * (p1 + 8 * (p2 + 8 * (p3 + 8 * (p4 + 8 * (p5 + 8 * (p6 + 8 * (p7 + 8 * (p8 + 8 * (p9 + 8 * (p10))))))))))) 3 = p1 + 8 * (p2 + 8 * (p3 + 8 * (p4 + 8 * (p5 + 8 * (p6 + 8 * (p7 + 8 * (p8 + 8 * (p9 + 8 * (p10))))))))) := by
    unfold shr
    rw [show ((2 : Int) ^ 3) = 8 from by decide]
    exact hd
  rw [e1, hsum, toUint32_of_range hs0 hs1]
  obtain ⟨s, hs⟩ : ∃ s : Nat, (s : Int) = (p0 + p1) + 8 * ((p1 + p2) + 8 * ((p2 + p3) + 8 * ((p3 + p4) + 8 * ((p4 + p5) + 8 * ((p5 + p6) + 8 * ((p6 + p7) + 8 * ((p7 + p8) + 8 * ((p8 + p9) + 8 * ((p9 + p10) + 8 * (p10)))))))))) := ⟨_, Int.toNat_of_nonneg hs0⟩
  have hs32 : s < 4294967296 := by omega
  rw [← hs]
  have e2 : Int.land (s : Int) 3340530119 = ((s &&& 3340530119 : Nat) : Int) := rfl
  rw [e2, land_pair_mask s hs32]
  push_cast
  rw [hs]
  have c0 := int_peel_digit ((p0 + p1) + 8 * ((p1 + p2) + 8 * ((p2 + p3) + 8 * ((p3 + p4) + 8 * ((p4 + p5) + 8 * ((p5 + p6) + 8 * ((p6 + p7) + 8 * ((p7 + p8) + 8 * ((p8 + p9) + 8 * ((p9 + p10) + 8 * (p10))))))))))) (p0 + p1) ((p1 + p2) + 8 * ((p2 + p3) + 8 * ((p3 + p4) + 8 * ((p4 + p5) + 8 * ((p5 + p6) + 8 * ((p6 + p7) + 8 * ((p7 + p8) + 8 * ((p8 + p9) + 8 * ((p9 + p10) + 8 * (p10)))))))))) 8 rfl (by decide) (by omega) (by omega)
  have c1 := int_peel_digit ((p1 + p2) + 8 * ((p2 + p3) + 8 * ((p3 + p4) + 8 * ((p4 + p5) + 8 * ((p5 + p6) + 8 * ((p6 + p7) + 8 * ((p7 + p8) + 8 * ((p8 + p9) + 8 * ((p9 + p10) + 8 * (p10)))))))))) (p1 + p2) ((p2 + p3) + 8 * ((p3 + p4) + 8 * ((p4 + p5) + 8 * ((p5 + p6) + 8 * ((p6 + p7) + 8 * ((p7 + p8) + 8 * ((p8 + p9) + 8 * ((p9 + p10) + 8 * (p10))))))))) 8 rfl (by decide) (by omega) (by omega)
  have c2 := int_peel_digit ((p2 + p3) + 8 * ((p3 + p4) + 8 * ((p4 + p5) + 8 * ((p5 + p6) + 8 * ((p6 + p7) + 8 * ((p7 + p8) + 8 * ((p8 + p9) + 8 * ((p9 + p10) + 8 * (p10))))))))) (p2 + p3) ((p3 + p4) + 8 * ((p4 + p5) + 8 * ((p5 + p6) + 8 * ((p6 + p7) + 8 * ((p7 + p8) + 8 * ((p8 + p9) + 8 * ((p9 + p10) + 8 * (p10)))))))) 8 rfl (by decide) (by omega) (by omega)
  have c3 := int_peel_digit ((p3 + p4) + 8 * ((p4 + p5) + 8 * ((p5 + p6) + 8 * ((p6 + p7) + 8 * ((p7 + p8) + 8 * ((p8 + p9) + 8 * ((p9 + p10) + 8 * (p10)))))))) (p3 + p4) ((p4 + p5) + 8 * ((p5 + p6) + 8 * ((p6 + p7) + 8 * ((p7 + p8) + 8 * ((p8 + p9) + 8 * ((p9 + p10) + 8 * (p10))))))) 8 rfl (by decide) (by omega) (by omega)
  have c4 := int_peel_digit ((p4 + p5) + 8 * ((p5 + p6) + 8 * ((p6 + p7) + 8 * ((p7 + p8) + 8 * ((p8 + p9) + 8 * ((p9 + p10) + 8 * (p10))))))) (p4 + p5) ((p5 + p6) + 8 * ((p6 + p7) + 8 * ((p7 + p8) + 8 * ((p8 + p9) + 8 * ((p9 + p10) + 8 * (p10)))))) 8 rfl (by decide) (by omega) (by omega)
  have c5 := int_peel_digit ((p5 + p6) + 8 * ((p6 + p7) + 8 * ((p7 + p8) + 8 * ((p8 + p9) + 8 * ((p9 + p10) + 8 * (p10)))))) (p5 + p6) ((p6 + p7) + 8 * ((p7 + p8) + 8 * ((p8 + p9) + 8 * ((p9 + p10) + 8 * (p10))))) 8 rfl (by decide) (by omega) (by omega)
  have c6 := int_peel_digit ((p6 + p7) + 8 * ((p7 + p8) + 8 * ((p8 + p9) + 8 * ((p9 + p10) + 8 * (p10))))) (p6 + p7) ((p7 + p8) + 8 * ((p8 + p9) + 8 * ((p9 + p10) + 8 * (p10)))) 8 rfl (by decide) (by omega) (by omega)
  have c7 := int_peel_digit ((p7 + p8) + 8 * ((p8 + p9) + 8 * ((p9 + p10) + 8 * (p10)))) (p7 + p8) ((p8 + p9) + 8 * ((p9 + p10) + 8 * (p10))) 8 rfl (by decide) (by omega) (by omega)
  have c8 := int_peel_digit ((p8 + p9) + 8 * ((p9 + p10) + 8 * (p10))) (p8 + p9) ((p9 + p10) + 8 * (p10)) 8 rfl (by decide) (by omega) (by omega)
  have c9 := int_peel_digit ((p9 + p10) + 8 * (p10)) (p9 + p10) (p10) 8 rfl (by decide) (by omega) (by omega)
  have c10 : p10 % 4 = p10 := Int.emod_eq_of_lt b10.1 (by omega)
  simp only [c0.1, c0.2, c1.1, c1.2, c2.1, c2.2, c3.1, c3.2, c4.1, c4.2, c5.1, c5.2, c6.1, c6.2, c7.1, c7.2, c8.1, c8.2, c9.1, c9.2, c10]
  ring

theorem bitcount_stage3 (q0 q1 q2 q3 q4 q5 : Int)
    (b0 : 0 ≤ q0 ∧ q0 ≤ 6) (b1 : 0 ≤ q1 ∧ q1 ≤ 6) (b2 : 0 ≤ q2 ∧ q2 ≤ 6) (b3 : 0 ≤ q3 ∧ q3 ≤ 6) (b4 : 0 ≤ q4 ∧ q4 ≤ 6) (b5 : 0 ≤ q5 ∧ q5 ≤ 2) :
    Int.land (toUint32 (toUint32 (toUint32 ((q0 + 64 * (q1 + 64 * (q2 + 64 * (q3 + 64 * (q4 + 64 * (q5)))))) + shr (q0 + 64 * (q1 + 64 * (q2 + 64 * (q3 + 64 * (q4 + 64 * (q5)))))) 6) +
      shr (toUint32 ((q0 + 64 * (q1 + 64 * (q2 + 64 * (q3 + 64 * (q4 + 64 * (q5)))))) + shr (q0 + 64 * (q1 + 64 * (q2 + 64 * (q3 + 64 * (q4 + 64 * (q5)))))) 6)) 12) +
      shr (toUint32 ((q0 + 64 * (q1 + 64 * (q2 + 64 * (q3 + 64 * (q4 + 64 * (q5)))))) + shr (q0 + 64 * (q1 + 64 * (q2 + 64 * (q3 + 64 * (q4 + 64 * (q5)))))) 6)) 24)) 63 =
      q0 + q1 + q2 + q3 + q4 + q5 := by
  have hd := (int_peel_digit (q0 + 64 * (q1 + 64 * (q2 + 64 * (q3 + 64 * (q4 + 64 * (q5)))))) q0 (q1 + 64 * (q2 + 64 * (q3 + 64 * (q4 + 64 * (q5))))) 64 rfl (by decide) b0.1 (by omega)).2
  have e1 : shr (q0 + 64 * (q1 + 64 * (q2 + 64 * (q3 + 64 * (q4 + 64 * (q5)))))) 6 = q1 + 64 * (q2 + 64 * (q3 + 64 * (q4 + 64 * (q5)))) := by
    unfold shr
    rw [show ((2 : Int) ^ 6) = 64 from by decide]
    exact hd
  have hsum : (q0 + 64 * (q1 + 64 * (q2 + 64 * (q3 + 64 * (q4 + 64 * (q5)))))) + (q1 + 64 * (q2 + 64 * (q3 + 64 * (q4 + 64 * (q5))))) = (q0 + q1) + 64 * ((q1 + q2) + 64 * ((q2 + q3) + 64 * ((q3 + q4) + 64 * ((q4 + q5) + 64 * (q5))))) := by ring
  have h30 : 0 ≤ (q0 + q1) + 64 * ((q1 + q2) + 64 * ((q2 + q3) + 64 * ((q3 + q4) + 64 * ((q4 + q5) + 64 * (q5))))) := by omega
  have h31 : (q0 + q1) + 64 * ((q1 + q2) + 64 * ((q2 + q3) + 64 * ((q3 + q4) + 64 * ((q4 + q5) + 64 * (q5))))) < 4294967296 := by omega
  rw [e1, hsum, toUint32_of_range h30 h31]
  have hA2 : (q0 + q1) + 64 * ((q1 + q2) + 64 * ((q2 + q3) + 64 * ((q3 + q4) + 64 * ((q4 + q5) + 64 * (q5))))) = ((q0 + q1) + 64 * (q1 + q2)) + 4096 * ((q2 + q3) + 64 * ((q3 + q4) + 64 * ((q4 + q5) + 64 * (q5)))) := by ring
  have hA4 : (q0 + q1) + 64 * ((q1 + q2) + 64 * ((q2 + q3) + 64 * ((q3 + q4) + 64 * ((q4 + q5) + 64 * (q5))))) = ((q0 + q1) + 64 * (q1 + q2) + 4096 * (q2 + q3) + 262144 * (q3 + q4)) + 16777216 * ((q4 + q5) + 64 * (q5)) := by ring
  have d2 := (int_peel_digit ((q0 + q1) + 64 * ((q1 + q2) + 64 * ((q2 + q3) + 64 * ((q3 + q4) + 64 * ((q4 + q5) + 64 * (q5)))))) ((q0 + q1) + 64 * (q1 + q2)) ((q2 + q3) + 64 * ((q3 + q4) + 64 * ((q4 + q5) + 64 * (q5)))) 4096 hA2 (by decide) (by omega) (by omega)).2
  have d4 := (int_peel_digit ((q0 + q1) + 64 * ((q1 + q2) + 64 * ((q2 + q3) + 64 * ((q3 + q4) + 64 * ((q4 + q5) + 64 * (q5)))))) ((q0 + q1) + 64 * (q1 + q2) + 4096 * (q2 + q3) + 262144 * (q3 + q4)) ((q4 + q5) + 64 * (q5)) 16777216 hA4 (by decide) (by omega) (by omega)).2
  have e2 : shr ((q0 + q1) + 64 * ((q1 + q2) + 64 * ((q2 + q3) + 64 * ((q3 + q4) + 64 * ((q4 + q5) + 64 * (q5)))))) 12 = (q2 + q3) + 64 * ((q3 + q4) + 64 * ((q4 + q5) + 64 * (q5))) := by
    unfold shr
    rw [show ((2 : Int) ^ 12) = 4096 from by decide]
    exact d2
  have e4 : shr ((q0 + q1) + 64 * ((q1 + q2) + 64 * ((q2 + q3) + 64 * ((q3 + q4) + 64 * ((q4 + q5) + 64 * (q5)))))) 24 = (q4 + q5) + 64 * (q5) := by
    unfold shr
    rw [show ((2 : Int) ^ 24) = 16777216 from by decide]
    exact d4
  rw [e2, e4]
  have hu0 : 0 ≤ ((q0 + q1) + 64 * ((q1 + q2) + 64 * ((q2 + q3) + 64 * ((q3 + q4) + 64 * ((q4 + q5) + 64 * (q5)))))) + ((q2 + q3) + 64 * ((q3 + q4) + 64 * ((q4 + q5) + 64 * (q5)))) := by omega
  have hu1 : ((q0 + q1) + 64 * ((q1 + q2) + 64 * ((q2 + q3) + 64 * ((q3 + q4) + 64 * ((q4 + q5) + 64 * (q5)))))) + ((q2 + q3) + 64 * ((q3 + q4) + 64 * ((q4 + q5) + 64 * (q5)))) < 4294967296 := by omega
  rw [toUint32_of_range hu0 hu1]
  have hv0 : 0 ≤ ((q0 + q1) + 64 * ((q1 + q2) + 64 * ((q2 + q3) + 64 * ((q3 + q4) + 64 * ((q4 + q5) + 64 * (q5)))))) + ((q2 + q3) + 64 * ((q3 + q4) + 64 * ((q4 + q5) + 64 * (q5)))) + ((q4 + q5) + 64 * (q5)) := by omega
  have hv1 : ((q0 + q1) + 64 * ((q1 + q2) + 64 * ((q2 + q3) + 64 * ((q3 + q4) + 64 * ((q4 + q5) + 64 * (q5)))))) + ((q2 + q3) + 64 * ((q3 + q4) + 64 * ((q4 + q5) + 64 * (q5)))) + ((q4 + q5) + 64 * (q5)) < 4294967296 := by omega
  rw [toUint32_of_range hv0 hv1]
  obtain ⟨u, hu⟩ : ∃ u : Nat, (u : Int) = ((q0 + q1) + 64 * ((q1 + q2) + 64 * ((q2 + q3) + 64 * ((q3 + q4) + 64 * ((q4 + q5) + 64 * (q5)))))) + ((q2 + q3) + 64 * ((q3 + q4) + 64 * ((q4 + q5) + 64 * (q5)))) + ((q4 + q5) + 64 * (q5)) := ⟨_, Int.toNat_of_nonneg hv0⟩
  rw [← hu]
  have e5 : Int.land (u : Int) 63 = ((u &&& 63 : Nat) : Int) := rfl
  rw [e5, land_63]
  push_cast
  rw [hu]
  have hfin : ((q0 + q1) + 64 * ((q1 + q2) + 64 * ((q2 + q3) + 64 * ((q3 + q4) + 64 * ((q4 + q5) + 64 * (q5)))))) + ((q2 + q3) + 64 * ((q3 + q4) + 64 * ((q4 + q5) + 64 * (q5)))) + ((q4 + q5) + 64 * (q5)) = (q0 + q1 + q2 + q3 + q4 + q5) + 64 * (((q1 + q2) + 64 * ((q2 + q3) + 64 * ((q3 + q4) + 64 * ((q4 + q5) + 64 * (q5))))) + ((q3 + q4) + 64 * ((q4 + q5) + 64 * (q5))) + q5) := by ring
  exact (int_peel_digit _ _ _ 64 hfin (by decide) (by omega) (by omega)).1

theorem BitCount_range (x : Int) (h0 : 0 ≤ x) (h1 : x < 4294967296) :
    0 ≤ BitCount x ∧ BitCount x ≤ 32 := by
  obtain ⟨n, rfl⟩ := Int.eq_ofNat_of_zero_le h0
  have hn : n < 4294967296 := by omega
  obtain ⟨p0, p1, p2, p3, p4, p5, p6, p7, p8, p9, p10, b0, b1, b2, b3, b4, b5, b6, b7, b8, b9,
    b10, hT⟩ := popcount_digits n hn
  have hA : Int.land (shr (n : Int) 1) 3681400539 = ((n / 2 &&& 3681400539 : Nat) : Int) := by
    rw [shr_natCast]
    rfl
  have hB : Int.land (shr (n : Int) 2) 1227133513 = ((n / 4 &&& 1227133513 : Nat) : Int) := by
    rw [shr_natCast]
    rfl
  have hAle : n / 2 &&& 3681400539 ≤ n / 2 := Nat.and_le_left
  have hBle : n / 4 &&& 1227133513 ≤ n / 4 := Nat.and_le_left
  have ht1 : toUint32 (toUint32 ((n : Int) - Int.land (shr (n : Int) 1) 3681400539) -
      Int.land (shr (n : Int) 2) 1227133513) =
      p0 + 8 * (p1 + 8 * (p2 + 8 * (p3 + 8 * (p4 + 8 * (p5 + 8 * (p6 + 8 * (p7 + 8 * (p8 + 8 * (p9 + 8 * (p10)))))))))) := by
    rw [hA, hB, ← hT]
    generalize (n / 2 &&& 3681400539) = A at hAle
    generalize (n / 4 &&& 1227133513) = B at hBle
    rw [toUint32_of_range (x := (n : Int) - (A : Int)) (by omega) (by omega),
      toUint32_of_range (by omega) (by omega)]
  have hres : BitCount (n : Int) = toInt32 (p0 + p1 + p2 + p3 + p4 + p5 + p6 + p7 + p8 + p9 + p10) := by
    unfold BitCount
    simp only []
    rw [ht1, bitcount_stage2 p0 p1 p2 p3 p4 p5 p6 p7 p8 p9 p10 b0 b1 b2 b3 b4 b5 b6 b7 b8 b9 b10,
      bitcount_stage3 (p0 + p1) (p2 + p3) (p4 + p5) (p6 + p7) (p8 + p9) p10 (by omega) (by omega)
        (by omega) (by omega) (by omega) b10]
    congr 1
    ring
  rw [hres]
  clear hres ht1 hT hA hB hAle hBle
  have e : toInt32 (p0 + p1 + p2 + p3 + p4 + p5 + p6 + p7 + p8 + p9 + p10) =
      p0 + p1 + p2 + p3 + p4 + p5 + p6 + p7 + p8 + p9 + p10 := by
    unfold toInt32
    omega
  rw [e]
  omega


/-! ### Binary delay estimator -/

theorem forRange_invariant_lt {σ : Type} (P : σ → Prop) (body : σ → Nat → σ) (n : Nat)
    (hbody : ∀ s i, i < n → P s → P (body s i)) (s : σ) (hs : P s) :
    P (forRange n body s) := by
  induction n with
  | zero => exact hs
  | succ k ih =>
    rw [forRange_succ]
    exact hbody _ _ (Nat.lt_succ_self k)
      (ih (fun s i hi hp => hbody s i (Nat.lt_succ_of_lt hi) hp))

theorem getD_set_range (R : Int → Prop) (l : List Int) (i : Nat) (v : Int) (j : Nat)
    (hold : R (l.getD j 0)) (hv : R v) : R ((l.set i v).getD j 0) := by
  rw [List.getD_eq_getElem?_getD, List.getElem?_set]
  rw [List.getD_eq_getElem?_getD] at hold
  by_cases hij : i = j
  · subst hij
    rw [if_pos rfl]
    by_cases hl : i < l.length
    · rw [if_pos hl]
      exact hv
    · rw [if_neg hl]
      rw [List.getElem?_eq_none (by omega)] at hold
      exact hold
  · rw [if_neg hij]
    exact hold

theorem forRange_set_range (R : Int → Prop) (g : Nat → Int) (hg : ∀ k, R (g k)) (h0 : R 0)
    (l : List Int) (n i : Nat) (hi : i < n) :
    R ((forRange n (fun (l : List Int) k => l.set k (g k)) l).getD i 0) := by
  induction n with
  | zero => omega
  | succ m ih =>
    rw [forRange_succ]
    by_cases him : i < m
    · exact getD_set_range R _ _ _ _ (ih him) (hg m)
    · have e : i = m := by omega
      subst e
      rw [List.getD_eq_getElem?_getD, List.getElem?_set, if_pos rfl]
      split_ifs
      · exact hg i
      · exact h0

theorem meanEstimator_range (new_value shifts mean_value : Int)
    (hn : 0 ≤ new_value ∧ new_value ≤ 16384) (hs : 7 ≤ shifts ∧ shifts ≤ 13)
    (hm : 0 ≤ mean_value ∧ mean_value < 16384) :
    0 ≤ WebRtc_MeanEstimatorFix new_value shifts mean_value ∧
    WebRtc_MeanEstimatorFix new_value shifts mean_value < 16384 := by
  unfold WebRtc_MeanEstimatorFix
  simp only []
  rw [toInt32_of_range (x := new_value - mean_value) (by omega) (by omega)]
  obtain ⟨k, hk⟩ : ∃ k : Nat, shifts.toNat = k + 7 := ⟨shifts.toNat - 7, by omega⟩
  have hpow : (2 : Int) ^ shifts.toNat = 128 * 2 ^ k := by
    rw [hk, pow_add]
    ring
  have hpos : (0 : Int) < 2 ^ k := by positivity
  by_cases hd : new_value - mean_value < 0
  · rw [if_pos hd, toInt32_of_range (x := -(new_value - mean_value)) (by omega) (by omega)]
    have h1 : 0 ≤ shr (-(new_value - mean_value)) shifts.toNat := by
      unfold shr
      exact Int.ediv_nonneg (by omega) (by positivity)
    have h2 : shr (-(new_value - mean_value)) shifts.toNat ≤ -(new_value - mean_value) := by
      unfold shr
      exact Int.ediv_le_self _ (by omega)
    rw [toInt32_of_range (x := -shr (-(new_value - mean_value)) shifts.toNat) (by omega)
      (by omega), toInt32_of_range (by omega) (by omega)]
    omega
  · rw [if_neg hd]
    have h1 : 0 ≤ shr (new_value - mean_value) shifts.toNat := by
      unfold shr
      exact Int.ediv_nonneg (by omega) (by positivity)
    have h2 : shr (new_value - mean_value) shifts.toNat * 128 ≤ new_value - mean_value := by
      unfold shr
      rw [hpow]
      have h3 : (new_value - mean_value) / (128 * 2 ^ k) * (128 * 2 ^ k) ≤
          new_value - mean_value := Int.ediv_mul_le _ (by positivity)
      have h4 : 0 ≤ (new_value - mean_value) / (128 * 2 ^ k) :=
        Int.ediv_nonneg (by omega) (by positivity)
      nlinarith
    rw [toInt32_of_range (by omega) (by omega)]
    omega

theorem toUint32_range (x : Int) : 0 ≤ toUint32 x ∧ toUint32 x < 4294967296 := by
  unfold toUint32
  omega

theorem bitCountComparison_range (v : Int) (m : List Int) (n : Int) (bc : List Int)
    (i : Nat) (hi : i < n.toNat) :
    0 ≤ (BitCountComparison v m n bc).getD i 0 ∧ (BitCountComparison v m n bc).getD i 0 ≤ 32 := by
  unfold BitCountComparison
  apply forRange_set_range (fun x => 0 ≤ x ∧ x ≤ 32)
    (fun k => toInt32 (BitCount (toUint32 (Int.xor v (m.getD k 0))))) _ (by decide) _ _ _ hi
  intro k
  have h := BitCount_range _ (toUint32_range (Int.xor v (m.getD k 0))).1
    (toUint32_range (Int.xor v (m.getD k 0))).2
  show 0 ≤ toInt32 _ ∧ toInt32 _ ≤ 32
  rw [toInt32_of_range (by omega) (by omega)]
  exact h

theorem updateMeanBitCounts_range (mbc bc fbc : List Int) (hs : Int)
    (hbc : ∀ i : Nat, i < hs.toNat → 0 ≤ bc.getD i 0 ∧ bc.getD i 0 ≤ 32)
    (hfbc : ∀ i : Nat, (i : Int) < hs → 0 ≤ fbc.getD i 0 ∧ fbc.getD i 0 ≤ 32)
    (hm : ∀ i : Nat, (i : Int) < hs → 0 ≤ mbc.getD i 0 ∧ mbc.getD i 0 < 16384) :
    ∀ i : Nat, (i : Int) < hs →
      0 ≤ (updateMeanBitCounts mbc bc fbc hs).getD i 0 ∧
      (updateMeanBitCounts mbc bc fbc hs).getD i 0 < 16384 := by
  unfold updateMeanBitCounts
  apply forRange_invariant_lt
    (fun l : List Int => ∀ i : Nat, (i : Int) < hs → 0 ≤ l.getD i 0 ∧ l.getD i 0 < 16384) _ _ _ _
    hm
  intro s i hi hP j hj
  have hi' : (i : Int) < hs := by omega
  simp only []
  split_ifs with hpos
  · apply getD_set_range (fun x => 0 ≤ x ∧ x < 16384) _ _ _ _ (hP j hj)
    have hb := hbc i hi
    have hf := hfbc i hi'
    have hmi := hP i hi'
    generalize bc.getD i 0 = b at hb ⊢
    generalize fbc.getD i 0 = fv at hf hpos ⊢
    generalize s.getD i 0 = mv at hmi ⊢
    have p9 : (2 : Int) ^ 9 = 512 := by decide
    have p4 : (2 : Int) ^ 4 = 16 := by decide
    have e1 : toInt32 (shl b 9) = b * 512 := by
      unfold shl
      rw [p9, toInt32_of_range (by omega) (by omega)]
    have e2 : toInt32 (kShiftsLinearSlope * fv) = 3 * fv := by
      unfold kShiftsLinearSlope
      rw [toInt32_of_range (by omega) (by omega)]
    rw [e1, e2]
    apply meanEstimator_range _ _ _ (by omega) _ hmi
    unfold kShiftsAtZero shr
    rw [p4]
    omega
  · exact hP j hj

theorem candidateStep_fields (mbc : List Int) (c : Candidate) (i : Nat) :
    ((candidateStep mbc c i).value_best_candidate =
        if mbc.getD i 0 < c.value_best_candidate then mbc.getD i 0
        else c.value_best_candidate) ∧
    ((candidateStep mbc c i).candidate_delay =
        if mbc.getD i 0 < c.value_best_candidate then (i : Int) else c.candidate_delay) := by
  unfold candidateStep
  simp only []
  constructor <;> split_ifs <;> rfl

theorem findCandidate_loop (mbc : List Int) (n : Nat)
    (hm : ∀ i : Nat, i < n → mbc.getD i 0 < 16384) :
    (forRange n (candidateStep mbc)
      { candidate_delay := -1, value_best_candidate := kMaxBitCountsQ9,
        value_worst_candidate := 0 }).value_best_candidate ≤ 16384 ∧
    (0 < n →
      0 ≤ (forRange n (candidateStep mbc)
        { candidate_delay := -1, value_best_candidate := kMaxBitCountsQ9,
          value_worst_candidate := 0 }).candidate_delay ∧
      (forRange n (candidateStep mbc)
        { candidate_delay := -1, value_best_candidate := kMaxBitCountsQ9,
          value_worst_candidate := 0 }).candidate_delay < n) ∧
    (n = 0 →
      (forRange n (candidateStep mbc)
        { candidate_delay := -1, value_best_candidate := kMaxBitCountsQ9,
          value_worst_candidate := 0 }).value_best_candidate = 16384) := by
  induction n with
  | zero =>
    refine ⟨?_, ?_, ?_⟩
    · show kMaxBitCountsQ9 ≤ 16384
      decide
    · intro h
      omega
    · intro _
      rfl
  | succ k ih =>
    have ih' := ih (fun i hi => hm i (by omega))
    rw [forRange_succ]
    generalize forRange k (candidateStep mbc) _ = c at ih'
    have hv := hm k (by omega)
    obtain ⟨hb, hpos, hzero⟩ := ih'
    obtain ⟨e1, e2⟩ := candidateStep_fields mbc c k
    rw [e1, e2]
    by_cases hlt : mbc.getD k 0 < c.value_best_candidate
    · rw [if_pos hlt, if_pos hlt]
      refine ⟨by omega, fun _ => ⟨by omega, by push_cast; omega⟩, fun h => by omega⟩
    · rw [if_neg hlt, if_neg hlt]
      have hk : 0 < k := by
        by_contra h0
        have hk0 : k = 0 := by omega
        have := hzero hk0
        omega
      have := hpos hk
      refine ⟨hb, fun _ => ⟨this.1, by push_cast; omega⟩, fun h => by omega⟩

theorem findCandidate_range (mbc : List Int) (hs : Int) (h1 : 0 < hs)
    (hm : ∀ i : Nat, (i : Int) < hs → mbc.getD i 0 < 16384) :
    0 ≤ (findCandidate mbc hs).candidate_delay ∧ (findCandidate mbc hs).candidate_delay < hs := by
  unfold findCandidate
  have h := (findCandidate_loop mbc hs.toNat (fun i hi => hm i (by omega))).2.1 (by omega)
  refine ⟨h.1, ?_⟩
  have := h.2
  omega

theorem acceptCandidate_fields (s : BinaryDelayEstimator) (c : Candidate) :
    (acceptCandidate s c).last_delay = c.candidate_delay ∧
    (acceptCandidate s c).history_size = s.history_size ∧
    (acceptCandidate s c).mean_bit_counts = s.mean_bit_counts := by
  unfold acceptCandidate
  refine ⟨rfl, ?_, ?_⟩ <;> dsimp only <;> split_ifs <;> rfl

theorem robustStatistics_fields (s : BinaryDelayEstimator) (c v w : Int) :
    (UpdateRobustValidationStatistics s c v w).last_delay = s.last_delay ∧
    (UpdateRobustValidationStatistics s c v w).history_size = s.history_size ∧
    (UpdateRobustValidationStatistics s c v w).mean_bit_counts = s.mean_bit_counts :=
  ⟨rfl, rfl, rfl⟩

theorem process_mismatch (e : BinaryDelayEstimator) (f : BinaryDelayEstimatorFarend) (x : Int)
    (h : f.history_size ≠ e.history_size) : WebRtc_ProcessBinarySpectrum e f x = (-1, e) := by
  unfold WebRtc_ProcessBinarySpectrum
  rw [if_pos h]

theorem binaryStatistics_fields (e : BinaryDelayEstimator) (f : BinaryDelayEstimatorFarend)
    (x : Int) :
    (binaryStatistics e f x).state.last_delay = e.last_delay ∧
    (binaryStatistics e f x).state.history_size = e.history_size ∧
    (∃ v : Int, (binaryStatistics e f x).state.mean_bit_counts =
      updateMeanBitCounts e.mean_bit_counts
        (BitCountComparison v f.binary_far_history e.history_size e.bit_counts)
        f.far_bit_counts e.history_size) ∧
    (binaryStatistics e f x).candidate =
      findCandidate (binaryStatistics e f x).state.mean_bit_counts e.history_size ∧
    ((binaryStatistics e f x).non_stationary_farend ≠ 0 →
      (List.range e.history_size.toNat).any
        (fun n => decide (f.far_bit_counts.getD n 0 > 0)) = true) := by
  refine ⟨rfl, rfl, ⟨_, rfl⟩, rfl, ?_⟩
  intro hns
  by_contra hc
  apply hns
  unfold binaryStatistics
  dsimp only
  rw [if_neg hc]

theorem process_match (e : BinaryDelayEstimator) (f : BinaryDelayEstimatorFarend) (x : Int)
    (h : f.history_size = e.history_size) :
    (WebRtc_ProcessBinarySpectrum e f x).1 = (WebRtc_ProcessBinarySpectrum e f x).2.last_delay ∧
    (WebRtc_ProcessBinarySpectrum e f x).2.history_size = e.history_size ∧
    (WebRtc_ProcessBinarySpectrum e f x).2.mean_bit_counts =
      (binaryStatistics e f x).state.mean_bit_counts ∧
    ((WebRtc_ProcessBinarySpectrum e f x).2.last_delay = e.last_delay ∨
      ((WebRtc_ProcessBinarySpectrum e f x).2.last_delay =
          (binaryStatistics e f x).candidate.candidate_delay ∧
        (binaryStatistics e f x).non_stationary_farend ≠ 0)) := by
  have hne : ¬ (f.history_size ≠ e.history_size) := fun hh => hh h
  obtain ⟨hl, hh, _, _, _⟩ := binaryStatistics_fields e f x
  unfold WebRtc_ProcessBinarySpectrum
  rw [if_neg hne]
  dsimp only
  generalize binaryStatistics e f x = st at hl hh
  by_cases hns : st.non_stationary_farend ≠ 0
  · rw [if_pos hns]
    obtain ⟨r1, r2, r3⟩ := robustStatistics_fields st.state st.candidate.candidate_delay
      st.valley_depth st.candidate.value_best_candidate
    generalize UpdateRobustValidationStatistics st.state st.candidate.candidate_delay
      st.valley_depth st.candidate.value_best_candidate = s2 at r1 r2 r3
    split_ifs with hv hacc hacc
    · obtain ⟨a1, a2, a3⟩ := acceptCandidate_fields s2 st.candidate
      exact ⟨rfl, by rw [a2, r2, hh], by rw [a3, r3], Or.inr ⟨a1, hns⟩⟩
    · exact ⟨rfl, by rw [r2, hh], r3, Or.inl (by rw [r1, hl])⟩
    · obtain ⟨a1, a2, a3⟩ := acceptCandidate_fields s2 st.candidate
      exact ⟨rfl, by rw [a2, r2, hh], by rw [a3, r3], Or.inr ⟨a1, hns⟩⟩
    · exact ⟨rfl, by rw [r2, hh], r3, Or.inl (by rw [r1, hl])⟩
  · rw [if_neg hns]
    have hand : ∀ v : Int, ¬ (st.non_stationary_farend ≠ 0 ∧ v ≠ 0) := fun v hv => hns hv.1
    split_ifs with hv hacc hacc
    · exact absurd hacc (hand _)
    · exact ⟨rfl, hh, rfl, Or.inl hl⟩
    · exact absurd hacc (hand _)
    · exact ⟨rfl, hh, rfl, Or.inl hl⟩

theorem delayInv_init (f0 : BinaryDelayEstimatorFarend) (e0 : BinaryDelayEstimator) :
    DelayInv (WebRtc_InitBinaryDelayEstimatorFarend f0) (WebRtc_InitBinaryDelayEstimator e0) := by
  refine ⟨?_, ?_, Or.inl rfl⟩
  · intro i hi
    have hi' : (i : Int) < f0.history_size := hi
    have hz : (0 : Int) ≤ 0 ∧ (0 : Int) ≤ 32 := by decide
    exact forRange_set_range (fun x => 0 ≤ x ∧ x ≤ 32) (fun _ => 0) (fun _ => hz) hz _ _ _
      (by omega)
  · intro i hi
    have hi' : (i : Int) < e0.history_size := hi
    have hz : (0 : Int) ≤ 0 ∧ (0 : Int) < 16384 := by decide
    have hv : (0 : Int) ≤ 10240 ∧ (10240 : Int) < 16384 := by decide
    exact forRange_set_range (fun x => 0 ≤ x ∧ x < 16384) (fun _ => 10240) (fun _ => hv) hz
      _ _ _ (by omega)

theorem delayInv_add (f : BinaryDelayEstimatorFarend) (e : BinaryDelayEstimator) (x : Int)
    (h0 : 0 ≤ x) (h1 : x < 4294967296) (h : DelayInv f e) :
    DelayInv (WebRtc_AddBinaryFarSpectrum f x) e := by
  refine ⟨?_, h.2.1, h.2.2⟩
  intro i hi
  have hi' : (i : Int) < f.history_size := hi
  show 0 ≤ ((memcpyList f.far_bit_counts 1 f.far_bit_counts 0 (f.history_size - 1).toNat).set 0
      (BitCount x)).getD i 0 ∧
    ((memcpyList f.far_bit_counts 1 f.far_bit_counts 0 (f.history_size - 1).toNat).set 0
      (BitCount x)).getD i 0 ≤ 32
  apply getD_set_range (fun v => 0 ≤ v ∧ v ≤ 32) _ _ _ _ _ (BitCount_range x h0 h1)
  rw [List.getD_eq_getElem?_getD, memcpyList_getElem?]
  split_ifs with hc
  · exact h.1 (0 + (i - 1)) (by omega)
  · have := h.1 i hi'
    rw [List.getD_eq_getElem?_getD] at this
    exact this

theorem any_range_pos (n : Nat) (p : Nat → Bool) (h : (List.range n).any p = true) : 0 < n := by
  rcases Nat.eq_zero_or_pos n with h0 | h0
  · subst h0
    simp at h
  · exact h0

theorem delayInv_process (f : BinaryDelayEstimatorFarend) (e : BinaryDelayEstimator) (x : Int)
    (h : DelayInv f e) : DelayInv f (WebRtc_ProcessBinarySpectrum e f x).2 := by
  by_cases hsz : f.history_size = e.history_size
  · obtain ⟨_, p2, p3, p4⟩ := process_match e f x hsz
    obtain ⟨_, _, ⟨v, q3⟩, q4, q5⟩ := binaryStatistics_fields e f x
    have hmean : ∀ i : Nat, (i : Int) < e.history_size →
        0 ≤ (binaryStatistics e f x).state.mean_bit_counts.getD i 0 ∧
        (binaryStatistics e f x).state.mean_bit_counts.getD i 0 < 16384 := by
      rw [q3]
      apply updateMeanBitCounts_range
      · intro i hi
        exact bitCountComparison_range _ _ _ _ i hi
      · intro i hi
        exact h.1 i (by rw [hsz]; exact hi)
      · exact h.2.1
    refine ⟨h.1, ?_, ?_⟩
    · rw [p2, p3]
      exact hmean
    · rw [p2]
      rcases p4 with p4 | ⟨p4, hns⟩
      · rw [p4]
        exact h.2.2
      · right
        rw [p4, q4]
        have hpos := any_range_pos _ _ (q5 hns)
        exact findCandidate_range _ _ (by omega) (fun i hi => (hmean i hi).2)
  · rw [process_mismatch e f x hsz]
    exact h

theorem delayInv_reachable (f0 : BinaryDelayEstimatorFarend) (e0 : BinaryDelayEstimator)
    (f : BinaryDelayEstimatorFarend) (e : BinaryDelayEstimator)
    (h : DelayReachable f0 e0 f e) : DelayInv f e := by
  induction h with
  | init => exact delayInv_init f0 e0
  | add x h0 h1 _ ih => exact delayInv_add _ _ x h0 h1 ih
  | process x _ _ _ ih => exact delayInv_process _ _ x ih

/-- C8. In every state reachable from `WebRtc_InitBinaryDelayEstimatorFarend` and
`WebRtc_InitBinaryDelayEstimator` by `WebRtc_AddBinaryFarSpectrum` and
`WebRtc_ProcessBinarySpectrum` calls, `last_delay` is either -2 or in `[0, history_size)`;
`WebRtc_ProcessBinarySpectrum` returns exactly the `last_delay` of the new state (again -2 or
in `[0, history_size)`) when the far-end and near-end history sizes match, and it returns -1,
leaving the state unchanged, if and only if they differ. -/
theorem binary_last_delay_contract (f0 : BinaryDelayEstimatorFarend)
    (e0 : BinaryDelayEstimator) (f : BinaryDelayEstimatorFarend) (e : BinaryDelayEstimator)
    (h : DelayReachable f0 e0 f e) :
    (e.last_delay = -2 ∨ (0 ≤ e.last_delay ∧ e.last_delay < e.history_size)) ∧
    (∀ x : Int, 0 ≤ x → x < 4294967296 →
      (f.history_size = e.history_size →
        (WebRtc_ProcessBinarySpectrum e f x).1 =
          (WebRtc_ProcessBinarySpectrum e f x).2.last_delay ∧
        ((WebRtc_ProcessBinarySpectrum e f x).1 = -2 ∨
          (0 ≤ (WebRtc_ProcessBinarySpectrum e f x).1 ∧
            (WebRtc_ProcessBinarySpectrum e f x).1 < e.history_size))) ∧
      ((WebRtc_ProcessBinarySpectrum e f x).1 = -1 ↔ f.history_size ≠ e.history_size) ∧
      (f.history_size ≠ e.history_size → WebRtc_ProcessBinarySpectrum e f x = (-1, e))) := by
  have hinv := delayInv_reachable f0 e0 f e h
  refine ⟨hinv.2.2, ?_⟩
  intro x hx0 hx1
  have hnext := (delayInv_process f e x hinv).2.2
  have hmatch : f.history_size = e.history_size →
      (WebRtc_ProcessBinarySpectrum e f x).1 =
        (WebRtc_ProcessBinarySpectrum e f x).2.last_delay ∧
      ((WebRtc_ProcessBinarySpectrum e f x).1 = -2 ∨
        (0 ≤ (WebRtc_ProcessBinarySpectrum e f x).1 ∧
          (WebRtc_ProcessBinarySpectrum e f x).1 < e.history_size)) := by
    intro hsz
    obtain ⟨p1, p2, _, _⟩ := process_match e f x hsz
    rw [p2] at hnext
    rw [p1]
    exact ⟨rfl, hnext⟩
  refine ⟨hmatch, ?_, process_mismatch e f x⟩
  constructor
  · intro hm1 hsz
    have := (hmatch hsz).2
    omega
  · intro hsz
    rw [process_mismatch e f x hsz]

/-- C8, instance: a three-entry estimator after one far-end spectrum and one near-end
spectrum; the next call returns the new `last_delay`. -/
theorem binary_last_delay_contract_witness :
    (WebRtc_ProcessBinarySpectrum
        (WebRtc_ProcessBinarySpectrum (WebRtc_InitBinaryDelayEstimator delayEstimator0)
          (WebRtc_AddBinaryFarSpectrum (WebRtc_InitBinaryDelayEstimatorFarend delayFarend0) 7)
          5).2
        (WebRtc_AddBinaryFarSpectrum (WebRtc_InitBinaryDelayEstimatorFarend delayFarend0) 7)
        9).1 =
      (WebRtc_ProcessBinarySpectrum
        (WebRtc_ProcessBinarySpectrum (WebRtc_InitBinaryDelayEstimator delayEstimator0)
          (WebRtc_AddBinaryFarSpectrum (WebRtc_InitBinaryDelayEstimatorFarend delayFarend0) 7)
          5).2
        (WebRtc_AddBinaryFarSpectrum (WebRtc_InitBinaryDelayEstimatorFarend delayFarend0) 7)
        9).2.last_delay :=
  (((binary_last_delay_contract delayFarend0 delayEstimator0 _ _
    (DelayReachable.process 5 (by decide) (by decide)
      (DelayReachable.add 7 (by decide) (by decide) DelayReachable.init))).2
    9 (by decide) (by decide)).1 (by rfl)).1



/-! ### Ring buffer: single calls and cursor bounds -/

theorem memcpyIn_zero (mem : Nat → Int) (dst : Nat) (src : List Int) (off : Nat) :
    memcpyIn mem dst src off 0 = mem := by
  funext i
  unfold memcpyIn
  rw [if_neg (by omega)]

theorem write_full {b : RingBuffer} (hN : b.element_count ≤ INT_MAX) (h : RingInv b)
    (d : List Int) (n : Nat) (hF : WebRtc_available_write b = 0) :
    WebRtc_WriteBuffer b d n = (0, b) := by
  have hw : b.write_pos ≤ b.element_count := by
    rcases hb : b.rw_wrap with _ | _
    · exact (h.1 hb).2
    · exact le_trans (h.2 hb).1 (h.2 hb).2
  have hN1 : b.element_count ≤ 2147483647 := hN
  rw [write_eval d n b.element_count b.write_pos 0 rfl rfl hF hN1 hw (Nat.zero_le _)]
  simp only [Nat.zero_min, gt_iff_lt, Nat.not_lt_zero, if_false, memcpyIn_zero, Nat.add_zero]

theorem ring_cursor_le {b : RingBuffer} (h : RingInv b) :
    b.read_pos ≤ b.element_count ∧ b.write_pos ≤ b.element_count := by
  rcases hb : b.rw_wrap with _ | _
  · have := h.1 hb; omega
  · have := h.2 hb; omega

/-- C16 (as amended): for a buffer with `2 * element_count ≤ INT_MAX`, in every state
reachable from `WebRtc_InitBuffer`, `WebRtc_WriteBuffer(d, n)` returns
`min(n, WebRtc_available_write)`, leaves `read_pos` alone, raises `WebRtc_available_read`
by the returned number, keeps each previously readable element, and stores the first
elements of `d` behind them in order; with no free space it returns 0 and the buffer is
unchanged. -/
theorem ring_write_contract (b0 b : RingBuffer)
    (hN : 2 * b0.element_count ≤ INT_MAX) (h : RingReachable b0 b)
    (d : List Int) (n : Nat) :
    (WebRtc_WriteBuffer b d n).1 = min n (WebRtc_available_write b) ∧
    (WebRtc_WriteBuffer b d n).2.read_pos = b.read_pos ∧
    (WebRtc_WriteBuffer b d n).2.element_count = b.element_count ∧
    WebRtc_available_read (WebRtc_WriteBuffer b d n).2 =
      WebRtc_available_read b + (WebRtc_WriteBuffer b d n).1 ∧
    (∀ i, i < WebRtc_available_read b →
      (WebRtc_WriteBuffer b d n).2.data (ringIndex b.element_count b.read_pos i) =
        b.data (ringIndex b.element_count b.read_pos i)) ∧
    (∀ i, i < (WebRtc_WriteBuffer b d n).1 →
      (WebRtc_WriteBuffer b d n).2.data
        (ringIndex b.element_count b.read_pos (WebRtc_available_read b + i)) = d.getD i 0) ∧
    (WebRtc_available_write b = 0 → WebRtc_WriteBuffer b d n = (0, b)) := by
  obtain ⟨hi, he⟩ := reachable_inv hN h
  have hN1 : b.element_count ≤ INT_MAX := by rw [he]; unfold INT_MAX at *; omega
  obtain ⟨w1, -, w3, w4, w5, w6⟩ := write_props hN1 hi d n
  refine ⟨by rw [w1, min_comm], w4, w3, w5, ?_, ?_, write_full hN1 hi d n⟩
  · intro i hlt
    have := w6 i (by omega)
    rw [if_pos hlt] at this
    exact this
  · intro i hlt
    have := w6 (WebRtc_available_read b + i) (by omega)
    rw [if_neg (by omega), Nat.add_sub_cancel_left] at this
    exact this

/-- Witness for C16: the far-end FIFO holding samples 1, 2, 3 receives 4, 5. -/
theorem ring_write_contract_witness :
    2 * farendRing.element_count ≤ INT_MAX ∧
    (WebRtc_WriteBuffer (WebRtc_WriteBuffer (WebRtc_InitBuffer farendRing) [1, 2, 3] 3).2
      [4, 5] 2).1 =
      min 2 (WebRtc_available_write
        (WebRtc_WriteBuffer (WebRtc_InitBuffer farendRing) [1, 2, 3] 3).2) :=
  ⟨by decide,
    (ring_write_contract farendRing _ (by decide)
      (.step .init (.write _ [1, 2, 3] 3 (by decide))) [4, 5] 2).1⟩

/-- Counterexample to C16 as stated: in the reachable state `bigRingMoved` of a buffer of
2^31 elements at least three elements count as readable, and writing the single element 7
changes the third of them. -/
theorem ring_write_contract_counterexample :
    RingReachable bigRing bigRingMoved ∧
    3 ≤ WebRtc_available_read bigRingMoved ∧
    ringSlice bigRingMoved 3 = [0, 5, 0] ∧
    ringSlice (WebRtc_WriteBuffer bigRingMoved [7] 1).2 3 = [0, 5, 7] := by
  refine ⟨.step (.step .init (.write _ [5] 1 (by decide))) (.move _ (-1) (by decide)),
    by decide, by decide, by decide⟩

/-- C17 (as amended): for a buffer with `2 * element_count ≤ INT_MAX`, in every state
reachable from `WebRtc_InitBuffer`, `WebRtc_MoveReadPtr(k)` returns `k` clamped to
`[-WebRtc_available_write, WebRtc_available_read]`; afterwards `WebRtc_available_read`
equals its previous value minus the returned value, and `write_pos`, `element_count` and
the stored data are unchanged. -/
theorem ring_move_contract (b0 b : RingBuffer)
    (hN : 2 * b0.element_count ≤ INT_MAX) (h : RingReachable b0 b) (k : Int) :
    (WebRtc_MoveReadPtr b k).1 =
      max (min k (WebRtc_available_read b)) (-(WebRtc_available_write b : Int)) ∧
    (WebRtc_available_read (WebRtc_MoveReadPtr b k).2 : Int) =
      WebRtc_available_read b - (WebRtc_MoveReadPtr b k).1 ∧
    (WebRtc_MoveReadPtr b k).2.write_pos = b.write_pos ∧
    (WebRtc_MoveReadPtr b k).2.element_count = b.element_count ∧
    (WebRtc_MoveReadPtr b k).2.data = b.data := by
  obtain ⟨hi, he⟩ := reachable_inv hN h
  have hN' : 2 * b.element_count ≤ INT_MAX := by rw [he]; exact hN
  obtain ⟨-, m2, m3, m4, m5, m6⟩ := move_props hN' hi k
  exact ⟨m5, m6, m3, m2, m4⟩

/-- Witness for C17: the far-end FIFO holding three samples (one still readable) is asked to advance by
seven; the call returns 1. -/
theorem ring_move_contract_witness :
    2 * farendRing.element_count ≤ INT_MAX ∧
    (WebRtc_MoveReadPtr
      (WebRtc_ReadBuffer (WebRtc_WriteBuffer (WebRtc_InitBuffer farendRing) [1, 2, 3] 3).2
        2).self 7).1 = 1 ∧
    (WebRtc_MoveReadPtr
      (WebRtc_ReadBuffer (WebRtc_WriteBuffer (WebRtc_InitBuffer farendRing) [1, 2, 3] 3).2
        2).self 7).1 =
      max (min 7 (WebRtc_available_read
        (WebRtc_ReadBuffer (WebRtc_WriteBuffer (WebRtc_InitBuffer farendRing) [1, 2, 3] 3).2
          2).self : Int))
        (-(WebRtc_available_write
          (WebRtc_ReadBuffer (WebRtc_WriteBuffer (WebRtc_InitBuffer farendRing) [1, 2, 3] 3).2
            2).self : Int)) :=
  ⟨by decide, by decide,
    (ring_move_contract farendRing _ (by decide)
      (.step (.step .init (.write _ [1, 2, 3] 3 (by decide))) (.read _ 2 (by decide))) 7).1⟩

/-- Counterexample to C17 as stated: a buffer of 2^31 elements holding one element is
rewound by one; the call returns -1, yet `WebRtc_available_read` is afterwards not
`1 - (-1) = 2` but wrapped around. -/
theorem ring_move_contract_counterexample :
    RingReachable bigRing (WebRtc_WriteBuffer (WebRtc_InitBuffer bigRing) [5] 1).2 ∧
    WebRtc_available_read (WebRtc_WriteBuffer (WebRtc_InitBuffer bigRing) [5] 1).2 = 1 ∧
    (WebRtc_MoveReadPtr (WebRtc_WriteBuffer (WebRtc_InitBuffer bigRing) [5] 1).2 (-1)).1
      = -1 ∧
    WebRtc_available_read
      (WebRtc_MoveReadPtr (WebRtc_WriteBuffer (WebRtc_InitBuffer bigRing) [5] 1).2 (-1)).2
      = 18446744071562067970 := by
  refine ⟨.step .init (.write _ [5] 1 (by decide)), by decide, by decide, by decide⟩

/-- C18 (as amended): for a buffer with `2 * element_count ≤ INT_MAX`, in every state
reachable from `WebRtc_InitBuffer`, `read_pos ≤ element_count` and
`write_pos ≤ element_count`. -/
theorem ring_cursor_bounds (b0 b : RingBuffer)
    (hN : 2 * b0.element_count ≤ INT_MAX) (h : RingReachable b0 b) :
    b.read_pos ≤ b.element_count ∧ b.write_pos ≤ b.element_count :=
  ring_cursor_le (reachable_inv hN h).1

/-- Witness for C18: the far-end FIFO after a write of three samples and a read of two. -/
theorem ring_cursor_bounds_witness :
    2 * farendRing.element_count ≤ INT_MAX ∧
    (WebRtc_ReadBuffer (WebRtc_WriteBuffer (WebRtc_InitBuffer farendRing) [1, 2, 3] 3).2
      2).self.read_pos ≤ 4000 :=
  ⟨by decide,
    (ring_cursor_bounds farendRing _ (by decide)
      (.step (.step .init (.write _ [1, 2, 3] 3 (by decide))) (.read _ 2 (by decide)))).1⟩

/-- Counterexample to C18 as stated: when the far-end FIFO (4000 elements) is filled by one
write and emptied by one read, both cursors stand at `element_count`; and in a buffer of
3221225472 elements a write of 2^31 elements followed by `WebRtc_MoveReadPtr(-1)` leaves
`read_pos` above `element_count`. -/
theorem ring_cursor_bounds_counterexample :
    RingReachable farendRing
      (WebRtc_ReadBuffer
        (WebRtc_WriteBuffer (WebRtc_InitBuffer farendRing) (List.replicate 4000 1) 4000).2
        4000).self ∧
    (WebRtc_ReadBuffer
      (WebRtc_WriteBuffer (WebRtc_InitBuffer farendRing) (List.replicate 4000 1) 4000).2
      4000).self.write_pos = 4000 ∧
    (WebRtc_ReadBuffer
      (WebRtc_WriteBuffer (WebRtc_InitBuffer farendRing) (List.replicate 4000 1) 4000).2
      4000).self.read_pos = 4000 ∧
    farendRing.element_count = 4000 ∧
    RingReachable hugeRing
      (WebRtc_MoveReadPtr
        (WebRtc_WriteBuffer (WebRtc_InitBuffer hugeRing) (List.replicate 2147483648 1)
          2147483648).2 (-1)).2 ∧
    (WebRtc_MoveReadPtr
      (WebRtc_WriteBuffer (WebRtc_InitBuffer hugeRing) (List.replicate 2147483648 1)
        2147483648).2 (-1)).2.read_pos = 18446744071562067968 ∧
    hugeRing.element_count = 3221225472 := by
  refine ⟨.step (.step .init (.write _ _ 4000 (by decide))) (.read _ 4000 (by decide)),
    by decide, by decide, by decide,
    .step (.step .init (.write _ _ 2147483648 (by decide))) (.move _ (-1) (by decide)),
    by decide, by decide⟩

/-! ### Echo path, latency clamp and engine failure -/

theorem forRange_set_getElem? {α : Type} (g : Nat → α) (l : List α) (n j : Nat) :
    (forRange n (fun (l : List α) k => l.set k (g k)) l)[j]? =
      if j < n ∧ j < l.length then some (g j) else l[j]? := by
  induction n with
  | zero =>
    rw [forRange_zero, if_neg (by omega)]
  | succ m ih =>
    rw [forRange_succ, List.getElem?_set, ih]
    have hlen : (forRange m (fun (l : List α) k => l.set k (g k)) l).length = l.length := by
      clear ih
      induction m with
      | zero => rfl
      | succ q ihq => rw [forRange_succ, List.length_set, ihq]
    rw [hlen]
    by_cases hmj : m = j
    · subst hmj
      rw [if_pos rfl]
      by_cases hl : m < l.length
      · rw [if_pos hl, if_pos ⟨Nat.lt_succ_self m, hl⟩]
      · rw [if_neg hl, if_neg (by omega), List.getElem?_eq_none (by omega)]
    · rw [if_neg hmj]
      by_cases hc : j < m ∧ j < l.length
      · rw [if_pos hc, if_pos ⟨by omega, hc.2⟩]
      · rw [if_neg hc, if_neg (by omega)]

theorem forRange_set_length {α : Type} (g : Nat → α) (l : List α) (n : Nat) :
    (forRange n (fun (l : List α) k => l.set k (g k)) l).length = l.length := by
  induction n with
  | zero => rfl
  | succ q ihq => rw [forRange_succ, List.length_set, ihq]

theorem memcpyList_full (dst src : List Int) (n : Nat) (hd : dst.length = n)
    (hs : src.length = n) : memcpyList dst 0 src 0 n = src := by
  have h := memcpyList_take dst src n (by omega) (by omega)
  rw [List.take_of_length_le (by rw [memcpyList_length]; omega),
    List.take_of_length_le (by omega)] at h
  exact h

theorem shl16_int16 (x : Int) (h : -32768 ≤ x ∧ x ≤ 32767) :
    toInt32 (shl x 16) = x * 65536 := by
  unfold toInt32 shl
  omega

theorem initEchoPathCore_channels (c : AecmCore) (p : List Int)
    (h1 : c.channelStored.length = 65) (h2 : c.channelAdapt16.length = 65)
    (h3 : c.channelAdapt32.length = 65) (hp : p.length = 65)
    (hr : ∀ x ∈ p, -32768 ≤ x ∧ x ≤ 32767) :
    (WebRtcAecm_InitEchoPathCore c p).channelStored = p ∧
    (WebRtcAecm_InitEchoPathCore c p).channelAdapt16 = p ∧
    (WebRtcAecm_InitEchoPathCore c p).channelAdapt32 = p.map (fun x => x * 65536) := by
  have e1 : memcpyList c.channelStored 0 p 0 PART_LEN1 = p := memcpyList_full _ _ _ h1 hp
  have e2 : memcpyList c.channelAdapt16 0 p 0 PART_LEN1 = p := memcpyList_full _ _ _ h2 hp
  simp only [WebRtcAecm_InitEchoPathCore, e2]
  refine ⟨e1, trivial, ?_⟩
  apply List.ext_getElem?
  intro j
  rw [forRange_set_getElem? (fun i => toInt32 (shl (p.getD i 0) 16)), List.getElem?_map, h3]
  by_cases hj : j < 65
  · rw [if_pos ⟨hj, hj⟩, List.getElem?_eq_getElem (by omega), Option.map_some',
      List.getD_eq_getElem?_getD, List.getElem?_eq_getElem (by omega), Option.getD_some]
    rw [shl16_int16 _ (hr _ (List.getElem_mem _))]
  · have hj1 : ¬ (j < PART_LEN1 ∧ j < 65) := fun h => hj h.2
    rw [if_neg hj1, List.getElem?_eq_none (by omega), List.getElem?_eq_none (by omega),
      Option.map_none']

/-- C11. For every initialised instance (whose three channel arrays hold `PART_LEN1 = 65`
entries) and every echo path `p` of 65 `int16_t` values: `WebRtcAecm_InitEchoPath(p, 130)`
returns 0 and leaves `channelStored = channelAdapt16 = p` and
`channelAdapt32[i] = p[i] * 65536`; a following `WebRtcAecm_GetEchoPath(buf, 130)` returns 0
with `buf = p`; with `size_bytes != 130` both functions return `AECM_BAD_PARAMETER_ERROR`
and change neither the instance nor the buffer. -/
theorem echo_path_round_trip (aecm : AecMobile) (p buf : List Int)
    (hi : aecm.initFlag = 42)
    (h1 : aecm.aecmCore.channelStored.length = 65)
    (h2 : aecm.aecmCore.channelAdapt16.length = 65)
    (h3 : aecm.aecmCore.channelAdapt32.length = 65)
    (hp : p.length = 65) (hr : ∀ x ∈ p, -32768 ≤ x ∧ x ≤ 32767) (hb : buf.length = 65) :
    (∃ a, WebRtcAecm_InitEchoPath (some aecm) (some p) 130 = (0, some a) ∧
      a.aecmCore.channelStored = p ∧ a.aecmCore.channelAdapt16 = p ∧
      a.aecmCore.channelAdapt32 = p.map (fun x => x * 65536) ∧
      WebRtcAecm_GetEchoPath (some a) (some buf) 130 = (0, some p)) ∧
    (∀ n, n ≠ 130 →
      WebRtcAecm_InitEchoPath (some aecm) (some p) n =
        (AECM_BAD_PARAMETER_ERROR, some aecm) ∧
      WebRtcAecm_GetEchoPath (some aecm) (some buf) n =
        (AECM_BAD_PARAMETER_ERROR, some buf)) := by
  obtain ⟨c1, c2, c3⟩ := initEchoPathCore_channels aecm.aecmCore p h1 h2 h3 hp hr
  constructor
  · refine ⟨{ aecm with aecmCore := WebRtcAecm_InitEchoPathCore aecm.aecmCore p }, ?_, c1, c2,
      c3, ?_⟩
    · simp only [WebRtcAecm_InitEchoPath, WebRtcAecm_echo_path_size_bytes, PART_LEN1, PART_LEN,
        kInitCheck, hi, ne_eq, not_true_eq_false, if_false]
    · simp only [WebRtcAecm_GetEchoPath, WebRtcAecm_echo_path_size_bytes, PART_LEN1, PART_LEN,
        kInitCheck, hi, ne_eq, not_true_eq_false, if_false, c1]
      rw [memcpyList_full buf p 65 hb hp]
  · intro n hn
    have hn' : n ≠ WebRtcAecm_echo_path_size_bytes := hn
    constructor
    · simp only [WebRtcAecm_InitEchoPath, ne_eq, hn', not_false_eq_true, if_true]
    · simp only [WebRtcAecm_GetEchoPath, ne_eq, hn', not_false_eq_true, if_true]

/-- Witness for C11: the initialised instance and the path with every coefficient 7. -/
theorem echo_path_round_trip_witness :
    ∃ a, WebRtcAecm_InitEchoPath (some initialisedInstance) (some (List.replicate 65 7)) 130 =
        (0, some a) ∧
      a.aecmCore.channelStored = List.replicate 65 7 ∧
      a.aecmCore.channelAdapt16 = List.replicate 65 7 ∧
      a.aecmCore.channelAdapt32 = (List.replicate 65 7).map (fun x => x * 65536) ∧
      WebRtcAecm_GetEchoPath (some a) (some (List.replicate 65 0)) 130 =
        (0, some (List.replicate 65 7)) :=
  (echo_path_round_trip initialisedInstance (List.replicate 65 7) (List.replicate 65 0)
    initialisedInstance_initFlag (by decide) (by decide) (by decide) (by decide)
    (by intro x hx; rw [List.eq_of_mem_replicate hx]; decide) (by decide)).1

/-- C14. A `WebRtcAecm_Process` call with `msInSndCardBuf < 0` or `> 500` leaves the same
instance state and the same `out` contents as the same call with the value clamped to 0,
respectively 500; where the clamped call returns 0 it returns
`AECM_BAD_PARAMETER_WARNING` (12100), and where the clamped call returns an error code it
returns that code. -/
theorem process_latency_clamp (inst : Option AecMobile)
    (noisy clean out : Option (List Int)) (n : Nat) (ms : Int) (h : ms < 0 ∨ 500 < ms) :
    WebRtcAecm_Process inst noisy clean out n ms =
      (if (WebRtcAecm_Process inst noisy clean out n (if ms < 0 then 0 else 500)).1 = 0
        then AECM_BAD_PARAMETER_WARNING
        else (WebRtcAecm_Process inst noisy clean out n (if ms < 0 then 0 else 500)).1,
       (WebRtcAecm_Process inst noisy clean out n (if ms < 0 then 0 else 500)).2) := by
  have key : ∀ c : Int, (c = 0 ∨ c = 500) →
      (if ms < 0 then (0 : Int) else if ms > 500 then 500 else ms) = c →
      WebRtcAecm_Process inst noisy clean out n ms =
      (if (WebRtcAecm_Process inst noisy clean out n c).1 = 0
        then AECM_BAD_PARAMETER_WARNING
        else (WebRtcAecm_Process inst noisy clean out n c).1,
       (WebRtcAecm_Process inst noisy clean out n c).2) := by
    intro c hc hclamp
    have hret : (if ms < 0 then AECM_BAD_PARAMETER_WARNING
        else if ms > 500 then AECM_BAD_PARAMETER_WARNING else 0) =
        AECM_BAD_PARAMETER_WARNING := by
      rcases h with h | h
      · rw [if_pos h]
      · rw [if_neg (by omega), if_pos h]
    have hc0 : (if c < 0 then AECM_BAD_PARAMETER_WARNING
        else if c > 500 then AECM_BAD_PARAMETER_WARNING else 0) = 0 := by
      rcases hc with hc | hc <;> subst hc <;> rfl
    have hc1 : (if c < 0 then (0 : Int) else if c > 500 then 500 else c) = c := by
      rcases hc with hc | hc <;> subst hc <;> rfl
    rcases inst with _ | aecm
    · rfl
    rcases noisy with _ | noisy
    · rfl
    rcases out with _ | o
    · rfl
    simp only [WebRtcAecm_Process, hret, hclamp, hc0, hc1, ne_eq]
    by_cases hf : aecm.initFlag = kInitCheck
    swap
    · simp only [hf, not_false_eq_true, if_true]
      rfl
    simp only [hf, not_true_eq_false, if_false]
    by_cases hn : ¬ n = 80 ∧ ¬ n = 160
    · simp only [hn, and_self, not_false_eq_true, if_true]
      rfl
    simp only [hn, if_false]
    by_cases hs : aecm.ECstartup = 0
    swap
    · simp only [hs, not_false_eq_true, if_true]
    simp only [hs, not_true_eq_false, if_false]
    split_ifs <;> first | rfl | (exfalso; dsimp only at *; omega)
  rcases h with h | h
  · rw [if_pos h]
    exact key 0 (Or.inl rfl) (by rw [if_pos h])
  · have hc : (if ms < 0 then (0 : Int) else 500) = 500 := if_neg (by omega)
    rw [hc]
    exact key 500 (Or.inr rfl) (by rw [if_neg (by omega), if_pos h])

/-- Witness for C14: the initialised instance, 80 samples, `msInSndCardBuf = -5`; the call
with 0 returns 0. -/
theorem process_latency_clamp_witness :
    (WebRtcAecm_Process (some initialisedInstance) (some (List.replicate 80 5)) none
      (some (List.replicate 80 1)) 80 0).1 = 0 ∧
    WebRtcAecm_Process (some initialisedInstance) (some (List.replicate 80 5)) none
      (some (List.replicate 80 1)) 80 (-5) =
    (if (WebRtcAecm_Process (some initialisedInstance) (some (List.replicate 80 5)) none
        (some (List.replicate 80 1)) 80 (if (-5 : Int) < 0 then 0 else 500)).1 = 0
      then AECM_BAD_PARAMETER_WARNING
      else (WebRtcAecm_Process (some initialisedInstance) (some (List.replicate 80 5)) none
        (some (List.replicate 80 1)) 80 (if (-5 : Int) < 0 then 0 else 500)).1,
     (WebRtcAecm_Process (some initialisedInstance) (some (List.replicate 80 5)) none
        (some (List.replicate 80 1)) 80 (if (-5 : Int) < 0 then 0 else 500)).2) :=
  ⟨by decide!,
    process_latency_clamp (some initialisedInstance) (some (List.replicate 80 5)) none
      (some (List.replicate 80 1)) 80 (-5) (Or.inl (by decide))⟩

/-! ### `WebRtcAecm_Init` is idempotent -/

theorem setter_absorb {α : Type} (F G : List α → List α) (n : Nat) (T U : Nat → α)
    (hF : ∀ l j, (F l)[j]? = if j < n ∧ j < l.length then some (T j) else l[j]?)
    (hG : ∀ l j, (G l)[j]? = if j < n ∧ j < l.length then some (U j) else l[j]?)
    (l : List α) : F (G l) = F l := by
  apply List.ext_getElem?
  intro j
  rw [hF (G l) j, hF l j]
  by_cases h1 : j < n ∧ j < l.length
  · have h2 := hG l j
    rw [if_pos h1] at h2
    have h3 : j < (G l).length := by
      by_contra hlt
      rw [List.getElem?_eq_none (by omega)] at h2
      cases h2
    rw [if_pos ⟨h1.1, h3⟩, if_pos h1]
  · have h2 := hG l j
    rw [if_neg h1] at h2
    rw [if_neg h1]
    by_cases h3 : j < n ∧ j < (G l).length
    · exfalso
      have h4 : l[j]? = none := List.getElem?_eq_none (by omega)
      rw [h4] at h2
      have h5 := List.getElem?_eq_getElem h3.2
      rw [h2] at h5
      cases h5
    · rw [if_neg h3, h2]

theorem setter_idem {α : Type} (F : List α → List α) (n : Nat) (T : Nat → α)
    (hF : ∀ l j, (F l)[j]? = if j < n ∧ j < l.length then some (T j) else l[j]?)
    (l : List α) : F (F l) = F l :=
  setter_absorb F F n T T hF hF l

theorem forRange_set_absorb {α : Type} (g1 g2 : Nat → α) (n : Nat) (l : List α) :
    forRange n (fun (l : List α) k => l.set k (g1 k))
      (forRange n (fun (l : List α) k => l.set k (g2 k)) l) =
    forRange n (fun (l : List α) k => l.set k (g1 k)) l :=
  setter_absorb (fun l => forRange n (fun (l : List α) k => l.set k (g1 k)) l)
    (fun l => forRange n (fun (l : List α) k => l.set k (g2 k)) l) n g1 g2
    (fun l j => forRange_set_getElem? g1 l n j) (fun l j => forRange_set_getElem? g2 l n j) l

theorem forRange_const_idem {α : Type} (c : α) (n : Nat) (l : List α) :
    forRange n (fun (l : List α) k => l.set k c)
      (forRange n (fun (l : List α) k => l.set k c) l) =
    forRange n (fun (l : List α) k => l.set k c) l :=
  forRange_set_absorb (fun _ => c) (fun _ => c) n l

theorem memcpyList_setter (src : List Int) (n : Nat) (l : List Int) (j : Nat) :
    (memcpyList l 0 src 0 n)[j]? =
      if j < n ∧ j < l.length then some (src.getD j 0) else l[j]? := by
  rw [memcpyList_getElem?]
  by_cases h : j < n ∧ j < l.length
  · rw [if_pos h, if_pos ⟨by omega, by omega, h.2⟩]
    simp only [Nat.zero_add, Nat.sub_zero]
  · rw [if_neg h, if_neg (by omega)]

theorem memcpyList_absorb (dst s1 s2 : List Int) (n : Nat) :
    memcpyList (memcpyList dst 0 s2 0 n) 0 s1 0 n = memcpyList dst 0 s1 0 n :=
  setter_absorb (fun l => memcpyList l 0 s1 0 n) (fun l => memcpyList l 0 s2 0 n) n
    (fun j => s1.getD j 0) (fun j => s2.getD j 0)
    (memcpyList_setter s1 n) (memcpyList_setter s2 n) dst

theorem initBuffer_idem (b : RingBuffer) :
    WebRtc_InitBuffer (WebRtc_InitBuffer b) = WebRtc_InitBuffer b := by
  cases b
  simp only [WebRtc_InitBuffer]
  congr 1
  funext i
  split_ifs <;> rfl

theorem initBinaryFarend_idem (f : BinaryDelayEstimatorFarend) :
    WebRtc_InitBinaryDelayEstimatorFarend (WebRtc_InitBinaryDelayEstimatorFarend f) =
      WebRtc_InitBinaryDelayEstimatorFarend f := by
  cases f
  simp only [WebRtc_InitBinaryDelayEstimatorFarend, forRange_const_idem]

theorem initBinary_idem (e : BinaryDelayEstimator) :
    WebRtc_InitBinaryDelayEstimator (WebRtc_InitBinaryDelayEstimator e) =
      WebRtc_InitBinaryDelayEstimator e := by
  cases e
  simp only [WebRtc_InitBinaryDelayEstimator, forRange_const_idem]

theorem initFarend_idem (f : DelayEstimatorFarend) :
    WebRtc_InitDelayEstimatorFarend (WebRtc_InitDelayEstimatorFarend f) =
      WebRtc_InitDelayEstimatorFarend f := by
  cases f
  simp only [WebRtc_InitDelayEstimatorFarend, forRange_const_idem, initBinaryFarend_idem]

theorem initEstimator_idem (e : DelayEstimator) :
    WebRtc_InitDelayEstimator (WebRtc_InitDelayEstimator e) = WebRtc_InitDelayEstimator e := by
  cases e
  simp only [WebRtc_InitDelayEstimator, forRange_const_idem, initBinary_idem]

theorem forStep_set_getElem? {α : Type} (c : α) (fuel lo hi : Nat) (l : List α) (j : Nat)
    (hfuel : hi ≤ lo + fuel) :
    (forStep fuel lo hi 1 (fun (n : List α) i => n.set i c) l)[j]? =
      if lo ≤ j ∧ j < hi ∧ j < l.length then some c else l[j]? := by
  induction fuel generalizing lo l with
  | zero =>
    rw [if_neg (by omega)]
    rfl
  | succ k ih =>
    unfold forStep
    by_cases hlo : lo < hi
    · rw [if_pos hlo, ih (lo + 1) (l.set lo c) (by omega), List.length_set, List.getElem?_set]
      by_cases hj : lo = j
      · subst hj
        rw [if_neg (by omega), if_pos rfl]
        by_cases hl : lo < l.length
        · rw [if_pos hl, if_pos ⟨le_refl _, hlo, hl⟩]
        · rw [if_neg hl, if_neg (by omega), List.getElem?_eq_none (by omega)]
      · rw [if_neg hj]
        by_cases hc : lo + 1 ≤ j ∧ j < hi ∧ j < l.length
        · rw [if_pos hc, if_pos ⟨by omega, hc.2⟩]
        · rw [if_neg hc, if_neg (by omega)]
    · rw [if_neg hlo, if_neg (by omega)]

theorem forRange_aux {α β : Type} (f : β → α) (h : β → β) (n : Nat) (l : List α) (b : β) :
    forRange n (fun (st : List α × β) i => (st.1.set i (f st.2), h st.2)) (l, b) =
      (forRange n (fun (l : List α) i => l.set i (f (h^[i] b))) l, h^[n] b) := by
  induction n with
  | zero => rfl
  | succ m ih =>
    rw [forRange_succ, forRange_succ, ih, Function.iterate_succ_apply']

theorem initNoiseEst_getElem? : ∃ T : Nat → Int, ∀ (l : List Int) (j : Nat),
    (initNoiseEst l)[j]? = if j < 65 ∧ j < l.length then some (T j) else l[j]? := by
  refine ⟨fun j =>
    if j < PART_LEN1 / 2 - 1 then
      toInt32 (shl ((fun (p : Int × Int) =>
        (toInt32 (p.1 - toInt32 (shl (toInt16 (p.2 - 1)) 1 + 1)),
          toInt16 (p.2 - 1)))^[j] (((PART_LEN1 * PART_LEN1 : Nat) : Int), (PART_LEN1 : Int))).1 8)
    else
      toInt32 (shl ((fun (p : Int × Int) =>
        (toInt32 (p.1 - toInt32 (shl (toInt16 (p.2 - 1)) 1 + 1)),
          toInt16 (p.2 - 1)))^[PART_LEN1 / 2 - 1]
            (((PART_LEN1 * PART_LEN1 : Nat) : Int), (PART_LEN1 : Int))).1 8), ?_⟩
  intro l j
  have e := forRange_aux (fun (p : Int × Int) => toInt32 (shl p.1 8))
    (fun (p : Int × Int) =>
      (toInt32 (p.1 - toInt32 (shl (toInt16 (p.2 - 1)) 1 + 1)), toInt16 (p.2 - 1)))
    (PART_LEN1 / 2 - 1) l (((PART_LEN1 * PART_LEN1 : Nat) : Int), (PART_LEN1 : Int))
  unfold initNoiseEst
  simp only []
  rw [e]
  have h31 : PART_LEN1 / 2 - 1 = 31 := by decide
  have h65 : PART_LEN1 = 65 := by decide
  rw [forStep_set_getElem? _ _ _ _ _ _ (by omega), forRange_set_length,
    forRange_set_getElem? (fun i => toInt32 (shl ((fun (p : Int × Int) =>
        (toInt32 (p.1 - toInt32 (shl (toInt16 (p.2 - 1)) 1 + 1)),
          toInt16 (p.2 - 1)))^[i]
            (((PART_LEN1 * PART_LEN1 : Nat) : Int), (PART_LEN1 : Int))).1 8))]
  by_cases hj : j < PART_LEN1 / 2 - 1
  · by_cases hl : j < l.length
    · rw [if_neg (by omega), if_pos ⟨hj, hl⟩, if_pos ⟨by omega, hl⟩, if_pos hj]
    · rw [if_neg (by omega), if_neg (by omega), if_neg (by omega)]
  · by_cases hl : j < 65 ∧ j < l.length
    · rw [if_pos ⟨by omega, by omega, hl.2⟩, if_pos hl, if_neg hj]
    · rw [if_neg (by omega), if_neg (by omega), if_neg hl]

theorem initNoiseEst_idem (l : List Int) : initNoiseEst (initNoiseEst l) = initNoiseEst l := by
  obtain ⟨T, hT⟩ := initNoiseEst_getElem?
  exact setter_idem initNoiseEst 65 T hT l

theorem AecmCore_ext (x y : AecmCore)
    (h0 : x.farBufWritePos = y.farBufWritePos) (h1 : x.farBufReadPos = y.farBufReadPos)
    (h2 : x.knownDelay = y.knownDelay) (h3 : x.lastKnownDelay = y.lastKnownDelay)
    (h4 : x.firstVAD = y.firstVAD) (h5 : x.farFrameBuf = y.farFrameBuf)
    (h6 : x.nearNoisyFrameBuf = y.nearNoisyFrameBuf)
    (h7 : x.nearCleanFrameBuf = y.nearCleanFrameBuf) (h8 : x.outFrameBuf = y.outFrameBuf)
    (h9 : x.farBuf = y.farBuf) (h10 : x.mult = y.mult) (h11 : x.seed = y.seed)
    (h12 : x.delay_estimator_farend = y.delay_estimator_farend)
    (h13 : x.delay_estimator = y.delay_estimator) (h14 : x.currentDelay = y.currentDelay)
    (h15 : x.far_history = y.far_history) (h16 : x.far_history_pos = y.far_history_pos)
    (h17 : x.far_q_domains = y.far_q_domains) (h18 : x.nlpFlag = y.nlpFlag)
    (h19 : x.fixedDelay = y.fixedDelay) (h20 : x.totCount = y.totCount)
    (h21 : x.dfaCleanQDomain = y.dfaCleanQDomain)
    (h22 : x.dfaCleanQDomainOld = y.dfaCleanQDomainOld)
    (h23 : x.dfaNoisyQDomain = y.dfaNoisyQDomain)
    (h24 : x.dfaNoisyQDomainOld = y.dfaNoisyQDomainOld) (h25 : x.nearLogEnergy = y.nearLogEnergy)
    (h26 : x.farLogEnergy = y.farLogEnergy) (h27 : x.echoAdaptLogEnergy = y.echoAdaptLogEnergy)
    (h28 : x.echoStoredLogEnergy = y.echoStoredLogEnergy)
    (h29 : x.channelStored = y.channelStored) (h30 : x.channelAdapt16 = y.channelAdapt16)
    (h31 : x.channelAdapt32 = y.channelAdapt32) (h32 : x.xBuf = y.xBuf)
    (h33 : x.dBufClean = y.dBufClean) (h34 : x.dBufNoisy = y.dBufNoisy)
    (h35 : x.outBuf = y.outBuf) (h36 : x.echoFilt = y.echoFilt) (h37 : x.nearFilt = y.nearFilt)
    (h38 : x.noiseEst = y.noiseEst) (h39 : x.noiseEstTooLowCtr = y.noiseEstTooLowCtr)
    (h40 : x.noiseEstTooHighCtr = y.noiseEstTooHighCtr) (h41 : x.noiseEstCtr = y.noiseEstCtr)
    (h42 : x.cngMode = y.cngMode) (h43 : x.mseAdaptOld = y.mseAdaptOld)
    (h44 : x.mseStoredOld = y.mseStoredOld) (h45 : x.mseThreshold = y.mseThreshold)
    (h46 : x.farEnergyMin = y.farEnergyMin) (h47 : x.farEnergyMax = y.farEnergyMax)
    (h48 : x.farEnergyMaxMin = y.farEnergyMaxMin) (h49 : x.farEnergyVAD = y.farEnergyVAD)
    (h50 : x.farEnergyMSE = y.farEnergyMSE) (h51 : x.currentVADValue = y.currentVADValue)
    (h52 : x.vadUpdateCount = y.vadUpdateCount) (h53 : x.startupState = y.startupState)
    (h54 : x.mseChannelCount = y.mseChannelCount) (h55 : x.supGain = y.supGain)
    (h56 : x.supGainOld = y.supGainOld) (h57 : x.supGainErrParamA = y.supGainErrParamA)
    (h58 : x.supGainErrParamD = y.supGainErrParamD)
    (h59 : x.supGainErrParamDiffAB = y.supGainErrParamDiffAB)
    (h60 : x.supGainErrParamDiffBD = y.supGainErrParamDiffBD) (h61 : x.real_fft = y.real_fft) :
    x = y := by
  cases x
  cases y
  simp only at *
  simp only [*]

theorem AecMobile_ext (x y : AecMobile)
    (h0 : x.sampFreq = y.sampFreq) (h1 : x.scSampFreq = y.scSampFreq)
    (h2 : x.bufSizeStart = y.bufSizeStart) (h3 : x.knownDelay = y.knownDelay)
    (h4 : x.farendOld = y.farendOld) (h5 : x.initFlag = y.initFlag) (h6 : x.counter = y.counter)
    (h7 : x.sum = y.sum) (h8 : x.firstVal = y.firstVal)
    (h9 : x.checkBufSizeCtr = y.checkBufSizeCtr) (h10 : x.msInSndCardBuf = y.msInSndCardBuf)
    (h11 : x.filtDelay = y.filtDelay) (h12 : x.timeForDelayChange = y.timeForDelayChange)
    (h13 : x.ECstartup = y.ECstartup) (h14 : x.checkBuffSize = y.checkBuffSize)
    (h15 : x.delayChange = y.delayChange) (h16 : x.lastDelayDiff = y.lastDelayDiff)
    (h17 : x.echoMode = y.echoMode) (h18 : x.farendBuf = y.farendBuf)
    (h19 : x.aecmCore = y.aecmCore) :
    x = y := by
  cases x
  cases y
  simp only at *
  simp only [*]


theorem channelAdapt32_absorb (ca16 t ca32 : List Int) (n : Nat) :
    forRange n
      (fun (c : List Int) i => c.set i
        (toInt32 (shl ((memcpyList (memcpyList ca16 0 t 0 n) 0 t 0 n).getD i 0) 16)))
      (forRange n
        (fun (c : List Int) i => c.set i
          (toInt32 (shl ((memcpyList ca16 0 t 0 n).getD i 0) 16))) ca32) =
    forRange n
      (fun (c : List Int) i => c.set i
        (toInt32 (shl ((memcpyList ca16 0 t 0 n).getD i 0) 16))) ca32 := by
  rw [memcpyList_absorb]
  exact forRange_set_absorb _ _ _ _


section InitIdempotent

attribute [local irreducible] memcpyList forRange initNoiseEst

set_option maxHeartbeats 2000000 in
theorem init_idem_8000 (s : AecMobile) :
    (WebRtcAecm_Init (WebRtcAecm_Init (some s) 8000).2 8000).2.getD s =
      (WebRtcAecm_Init (some s) 8000).2.getD s :=
  AecMobile_ext _ _
      rfl rfl rfl rfl rfl rfl rfl rfl rfl rfl rfl rfl rfl rfl rfl rfl rfl rfl (initBuffer_idem _)
      (AecmCore_ext _ _
        rfl rfl rfl rfl rfl (initBuffer_idem _) (initBuffer_idem _) (initBuffer_idem _)
        (initBuffer_idem _) rfl rfl rfl (initFarend_idem _) (initEstimator_idem _) rfl rfl rfl
        rfl rfl rfl rfl rfl rfl rfl rfl rfl rfl rfl rfl (memcpyList_absorb _ _ _ _)
        (memcpyList_absorb _ _ _ _) (channelAdapt32_absorb _ _ _ _) rfl rfl rfl rfl rfl rfl
        (initNoiseEst_idem _) rfl rfl rfl rfl rfl rfl rfl rfl rfl rfl rfl rfl rfl rfl rfl rfl rfl
        rfl rfl rfl rfl rfl rfl)

set_option maxHeartbeats 2000000 in
theorem init_idem_16000 (s : AecMobile) :
    (WebRtcAecm_Init (WebRtcAecm_Init (some s) 16000).2 16000).2.getD s =
      (WebRtcAecm_Init (some s) 16000).2.getD s :=
  AecMobile_ext _ _
      rfl rfl rfl rfl rfl rfl rfl rfl rfl rfl rfl rfl rfl rfl rfl rfl rfl rfl (initBuffer_idem _)
      (AecmCore_ext _ _
        rfl rfl rfl rfl rfl (initBuffer_idem _) (initBuffer_idem _) (initBuffer_idem _)
        (initBuffer_idem _) rfl rfl rfl (initFarend_idem _) (initEstimator_idem _) rfl rfl rfl
        rfl rfl rfl rfl rfl rfl rfl rfl rfl rfl rfl rfl (memcpyList_absorb _ _ _ _)
        (memcpyList_absorb _ _ _ _) (channelAdapt32_absorb _ _ _ _) rfl rfl rfl rfl rfl rfl
        (initNoiseEst_idem _) rfl rfl rfl rfl rfl rfl rfl rfl rfl rfl rfl rfl rfl rfl rfl rfl rfl
        rfl rfl rfl rfl rfl rfl)

end InitIdempotent

/-- C13. For `sampFreq` 8000 or 16000 and every instance, `WebRtcAecm_Init` returns 0, and
a second `WebRtcAecm_Init` with the same `sampFreq` returns 0 again and leaves exactly the
state the first call left: every field of the instance and of its core, the ring buffers
with their contents and cursors, and the delay-estimator state. -/
theorem init_idempotent (s : AecMobile) (f : Int) (hf : f = 8000 ∨ f = 16000) :
    (WebRtcAecm_Init (some s) f).1 = 0 ∧
    WebRtcAecm_Init (WebRtcAecm_Init (some s) f).2 f = WebRtcAecm_Init (some s) f := by
  rcases hf with rfl | rfl
  · exact ⟨rfl, congrArg (fun a => ((0 : Int), some a)) (init_idem_8000 s)⟩
  · exact ⟨rfl, congrArg (fun a => ((0 : Int), some a)) (init_idem_16000 s)⟩

/-- Witness for C13: the created instance at 8 kHz. -/
theorem init_idempotent_witness :
    WebRtcAecm_Init (WebRtcAecm_Init (some createdInstance) 8000).2 8000 =
      WebRtcAecm_Init (some createdInstance) 8000 :=
  (init_idempotent createdInstance 8000 (Or.inl rfl)).2

/-! ### `WebRtcSpl_SqrtFloor` -/

theorem lor_disjoint (a b n : Nat) (hb : b < 2 ^ n) :
    Int.lor ((2 ^ n * a : Nat) : Int) (b : Int) = ((2 ^ n * a + b : Nat) : Int) := by
  show ((Nat.lor (2 ^ n * a) b : Nat) : Int) = _
  congr 1
  exact (Nat.mul_add_lt_is_or hb a).symm

theorem lor_root (N : Nat) (r k : Int) (hk : 0 ≤ k) (hr : r = 2 ^ (N + 1) * k) :
    Int.lor (2 * r) (shl 2 N) = 2 * r + 2 ^ (N + 1) := by
  obtain ⟨k', rfl⟩ := Int.eq_ofNat_of_zero_le hk
  have e1 : 2 * r = ((2 ^ (N + 2) * k' : Nat) : Int) := by
    rw [hr]
    push_cast
    ring
  have e2 : shl 2 N = ((2 ^ (N + 1) : Nat) : Int) := by
    unfold shl
    push_cast
    ring
  have hlt : 2 ^ (N + 1) < 2 ^ (N + 2) := Nat.pow_lt_pow_right (by decide) (by omega)
  rw [e1, e2, lor_disjoint _ _ _ hlt]
  push_cast
  ring

theorem sqrt_bounds (N : Nat) (hN : N ≤ 15) (c r k : Int) (hc : c = 2 ^ N) (hk : 0 ≤ k)
    (hr : r = 2 * c * k) (hr46 : r ≤ 46340) :
    1 ≤ c ∧ c ≤ 32768 ∧ 0 ≤ r ∧ (2 * r + c) * c ≤ 2147483647 := by
  interval_cases N
  all_goals (
    norm_num at hc
    subst hc
    omega)

theorem sqrt_step (N : Nat) (hN : N ≤ 15) (v0 : Int) (h0 : 0 ≤ v0) (h1 : v0 ≤ 2147483647)
    (vr : Int × Int) (h : SqrtInv (N + 1) v0 vr) :
    SqrtInv N v0 (WEBRTC_SPL_SQRT_ITER N vr) ∧ SqrtIterInRange N vr := by
  obtain ⟨val, root⟩ := vr
  obtain ⟨r, q, k, hq, hk, hroot, hval, hr, hlo, hhi⟩ := h
  simp only at hroot hval
  obtain ⟨c, hc⟩ : ∃ c : Int, c = 2 ^ N := ⟨_, rfl⟩
  have p1 : (2 : Int) ^ (N + 1) = 2 * c := by rw [hc]; ring
  have p2 : (2 : Int) ^ (N + 1 + 1) = 4 * c := by rw [hc]; ring
  have p3 : (4 : Int) ^ N = c * c := by
    rw [hc, ← mul_pow]
    norm_num
  have p4 : (4 : Int) ^ (N + 1) = 4 * (c * c) := by rw [pow_succ, p3]; ring
  rw [p1] at hr
  rw [p2, p4] at hhi
  have hc0 : 0 < c := by rw [hc]; positivity
  have hr0 : 0 ≤ r := by rw [hr]; positivity
  have hr46 : r ≤ 46340 := by nlinarith
  have hlor : Int.lor (2 * r) (shl 2 N) = 2 * r + 2 * c := by
    rw [lor_root N r k hk (by rw [p1]; exact hr), p1]
  obtain ⟨b1, b2, -, b4⟩ := sqrt_bounds N hN c r k hc hk hr hr46
  have e1 : ∀ x : Int, -2147483648 ≤ x → x ≤ 2147483647 → toInt32 x = x := by
    intro x hx1 hx2
    unfold toInt32
    omega
  have s1 : shl 1 N = c := by unfold shl; rw [hc]; ring
  have s2 : ∀ x : Int, shl x N = x * c := by intro x; unfold shl; rw [hc]
  have hpos : 0 ≤ (2 * r + c) * c := by positivity
  have hq0 : 0 ≤ q := by rw [hq]; positivity
  rw [s2] at hlor
  subst hroot hval
  unfold WEBRTC_SPL_SQRT_ITER SqrtIterInRange SqrtInv
  simp only [s1, s2, p1, p3, hlor, ← hc]
  rw [e1 (2 * r + c) (by omega) (by omega), e1 ((2 * r + c) * c) (by omega) (by omega)]
  refine ⟨?_, by omega, by omega, by omega, by omega, by omega, ?_⟩
  · split_ifs with hcond
    · rw [e1 _ (by omega) (by omega)]
      refine ⟨r + c, (r + c) * (r + c), 2 * k + 1, rfl, by omega, by ring, ?_, ?_, ?_, ?_⟩
      · show v0 - q - (2 * r + c) * c = v0 - (r + c) * (r + c)
        rw [hq]; ring
      · rw [hr]; ring
      · nlinarith
      · nlinarith
    · exact ⟨r, q, 2 * k, hq, by omega, rfl, rfl, by rw [hr]; ring, hlo, by nlinarith⟩
  · intro hcond
    omega

theorem sqrtState_succ (v : Int) (k : Nat) (hk : k < 16) :
    sqrtState v (k + 1) = WEBRTC_SPL_SQRT_ITER (15 - k) (sqrtState v k) := by
  interval_cases k <;> rfl

theorem sqrt_inv (v : Int) (h0 : 0 ≤ v) (h1 : v ≤ 2147483647) (k : Nat) (hk : k ≤ 16) :
    SqrtInv (16 - k) v (sqrtState v k) := by
  induction k with
  | zero => exact ⟨0, 0, 0, by ring, le_refl _, by rfl, by simp [sqrtState], by ring, h0,
      by norm_num; omega⟩
  | succ j ih =>
    rw [sqrtState_succ v j (by omega), show 16 - (j + 1) = 15 - j by omega]
    refine (sqrt_step (15 - j) (by omega) v h0 h1 _ ?_).1
    rw [show 15 - j + 1 = 16 - j by omega]
    exact ih (by omega)

theorem sqrt_iter_neg (N : Nat) (hN : N ≤ 15) (v : Int) (hv : v < 0) :
    WEBRTC_SPL_SQRT_ITER N (v, 0) = (v, 0) := by
  unfold WEBRTC_SPL_SQRT_ITER
  have hpos : 0 < toInt32 (shl (toInt32 (0 + shl 1 N)) N) := by
    interval_cases N <;> decide
  have hcond : ¬ (v ≥ toInt32 (shl (toInt32 (0 + shl 1 N)) N)) := by omega
  exact if_neg hcond

theorem sqrtState_neg (v : Int) (hv : v < 0) (k : Nat) (hk : k ≤ 16) :
    sqrtState v k = (v, 0) := by
  induction k with
  | zero => rfl
  | succ j ih =>
    rw [sqrtState_succ v j (by omega), ih (by omega), sqrt_iter_neg _ (by omega) v hv]

/-- C19. For every integer `value` up to `INT32_MAX` (so for every `int32_t`) with
`value >= 0`, `WebRtcSpl_SqrtFloor(value)` is the floor
of the square root: the result `r` is non-negative with `r * r <= value < (r + 1) * (r + 1)`,
and it is the only such integer; in each of the 16 iterations every intermediate value, taken
as an exact integer, lies in the `int32_t` range; for `value < 0` the result is 0; and
`WebRtcSpl_SqrtFloor(8) = 2`. -/
theorem sqrtFloor_correct (value : Int) (h2 : value ≤ 2147483647) :
    (0 ≤ value →
      0 ≤ WebRtcSpl_SqrtFloor value ∧
      WebRtcSpl_SqrtFloor value * WebRtcSpl_SqrtFloor value ≤ value ∧
      value < (WebRtcSpl_SqrtFloor value + 1) * (WebRtcSpl_SqrtFloor value + 1) ∧
      (∀ r : Int, 0 ≤ r → r * r ≤ value → value < (r + 1) * (r + 1) →
        r = WebRtcSpl_SqrtFloor value) ∧
      ∀ k, k < 16 → SqrtIterInRange (15 - k) (sqrtState value k)) ∧
    (value < 0 → WebRtcSpl_SqrtFloor value = 0) ∧
    WebRtcSpl_SqrtFloor 8 = 2 := by
  have hdef : WebRtcSpl_SqrtFloor value = shr (sqrtState value 16).2 1 := rfl
  refine ⟨?_, ?_, by decide⟩
  · intro h0
    obtain ⟨r, q, k, hq, hk, hroot, hval, hr, hlo, hhi⟩ := sqrt_inv value h0 h2 16 (le_refl _)
    have hr0 : 0 ≤ r := by
      rw [hr]
      positivity
    have hres : WebRtcSpl_SqrtFloor value = r := by
      rw [hdef, hroot]
      unfold shr
      omega
    norm_num at hhi
    rw [hres]
    refine ⟨hr0, by rw [← hq]; exact hlo, by nlinarith, ?_, ?_⟩
    · intro s hs0 hs1 hs2
      by_contra hne
      rcases lt_or_gt_of_ne hne with hlt | hgt
      · nlinarith
      · nlinarith
    · intro j hj
      have := (sqrt_step (15 - j) (by omega) value h0 h2 (sqrtState value j)
        (by rw [show 15 - j + 1 = 16 - j by omega]; exact sqrt_inv value h0 h2 j (by omega))).2
      exact this
  · intro hneg
    rw [hdef, sqrtState_neg value hneg 16 (le_refl _)]
    rfl

/-- Witness for C19: `value = 8`. -/
theorem sqrtFloor_correct_witness :
    WebRtcSpl_SqrtFloor 8 * WebRtcSpl_SqrtFloor 8 ≤ 8 ∧
    8 < (WebRtcSpl_SqrtFloor 8 + 1) * (WebRtcSpl_SqrtFloor 8 + 1) :=
  ⟨((sqrtFloor_correct 8 (by decide)).1 (by decide)).2.1,
    ((sqrtFloor_correct 8 (by decide)).1 (by decide)).2.2.1⟩

/-! ### The delay update rule of `WebRtc_ProcessBinarySpectrum` -/

theorem candidateStep_worst (mbc : List Int) (c : Candidate) (i : Nat) :
    (candidateStep mbc c i).value_worst_candidate =
      if mbc.getD i 0 > c.value_worst_candidate then mbc.getD i 0
      else c.value_worst_candidate := by
  unfold candidateStep
  simp only []
  split_ifs <;> rfl

theorem findCandidate_argmin (mbc : List Int) (n : Nat)
    (hm : ∀ i : Nat, i < n → 0 ≤ mbc.getD i 0 ∧ mbc.getD i 0 < 16384) :
    (∀ j : Nat, j < n →
      (forRange n (candidateStep mbc)
        { candidate_delay := -1, value_best_candidate := kMaxBitCountsQ9,
          value_worst_candidate := 0 }).value_best_candidate ≤ mbc.getD j 0 ∧
      mbc.getD j 0 ≤ (forRange n (candidateStep mbc)
        { candidate_delay := -1, value_best_candidate := kMaxBitCountsQ9,
          value_worst_candidate := 0 }).value_worst_candidate) ∧
    (0 < n → ∃ k w : Nat,
      (forRange n (candidateStep mbc)
        { candidate_delay := -1, value_best_candidate := kMaxBitCountsQ9,
          value_worst_candidate := 0 }).candidate_delay = (k : Int) ∧
      k < n ∧ w < n ∧
      mbc.getD k 0 = (forRange n (candidateStep mbc)
        { candidate_delay := -1, value_best_candidate := kMaxBitCountsQ9,
          value_worst_candidate := 0 }).value_best_candidate ∧
      mbc.getD w 0 = (forRange n (candidateStep mbc)
        { candidate_delay := -1, value_best_candidate := kMaxBitCountsQ9,
          value_worst_candidate := 0 }).value_worst_candidate ∧
      ∀ j : Nat, j < k → mbc.getD k 0 < mbc.getD j 0) ∧
    (n = 0 →
      (forRange n (candidateStep mbc)
        { candidate_delay := -1, value_best_candidate := kMaxBitCountsQ9,
          value_worst_candidate := 0 }).value_best_candidate = 16384 ∧
      (forRange n (candidateStep mbc)
        { candidate_delay := -1, value_best_candidate := kMaxBitCountsQ9,
          value_worst_candidate := 0 }).value_worst_candidate = 0) := by
  induction n with
  | zero =>
    refine ⟨fun j hj => by omega, fun h => by omega, fun _ => ⟨rfl, rfl⟩⟩
  | succ m ih =>
    have ih' := ih (fun i hi => hm i (by omega))
    rw [forRange_succ]
    generalize forRange m (candidateStep mbc) _ = c at ih'
    have hv := hm m (by omega)
    obtain ⟨hall, hpos, hzero⟩ := ih'
    obtain ⟨e1, e2⟩ := candidateStep_fields mbc c m
    have e3 := candidateStep_worst mbc c m
    rw [e1, e2, e3]
    refine ⟨?_, fun _ => ?_, fun h => by omega⟩
    · intro j hj
      by_cases hjm : j < m
      · have := hall j hjm
        constructor <;> split_ifs <;> omega
      · have hje : j = m := by omega
        subst hje
        constructor <;> split_ifs <;> omega
    · by_cases hm0 : m = 0
      · subst hm0
        obtain ⟨z1, z2⟩ := hzero rfl
        rw [z1, z2]
        rw [if_pos (by omega), if_pos (by omega)]
        refine ⟨0, 0, rfl, by omega, by omega, rfl, ?_, fun j hj => by omega⟩
        split_ifs <;> omega
      · obtain ⟨k, w, h1, h2, h3, h4, h5, h6⟩ := hpos (by omega)
        by_cases hlt : mbc.getD m 0 < c.value_best_candidate
        · rw [if_pos hlt, if_pos hlt]
          by_cases hgt : mbc.getD m 0 > c.value_worst_candidate
          · rw [if_pos hgt]
            exact ⟨m, m, rfl, by omega, by omega, rfl, rfl,
              fun j hj => by have := (hall j hj).1; omega⟩
          · rw [if_neg hgt]
            exact ⟨m, w, rfl, by omega, by omega, rfl, h5,
              fun j hj => by have := (hall j hj).1; omega⟩
        · rw [if_neg hlt, if_neg hlt]
          by_cases hgt : mbc.getD m 0 > c.value_worst_candidate
          · rw [if_pos hgt]
            exact ⟨k, m, h1, by omega, by omega, h4, rfl, h6⟩
          · rw [if_neg hgt]
            exact ⟨k, w, h1, by omega, by omega, h4, h5, h6⟩

theorem process_delay_update (e : BinaryDelayEstimator) (f : BinaryDelayEstimatorFarend)
    (x : Int) (hsz : f.history_size = e.history_size)
    (hrv : e.robust_validation_enabled = 0) :
    ((binaryStatistics e f x).non_stationary_farend ≠ 0 ∧
        (binaryStatistics e f x).valid_candidate ≠ 0 →
      (WebRtc_ProcessBinarySpectrum e f x).2.last_delay =
        (binaryStatistics e f x).candidate.candidate_delay ∧
      (WebRtc_ProcessBinarySpectrum e f x).2.compare_delay =
        (binaryStatistics e f x).candidate.candidate_delay) ∧
    (¬ ((binaryStatistics e f x).non_stationary_farend ≠ 0 ∧
        (binaryStatistics e f x).valid_candidate ≠ 0) →
      (WebRtc_ProcessBinarySpectrum e f x).2.last_delay = e.last_delay ∧
      (WebRtc_ProcessBinarySpectrum e f x).2.compare_delay = e.compare_delay) := by
  have hne : ¬ (f.history_size ≠ e.history_size) := fun hh => hh hsz
  have hl : (binaryStatistics e f x).state.last_delay = e.last_delay := rfl
  have hcd : (binaryStatistics e f x).state.compare_delay = e.compare_delay := rfl
  have hr : (binaryStatistics e f x).state.robust_validation_enabled = 0 := hrv
  unfold WebRtc_ProcessBinarySpectrum
  rw [if_neg hne]
  dsimp only
  generalize binaryStatistics e f x = st at hl hcd hr
  by_cases hns : st.non_stationary_farend ≠ 0
  · rw [if_pos hns]
    have r1 : (UpdateRobustValidationStatistics st.state st.candidate.candidate_delay
      st.valley_depth st.candidate.value_best_candidate).last_delay = st.state.last_delay := rfl
    have r2 : (UpdateRobustValidationStatistics st.state st.candidate.candidate_delay
      st.valley_depth st.candidate.value_best_candidate).compare_delay =
        st.state.compare_delay := rfl
    have r3 : (UpdateRobustValidationStatistics st.state st.candidate.candidate_delay
      st.valley_depth st.candidate.value_best_candidate).robust_validation_enabled =
        st.state.robust_validation_enabled := rfl
    generalize UpdateRobustValidationStatistics st.state st.candidate.candidate_delay
      st.valley_depth st.candidate.value_best_candidate = s2 at r1 r2 r3
    have hs2 : ¬ (s2.robust_validation_enabled ≠ 0) := by rw [r3, hr]; exact fun hh => hh rfl
    rw [if_neg hs2]
    constructor
    · intro hc
      rw [if_pos hc]
      exact ⟨rfl, rfl⟩
    · intro hc
      rw [if_neg hc]
      exact ⟨by rw [r1, hl], by rw [r2, hcd]⟩
  · rw [if_neg hns]
    have hs2 : ¬ (st.state.robust_validation_enabled ≠ 0) := by rw [hr]; exact fun hh => hh rfl
    rw [if_neg hs2]
    constructor
    · intro hc
      exact absurd hc.1 hns
    · intro hc
      rw [if_neg hc]
      exact ⟨hl, hcd⟩

theorem nonStationary_iff (e : BinaryDelayEstimator) (f : BinaryDelayEstimatorFarend)
    (x : Int) :
    (binaryStatistics e f x).non_stationary_farend ≠ 0 ↔
      ∃ n : Nat, (n : Int) < e.history_size ∧ f.far_bit_counts.getD n 0 > 0 := by
  have hdef : (binaryStatistics e f x).non_stationary_farend =
      if (List.range e.history_size.toNat).any
        (fun n => decide (f.far_bit_counts.getD n 0 > 0)) then 1 else 0 := rfl
  rw [hdef]
  constructor
  · intro h
    by_cases hany : (List.range e.history_size.toNat).any
        (fun n => decide (f.far_bit_counts.getD n 0 > 0)) = true
    · obtain ⟨n, hn, hp⟩ := List.any_eq_true.mp hany
      rw [List.mem_range] at hn
      exact ⟨n, by omega, of_decide_eq_true hp⟩
    · rw [if_neg hany] at h
      exact absurd rfl h
  · rintro ⟨n, hn, hp⟩
    have hany : (List.range e.history_size.toNat).any
        (fun n => decide (f.far_bit_counts.getD n 0 > 0)) = true :=
      List.any_eq_true.mpr ⟨n, List.mem_range.mpr (by omega), decide_eq_true hp⟩
    rw [if_pos hany]
    decide

theorem validCandidate_iff (e : BinaryDelayEstimator) (f : BinaryDelayEstimatorFarend)
    (x : Int) :
    (binaryStatistics e f x).valid_candidate ≠ 0 ↔
      ((binaryStatistics e f x).valley_depth > 1024 ∧
        ((binaryStatistics e f x).candidate.value_best_candidate <
            (binaryStatistics e f x).state.minimum_probability ∨
          (binaryStatistics e f x).candidate.value_best_candidate <
            (binaryStatistics e f x).state.last_delay_probability)) := by
  have hdef : (binaryStatistics e f x).valid_candidate =
      if (binaryStatistics e f x).valley_depth > kProbabilityOffset ∧
        ((binaryStatistics e f x).candidate.value_best_candidate <
            (binaryStatistics e f x).state.minimum_probability ∨
          (binaryStatistics e f x).candidate.value_best_candidate <
            (binaryStatistics e f x).state.last_delay_probability) then 1 else 0 := rfl
  rw [hdef]
  have hk : kProbabilityOffset = 1024 := rfl
  rw [hk]
  constructor
  · intro h
    by_contra hc
    rw [if_neg hc] at h
    exact absurd rfl h
  · intro h
    rw [if_pos h]
    decide

/-- C20. For a far-end/near-end estimator pair in a reachable state with equal history
sizes and robust validation disabled, one `WebRtc_ProcessBinarySpectrum` call leaves the
updated `mean_bit_counts` with values in `[0, kMaxBitCountsQ9)`; when `history_size > 0`
the candidate delay is the first index that minimises them, the best value is that
minimum and `valley_depth` is their maximum minus their minimum. The call sets
`last_delay` and `compare_delay` to the candidate when some `far_bit_counts[n] > 0`,
`valley_depth > 1024` and the best value is below `minimum_probability` or below
`last_delay_probability` (the values after this call's ratchet and increment); in every
other case both are unchanged. -/
theorem delay_update_rule (f0 f : BinaryDelayEstimatorFarend) (e0 e : BinaryDelayEstimator)
    (x : Int) (h : DelayReachable f0 e0 f e) (hsz : f.history_size = e.history_size)
    (hrv : e.robust_validation_enabled = 0) :
    (0 < e.history_size → ∃ k w : Nat,
      (binaryStatistics e f x).candidate.candidate_delay = (k : Int) ∧
      (k : Int) < e.history_size ∧ (w : Int) < e.history_size ∧
      (binaryStatistics e f x).candidate.value_best_candidate =
        (WebRtc_ProcessBinarySpectrum e f x).2.mean_bit_counts.getD k 0 ∧
      (binaryStatistics e f x).valley_depth =
        (WebRtc_ProcessBinarySpectrum e f x).2.mean_bit_counts.getD w 0 -
          (WebRtc_ProcessBinarySpectrum e f x).2.mean_bit_counts.getD k 0 ∧
      (∀ j : Nat, (j : Int) < e.history_size →
        (WebRtc_ProcessBinarySpectrum e f x).2.mean_bit_counts.getD k 0 ≤
          (WebRtc_ProcessBinarySpectrum e f x).2.mean_bit_counts.getD j 0 ∧
        (WebRtc_ProcessBinarySpectrum e f x).2.mean_bit_counts.getD j 0 ≤
          (WebRtc_ProcessBinarySpectrum e f x).2.mean_bit_counts.getD w 0) ∧
      (∀ j : Nat, j < k →
        (WebRtc_ProcessBinarySpectrum e f x).2.mean_bit_counts.getD k 0 <
          (WebRtc_ProcessBinarySpectrum e f x).2.mean_bit_counts.getD j 0)) ∧
    (((∃ n : Nat, (n : Int) < e.history_size ∧ f.far_bit_counts.getD n 0 > 0) ∧
        (binaryStatistics e f x).valley_depth > 1024 ∧
        ((binaryStatistics e f x).candidate.value_best_candidate <
            (binaryStatistics e f x).state.minimum_probability ∨
          (binaryStatistics e f x).candidate.value_best_candidate <
            (binaryStatistics e f x).state.last_delay_probability)) →
      (WebRtc_ProcessBinarySpectrum e f x).2.last_delay =
        (binaryStatistics e f x).candidate.candidate_delay ∧
      (WebRtc_ProcessBinarySpectrum e f x).2.compare_delay =
        (binaryStatistics e f x).candidate.candidate_delay) ∧
    (¬ ((∃ n : Nat, (n : Int) < e.history_size ∧ f.far_bit_counts.getD n 0 > 0) ∧
        (binaryStatistics e f x).valley_depth > 1024 ∧
        ((binaryStatistics e f x).candidate.value_best_candidate <
            (binaryStatistics e f x).state.minimum_probability ∨
          (binaryStatistics e f x).candidate.value_best_candidate <
            (binaryStatistics e f x).state.last_delay_probability)) →
      (WebRtc_ProcessBinarySpectrum e f x).2.last_delay = e.last_delay ∧
      (WebRtc_ProcessBinarySpectrum e f x).2.compare_delay = e.compare_delay) := by
  obtain ⟨u1, u2⟩ := process_delay_update e f x hsz hrv
  have hns := nonStationary_iff e f x
  have hvc := validCandidate_iff e f x
  have hinv := delayInv_process f e x (delayInv_reachable f0 e0 f e h)
  obtain ⟨-, m2, m3, -⟩ := process_match e f x hsz
  refine ⟨?_, ?_, ?_⟩
  · intro hpos
    have hm : ∀ i : Nat, i < e.history_size.toNat →
        0 ≤ (WebRtc_ProcessBinarySpectrum e f x).2.mean_bit_counts.getD i 0 ∧
        (WebRtc_ProcessBinarySpectrum e f x).2.mean_bit_counts.getD i 0 < 16384 := by
      intro i hi
      exact hinv.2.1 i (by rw [m2]; omega)
    obtain ⟨a1, a2, -⟩ := findCandidate_argmin _ e.history_size.toNat hm
    obtain ⟨k, w, c1, c2, c3, c4, c5, c6⟩ := a2 (by omega)
    have hcand : (binaryStatistics e f x).candidate =
        forRange e.history_size.toNat
          (candidateStep (WebRtc_ProcessBinarySpectrum e f x).2.mean_bit_counts)
          { candidate_delay := -1, value_best_candidate := kMaxBitCountsQ9,
            value_worst_candidate := 0 } := by
      rw [m3]
      rfl
    have hvd : (binaryStatistics e f x).valley_depth =
        toInt32 ((binaryStatistics e f x).candidate.value_worst_candidate -
          (binaryStatistics e f x).candidate.value_best_candidate) := rfl
    rw [hvd, hcand]
    have hk := hm k c2
    have hw := hm w c3
    refine ⟨k, w, c1, by omega, by omega, c4.symm, ?_, ?_, c6⟩
    · rw [← c4, ← c5, toInt32_of_range (by omega) (by omega)]
    · intro j hj
      have := a1 j (by omega)
      rw [c4, c5]
      exact this
  · rintro ⟨h1, h2, h3⟩
    exact u1 ⟨hns.mpr h1, hvc.mpr ⟨h2, h3⟩⟩
  · intro hc
    apply u2
    rintro ⟨g1, g2⟩
    exact hc ⟨hns.mp g1, (hvc.mp g2).1, (hvc.mp g2).2⟩

/-- Witness for C20: the pair created with three history entries, after initialisation and
one far-end spectrum; the valley is too shallow, so the delay stays as it was. -/
theorem delay_update_rule_witness :
    (WebRtc_ProcessBinarySpectrum (WebRtc_InitBinaryDelayEstimator delayEstimator0)
      (WebRtc_AddBinaryFarSpectrum (WebRtc_InitBinaryDelayEstimatorFarend delayFarend0) 5)
      3).2.last_delay = (WebRtc_InitBinaryDelayEstimator delayEstimator0).last_delay ∧
    (WebRtc_ProcessBinarySpectrum (WebRtc_InitBinaryDelayEstimator delayEstimator0)
      (WebRtc_AddBinaryFarSpectrum (WebRtc_InitBinaryDelayEstimatorFarend delayFarend0) 5)
      3).2.compare_delay = (WebRtc_InitBinaryDelayEstimator delayEstimator0).compare_delay :=
  (delay_update_rule delayFarend0
    (WebRtc_AddBinaryFarSpectrum (WebRtc_InitBinaryDelayEstimatorFarend delayFarend0) 5)
    delayEstimator0 (WebRtc_InitBinaryDelayEstimator delayEstimator0) 3
    (.add 5 (by decide) (by decide) .init) (by decide) (by decide)).2.2
    (fun hc => absurd hc.2.1 (by decide))


/-! ### `WebRtc_MeanEstimatorFix` rounds toward zero -/

theorem meanEstimator_eq (new_value mean factor : Int)
    (hn : -2147483648 ≤ new_value ∧ new_value ≤ 2147483647)
    (hm : -2147483648 ≤ mean ∧ mean ≤ 2147483647)
    (hd : -2147483648 < new_value - mean ∧ new_value - mean ≤ 2147483647) :
    WebRtc_MeanEstimatorFix new_value factor mean =
      mean + Int.tdiv (new_value - mean) (2 ^ factor.toNat) := by
  unfold WebRtc_MeanEstimatorFix
  simp only []
  rw [toInt32_of_range (x := new_value - mean) (by omega) (by omega)]
  have hpos : (0 : Int) < 2 ^ factor.toNat := by positivity
  by_cases hneg : new_value - mean < 0
  · rw [if_pos hneg, toInt32_of_range (x := -(new_value - mean)) (by omega) (by omega)]
    have h1 : 0 ≤ shr (-(new_value - mean)) factor.toNat := by
      unfold shr
      exact Int.ediv_nonneg (by omega) (by positivity)
    have h2 : shr (-(new_value - mean)) factor.toNat ≤ -(new_value - mean) := by
      unfold shr
      exact Int.ediv_le_self _ (by omega)
    rw [toInt32_of_range (x := -shr (-(new_value - mean)) factor.toNat) (by omega) (by omega),
      toInt32_of_range (by omega) (by omega)]
    have e : Int.tdiv (new_value - mean) (2 ^ factor.toNat) =
        -shr (-(new_value - mean)) factor.toNat := by
      have e1 : new_value - mean = -(-(new_value - mean)) := by omega
      rw [e1, Int.neg_tdiv, Int.tdiv_eq_ediv (by omega) (le_of_lt hpos)]
      unfold shr
      simp only [neg_neg]
    rw [e]
  · rw [if_neg hneg]
    have h1 : 0 ≤ shr (new_value - mean) factor.toNat := by
      unfold shr
      exact Int.ediv_nonneg (by omega) (by positivity)
    have h2 : shr (new_value - mean) factor.toNat ≤ new_value - mean := by
      unfold shr
      exact Int.ediv_le_self _ (by omega)
    rw [toInt32_of_range (by omega) (by omega), Int.tdiv_eq_ediv (by omega) (le_of_lt hpos)]
    rfl

/-- C30, with the rounding the code has. For all `int32_t` values `new_value` and `mean`
whose difference `d = new_value - mean` satisfies `-2^31 < d <= 2^31 - 1` and every
`factor` in `[0, 31]`, `WebRtc_MeanEstimatorFix` updates `mean` to `mean + d / 2^factor`
with the quotient rounded toward zero: `mean + (d >> factor)` when `d >= 0` and
`mean - ((-d) >> factor)` when `d < 0`. -/
theorem meanEstimator_rounds_toward_zero (new_value mean factor : Int)
    (hn : -2147483648 ≤ new_value ∧ new_value ≤ 2147483647)
    (hm : -2147483648 ≤ mean ∧ mean ≤ 2147483647)
    (hd : -2147483648 < new_value - mean ∧ new_value - mean ≤ 2147483647)
    (_hf : 0 ≤ factor ∧ factor ≤ 31) :
    WebRtc_MeanEstimatorFix new_value factor mean =
      mean + Int.tdiv (new_value - mean) (2 ^ factor.toNat) ∧
    (0 ≤ new_value - mean →
      WebRtc_MeanEstimatorFix new_value factor mean =
        mean + shr (new_value - mean) factor.toNat) ∧
    (new_value - mean < 0 →
      WebRtc_MeanEstimatorFix new_value factor mean =
        mean - shr (-(new_value - mean)) factor.toNat) := by
  have hpos : (0 : Int) < 2 ^ factor.toNat := by positivity
  have e := meanEstimator_eq new_value mean factor hn hm hd
  refine ⟨e, ?_, ?_⟩
  · intro h0
    rw [e, Int.tdiv_eq_ediv h0 (le_of_lt hpos)]
    rfl
  · intro h0
    rw [e]
    have e1 : new_value - mean = -(-(new_value - mean)) := by omega
    rw [e1, Int.neg_tdiv, Int.tdiv_eq_ediv (by omega) (le_of_lt hpos)]
    unfold shr
    simp only [neg_neg]
    omega

/-- Witness for C30 (amended): `new_value = 0`, `mean = 100`, `factor = 3` gives
`100 - (100 >> 3) = 88`. -/
theorem meanEstimator_rounds_toward_zero_witness :
    WebRtc_MeanEstimatorFix 0 3 100 = 100 + Int.tdiv (0 - 100) (2 ^ (3 : Int).toNat) :=
  (meanEstimator_rounds_toward_zero 0 100 3 (by decide) (by decide) (by decide)
    (by decide)).1

/-- Counterexample for C30 as stated: with `new_value = 0`, `mean = 1` and `factor = 1` the
code leaves `mean` at 1, while `mean + ((new_value - mean) >> 1)` with an arithmetic shift
is 0; and for the difference `-2^31` (`new_value = -2^31`, `mean = 0`, `factor = 1`), whose
negation does not fit in `int32_t`, the wrapped result is `2^30`, not `-2^30`. -/
theorem meanEstimator_counterexample :
    WebRtc_MeanEstimatorFix 0 1 1 = 1 ∧ (1 : Int) + shr (0 - 1) 1 = 0 ∧
    WebRtc_MeanEstimatorFix (-2147483648) 1 0 = 1073741824 ∧
    (0 : Int) + shr (-2147483648 - 0) 1 = -1073741824 := by
  decide

/-! ### `BitCount` is the population count -/

theorem popcount_digits_explicit (n : Nat) (hn : n < 4294967296) :
    (n : Int) - ((n / 2 &&& 3681400539 : Nat) : Int) - ((n / 4 &&& 1227133513 : Nat) : Int) =
      ((((n) % 8 : Nat) : Int) - (((n) % 8 / 2 : Nat) : Int) - (((n) % 8 / 4 : Nat) : Int)) + 8 * (((((n / 8) % 8 : Nat) : Int) - (((n / 8) % 8 / 2 : Nat) : Int) - (((n / 8) % 8 / 4 : Nat) : Int)) + 8 * (((((n / 8 / 8) % 8 : Nat) : Int) - (((n / 8 / 8) % 8 / 2 : Nat) : Int) - (((n / 8 / 8) % 8 / 4 : Nat) : Int)) + 8 * (((((n / 8 / 8 / 8) % 8 : Nat) : Int) - (((n / 8 / 8 / 8) % 8 / 2 : Nat) : Int) - (((n / 8 / 8 / 8) % 8 / 4 : Nat) : Int)) + 8 * (((((n / 8 / 8 / 8 / 8) % 8 : Nat) : Int) - (((n / 8 / 8 / 8 / 8) % 8 / 2 : Nat) : Int) - (((n / 8 / 8 / 8 / 8) % 8 / 4 : Nat) : Int)) + 8 * (((((n / 8 / 8 / 8 / 8 / 8) % 8 : Nat) : Int) - (((n / 8 / 8 / 8 / 8 / 8) % 8 / 2 : Nat) : Int) - (((n / 8 / 8 / 8 / 8 / 8) % 8 / 4 : Nat) : Int)) + 8 * (((((n / 8 / 8 / 8 / 8 / 8 / 8) % 8 : Nat) : Int) - (((n / 8 / 8 / 8 / 8 / 8 / 8) % 8 / 2 : Nat) : Int) - (((n / 8 / 8 / 8 / 8 / 8 / 8) % 8 / 4 : Nat) : Int)) + 8 * (((((n / 8 / 8 / 8 / 8 / 8 / 8 / 8) % 8 : Nat) : Int) - (((n / 8 / 8 / 8 / 8 / 8 / 8 / 8) % 8 / 2 : Nat) : Int) - (((n / 8 / 8 / 8 / 8 / 8 / 8 / 8) % 8 / 4 : Nat) : Int)) + 8 * (((((n / 8 / 8 / 8 / 8 / 8 / 8 / 8 / 8) % 8 : Nat) : Int) - (((n / 8 / 8 / 8 / 8 / 8 / 8 / 8 / 8) % 8 / 2 : Nat) : Int) - (((n / 8 / 8 / 8 / 8 / 8 / 8 / 8 / 8) % 8 / 4 : Nat) : Int)) + 8 * (((((n / 8 / 8 / 8 / 8 / 8 / 8 / 8 / 8 / 8) % 8 : Nat) : Int) - (((n / 8 / 8 / 8 / 8 / 8 / 8 / 8 / 8 / 8) % 8 / 2 : Nat) : Int) - (((n / 8 / 8 / 8 / 8 / 8 / 8 / 8 / 8 / 8) % 8 / 4 : Nat) : Int)) + 8 * (((((n / 8 / 8 / 8 / 8 / 8 / 8 / 8 / 8 / 8 / 8) % 8 : Nat) : Int) - (((n / 8 / 8 / 8 / 8 / 8 / 8 / 8 / 8 / 8 / 8) % 8 / 2 : Nat) : Int) - (((n / 8 / 8 / 8 / 8 / 8 / 8 / 8 / 8 / 8 / 8) % 8 / 4 : Nat) : Int)))))))))))) := by
  rw [popcount_step (n) (3681400539) (1227133513) (by decide) (by decide)]
  rw [popcount_step (n / 8) (3681400539 / 8) (1227133513 / 8) (by decide) (by decide)]
  rw [popcount_step (n / 8 / 8) (3681400539 / 8 / 8) (1227133513 / 8 / 8) (by decide) (by decide)]
  rw [popcount_step (n / 8 / 8 / 8) (3681400539 / 8 / 8 / 8) (1227133513 / 8 / 8 / 8) (by decide) (by decide)]
  rw [popcount_step (n / 8 / 8 / 8 / 8) (3681400539 / 8 / 8 / 8 / 8) (1227133513 / 8 / 8 / 8 / 8) (by decide) (by decide)]
  rw [popcount_step (n / 8 / 8 / 8 / 8 / 8) (3681400539 / 8 / 8 / 8 / 8 / 8) (1227133513 / 8 / 8 / 8 / 8 / 8) (by decide) (by decide)]
  rw [popcount_step (n / 8 / 8 / 8 / 8 / 8 / 8) (3681400539 / 8 / 8 / 8 / 8 / 8 / 8) (1227133513 / 8 / 8 / 8 / 8 / 8 / 8) (by decide) (by decide)]
  rw [popcount_step (n / 8 / 8 / 8 / 8 / 8 / 8 / 8) (3681400539 / 8 / 8 / 8 / 8 / 8 / 8 / 8) (1227133513 / 8 / 8 / 8 / 8 / 8 / 8 / 8) (by decide) (by decide)]
  rw [popcount_step (n / 8 / 8 / 8 / 8 / 8 / 8 / 8 / 8) (3681400539 / 8 / 8 / 8 / 8 / 8 / 8 / 8 / 8) (1227133513 / 8 / 8 / 8 / 8 / 8 / 8 / 8 / 8) (by decide) (by decide)]
  rw [popcount_step (n / 8 / 8 / 8 / 8 / 8 / 8 / 8 / 8 / 8) (3681400539 / 8 / 8 / 8 / 8 / 8 / 8 / 8 / 8 / 8) (1227133513 / 8 / 8 / 8 / 8 / 8 / 8 / 8 / 8 / 8) (by decide) (by decide)]
  rw [popcount_step (n / 8 / 8 / 8 / 8 / 8 / 8 / 8 / 8 / 8 / 8) (3681400539 / 8 / 8 / 8 / 8 / 8 / 8 / 8 / 8 / 8 / 8) (1227133513 / 8 / 8 / 8 / 8 / 8 / 8 / 8 / 8 / 8 / 8) (by decide) (by decide)]
  have hz : n / 8 / 8 / 8 / 8 / 8 / 8 / 8 / 8 / 8 / 8 / 8 = 0 := by omega
  rw [hz]
  simp only [Nat.zero_div, Nat.zero_and, Nat.cast_zero, sub_zero, mul_zero, add_zero]

theorem bitCount_of_digits (n : Nat) (hn : n < 4294967296)
    (p0 p1 p2 p3 p4 p5 p6 p7 p8 p9 p10 : Int)
    (b0 : 0 ≤ p0 ∧ p0 ≤ 3) (b1 : 0 ≤ p1 ∧ p1 ≤ 3) (b2 : 0 ≤ p2 ∧ p2 ≤ 3) (b3 : 0 ≤ p3 ∧ p3 ≤ 3) (b4 : 0 ≤ p4 ∧ p4 ≤ 3) (b5 : 0 ≤ p5 ∧ p5 ≤ 3) (b6 : 0 ≤ p6 ∧ p6 ≤ 3) (b7 : 0 ≤ p7 ∧ p7 ≤ 3) (b8 : 0 ≤ p8 ∧ p8 ≤ 3) (b9 : 0 ≤ p9 ∧ p9 ≤ 3) (b10 : 0 ≤ p10 ∧ p10 ≤ 2)
    (hT : (n : Int) - ((n / 2 &&& 3681400539 : Nat) : Int) -
      ((n / 4 &&& 1227133513 : Nat) : Int) = p0 + 8 * (p1 + 8 * (p2 + 8 * (p3 + 8 * (p4 + 8 * (p5 + 8 * (p6 + 8 * (p7 + 8 * (p8 + 8 * (p9 + 8 * (p10))))))))))) :
    BitCount (n : Int) = p0 + p1 + p2 + p3 + p4 + p5 + p6 + p7 + p8 + p9 + p10 := by
  have hA : Int.land (shr (n : Int) 1) 3681400539 = ((n / 2 &&& 3681400539 : Nat) : Int) := by
    rw [shr_natCast]
    rfl
  have hB : Int.land (shr (n : Int) 2) 1227133513 = ((n / 4 &&& 1227133513 : Nat) : Int) := by
    rw [shr_natCast]
    rfl
  have hAle : n / 2 &&& 3681400539 ≤ n / 2 := Nat.and_le_left
  have hBle : n / 4 &&& 1227133513 ≤ n / 4 := Nat.and_le_left
  have ht1 : toUint32 (toUint32 ((n : Int) - Int.land (shr (n : Int) 1) 3681400539) -
      Int.land (shr (n : Int) 2) 1227133513) = p0 + 8 * (p1 + 8 * (p2 + 8 * (p3 + 8 * (p4 + 8 * (p5 + 8 * (p6 + 8 * (p7 + 8 * (p8 + 8 * (p9 + 8 * (p10)))))))))) := by
    rw [hA, hB, ← hT]
    generalize (n / 2 &&& 3681400539) = A at hAle
    generalize (n / 4 &&& 1227133513) = B at hBle
    rw [toUint32_of_range (x := (n : Int) - (A : Int)) (by omega) (by omega),
      toUint32_of_range (by omega) (by omega)]
  have hres : BitCount (n : Int) =
      toInt32 (p0 + p1 + p2 + p3 + p4 + p5 + p6 + p7 + p8 + p9 + p10) := by
    unfold BitCount
    simp only []
    rw [ht1, bitcount_stage2 p0 p1 p2 p3 p4 p5 p6 p7 p8 p9 p10 b0 b1 b2 b3 b4 b5 b6 b7 b8 b9 b10,
      bitcount_stage3 (p0 + p1) (p2 + p3) (p4 + p5) (p6 + p7) (p8 + p9) p10 (by omega) (by omega)
        (by omega) (by omega) (by omega) b10]
    congr 1
    ring
  rw [hres]
  clear hres ht1 hT hA hB hAle hBle
  unfold toInt32
  omega

theorem digit_pop_bits (y : Nat) :
    ((y % 8 : Nat) : Int) - ((y % 8 / 2 : Nat) : Int) - ((y % 8 / 4 : Nat) : Int) =
      ((y % 2 : Nat) : Int) + ((y / 2 % 2 : Nat) : Int) + ((y / 4 % 2 : Nat) : Int) := by
  omega

theorem popCount32_natCast (n : Nat) :
    popCount32 (n : Int) = ((((List.range 32).map (fun i => n / 2 ^ i % 2)).sum : Nat) : Int) := by
  unfold popCount32
  rw [Nat.cast_list_sum, List.map_map]
  congr 1

theorem BitCount_eq_popCount (x : Int) (h0 : 0 ≤ x) (h1 : x < 4294967296) :
    BitCount x = popCount32 x := by
  obtain ⟨n, rfl⟩ := Int.eq_ofNat_of_zero_le h0
  have hn : n < 4294967296 := by omega
  have htop : ((((n / 8 / 8 / 8 / 8 / 8 / 8 / 8 / 8 / 8 / 8) % 8 : Nat) : Int) - (((n / 8 / 8 / 8 / 8 / 8 / 8 / 8 / 8 / 8 / 8) % 8 / 2 : Nat) : Int) - (((n / 8 / 8 / 8 / 8 / 8 / 8 / 8 / 8 / 8 / 8) % 8 / 4 : Nat) : Int)) ≤ 2 := by omega
  rw [bitCount_of_digits n hn _ _ _ _ _ _ _ _ _ _ _
    (digit_pop_range (n)) (digit_pop_range (n / 8)) (digit_pop_range (n / 8 / 8)) (digit_pop_range (n / 8 / 8 / 8)) (digit_pop_range (n / 8 / 8 / 8 / 8)) (digit_pop_range (n / 8 / 8 / 8 / 8 / 8)) (digit_pop_range (n / 8 / 8 / 8 / 8 / 8 / 8)) (digit_pop_range (n / 8 / 8 / 8 / 8 / 8 / 8 / 8)) (digit_pop_range (n / 8 / 8 / 8 / 8 / 8 / 8 / 8 / 8)) (digit_pop_range (n / 8 / 8 / 8 / 8 / 8 / 8 / 8 / 8 / 8))
    ⟨(digit_pop_range (n / 8 / 8 / 8 / 8 / 8 / 8 / 8 / 8 / 8 / 8)).1, htop⟩ (popcount_digits_explicit n hn), popCount32_natCast]
  clear htop
  have hz : (n : Int) / 4294967296 = 0 := by omega
  simp only [digit_pop_bits, List.range_succ, List.range_zero, List.nil_append,
    List.cons_append, List.map_cons, List.map_nil, List.sum_cons, List.sum_nil,
    Nat.div_div_eq_div_mul]
  norm_num
  rw [hz]
  norm_num
  ring

theorem set_getD_self (l : List Int) (i : Nat) : l.set i (l.getD i 0) = l := by
  apply List.ext_getElem?
  intro j
  rw [List.getElem?_set]
  split_ifs with h1 h2
  · subst h1
    rw [List.getD_eq_getElem?_getD, List.getElem?_eq_getElem h2, Option.getD_some]
  · subst h1
    rw [List.getElem?_eq_none (by omega)]
  · rfl

theorem forRange_update_length (u : Nat → Int → Int) (n : Nat) (l : List Int) :
    (forRange n (fun (m : List Int) i => m.set i (u i (m.getD i 0))) l).length = l.length := by
  induction n with
  | zero => rfl
  | succ k ih => rw [forRange_succ, List.length_set, ih]

theorem forRange_update_getD (u : Nat → Int → Int) (n : Nat) (l : List Int) (d : Nat)
    (hd : d < l.length) :
    (forRange n (fun (m : List Int) i => m.set i (u i (m.getD i 0))) l).getD d 0 =
      if d < n then u d (l.getD d 0) else l.getD d 0 := by
  induction n with
  | zero => rfl
  | succ k ih =>
    have hlen := forRange_update_length u k l
    rw [forRange_succ, List.getD_eq_getElem?_getD, List.getElem?_set]
    by_cases hk : k = d
    · subst hk
      rw [if_pos rfl, if_pos (by omega), Option.getD_some, ih, if_neg (by omega),
        if_pos (by omega)]
    · rw [if_neg hk, ← List.getD_eq_getElem?_getD, ih]
      by_cases hdk : d < k
      · rw [if_pos hdk, if_pos (by omega)]
      · rw [if_neg hdk, if_neg (by omega)]

theorem int_xor_natCast (a b : Nat) : Int.xor (a : Int) (b : Int) = ((a ^^^ b : Nat) : Int) :=
  rfl

theorem hammingDistance32_eq (a b : Int) (ha : 0 ≤ a) (hb : 0 ≤ b) :
    hammingDistance32 a b = popCount32 (Int.xor a b) := by
  obtain ⟨m, rfl⟩ := Int.eq_ofNat_of_zero_le ha
  obtain ⟨n, rfl⟩ := Int.eq_ofNat_of_zero_le hb
  unfold hammingDistance32 popCount32
  congr 1
  apply List.map_congr_left
  intro i _
  rw [int_xor_natCast, shr_natCast, shr_natCast, shr_natCast]
  have hx := Nat.testBit_xor m n i
  rw [Nat.testBit_to_div_mod, Nat.testBit_to_div_mod, Nat.testBit_to_div_mod] at hx
  generalize m / 2 ^ i = a at hx ⊢
  generalize n / 2 ^ i = b at hx ⊢
  generalize (m ^^^ n) / 2 ^ i = c at hx ⊢
  rcases Nat.mod_two_eq_zero_or_one a with h1 | h1 <;>
    rcases Nat.mod_two_eq_zero_or_one b with h2 | h2 <;>
    rcases Nat.mod_two_eq_zero_or_one c with h3 | h3 <;>
    first
    | (exfalso; simp [h1, h2, h3] at hx; done)
    | (split_ifs <;> omega)

theorem bitCountComparison_getD (v : Int) (m : List Int) (n : Int) (bc : List Int) (d : Nat)
    (hd : d < n.toNat) (hb : d < bc.length) :
    (BitCountComparison v m n bc).getD d 0 =
      toInt32 (BitCount (toUint32 (Int.xor v (m.getD d 0)))) := by
  unfold BitCountComparison
  rw [List.getD_eq_getElem?_getD,
    forRange_set_getElem? (fun k => toInt32 (BitCount (toUint32 (Int.xor v (m.getD k 0))))),
    if_pos ⟨hd, hb⟩, Option.getD_some]

theorem bitCountComparison_length (v : Int) (m : List Int) (n : Int) (bc : List Int) :
    (BitCountComparison v m n bc).length = bc.length := by
  unfold BitCountComparison
  exact forRange_set_length _ _ _

theorem updateMeanBitCounts_getD (mbc bc fbc : List Int) (hs : Int) (d : Nat)
    (hd : d < hs.toNat) (hm : d < mbc.length) :
    (updateMeanBitCounts mbc bc fbc hs).getD d 0 =
      if fbc.getD d 0 > 0 then
        WebRtc_MeanEstimatorFix (toInt32 (shl (bc.getD d 0) 9))
          (kShiftsAtZero - shr (toInt32 (kShiftsLinearSlope * fbc.getD d 0)) 4) (mbc.getD d 0)
      else mbc.getD d 0 := by
  unfold updateMeanBitCounts
  have hbody : (fun (mbc : List Int) (i : Nat) =>
      let bit_count := toInt32 (shl (bc.getD i 0) 9)
      if fbc.getD i 0 > 0 then
        let shifts := kShiftsAtZero - shr (toInt32 (kShiftsLinearSlope * fbc.getD i 0)) 4
        mbc.set i (WebRtc_MeanEstimatorFix bit_count shifts (mbc.getD i 0))
      else mbc) =
      (fun (m : List Int) i => m.set i ((fun i v =>
        if fbc.getD i 0 > 0 then
          WebRtc_MeanEstimatorFix (toInt32 (shl (bc.getD i 0) 9))
            (kShiftsAtZero - shr (toInt32 (kShiftsLinearSlope * fbc.getD i 0)) 4) v
        else v) i (m.getD i 0))) := by
    funext m i
    dsimp only
    split_ifs
    · rfl
    · exact (set_getD_self m i).symm
  rw [hbody]
  exact (forRange_update_getD (fun i v =>
    if fbc.getD i 0 > 0 then
      WebRtc_MeanEstimatorFix (toInt32 (shl (bc.getD i 0) 9))
        (kShiftsAtZero - shr (toInt32 (kShiftsLinearSlope * fbc.getD i 0)) 4) v
    else v) _ _ _ hm).trans (if_pos hd)

theorem process_state_lists (e : BinaryDelayEstimator) (f : BinaryDelayEstimatorFarend)
    (x : Int) (h : f.history_size = e.history_size) :
    (WebRtc_ProcessBinarySpectrum e f x).2.bit_counts = (binaryStatistics e f x).state.bit_counts ∧
    (WebRtc_ProcessBinarySpectrum e f x).2.mean_bit_counts =
      (binaryStatistics e f x).state.mean_bit_counts := by
  have hne : ¬ (f.history_size ≠ e.history_size) := fun hh => hh h
  unfold WebRtc_ProcessBinarySpectrum
  rw [if_neg hne]
  dsimp only
  generalize binaryStatistics e f x = st
  have hr : ∀ (s : BinaryDelayEstimator) (c v w : Int),
      (UpdateRobustValidationStatistics s c v w).bit_counts = s.bit_counts ∧
      (UpdateRobustValidationStatistics s c v w).mean_bit_counts = s.mean_bit_counts :=
    fun _ _ _ _ => ⟨rfl, rfl⟩
  have ha : ∀ (s : BinaryDelayEstimator) (c : Candidate),
      (acceptCandidate s c).bit_counts = s.bit_counts ∧
      (acceptCandidate s c).mean_bit_counts = s.mean_bit_counts := by
    intro s c
    unfold acceptCandidate
    constructor <;> dsimp only <;> split_ifs <;> rfl
  split_ifs <;>
    simp only [(ha _ _).1, (ha _ _).2, (hr _ _ _ _).1, (hr _ _ _ _).2, and_self]

theorem binaryStatistics_lists (e : BinaryDelayEstimator) (f : BinaryDelayEstimatorFarend)
    (x : Int) (hl : e.lookahead = 0)
    (hnh : e.near_history_size ≤ (e.binary_near_history.length : Int)) :
    (binaryStatistics e f x).state.bit_counts =
      BitCountComparison x f.binary_far_history e.history_size e.bit_counts ∧
    (binaryStatistics e f x).state.mean_bit_counts =
      updateMeanBitCounts e.mean_bit_counts
        (BitCountComparison x f.binary_far_history e.history_size e.bit_counts)
        f.far_bit_counts e.history_size := by
  have hx : (if e.near_history_size > 1 then
      getI (if e.near_history_size > 1 then
        (memcpyList e.binary_near_history 1 e.binary_near_history 0
          (e.near_history_size - 1).toNat).set 0 x
        else e.binary_near_history) e.lookahead
      else x) = x := by
    split_ifs with h1
    · rw [hl]
      unfold getI
      have e0 : (0 : Int).toNat = 0 := rfl
      rw [if_neg (by decide), e0, List.getD_eq_getElem?_getD, List.getElem?_set, if_pos rfl,
        memcpyList_length, if_pos (by omega)]
      rfl
    · rfl
  unfold binaryStatistics
  dsimp only
  rw [hx]
  exact ⟨rfl, rfl⟩

/-- C21. In `WebRtc_ProcessBinarySpectrum` with lookahead 0 and matching history sizes, for
every `d` in `[0, history_size)` (an index of the `bit_counts` and `mean_bit_counts` arrays)
whose far-end history entry is a `uint32_t` and whose `far_bit_counts[d]` is a bit count in
`[0, 32]`: the new `bit_counts[d]` is the number of bit positions in which the near binary
spectrum and `binary_far_history[d]` differ; if `far_bit_counts[d] == 0` then
`mean_bit_counts[d]` is left unchanged, otherwise it becomes
`WebRtc_MeanEstimatorFix(bit_counts[d] * 512, 13 - ((3 * far_bit_counts[d]) >> 4))` of its
old value; and `BitCount(y)` is the population count of `y` for every 32-bit `y`. -/
theorem process_bit_counts (self : BinaryDelayEstimator) (farend : BinaryDelayEstimatorFarend)
    (x : Int) (d : Nat)
    (hsz : farend.history_size = self.history_size)
    (hl : self.lookahead = 0)
    (hnh : self.near_history_size ≤ (self.binary_near_history.length : Int))
    (hx : 0 ≤ x ∧ x < 4294967296)
    (hd : (d : Int) < self.history_size)
    (hb : d < self.bit_counts.length) (hm : d < self.mean_bit_counts.length)
    (hfar : 0 ≤ farend.binary_far_history.getD d 0 ∧
      farend.binary_far_history.getD d 0 < 4294967296)
    (hfb : 0 ≤ farend.far_bit_counts.getD d 0 ∧ farend.far_bit_counts.getD d 0 ≤ 32) :
    (WebRtc_ProcessBinarySpectrum self farend x).2.bit_counts.getD d 0 =
      hammingDistance32 x (farend.binary_far_history.getD d 0) ∧
    (farend.far_bit_counts.getD d 0 = 0 →
      (WebRtc_ProcessBinarySpectrum self farend x).2.mean_bit_counts.getD d 0 =
        self.mean_bit_counts.getD d 0) ∧
    (farend.far_bit_counts.getD d 0 ≠ 0 →
      (WebRtc_ProcessBinarySpectrum self farend x).2.mean_bit_counts.getD d 0 =
        WebRtc_MeanEstimatorFix
          ((WebRtc_ProcessBinarySpectrum self farend x).2.bit_counts.getD d 0 * 512)
          (13 - shr (3 * farend.far_bit_counts.getD d 0) 4)
          (self.mean_bit_counts.getD d 0)) ∧
    (∀ y : Int, 0 ≤ y → y < 4294967296 → BitCount y = popCount32 y) := by
  obtain ⟨p1, p2⟩ := process_state_lists self farend x hsz
  obtain ⟨q1, q2⟩ := binaryStatistics_lists self farend x hl hnh
  have hdn : d < self.history_size.toNat := by omega
  have hxor : 0 ≤ Int.xor x (farend.binary_far_history.getD d 0) ∧
      Int.xor x (farend.binary_far_history.getD d 0) < 4294967296 := by
    obtain ⟨a, ha⟩ := Int.eq_ofNat_of_zero_le hx.1
    obtain ⟨b, hb'⟩ := Int.eq_ofNat_of_zero_le hfar.1
    rw [ha, hb', int_xor_natCast]
    have h32 : a ^^^ b < 2 ^ 32 := Nat.xor_lt_two_pow (by omega) (by omega)
    omega
  have hbc : (BitCountComparison x farend.binary_far_history self.history_size
      self.bit_counts).getD d 0 =
      hammingDistance32 x (farend.binary_far_history.getD d 0) := by
    rw [bitCountComparison_getD _ _ _ _ d hdn hb, toUint32_of_range hxor.1 hxor.2,
      hammingDistance32_eq _ _ hx.1 hfar.1]
    have hr := BitCount_range _ hxor.1 hxor.2
    rw [toInt32_of_range (by omega) (by omega)]
    exact BitCount_eq_popCount _ hxor.1 hxor.2
  have hrange : 0 ≤ hammingDistance32 x (farend.binary_far_history.getD d 0) ∧
      hammingDistance32 x (farend.binary_far_history.getD d 0) ≤ 32 := by
    rw [hammingDistance32_eq _ _ hx.1 hfar.1, ← BitCount_eq_popCount _ hxor.1 hxor.2]
    exact BitCount_range _ hxor.1 hxor.2
  have hmean := updateMeanBitCounts_getD self.mean_bit_counts
    (BitCountComparison x farend.binary_far_history self.history_size self.bit_counts)
    farend.far_bit_counts self.history_size d hdn hm
  rw [p1, p2, q1, q2, hbc]
  refine ⟨rfl, ?_, ?_, BitCount_eq_popCount⟩
  · intro h0
    rw [hmean, if_neg (by omega)]
  · intro h0
    rw [hmean, if_pos (by omega), hbc]
    have e1 : toInt32 (shl (hammingDistance32 x (farend.binary_far_history.getD d 0)) 9) =
        hammingDistance32 x (farend.binary_far_history.getD d 0) * 512 := by
      unfold shl
      rw [toInt32_of_range (by omega) (by omega)]
      rfl
    have e2 : toInt32 (kShiftsLinearSlope * farend.far_bit_counts.getD d 0) =
        3 * farend.far_bit_counts.getD d 0 := by
      unfold kShiftsLinearSlope
      rw [toInt32_of_range (by omega) (by omega)]
    rw [e1, e2]
    rfl

/-- Witness for C21: the three-entry estimator after one far-end spectrum 7, processing the
near-end spectrum 5, at delay 0: `5 ^ 7 = 2` has one bit set. -/
theorem process_bit_counts_witness :
    (WebRtc_ProcessBinarySpectrum (WebRtc_InitBinaryDelayEstimator delayEstimator0)
        (WebRtc_AddBinaryFarSpectrum (WebRtc_InitBinaryDelayEstimatorFarend delayFarend0) 7)
        5).2.bit_counts.getD 0 0 = hammingDistance32 5 7 :=
  (process_bit_counts (WebRtc_InitBinaryDelayEstimator delayEstimator0)
    (WebRtc_AddBinaryFarSpectrum (WebRtc_InitBinaryDelayEstimatorFarend delayFarend0) 7)
    5 0 (by decide) (by decide) (by decide) (by decide) (by decide) (by decide) (by decide)
    (by decide) (by decide)).1

/-! ### Candidate and compare delays stay inside the history -/

theorem process_compare_delay (e : BinaryDelayEstimator) (f : BinaryDelayEstimatorFarend)
    (x : Int) (h : f.history_size = e.history_size) :
    (WebRtc_ProcessBinarySpectrum e f x).2.compare_delay = e.compare_delay ∨
    ((WebRtc_ProcessBinarySpectrum e f x).2.compare_delay =
        (binaryStatistics e f x).candidate.candidate_delay ∧
      (binaryStatistics e f x).non_stationary_farend ≠ 0) := by
  have hne : ¬ (f.history_size ≠ e.history_size) := fun hh => hh h
  have hc : (binaryStatistics e f x).state.compare_delay = e.compare_delay := rfl
  unfold WebRtc_ProcessBinarySpectrum
  rw [if_neg hne]
  dsimp only
  generalize binaryStatistics e f x = st at hc
  have hr : ∀ (s : BinaryDelayEstimator) (c v w : Int),
      (UpdateRobustValidationStatistics s c v w).compare_delay = s.compare_delay :=
    fun _ _ _ _ => rfl
  have ha : ∀ (s : BinaryDelayEstimator) (c : Candidate),
      (acceptCandidate s c).compare_delay = c.candidate_delay := fun _ _ => rfl
  by_cases hns : st.non_stationary_farend ≠ 0
  · rw [if_pos hns]
    split_ifs
    · exact Or.inr ⟨ha _ _, hns⟩
    · exact Or.inl (by rw [hr, hc])
    · exact Or.inr ⟨ha _ _, hns⟩
    · exact Or.inl (by rw [hr, hc])
  · rw [if_neg hns]
    have hand : ∀ v : Int, ¬ (st.non_stationary_farend ≠ 0 ∧ v ≠ 0) := fun v hv => hns hv.1
    split_ifs with hv hacc hacc
    · exact absurd hacc (hand _)
    · exact Or.inl hc
    · exact absurd hacc (hand _)
    · exact Or.inl hc

theorem process_candidate_range (f : BinaryDelayEstimatorFarend) (e : BinaryDelayEstimator)
    (x : Int) (h : DelayInv f e) (hsz : f.history_size = e.history_size)
    (hpos : 0 < e.history_size) :
    (∀ i : Nat, (i : Int) < e.history_size →
      0 ≤ (binaryStatistics e f x).state.mean_bit_counts.getD i 0 ∧
      (binaryStatistics e f x).state.mean_bit_counts.getD i 0 < 16384) ∧
    0 ≤ (binaryStatistics e f x).candidate.candidate_delay ∧
    (binaryStatistics e f x).candidate.candidate_delay < e.history_size := by
  obtain ⟨_, _, ⟨v, q3⟩, q4, _⟩ := binaryStatistics_fields e f x
  have hmean : ∀ i : Nat, (i : Int) < e.history_size →
      0 ≤ (binaryStatistics e f x).state.mean_bit_counts.getD i 0 ∧
      (binaryStatistics e f x).state.mean_bit_counts.getD i 0 < 16384 := by
    rw [q3]
    apply updateMeanBitCounts_range
    · intro i hi
      exact bitCountComparison_range _ _ _ _ i hi
    · intro i hi
      exact h.1 i (by rw [hsz]; exact hi)
    · exact h.2.1
  refine ⟨hmean, ?_⟩
  rw [q4]
  exact findCandidate_range _ _ hpos (fun i hi => (hmean i hi).2)

theorem compare_delay_reachable (f0 : BinaryDelayEstimatorFarend) (e0 : BinaryDelayEstimator)
    (f : BinaryDelayEstimatorFarend) (e : BinaryDelayEstimator)
    (h : DelayReachable f0 e0 f e) :
    e.compare_delay = e.history_size ∨
      (0 ≤ e.compare_delay ∧ e.compare_delay < e.history_size) := by
  induction h with
  | init => exact Or.inl rfl
  | add x _ _ _ ih => exact ih
  | @process f e x _ _ hr ih =>
    by_cases hsz : f.history_size = e.history_size
    · obtain ⟨_, p2, _, _⟩ := process_match e f x hsz
      obtain ⟨_, _, _, _, q5⟩ := binaryStatistics_fields e f x
      rw [p2]
      rcases process_compare_delay e f x hsz with hc | ⟨hc, hns⟩
      · rw [hc]
        exact ih
      · right
        rw [hc]
        have hpos := any_range_pos _ _ (q5 hns)
        exact (process_candidate_range f e x (delayInv_reachable f0 e0 f e hr) hsz
          (by omega)).2
    · rw [process_mismatch e f x hsz]
      exact ih

/-- C22. In every state reachable from `WebRtc_InitBinaryDelayEstimatorFarend` and
`WebRtc_InitBinaryDelayEstimator` by `WebRtc_AddBinaryFarSpectrum` and
`WebRtc_ProcessBinarySpectrum` calls with `history_size >= 1`, every `mean_bit_counts[i]`
with `i < history_size` lies in `[0, kMaxBitCountsQ9)` and `compare_delay` lies in
`[0, history_size]`; in the next `WebRtc_ProcessBinarySpectrum` call (with matching history
sizes) the `candidate_delay` it computes lies in `[0, history_size)`, so it is not its
initial value -1, and the `compare_delay` it reads is the one of the state. Hence the
accesses `histogram[candidate_delay]` and `mean_bit_counts[compare_delay]` stay inside the
`history_size + 1` elements of these arrays. -/
theorem delay_indices_in_bounds (f0 : BinaryDelayEstimatorFarend) (e0 : BinaryDelayEstimator)
    (f : BinaryDelayEstimatorFarend) (e : BinaryDelayEstimator)
    (h : DelayReachable f0 e0 f e) (hs : 1 ≤ e.history_size) :
    (∀ i : Nat, (i : Int) < e.history_size →
      0 ≤ e.mean_bit_counts.getD i 0 ∧ e.mean_bit_counts.getD i 0 < kMaxBitCountsQ9) ∧
    (0 ≤ e.compare_delay ∧ e.compare_delay ≤ e.history_size) ∧
    (∀ x : Int, 0 ≤ x → x < 4294967296 → f.history_size = e.history_size →
      0 ≤ (binaryStatistics e f x).candidate.candidate_delay ∧
      (binaryStatistics e f x).candidate.candidate_delay < e.history_size ∧
      (binaryStatistics e f x).candidate.candidate_delay ≠ -1 ∧
      (binaryStatistics e f x).state.compare_delay = e.compare_delay ∧
      (∀ i : Nat, (i : Int) < e.history_size →
        0 ≤ (WebRtc_ProcessBinarySpectrum e f x).2.mean_bit_counts.getD i 0 ∧
        (WebRtc_ProcessBinarySpectrum e f x).2.mean_bit_counts.getD i 0 <
          kMaxBitCountsQ9)) := by
  have hinv := delayInv_reachable f0 e0 f e h
  have hcmp := compare_delay_reachable f0 e0 f e h
  refine ⟨hinv.2.1, by omega, ?_⟩
  intro x _ _ hsz
  obtain ⟨hm, c1, c2⟩ := process_candidate_range f e x hinv hsz (by omega)
  obtain ⟨_, _, p3, _⟩ := process_match e f x hsz
  refine ⟨c1, c2, by omega, rfl, ?_⟩
  rw [p3]
  exact hm

/-- Witness for C22: the three-entry estimator after one far-end spectrum and one near-end
spectrum; the candidate of the next call is a valid index. -/
theorem delay_indices_in_bounds_witness :
    0 ≤ (binaryStatistics
        (WebRtc_ProcessBinarySpectrum (WebRtc_InitBinaryDelayEstimator delayEstimator0)
          (WebRtc_AddBinaryFarSpectrum (WebRtc_InitBinaryDelayEstimatorFarend delayFarend0) 7)
          5).2
        (WebRtc_AddBinaryFarSpectrum (WebRtc_InitBinaryDelayEstimatorFarend delayFarend0) 7)
        9).candidate.candidate_delay :=
  ((delay_indices_in_bounds delayFarend0 delayEstimator0 _ _
    (DelayReachable.process 5 (by decide) (by decide)
      (DelayReachable.add 7 (by decide) (by decide) DelayReachable.init))
    (by decide)).2.2 9 (by decide) (by decide) (by rfl)).1

/-! ### Step size and suppression gain -/

theorem tdiv_cases (t b : Int) (hb : 0 < b) :
    (0 ≤ t → Int.tdiv t b = t / b) ∧ (t < 0 → Int.tdiv t b = -((-t) / b)) := by
  constructor
  · intro h
    exact Int.tdiv_eq_ediv h (le_of_lt hb)
  · intro h
    have e1 : t = -(-t) := by omega
    rw [e1, Int.neg_tdiv, Int.tdiv_eq_ediv (by omega) (le_of_lt hb), neg_neg]

/-- C24, as far as the code goes. `WebRtcAecm_CalcStepSize` returns 0 if
`currentVADValue == 0`. If `currentVADValue != 0` the returned `mu` is at least
`MU_MAX = 1`, and it equals `MU_MAX` whenever `startupState <= 0`; `mu <= MU_MIN = 10` holds
when `farEnergyMin >= farEnergyMax`, and when `0 <= farLogEnergy - farEnergyMin <= 32767`,
`farEnergyMaxMin > 0` and the quotient `9 * (farLogEnergy - farEnergyMin) / farEnergyMaxMin`
fits in `int16_t`. -/
theorem calcStepSize_range (a : AecmCore) :
    (a.currentVADValue = 0 → WebRtcAecm_CalcStepSize a = 0) ∧
    (a.currentVADValue ≠ 0 →
      MU_MAX ≤ WebRtcAecm_CalcStepSize a ∧
      (a.startupState ≤ 0 → WebRtcAecm_CalcStepSize a = MU_MAX) ∧
      (a.farEnergyMin ≥ a.farEnergyMax ∨
        (0 ≤ a.farLogEnergy - a.farEnergyMin ∧ a.farLogEnergy - a.farEnergyMin ≤ 32767 ∧
          0 < a.farEnergyMaxMin ∧
          9 * (a.farLogEnergy - a.farEnergyMin) < 32768 * a.farEnergyMaxMin) →
        WebRtcAecm_CalcStepSize a ≤ MU_MIN)) := by
  unfold WebRtcAecm_CalcStepSize MU_MAX MU_MIN MU_DIFF
  constructor
  · intro h
    rw [if_pos h]
  · intro h
    rw [if_neg h]
    refine ⟨?_, ?_, ?_⟩
    · dsimp only
      split_ifs <;> omega
    · intro hs
      rw [if_neg (by omega)]
    · intro hc
      by_cases hs : a.startupState > 0
      · rw [if_pos hs]
        dsimp only
        rcases hc with hc | ⟨d0, d1, hM, hq⟩
        · rw [if_pos hc]
          decide
        · by_cases hmm : a.farEnergyMin ≥ a.farEnergyMax
          · rw [if_pos hmm]
            decide
          · rw [if_neg hmm]
            have e1 : toInt16 (a.farLogEnergy - a.farEnergyMin) =
                a.farLogEnergy - a.farEnergyMin := toInt16_of_range (by omega) (by omega)
            have e2 : toInt32 ((a.farLogEnergy - a.farEnergyMin) * 9) =
                (a.farLogEnergy - a.farEnergyMin) * 9 := toInt32_of_range (by omega) (by omega)
            have hq0 : 0 ≤ (a.farLogEnergy - a.farEnergyMin) * 9 / a.farEnergyMaxMin :=
              Int.ediv_nonneg (by omega) (le_of_lt hM)
            have hq1 : (a.farLogEnergy - a.farEnergyMin) * 9 / a.farEnergyMaxMin < 32768 :=
              Int.ediv_lt_of_lt_mul hM (by omega)
            have e3 : WebRtcSpl_DivW32W16 ((a.farLogEnergy - a.farEnergyMin) * 9)
                a.farEnergyMaxMin = (a.farLogEnergy - a.farEnergyMin) * 9 / a.farEnergyMaxMin := by
              unfold WebRtcSpl_DivW32W16
              rw [if_pos (by omega), (tdiv_cases _ _ hM).1 (by omega),
                toInt32_of_range (by omega) (by omega)]
            rw [e1, e2, e3]
            generalize (a.farLogEnergy - a.farEnergyMin) * 9 / a.farEnergyMaxMin = q at hq0 hq1
            rw [toInt16_of_range (x := q) (by omega) (by omega),
              toInt16_of_range (by omega) (by omega)]
            split_ifs <;> omega
      · rw [if_neg hs]
        decide

/-- Witness for C24: the created core with `currentVADValue = 1` and
`startupState = 1`. -/
theorem calcStepSize_range_witness :
    MU_MAX ≤ WebRtcAecm_CalcStepSize
      { createdInstance.aecmCore with currentVADValue := 1, startupState := 1 } :=
  ((calcStepSize_range
    { createdInstance.aecmCore with currentVADValue := 1, startupState := 1 }).2
    (by decide)).1

/-- C24 at a state of normal operation: `WebRtcAecm_CalcEnergies` on `dropBlockCore` with
the spectrum of the first quiet block after 1000 loud blocks leaves
`farLogEnergy = 2605` between `farEnergyVAD = 2592` and `farEnergyMin = 3090`, with
`farEnergyMax = 5201`, `farEnergyMaxMin = 2111`, `currentVADValue = 1` and
`startupState = 2`, and on that state `WebRtcAecm_CalcStepSize` returns 11, above
`MU_MIN = 10`. -/
theorem calcStepSize_exceeds_min :
    [(WebRtcAecm_CalcEnergies dropBlockCore quietFarSpectrum 8 0
          (List.replicate PART_LEN1 0)).1.farLogEnergy,
      (WebRtcAecm_CalcEnergies dropBlockCore quietFarSpectrum 8 0
          (List.replicate PART_LEN1 0)).1.farEnergyMin,
      (WebRtcAecm_CalcEnergies dropBlockCore quietFarSpectrum 8 0
          (List.replicate PART_LEN1 0)).1.farEnergyMax,
      (WebRtcAecm_CalcEnergies dropBlockCore quietFarSpectrum 8 0
          (List.replicate PART_LEN1 0)).1.farEnergyMaxMin,
      (WebRtcAecm_CalcEnergies dropBlockCore quietFarSpectrum 8 0
          (List.replicate PART_LEN1 0)).1.farEnergyVAD,
      (WebRtcAecm_CalcEnergies dropBlockCore quietFarSpectrum 8 0
          (List.replicate PART_LEN1 0)).1.currentVADValue,
      (WebRtcAecm_CalcEnergies dropBlockCore quietFarSpectrum 8 0
          (List.replicate PART_LEN1 0)).1.startupState] =
      [2605, 3090, 5201, 2111, 2592, 1, 2] ∧
    WebRtcAecm_CalcStepSize
      (WebRtcAecm_CalcEnergies dropBlockCore quietFarSpectrum 8 0
        (List.replicate PART_LEN1 0)).1 = 11 ∧
    MU_MIN = 10 := by
  decide!

/-- C25. For a core whose `nearLogEnergy[0] - echoStoredLogEnergy[0]` fits in `int16_t`
without its sign bit alone, whose four `supGainErrParam` values lie in `[-8192, 8192]` and
whose `supGain` and `supGainOld` are `int16_t` values, `WebRtcAecm_CalcSuppressionGain`
computes the target `g`: 0 if `currentVADValue == 0`; otherwise, with
`dE = |nearLogEnergy[0] - echoStoredLogEnergy[0]|`, `g = supGainErrParamD` if `dE >= 400`,
`g = supGainErrParamA - (supGainErrParamDiffAB * dE + 100) / 200` if `dE < 200` and
`g = supGainErrParamD + (supGainErrParamDiffBD * (400 - dE) + 100) / 200` if
`200 <= dE < 400` (C division). It sets `supGain` to
`supGain + ((max(g, supGainOld) - supGain) >> 4)` and `supGainOld` to `g`, and returns the
new `supGain`. Hence with `supGainOld == 0` and `currentVADValue == 0` a positive `supGain`
strictly decreases and does not become negative. -/
theorem calcSuppressionGain_formula (a : AecmCore) (g : Int)
    (hlog : -32767 ≤ a.nearLogEnergy.getD 0 0 - a.echoStoredLogEnergy.getD 0 0 ∧
      a.nearLogEnergy.getD 0 0 - a.echoStoredLogEnergy.getD 0 0 ≤ 32767)
    (hA : -8192 ≤ a.supGainErrParamA ∧ a.supGainErrParamA ≤ 8192)
    (hD : -8192 ≤ a.supGainErrParamD ∧ a.supGainErrParamD ≤ 8192)
    (hAB : -8192 ≤ a.supGainErrParamDiffAB ∧ a.supGainErrParamDiffAB ≤ 8192)
    (hBD : -8192 ≤ a.supGainErrParamDiffBD ∧ a.supGainErrParamDiffBD ≤ 8192)
    (hg : -32768 ≤ a.supGain ∧ a.supGain ≤ 32767)
    (ho : -32768 ≤ a.supGainOld ∧ a.supGainOld ≤ 32767)
    (hgdef : g =
      if a.currentVADValue = 0 then 0
      else if |a.nearLogEnergy.getD 0 0 - a.echoStoredLogEnergy.getD 0 0| ≥ 400 then
        a.supGainErrParamD
      else if |a.nearLogEnergy.getD 0 0 - a.echoStoredLogEnergy.getD 0 0| < 200 then
        a.supGainErrParamA - Int.tdiv (a.supGainErrParamDiffAB *
          |a.nearLogEnergy.getD 0 0 - a.echoStoredLogEnergy.getD 0 0| + 100) 200
      else
        a.supGainErrParamD + Int.tdiv (a.supGainErrParamDiffBD *
          (400 - |a.nearLogEnergy.getD 0 0 - a.echoStoredLogEnergy.getD 0 0|) + 100) 200) :
    (WebRtcAecm_CalcSuppressionGain a).1 = a.supGain + shr (max g a.supGainOld - a.supGain) 4 ∧
    (WebRtcAecm_CalcSuppressionGain a).2.supGain = (WebRtcAecm_CalcSuppressionGain a).1 ∧
    (WebRtcAecm_CalcSuppressionGain a).2.supGainOld = g ∧
    (a.currentVADValue = 0 → a.supGainOld = 0 → 0 < a.supGain →
      0 ≤ (WebRtcAecm_CalcSuppressionGain a).1 ∧
      (WebRtcAecm_CalcSuppressionGain a).1 < a.supGain) := by
  generalize hd : a.nearLogEnergy.getD 0 0 - a.echoStoredLogEnergy.getD 0 0 = d at hlog hgdef
  have hsup : (if a.currentVADValue = 0 then (0 : Int)
      else
        let tmp16no1 := toInt16 (a.nearLogEnergy.getD 0 0 - a.echoStoredLogEnergy.getD 0 0 -
          ENERGY_DEV_OFFSET)
        let dE := toInt16 (WEBRTC_SPL_ABS_W16 tmp16no1)
        if dE < ENERGY_DEV_TOL then
          if dE < SUPGAIN_EPC_DT then
            let t := toInt32 (toInt32 (a.supGainErrParamDiffAB * dE) + shr SUPGAIN_EPC_DT 1)
            toInt16 (a.supGainErrParamA - toInt16 (WebRtcSpl_DivW32W16 t SUPGAIN_EPC_DT))
          else
            let t := toInt32 (toInt32 (a.supGainErrParamDiffBD * (ENERGY_DEV_TOL - dE)) +
              shr (ENERGY_DEV_TOL - SUPGAIN_EPC_DT) 1)
            toInt16 (a.supGainErrParamD +
              toInt16 (WebRtcSpl_DivW32W16 t (ENERGY_DEV_TOL - SUPGAIN_EPC_DT)))
        else a.supGainErrParamD) = g := by
    rw [hgdef]
    by_cases hv : a.currentVADValue = 0
    · rw [if_pos hv, if_pos hv]
    · rw [if_neg hv, if_neg hv, hd]
      have habs : |d| = if 0 ≤ d then d else -d := by
        split_ifs with h
        · exact abs_of_nonneg h
        · exact abs_of_neg (by omega)
      have e1 : toInt16 (d - ENERGY_DEV_OFFSET) = d := by
        unfold ENERGY_DEV_OFFSET
        rw [sub_zero]
        exact toInt16_of_range (by omega) (by omega)
      have e2 : toInt16 (WEBRTC_SPL_ABS_W16 d) = |d| := by
        unfold WEBRTC_SPL_ABS_W16
        rw [toInt16_of_range (x := d) (by omega) (by omega), habs]
        split_ifs <;> exact toInt16_of_range (by omega) (by omega)
      have hsh1 : shr SUPGAIN_EPC_DT 1 = 100 := by decide
      have hsh2 : shr (ENERGY_DEV_TOL - SUPGAIN_EPC_DT) 1 = 100 := by decide
      have hc2 : ENERGY_DEV_TOL - SUPGAIN_EPC_DT = 200 := by decide
      dsimp only
      rw [e1, e2, hsh1, hsh2, hc2]
      unfold ENERGY_DEV_TOL SUPGAIN_EPC_DT WebRtcSpl_DivW32W16
      have h0 : 0 ≤ |d| := abs_nonneg d
      generalize |d| = dE at h0 ⊢
      by_cases h400 : dE < 400
      · have hge : ¬ dE ≥ 400 := by omega
        have h2ne : (200 : Int) ≠ 0 := by decide
        rw [if_pos h400, if_neg hge]
        by_cases h200 : dE < 200
        · rw [if_pos h200, if_pos h200, if_pos h2ne]
          have hp : -1638400 ≤ a.supGainErrParamDiffAB * dE ∧
              a.supGainErrParamDiffAB * dE ≤ 1638400 := by
            constructor <;> nlinarith
          rw [toInt32_of_range (x := a.supGainErrParamDiffAB * dE) (by omega) (by omega),
            toInt32_of_range (x := a.supGainErrParamDiffAB * dE + 100) (by omega) (by omega)]
          obtain ⟨t1, t2⟩ := tdiv_cases (a.supGainErrParamDiffAB * dE + 100) 200 (by decide)
          generalize a.supGainErrParamDiffAB * dE = p at hp t1 t2 ⊢
          generalize Int.tdiv (p + 100) 200 = q at t1 t2 ⊢
          have hq : -8193 ≤ q ∧ q ≤ 8193 := by
            by_cases hs : 0 ≤ p + 100
            · have := t1 hs
              omega
            · have := t2 (by omega)
              omega
          rw [toInt32_of_range (x := q) (by omega) (by omega),
            toInt16_of_range (x := q) (by omega) (by omega),
            toInt16_of_range (by omega) (by omega)]
        · rw [if_neg h200, if_neg h200, if_pos h2ne]
          have hp : -1638400 ≤ a.supGainErrParamDiffBD * (400 - dE) ∧
              a.supGainErrParamDiffBD * (400 - dE) ≤ 1638400 := by
            constructor <;> nlinarith
          rw [toInt32_of_range (x := a.supGainErrParamDiffBD * (400 - dE)) (by omega) (by omega),
            toInt32_of_range (x := a.supGainErrParamDiffBD * (400 - dE) + 100) (by omega)
              (by omega)]
          obtain ⟨t1, t2⟩ := tdiv_cases (a.supGainErrParamDiffBD * (400 - dE) + 100) 200
            (by decide)
          generalize a.supGainErrParamDiffBD * (400 - dE) = p at hp t1 t2 ⊢
          generalize Int.tdiv (p + 100) 200 = q at t1 t2 ⊢
          have hq : -8193 ≤ q ∧ q ≤ 8193 := by
            by_cases hs : 0 ≤ p + 100
            · have := t1 hs
              omega
            · have := t2 (by omega)
              omega
          rw [toInt32_of_range (x := q) (by omega) (by omega),
            toInt16_of_range (x := q) (by omega) (by omega),
            toInt16_of_range (by omega) (by omega)]
      · have hge : dE ≥ 400 := by omega
        rw [if_neg h400, if_pos hge]
  have hgr : -32768 ≤ g ∧ g ≤ 32767 := by
    rw [hgdef]
    have h0 : 0 ≤ |d| := abs_nonneg d
    generalize |d| = dE at h0 ⊢
    split_ifs with c1 c2 c3
    · decide
    · omega
    · have hp : -1638400 ≤ a.supGainErrParamDiffAB * dE ∧
          a.supGainErrParamDiffAB * dE ≤ 1638400 := by
        constructor <;> nlinarith
      obtain ⟨t1, t2⟩ := tdiv_cases (a.supGainErrParamDiffAB * dE + 100) 200 (by decide)
      generalize a.supGainErrParamDiffAB * dE = p at hp t1 t2 ⊢
      generalize Int.tdiv (p + 100) 200 = q at t1 t2 ⊢
      by_cases hs : 0 ≤ p + 100
      · have := t1 hs
        omega
      · have := t2 (by omega)
        omega
    · have hp : -1638400 ≤ a.supGainErrParamDiffBD * (400 - dE) ∧
          a.supGainErrParamDiffBD * (400 - dE) ≤ 1638400 := by
        constructor <;> nlinarith
      obtain ⟨t1, t2⟩ := tdiv_cases (a.supGainErrParamDiffBD * (400 - dE) + 100) 200
        (by decide)
      generalize a.supGainErrParamDiffBD * (400 - dE) = p at hp t1 t2 ⊢
      generalize Int.tdiv (p + 100) 200 = q at t1 t2 ⊢
      by_cases hs : 0 ≤ p + 100
      · have := t1 hs
        omega
      · have := t2 (by omega)
        omega
  have hval : (WebRtcAecm_CalcSuppressionGain a).1 =
      a.supGain + shr (max g a.supGainOld - a.supGain) 4 := by
    unfold WebRtcAecm_CalcSuppressionGain
    dsimp only
    rw [hsup]
    have hmax : (if g > a.supGainOld then g else a.supGainOld) = max g a.supGainOld := by
      rw [max_def]
      split_ifs <;> omega
    rw [hmax]
    have hm : -32768 ≤ max g a.supGainOld ∧ max g a.supGainOld ≤ 32767 := by
      rw [max_def]
      split_ifs <;> omega
    generalize max g a.supGainOld = m at hm ⊢
    unfold shr
    have e16 : ((2 : Int) ^ 4) = 16 := by decide
    rw [e16, toInt16_of_range (x := (m - a.supGain) / 16) (by omega) (by omega),
      toInt16_of_range (by omega) (by omega)]
  refine ⟨hval, rfl, ?_, ?_⟩
  · unfold WebRtcAecm_CalcSuppressionGain
    dsimp only
    exact hsup
  · intro hv ho0 hpos
    rw [hval]
    have hg0 : g = 0 := by
      rw [hgdef, if_pos hv]
    rw [hg0, ho0, max_self]
    unfold shr
    have e16 : ((2 : Int) ^ 4) = 16 := by decide
    rw [e16]
    omega

/-- Witness for C25: the initialised instance (8 kHz) before any far-end activity. -/
theorem calcSuppressionGain_formula_witness :
    (WebRtcAecm_CalcSuppressionGain initialisedInstance.aecmCore).1 =
      initialisedInstance.aecmCore.supGain +
        shr (max 0 initialisedInstance.aecmCore.supGainOld -
          initialisedInstance.aecmCore.supGain) 4 :=
  (calcSuppressionGain_formula initialisedInstance.aecmCore 0 (by decide) (by decide)
    (by decide) (by decide) (by decide) (by decide) (by decide) (by decide)).1

/-! ### Fields the block processing leaves alone -/

theorem coreFrame_refl (a : AecmCore) : CoreFrame a a := ⟨rfl, rfl, rfl, rfl⟩

theorem coreFrame_trans {a b c : AecmCore} (h1 : CoreFrame a b) (h2 : CoreFrame b c) :
    CoreFrame a c :=
  ⟨h2.1.trans h1.1, h2.2.1.trans h1.2.1, h2.2.2.1.trans h1.2.2.1, h2.2.2.2.trans h1.2.2.2⟩

theorem coreFrame_ite {a x y : AecmCore} (c : Prop) [Decidable c] (hx : CoreFrame a x)
    (hy : CoreFrame a y) : CoreFrame a (if c then x else y) := by
  split_ifs
  · exact hx
  · exact hy

theorem coreFrame_ite_fst {α : Type} {a : AecmCore} {x y : AecmCore × α} (c : Prop)
    [Decidable c] (hx : CoreFrame a x.1) (hy : CoreFrame a y.1) :
    CoreFrame a (if c then x else y).1 := by
  split_ifs
  · exact hx
  · exact hy

set_option maxRecDepth 10000 in
theorem calcEnergies_frame (a : AecmCore) (fs : List Int) (q ne : Int) (ee : List Int) :
    CoreFrame a (WebRtcAecm_CalcEnergies a fs q ne ee).1 := by
  unfold WebRtcAecm_CalcEnergies
  lift_lets
  intro nearLogEnergy le farLogEnergy echoAdaptLogEnergy echoStoredLogEnergy a1
    increase_max_shifts decrease_max_shifts increase_min_shifts decrease_min_shifts
    farEnergyMin farEnergyMax farEnergyMaxMin t0 t1 tmp16 b c a2 a3 a4
  have h1 : CoreFrame a a1 := ⟨rfl, rfl, rfl, rfl⟩
  have hb : CoreFrame a1 b := ⟨rfl, rfl, rfl, rfl⟩
  have hc : CoreFrame b c :=
    coreFrame_ite _ ⟨rfl, rfl, rfl, rfl⟩ (coreFrame_ite _ ⟨rfl, rfl, rfl, rfl⟩ ⟨rfl, rfl, rfl, rfl⟩)
  have h2 : CoreFrame a a2 :=
    coreFrame_ite _ (coreFrame_trans h1 (coreFrame_trans hb (coreFrame_trans hc
      ⟨rfl, rfl, rfl, rfl⟩))) h1
  have h3 : CoreFrame a a3 :=
    coreFrame_ite _ (coreFrame_ite _ (coreFrame_trans h2 ⟨rfl, rfl, rfl, rfl⟩) h2)
      (coreFrame_trans h2 ⟨rfl, rfl, rfl, rfl⟩)
  have h4 : CoreFrame a a4 :=
    coreFrame_ite _ (coreFrame_ite _ (coreFrame_trans h3 ⟨rfl, rfl, rfl, rfl⟩)
      (coreFrame_trans h3 ⟨rfl, rfl, rfl, rfl⟩)) h3
  exact h4

theorem updateChannelLoop_frame (a : AecmCore) (fs : List Int) (q : Int) (dfa : List Int)
    (mu : Int) (n : Nat) :
    CoreFrame a (forRange n
      (fun (a : AecmCore) i =>
        let r := updateChannelBin a fs q dfa mu i
        if r.2 then
          { a with
            channelAdapt32 := a.channelAdapt32.set i r.1
            channelAdapt16 := a.channelAdapt16.set i (toInt16 (shr r.1 16)) }
        else a)
      a) := by
  apply forRange_invariant (fun s => CoreFrame a s)
  · intro s i hs
    exact coreFrame_ite _ (coreFrame_trans hs ⟨rfl, rfl, rfl, rfl⟩) hs
  · exact coreFrame_refl a


theorem storeAdaptive_frame (a : AecmCore) (fs ee : List Int) :
    CoreFrame a (StoreAdaptiveChannelC a fs ee).1 := by
  simp only [CoreFrame, StoreAdaptiveChannelC, and_self]

theorem resetAdaptive_frame (a : AecmCore) : CoreFrame a (ResetAdaptiveChannelC a) := by
  simp only [CoreFrame, ResetAdaptiveChannelC, and_self]

set_option maxRecDepth 100000 in
theorem updateChannel_frame (a : AecmCore) (fs : List Int) (q : Int) (dfa : List Int)
    (mu : Int) (ee : List Int) :
    CoreFrame a (WebRtcAecm_UpdateChannel a fs q dfa mu ee).1 := by
  have hloop := updateChannelLoop_frame a fs q dfa mu PART_LEN1
  unfold WebRtcAecm_UpdateChannel
  lift_lets
  intro a1 
  have h1 : CoreFrame a a1 := coreFrame_ite _ hloop (coreFrame_refl a)
  clear_value a1
  intro a2
  have h2 : CoreFrame a a2 :=
    coreFrame_ite _ (coreFrame_trans h1 ⟨rfl, rfl, rfl, rfl⟩)
      (coreFrame_trans h1 ⟨rfl, rfl, rfl, rfl⟩)
  clear_value a2
  intro m mseStored mseAdapt
  clear_value m mseStored mseAdapt
  intro s
  have hs : CoreFrame a s.1 := coreFrame_trans h2 (storeAdaptive_frame a2 fs ee)
  clear_value s
  intro scaled_threshold thr src
  have hsrc : CoreFrame a src := hs
  clear_value scaled_threshold thr src
  intro r
  have hr : CoreFrame a r.1 :=
    coreFrame_ite_fst _ (coreFrame_trans h2 (resetAdaptive_frame a2))
      (coreFrame_ite_fst _ (coreFrame_trans hsrc ⟨rfl, rfl, rfl, rfl⟩) h2)
  clear_value r
  intro src2
  have hsrc2 : CoreFrame a src2 := hr
  clear_value src2
  exact coreFrame_ite_fst _ (coreFrame_trans h1 (storeAdaptive_frame a1 fs ee))
    (coreFrame_ite_fst _ (coreFrame_trans hsrc2 ⟨rfl, rfl, rfl, rfl⟩) h2)

theorem processBlockChannel_frame (a : AecmCore) (delay : Int) (dfa : List Int) (s : Int) :
    CoreFrame a (processBlockChannel a delay dfa s).core := by
  unfold processBlockChannel
  lift_lets
  intro al zerosXBuf e
  have he : CoreFrame a e.1 := calcEnergies_frame a _ _ _ _
  clear_value e
  intro mu src a1
  have h1 : CoreFrame a a1 := coreFrame_trans he ⟨rfl, rfl, rfl, rfl⟩
  clear_value a1
  intro u
  exact coreFrame_trans h1 (updateChannel_frame a1 _ _ _ _ _)

theorem calcSuppressionGain_frame (a : AecmCore) :
    CoreFrame a (WebRtcAecm_CalcSuppressionGain a).2 := ⟨rfl, rfl, rfl, rfl⟩

theorem wienerFilter_frame (a : AecmCore) (ee dfa : List Int) (g z : Int) :
    CoreFrame a (wienerFilter a ee dfa g z).core := by
  unfold wienerFilter
  apply forRange_invariant (fun (s : WienerState) => CoreFrame a s.core)
  · intro s i hs
    exact coreFrame_trans hs ⟨rfl, rfl, rfl, rfl⟩
  · exact coreFrame_refl a

theorem comfortNoise_frame (a : AecmCore) (dfa : List Int) (out : List ComplexInt16)
    (lambda : List Int) : CoreFrame a (ComfortNoise a dfa out lambda).1 := by
  unfold ComfortNoise
  lift_lets
  intro shiftFromNearToNoise a0 minTrackShift a1 r2 noiseRShift16 rnd randW16 u uReal uImag
  have h0 : CoreFrame a a0 := coreFrame_ite _ ⟨rfl, rfl, rfl, rfl⟩ (coreFrame_refl a)
  have h1 : CoreFrame a a1 := by
    apply forRange_invariant (fun s => CoreFrame a s)
    · intro s i hs
      exact coreFrame_trans hs ⟨rfl, rfl, rfl, rfl⟩
    · exact h0
  exact coreFrame_trans h1 ⟨rfl, rfl, rfl, rfl⟩

theorem inverseFFT_frame (a : AecmCore) (efw : List ComplexInt16) (out : List Int)
    (hasClean : Bool) : CoreFrame a (InverseFFTAndWindow a efw out hasClean).1 := by
  unfold InverseFFTAndWindow
  lift_lets
  intro fft0 c0 cN fft inv ifft_out outCFFT r
  clear_value r
  simp only [CoreFrame, and_self]

theorem processBlockTrace_frame (a : AecmCore) (f : BlockFront) (d : Int) :
    CoreFrame a (processBlockTrace a f d).wiener.core := by
  unfold processBlockTrace
  lift_lets
  intro delay0 delay ch
  have hch : CoreFrame a ch.core := processBlockChannel_frame a _ _ _
  clear_value ch
  intro g
  have hg : CoreFrame a g.2 := coreFrame_trans hch (calcSuppressionGain_frame _)
  clear_value g
  intro w
  have hw : CoreFrame a w.core := coreFrame_trans hg (wienerFilter_frame _ _ _ _ _)
  clear_value w
  intro hnl1
  exact hw

theorem updateFarHistory_fields (a : AecmCore) (fs : List Int) (q : Int) :
    (WebRtcAecm_UpdateFarHistory a fs q).farFrameBuf = a.farFrameBuf ∧
      (WebRtcAecm_UpdateFarHistory a fs q).outFrameBuf = a.outFrameBuf ∧
      (WebRtcAecm_UpdateFarHistory a fs q).nlpFlag = a.nlpFlag ∧
      (WebRtcAecm_UpdateFarHistory a fs q).far_history_pos =
        (if toInt32 (a.far_history_pos + 1) ≥ MAX_DELAY then 0
          else toInt32 (a.far_history_pos + 1)) := by
  simp only [WebRtcAecm_UpdateFarHistory, and_self]

theorem processBlockFront_frame (a : AecmCore) (far near : List Int)
    (clean : Option (List Int)) :
    (processBlockFront a far near clean).core.farFrameBuf = a.farFrameBuf ∧
      (processBlockFront a far near clean).core.outFrameBuf = a.outFrameBuf ∧
      (processBlockFront a far near clean).core.nlpFlag = a.nlpFlag ∧
      (processBlockFront a far near clean).core.far_history_pos =
        (if toInt32 (a.far_history_pos + 1) ≥ MAX_DELAY then 0
          else toInt32 (a.far_history_pos + 1)) := by
  cases clean with
  | none =>
    unfold processBlockFront
    lift_lets
    intro a0
    have h0 : CoreFrame a a0 := coreFrame_ite _ ⟨rfl, rfl, rfl, rfl⟩ (coreFrame_refl a)
    clear_value a0
    intro a1
    have h1 : CoreFrame a a1 := coreFrame_trans h0 (by simp only [CoreFrame, a1, and_self])
    clear_value a1
    intro far0 noisy
    clear_value far0 noisy
    intro a2
    have h2 : CoreFrame a a2 := coreFrame_trans h1 ⟨rfl, rfl, rfl, rfl⟩
    clear_value a2
    intro a3
    have h3 : CoreFrame a a3 := coreFrame_trans h2 ⟨rfl, rfl, rfl, rfl⟩
    clear_value a3
    obtain ⟨e1, e2, e3, e4⟩ := h3
    have hu := updateFarHistory_fields a3 far0.freq_signal_abs far0.time_signal_scaling
    rw [e1, e2, e3, e4] at hu
    exact hu
  | some c =>
    unfold processBlockFront
    lift_lets
    intro a0
    have h0 : CoreFrame a a0 := coreFrame_ite _ ⟨rfl, rfl, rfl, rfl⟩ (coreFrame_refl a)
    clear_value a0
    intro a1
    have h1 : CoreFrame a a1 := coreFrame_trans h0 (by simp only [CoreFrame, a1, and_self])
    clear_value a1
    intro far0 noisy
    clear_value far0 noisy
    intro a2
    have h2 : CoreFrame a a2 := coreFrame_trans h1 ⟨rfl, rfl, rfl, rfl⟩
    clear_value a2
    intro a3n cl a3
    clear_value a3n cl
    have h3 : CoreFrame a a3 := coreFrame_trans h2 ⟨rfl, rfl, rfl, rfl⟩
    clear_value a3
    obtain ⟨e1, e2, e3, e4⟩ := h3
    have hu := updateFarHistory_fields a3 far0.freq_signal_abs far0.time_signal_scaling
    rw [e1, e2, e3, e4] at hu
    exact hu

theorem processBlock_frame (a : AecmCore) (far near : List Int) (clean : Option (List Int))
    (out : List Int) :
    CoreFrame (processBlockFront a far near clean).core
      (WebRtcAecm_ProcessBlock a far near clean out).2.1 := by
  unfold WebRtcAecm_ProcessBlock
  dsimp only
  generalize processBlockFront a far near clean = f
  split_ifs with h1 h2 h3
  · simp only [CoreFrame, and_self]
  · simp only [CoreFrame, and_self]
  · dsimp only
    refine coreFrame_trans ?_ (inverseFFT_frame _ _ _ _)
    refine coreFrame_trans ?_ (comfortNoise_frame _ _ _ _)
    refine coreFrame_trans ?_ (processBlockTrace_frame _ f _)
    simp only [CoreFrame, and_self]
  · dsimp only
    refine coreFrame_trans ?_ (inverseFFT_frame _ _ _ _)
    refine coreFrame_trans ?_ (processBlockTrace_frame _ f _)
    simp only [CoreFrame, and_self]

/-! ### The NLP step -/

theorem nlpBin_low (numPosCoef h : Int) (hl : h < NLP_COMP_LOW) : nlpBin numPosCoef h = 0 := by
  unfold nlpBin NLP_COMP_LOW NLP_COMP_HIGH ONE_Q14 at *
  dsimp only
  have h1 : ¬ h > 16384 := by omega
  rw [if_neg h1, if_pos hl]
  split_ifs <;> first | omega | decide

theorem nlpBin_few (numPosCoef h : Int) (hn : numPosCoef < 3) : nlpBin numPosCoef h = 0 := by
  unfold nlpBin NLP_COMP_LOW NLP_COMP_HIGH ONE_Q14
  dsimp only
  rw [if_pos hn, if_neg (fun hc => absurd hc.2 (by decide)), mul_zero]
  decide

theorem nlpStep_getD (nlpFlag numPosCoef : Int) (hnl : List Int) (k : Nat)
    (hf : nlpFlag ≠ 0) (hk : k < PART_LEN1) :
    (nlpStep nlpFlag numPosCoef hnl).getD k 0 =
      if k < hnl.length then nlpBin numPosCoef (hnl.getD k 0) else 0 := by
  unfold nlpStep
  rw [if_pos hf]
  by_cases hlen : k < hnl.length
  · rw [forRange_update_getD (fun _ v => nlpBin numPosCoef v) _ _ _ hlen, if_pos hk,
      if_pos hlen]
  · rw [if_neg hlen, List.getD_eq_getElem?_getD, List.getElem?_eq_none, Option.getD_none]
    rw [forRange_update_length (fun _ v => nlpBin numPosCoef v)]
    omega

theorem applyWiener_zero (dfw : List ComplexInt16) (hnl : List Int)
    (h : ∀ k : Nat, k < PART_LEN1 → hnl.getD k 0 = 0) :
    applyWiener dfw hnl = List.replicate PART_LEN1 ComplexInt16.zero := by
  unfold applyWiener
  apply List.ext_getElem
  · simp only [List.length_map, List.length_range, List.length_replicate]
  · intro i h1 h2
    simp only [List.length_map, List.length_range] at h1
    simp only [List.getElem_map, List.getElem_range, List.getElem_replicate]
    rw [h i h1]
    have e : ∀ x : Int, toInt16 (WEBRTC_SPL_MUL_16_16_RSFT_WITH_ROUND x 0 14) = 0 := by
      intro x
      unfold WEBRTC_SPL_MUL_16_16_RSFT_WITH_ROUND WEBRTC_SPL_MUL_16_16
      have e0 : toInt16 0 = 0 := by decide
      rw [e0, mul_zero]
      decide
    rw [e, e]
    rfl

/-- C26, with the comparison the code has. In `WebRtcAecm_ProcessBlock` with `nlpFlag` set,
after the NLP step every coefficient that was `hnl[k] < 3277` (`NLP_COMP_LOW`) is 0; and if
fewer than 3 Wiener coefficients were positive (`numPosCoef < 3`) then every `hnl[k]` is 0
and every bin of the suppressed spectrum `efw` is 0 before comfort noise is added. -/
theorem nlp_step_truncation (aecm : AecmCore) (f : BlockFront) (delayEst : Int)
    (hflag : aecm.nlpFlag ≠ 0) :
    (∀ k : Nat, k < PART_LEN1 →
      (processBlockTrace aecm f delayEst).hnlShaped.getD k 0 < NLP_COMP_LOW →
      (processBlockTrace aecm f delayEst).hnlNlp.getD k 0 = 0) ∧
    ((processBlockTrace aecm f delayEst).wiener.numPosCoef < 3 →
      (∀ k : Nat, k < PART_LEN1 → (processBlockTrace aecm f delayEst).hnlNlp.getD k 0 = 0) ∧
      applyWiener f.dfw (processBlockTrace aecm f delayEst).hnlNlp =
        List.replicate PART_LEN1 ComplexInt16.zero) := by
  have hf : (processBlockTrace aecm f delayEst).wiener.core.nlpFlag ≠ 0 := by
    rw [(processBlockTrace_frame aecm f delayEst).2.2.1]
    exact hflag
  have hdef : (processBlockTrace aecm f delayEst).hnlNlp =
      nlpStep (processBlockTrace aecm f delayEst).wiener.core.nlpFlag
        (processBlockTrace aecm f delayEst).wiener.numPosCoef
        (processBlockTrace aecm f delayEst).hnlShaped := by
    simp only [processBlockTrace]
  constructor
  · intro k hk hlow
    rw [hdef, nlpStep_getD _ _ _ k hf hk]
    split_ifs
    · exact nlpBin_low _ _ hlow
    · rfl
  · intro hn
    have hall : ∀ k : Nat, k < PART_LEN1 →
        (processBlockTrace aecm f delayEst).hnlNlp.getD k 0 = 0 := by
      intro k hk
      rw [hdef, nlpStep_getD _ _ _ k hf hk]
      split_ifs
      · exact nlpBin_few _ _ hn
      · rfl
    exact ⟨hall, applyWiener_zero _ _ hall⟩

/-- Witness for C26 (amended): the trace of the initialised core (8 kHz) on an all-zero
block front, at bin 0; the flag is set by `WebRtcAecm_InitCore`. -/
theorem nlp_step_truncation_witness :
    ¬ ((processBlockTrace initialisedInstance.aecmCore zeroBlockFront 0).hnlShaped.getD 0 0 <
        NLP_COMP_LOW) ∨
      (processBlockTrace initialisedInstance.aecmCore zeroBlockFront 0).hnlNlp.getD 0 0 = 0 :=
  Decidable.not_or_of_imp
    ((nlp_step_truncation initialisedInstance.aecmCore zeroBlockFront 0 (by decide)).1 0
      (by decide))

/-- Counterexample for C26 as stated: the Wiener coefficient can be 3277 (echo estimate
13107, filtered near end 1, same Q-domain), and with `nlpFlag` set and every coefficient
positive a coefficient equal to 3277 is kept by the NLP step. -/
theorem nlp_step_counterexample :
    wienerCoef 13107 1 0 = 3277 ∧ nlpBin 65 3277 = 3277 ∧
    (nlpStep 1 65 (List.replicate 65 3277)).getD 0 0 = 3277 := by
  refine ⟨by decide, by decide, ?_⟩
  rw [nlpStep_getD 1 65 _ 0 (by decide) (by decide), List.length_replicate,
    if_pos (by decide)]
  decide

/-! ### The far-history cursor -/

theorem initCore_far_history_pos (c0 : AecmCore) (fs : Int)
    (h : (WebRtcAecm_InitCore c0 fs).1 = 0) :
    (WebRtcAecm_InitCore c0 fs).2.far_history_pos = MAX_DELAY := by
  unfold WebRtcAecm_InitCore at h ⊢
  by_cases hc : fs ≠ 8000 ∧ fs ≠ 16000
  · rw [if_pos hc] at h
    simp at h
  · rw [if_neg hc]
    dsimp only
    split_ifs <;> simp only [WebRtcAecm_InitEchoPathCore]

theorem far_history_pos_step (p : Int) (h0 : 0 ≤ p) (h1 : p ≤ MAX_DELAY) :
    0 ≤ (if toInt32 (p + 1) ≥ MAX_DELAY then 0 else toInt32 (p + 1)) ∧
      (if toInt32 (p + 1) ≥ MAX_DELAY then 0 else toInt32 (p + 1)) < (MAX_DELAY : Int) := by
  unfold MAX_DELAY at *
  rw [toInt32_of_range (by omega) (by omega)]
  split_ifs <;> omega

theorem coreReachable_pos (c0 : AecmCore) (fs : Int) (n : Nat) (a : AecmCore)
    (h : CoreReachable c0 fs n a) :
    0 ≤ a.far_history_pos ∧ a.far_history_pos ≤ MAX_DELAY ∧
      (n = 0 → a.far_history_pos = MAX_DELAY) ∧
      (1 ≤ n → a.far_history_pos < MAX_DELAY) := by
  induction h with
  | init h0 =>
    rw [initCore_far_history_pos c0 fs h0]
    exact ⟨by decide, le_refl _, fun _ => rfl, fun hn => absurd hn (by decide)⟩
  | update far_spectrum far_q _ ih =>
    rename_i n a _
    have hs := far_history_pos_step a.far_history_pos ih.1 ih.2.1
    rw [(updateFarHistory_fields a far_spectrum far_q).2.2.2]
    exact ⟨hs.1, le_of_lt hs.2, fun hn => absurd hn (Nat.succ_ne_zero n), fun _ => hs.2⟩
  | block farend nearendNoisy nearendClean output _ ih =>
    rename_i n a _
    have hs := far_history_pos_step a.far_history_pos ih.1 ih.2.1
    rw [(processBlock_frame a farend nearendNoisy nearendClean output).2.2.2,
      (processBlockFront_frame a farend nearendNoisy nearendClean).2.2.2]
    exact ⟨hs.1, le_of_lt hs.2, fun hn => absurd hn (Nat.succ_ne_zero n), fun _ => hs.2⟩

/-- C28, with the value `WebRtcAecm_InitCore` leaves. In every state of an initialised
`AecmCore`: directly after `WebRtcAecm_InitCore` returns 0, `far_history_pos` is
`MAX_DELAY = 100`; after any number `n >= 1` of `WebRtcAecm_UpdateFarHistory` or
`WebRtcAecm_ProcessBlock` calls, `far_history_pos` lies in `[0, MAX_DELAY) = [0, 100)`. -/
theorem far_history_pos_range (c0 : AecmCore) (fs : Int) (n : Nat) (a : AecmCore)
    (h : CoreReachable c0 fs n a) :
    (n = 0 → a.far_history_pos = 100) ∧
      (1 ≤ n → 0 ≤ a.far_history_pos ∧ a.far_history_pos < 100) := by
  have hp := coreReachable_pos c0 fs n a h
  exact ⟨fun hn => hp.2.2.1 hn, fun hn => ⟨hp.1, hp.2.2.2 hn⟩⟩

/-- Witness for C28 (amended): one `WebRtcAecm_UpdateFarHistory` call after
`WebRtcAecm_InitCore(8000)` on the created core. -/
theorem far_history_pos_range_witness :
    0 ≤ (WebRtcAecm_UpdateFarHistory (WebRtcAecm_InitCore createdInstance.aecmCore 8000).2
      (List.replicate 65 0) 0).far_history_pos ∧
    (WebRtcAecm_UpdateFarHistory (WebRtcAecm_InitCore createdInstance.aecmCore 8000).2
      (List.replicate 65 0) 0).far_history_pos < 100 :=
  (far_history_pos_range createdInstance.aecmCore 8000 1 _
    (CoreReachable.update (List.replicate 65 0) 0 (CoreReachable.init (by decide)))).2
    (by decide)

/-- Counterexample for C28 as stated: directly after `WebRtcAecm_InitCore(8000)` returns 0
on the created core, `far_history_pos` is 100, which is not below `MAX_DELAY`. -/
theorem far_history_pos_counterexample :
    (WebRtcAecm_InitCore createdInstance.aecmCore 8000).1 = 0 ∧
    (WebRtcAecm_InitCore createdInstance.aecmCore 8000).2.far_history_pos = 100 ∧
    ¬ (WebRtcAecm_InitCore createdInstance.aecmCore 8000).2.far_history_pos < MAX_DELAY := by
  decide

/-! ### The far-end history ring -/

theorem flatMap_single {α β : Type} (g : α → β) (l : List α) :
    (l.flatMap fun a => [g a]) = l.map g := by
  induction l with
  | nil => rfl
  | cons x xs ih =>
    rw [List.flatMap_cons, ih]
    rfl

theorem alignedFarend_eq (self : AecmCore) (delay : Int) :
    WebRtcAecm_AlignedFarend self delay =
      ((List.range PART_LEN1).map
          (fun (i : Nat) =>
            getI self.far_history (alignedBufferPosition self delay * PART_LEN1 + (i : Int))),
        getI self.far_q_domains (alignedBufferPosition self delay)) := by
  unfold WebRtcAecm_AlignedFarend alignedBufferPosition
  simp only [List.bind_eq_flatMap, List.pure_def, flatMap_single, List.map_map]
  rfl

theorem updateFarHistoryCalls_append (a : AecmCore) (l : List (List Int × Int))
    (c : List Int × Int) :
    updateFarHistoryCalls a (l ++ [c]) =
      WebRtcAecm_UpdateFarHistory (updateFarHistoryCalls a l) c.1 c.2 := by
  unfold updateFarHistoryCalls
  rw [List.foldl_append]
  rfl

theorem updateFarHistory_nat (s : AecmCore) (fs : List Int) (q : Int) (k : Nat)
    (hk : s.far_history_pos = (k : Int)) (hk100 : k ≤ 100) :
    (WebRtcAecm_UpdateFarHistory s fs q).far_history_pos =
        ((if 99 ≤ k then 0 else k + 1 : Nat) : Int) ∧
      (WebRtcAecm_UpdateFarHistory s fs q).far_history =
        memcpyList s.far_history ((if 99 ≤ k then 0 else k + 1) * PART_LEN1) fs 0 PART_LEN1 ∧
      (WebRtcAecm_UpdateFarHistory s fs q).far_q_domains =
        s.far_q_domains.set (if 99 ≤ k then 0 else k + 1) q := by
  unfold WebRtcAecm_UpdateFarHistory setI
  dsimp only
  rw [hk, toInt32_of_range (x := (k : Int) + 1) (by omega) (by omega)]
  unfold MAX_DELAY
  by_cases h99 : 99 ≤ k
  · have hge : ((k : Int) + 1 ≥ ((100 : Nat) : Int)) := by omega
    rw [if_pos hge, if_pos h99]
    refine ⟨rfl, ?_, ?_⟩
    · rw [if_neg (by decide)]
      rfl
    · rw [if_neg (by decide)]
      rfl
  · have hge : ¬ ((k : Int) + 1 ≥ ((100 : Nat) : Int)) := by omega
    have hneg : ¬ ((k : Int) + 1 < 0) := by omega
    have hto : ((k : Int) + 1).toNat = k + 1 := by omega
    rw [if_neg hge, if_neg h99, if_neg hneg, hto]
    refine ⟨by push_cast; rfl, rfl, ?_⟩
    rw [if_neg hneg]

/-- What a run of `WebRtcAecm_UpdateFarHistory` calls keeps true of the history ring. -/
theorem farHistory_invariant (a0 : AecmCore) (h1 : a0.far_history_pos = 100)
    (h2 : a0.far_history.length = 6500) (h3 : a0.far_q_domains.length = 100)
    (calls : List (List Int × Int)) :
    (updateFarHistoryCalls a0 calls).far_history.length = 6500 ∧
      (updateFarHistoryCalls a0 calls).far_q_domains.length = 100 ∧
      (updateFarHistoryCalls a0 calls).far_history_pos =
        ((if calls.length = 0 then 100 else (calls.length - 1) % 100 : Nat) : Int) ∧
      ∀ m : Nat, m < calls.length → calls.length ≤ m + 100 →
        (∀ i : Nat, i < 65 →
          (updateFarHistoryCalls a0 calls).far_history.getD (m % 100 * 65 + i) 0 =
            (calls.getD m ([], 0)).1.getD i 0) ∧
        (updateFarHistoryCalls a0 calls).far_q_domains.getD (m % 100) 0 =
          (calls.getD m ([], 0)).2 := by
  induction calls using List.reverseRecOn with
  | nil =>
    refine ⟨h2, h3, ?_, ?_⟩
    · exact h1
    · intro m hm
      exact absurd hm (by simp)
  | append_singleton l c ih =>
    obtain ⟨ihl, ihq, ihp, ihs⟩ := ih
    have hk100 : (if l.length = 0 then 100 else (l.length - 1) % 100) ≤ 100 := by
      split_ifs <;> omega
    obtain ⟨ep, eh, eq⟩ := updateFarHistory_nat (updateFarHistoryCalls a0 l) c.1 c.2 _ ihp hk100
    have hp : (if 99 ≤ (if l.length = 0 then 100 else (l.length - 1) % 100) then 0
        else (if l.length = 0 then 100 else (l.length - 1) % 100) + 1) = l.length % 100 := by
      split_ifs <;> omega
    rw [hp] at ep eh eq
    rw [updateFarHistoryCalls_append]
    have hlen' : (l ++ [c]).length = l.length + 1 := by simp
    refine ⟨?_, ?_, ?_, ?_⟩
    · rw [eh, memcpyList_length, ihl]
    · rw [eq, List.length_set, ihq]
    · rw [ep, hlen']
      congr 1
    · intro m hm hm100
      rw [hlen'] at hm hm100
      rw [eh, eq]
      by_cases hmn : m = l.length
      · subst hmn
        have hget : (l ++ [c]).getD l.length ([], 0) = c := by
          rw [List.getD_eq_getElem?_getD, List.getElem?_append_right (le_refl _)]
          simp
        rw [hget]
        constructor
        · intro i hi
          rw [List.getD_eq_getElem?_getD, memcpyList_getElem?]
          have hc : l.length % 100 * PART_LEN1 ≤ l.length % 100 * 65 + i ∧
              l.length % 100 * 65 + i < l.length % 100 * PART_LEN1 + PART_LEN1 ∧
              l.length % 100 * 65 + i < (updateFarHistoryCalls a0 l).far_history.length := by
            rw [ihl]
            unfold PART_LEN1
            omega
          rw [if_pos hc, Option.getD_some]
          congr 1
          unfold PART_LEN1
          omega
        · rw [List.getD_eq_getElem?_getD, List.getElem?_set_self (by rw [ihq]; omega)]
          rfl
      · have hml : m < l.length := by omega
        have hget : (l ++ [c]).getD m ([], 0) = l.getD m ([], 0) := by
          rw [List.getD_eq_getElem?_getD, List.getD_eq_getElem?_getD,
            List.getElem?_append_left hml]
        rw [hget]
        have hne : m % 100 ≠ l.length % 100 := by omega
        obtain ⟨is1, is2⟩ := ihs m hml (by omega)
        constructor
        · intro i hi
          rw [← is1 i hi, List.getD_eq_getElem?_getD, List.getD_eq_getElem?_getD,
            memcpyList_getElem?]
          have hc : ¬ (l.length % 100 * PART_LEN1 ≤ m % 100 * 65 + i ∧
              m % 100 * 65 + i < l.length % 100 * PART_LEN1 + PART_LEN1 ∧
              m % 100 * 65 + i < (updateFarHistoryCalls a0 l).far_history.length) := by
            unfold PART_LEN1
            omega
          rw [if_neg hc]
        · rw [← is2, List.getD_eq_getElem?_getD, List.getD_eq_getElem?_getD,
            List.getElem?_set_ne (fun h => hne h.symm)]

theorem initCore_far_history (c0 : AecmCore) (fs : Int)
    (h : (WebRtcAecm_InitCore c0 fs).1 = 0) :
    (WebRtcAecm_InitCore c0 fs).2.far_history.length = 6500 ∧
      (WebRtcAecm_InitCore c0 fs).2.far_q_domains.length = 100 := by
  unfold WebRtcAecm_InitCore at h ⊢
  by_cases hc : fs ≠ 8000 ∧ fs ≠ 16000
  · rw [if_pos hc] at h
    simp at h
  · rw [if_neg hc]
    dsimp only
    split_ifs <;> simp only [WebRtcAecm_InitEchoPathCore, List.length_replicate] <;> decide

/-- C27. After `WebRtcAecm_InitCore` returned 0 and `n >= 1` calls of
`WebRtcAecm_UpdateFarHistory` (the list `calls` of their 65-bin spectra and Q-domains, in
order), for every delay `d` with `0 <= d < min(n, MAX_DELAY)`, `WebRtcAecm_AlignedFarend(d)`
returns the spectrum and the Q-domain that were passed to the call made `d` calls before the
most recent one, and the buffer index it computes and reads at is in `[0, MAX_DELAY)`. -/
theorem aligned_farend_returns_history (c0 : AecmCore) (fs : Int)
    (calls : List (List Int × Int)) (d : Nat)
    (h0 : (WebRtcAecm_InitCore c0 fs).1 = 0)
    (hlen : ∀ c ∈ calls, c.1.length = PART_LEN1)
    (hd : d < calls.length) (hd2 : d < MAX_DELAY) :
    WebRtcAecm_AlignedFarend (updateFarHistoryCalls (WebRtcAecm_InitCore c0 fs).2 calls) d =
        calls.getD (calls.length - 1 - d) ([], 0) ∧
      0 ≤ alignedBufferPosition (updateFarHistoryCalls (WebRtcAecm_InitCore c0 fs).2 calls) d ∧
      alignedBufferPosition (updateFarHistoryCalls (WebRtcAecm_InitCore c0 fs).2 calls) d <
        MAX_DELAY ∧
      WebRtcAecm_AlignedFarend (updateFarHistoryCalls (WebRtcAecm_InitCore c0 fs).2 calls) d =
        ((List.range PART_LEN1).map
          (fun (i : Nat) =>
            getI (updateFarHistoryCalls (WebRtcAecm_InitCore c0 fs).2 calls).far_history
              (alignedBufferPosition (updateFarHistoryCalls (WebRtcAecm_InitCore c0 fs).2 calls)
                d * PART_LEN1 + (i : Int))),
          getI (updateFarHistoryCalls (WebRtcAecm_InitCore c0 fs).2 calls).far_q_domains
            (alignedBufferPosition (updateFarHistoryCalls (WebRtcAecm_InitCore c0 fs).2 calls)
              d)) := by
  have hi := initCore_far_history c0 fs h0
  obtain ⟨il, iq, ip, is⟩ := farHistory_invariant (WebRtcAecm_InitCore c0 fs).2
    (initCore_far_history_pos c0 fs h0) hi.1 hi.2 calls
  generalize updateFarHistoryCalls (WebRtcAecm_InitCore c0 fs).2 calls = s at il iq ip is ⊢
  unfold MAX_DELAY at hd2
  have hn0 : ¬ calls.length = 0 := by omega
  rw [if_neg hn0] at ip
  have hbp : alignedBufferPosition s d = (((calls.length - 1 - d) % 100 : Nat) : Int) := by
    unfold alignedBufferPosition MAX_DELAY
    dsimp only
    rw [ip, toInt32_of_range (by omega) (by omega)]
    split_ifs with hneg
    · rw [toInt32_of_range (by omega) (by omega)]
      omega
    · omega
  obtain ⟨s1, s2⟩ := is (calls.length - 1 - d) (by omega) (by omega)
  have hmem : calls.getD (calls.length - 1 - d) ([], 0) ∈ calls := by
    rw [List.getD_eq_getElem?_getD, List.getElem?_eq_getElem (by omega), Option.getD_some]
    exact List.getElem_mem _
  have hcl := hlen _ hmem
  refine ⟨?_, by rw [hbp]; omega, by rw [hbp]; unfold MAX_DELAY; omega, alignedFarend_eq s d⟩
  rw [alignedFarend_eq, hbp]
  apply Prod.ext
  · apply List.ext_getElem
    · rw [List.length_map, List.length_range, hcl]
    · intro i hi1 hi2
      rw [List.length_map, List.length_range] at hi1
      unfold PART_LEN1 at hi1
      rw [List.getElem_map, List.getElem_range]
      unfold getI PART_LEN1
      have hnn : ¬ ((((calls.length - 1 - d) % 100 : Nat) : Int) * ((65 : Nat) : Int) +
          (i : Int) < 0) := by omega
      have hto : ((((calls.length - 1 - d) % 100 : Nat) : Int) * ((65 : Nat) : Int) +
          (i : Int)).toNat = (calls.length - 1 - d) % 100 * 65 + i := by omega
      rw [if_neg hnn, hto, s1 i hi1, List.getD_eq_getElem?_getD,
        List.getElem?_eq_getElem hi2, Option.getD_some]
  · unfold getI
    have hnn : ¬ ((((calls.length - 1 - d) % 100 : Nat) : Int) < 0) := by omega
    rw [if_neg hnn, Int.toNat_ofNat, s2]

/-- Witness for C27: two calls after `WebRtcAecm_InitCore(8000)` on the created core; delay 1
returns the first call's spectrum and Q-domain. -/
theorem aligned_farend_returns_history_witness :
    WebRtcAecm_AlignedFarend
      (updateFarHistoryCalls (WebRtcAecm_InitCore createdInstance.aecmCore 8000).2
        [(List.replicate 65 7, 3), (List.replicate 65 9, 5)]) ((1 : Nat) : Int) =
      (List.replicate 65 7, 3) :=
  (aligned_farend_returns_history createdInstance.aecmCore 8000
    [(List.replicate 65 7, 3), (List.replicate 65 9, 5)] 1 (by decide) (by decide)
    (by decide) (by decide)).1

/-! ### `BinarySpectrumFix` -/

theorem forRange_front {σ : Type} (f : σ → Nat → σ) (n : Nat) (s : σ) :
    forRange (n + 1) f s = forRange n (fun st j => f st (j + 1)) (f s 0) := by
  induction n with
  | zero => rfl
  | succ k ih => rw [forRange_succ, ih, forRange_succ]

theorem forStep_one {σ : Type} (body : σ → Nat → σ) (fuel lo hi : Nat) (s : σ)
    (h : hi ≤ lo + fuel) :
    forStep fuel lo hi 1 body s = forRange (hi - lo) (fun st k => body st (lo + k)) s := by
  induction fuel generalizing lo s with
  | zero =>
    have e : hi - lo = 0 := by omega
    rw [e]
    rfl
  | succ k ih =>
    unfold forStep
    split_ifs with hlt
    · rw [ih (lo + 1) (body s lo) (by omega)]
      have e : hi - lo = (hi - (lo + 1)) + 1 := by omega
      rw [e, forRange_front]
      have hf : (fun (st : σ) (j : Nat) => body st (lo + 1 + j)) =
          (fun (st : σ) (j : Nat) => body st (lo + (j + 1))) := by
        funext st j
        rw [Nat.add_assoc, Nat.add_comm 1 j]
      rw [hf]
      rfl
    · have e : hi - lo = 0 := by omega
      rw [e]
      rfl

theorem seedLoop_spec (spectrum thr : List Int) (q init : Int) (n : Nat)
    (hlen : 12 + n ≤ thr.length) :
    (forRange n
      (fun (st : List Int × Int) k =>
        if spectrum.getD (12 + k) 0 > 0 then
          (st.1.set (12 + k) (shr (toInt32 (shl (spectrum.getD (12 + k) 0) (15 - q).toNat)) 1),
            1)
        else st) (thr, init)).1.length = thr.length ∧
    ∀ j : Nat,
      (forRange n
        (fun (st : List Int × Int) k =>
          if spectrum.getD (12 + k) 0 > 0 then
            (st.1.set (12 + k)
              (shr (toInt32 (shl (spectrum.getD (12 + k) 0) (15 - q).toNat)) 1), 1)
          else st) (thr, init)).1.getD j 0 =
        if 12 ≤ j ∧ j < 12 + n ∧ spectrum.getD j 0 > 0 then shr (spectrumQ15 spectrum q j) 1
        else thr.getD j 0 := by
  induction n with
  | zero =>
    refine ⟨rfl, fun j => ?_⟩
    rw [if_neg (by omega)]
    rfl
  | succ k ih =>
    obtain ⟨il, ig⟩ := ih (by omega)
    rw [forRange_succ]
    generalize forRange k _ (thr, init) = st at il ig
    by_cases hs : spectrum.getD (12 + k) 0 > 0
    · rw [if_pos hs]
      refine ⟨by rw [List.length_set]; exact il, fun j => ?_⟩
      rw [List.getD_eq_getElem?_getD, List.getElem?_set]
      by_cases hj : 12 + k = j
      · subst hj
        rw [if_pos rfl, if_pos (by omega), if_pos ⟨by omega, by omega, hs⟩]
        rfl
      · rw [if_neg hj, ← List.getD_eq_getElem?_getD, ig j]
        by_cases hc : 12 ≤ j ∧ j < 12 + k ∧ spectrum.getD j 0 > 0
        · rw [if_pos hc, if_pos ⟨hc.1, by omega, hc.2.2⟩]
        · rw [if_neg hc, if_neg (fun hc2 => hc ⟨hc2.1, by omega, hc2.2.2⟩)]
    · rw [if_neg hs]
      refine ⟨il, fun j => ?_⟩
      rw [ig j]
      by_cases hc : 12 ≤ j ∧ j < 12 + k ∧ spectrum.getD j 0 > 0
      · rw [if_pos hc, if_pos ⟨hc.1, by omega, hc.2.2⟩]
      · have hc2 : ¬ (12 ≤ j ∧ j < 12 + (k + 1) ∧ spectrum.getD j 0 > 0) := by
          intro hc2
          by_cases hjk : j = 12 + k
          · subst hjk
            exact hs hc2.2.2
          · exact hc ⟨hc2.1, by omega, hc2.2.2⟩
        rw [if_neg hc, if_neg hc2]

theorem setBit_natCast (w n : Nat) (hw : w < 2 ^ n) (hn : n < 32) :
    SetBit (w : Int) n = ((w ||| 2 ^ n : Nat) : Int) ∧ (w ||| 2 ^ n) < 2 ^ (n + 1) := by
  have h1 : 2 ^ n < 2 ^ (n + 1) := Nat.pow_lt_pow_right (by decide) (Nat.lt_succ_self n)
  have h2 : (w ||| 2 ^ n) < 2 ^ (n + 1) := Nat.or_lt_two_pow (lt_trans hw h1) h1
  have h3 : 2 ^ (n + 1) ≤ 2 ^ 32 := Nat.pow_le_pow_right (by decide) (by omega)
  have h4 : toUint32 (shl 1 n) = ((2 ^ n : Nat) : Int) := by
    unfold shl
    rw [one_mul]
    have e : ((2 : Int) ^ n) = ((2 ^ n : Nat) : Int) := by push_cast; rfl
    rw [e]
    apply toUint32_of_range (by omega)
    have : (2 ^ n : Nat) < 4294967296 := by
      have := lt_of_lt_of_le h1 h3
      omega
    omega
  refine ⟨?_, h2⟩
  unfold SetBit
  rw [h4]
  have e2 : Int.lor (w : Int) ((2 ^ n : Nat) : Int) = ((w ||| 2 ^ n : Nat) : Int) := rfl
  rw [e2]
  apply toUint32_of_range (by omega)
  have : (w ||| 2 ^ n) < 4294967296 := by
    have := lt_of_lt_of_le h2 h3
    omega
  omega

theorem bitLoop_spec (spectrum sd : List Int) (q : Int) (n : Nat) (hn : n ≤ 32)
    (hlen : 12 + n ≤ sd.length) :
    ∃ w : Nat,
      (forRange n
        (fun (st : Int × List Int) k =>
          (if toInt32 (shl (spectrum.getD (12 + k) 0) (15 - q).toNat) >
              WebRtc_MeanEstimatorFix
                (toInt32 (shl (spectrum.getD (12 + k) 0) (15 - q).toNat)) 6
                (st.2.getD (12 + k) 0) then
            SetBit st.1 (12 + k - 12) else st.1,
            st.2.set (12 + k)
              (WebRtc_MeanEstimatorFix
                (toInt32 (shl (spectrum.getD (12 + k) 0) (15 - q).toNat)) 6
                (st.2.getD (12 + k) 0)))) (0, sd)).1 = (w : Int) ∧
      w < 2 ^ n ∧
      (∀ k : Nat, k < n →
        (w.testBit k = true ↔
          spectrumQ15 spectrum q (12 + k) >
            WebRtc_MeanEstimatorFix (spectrumQ15 spectrum q (12 + k)) 6
              (sd.getD (12 + k) 0))) ∧
      (forRange n
        (fun (st : Int × List Int) k =>
          (if toInt32 (shl (spectrum.getD (12 + k) 0) (15 - q).toNat) >
              WebRtc_MeanEstimatorFix
                (toInt32 (shl (spectrum.getD (12 + k) 0) (15 - q).toNat)) 6
                (st.2.getD (12 + k) 0) then
            SetBit st.1 (12 + k - 12) else st.1,
            st.2.set (12 + k)
              (WebRtc_MeanEstimatorFix
                (toInt32 (shl (spectrum.getD (12 + k) 0) (15 - q).toNat)) 6
                (st.2.getD (12 + k) 0)))) (0, sd)).2.length = sd.length ∧
      ∀ j : Nat,
        (forRange n
          (fun (st : Int × List Int) k =>
            (if toInt32 (shl (spectrum.getD (12 + k) 0) (15 - q).toNat) >
                WebRtc_MeanEstimatorFix
                  (toInt32 (shl (spectrum.getD (12 + k) 0) (15 - q).toNat)) 6
                  (st.2.getD (12 + k) 0) then
              SetBit st.1 (12 + k - 12) else st.1,
              st.2.set (12 + k)
                (WebRtc_MeanEstimatorFix
                  (toInt32 (shl (spectrum.getD (12 + k) 0) (15 - q).toNat)) 6
                  (st.2.getD (12 + k) 0)))) (0, sd)).2.getD j 0 =
          if 12 ≤ j ∧ j < 12 + n then
            WebRtc_MeanEstimatorFix (spectrumQ15 spectrum q j) 6 (sd.getD j 0)
          else sd.getD j 0 := by
  induction n with
  | zero =>
    refine ⟨0, rfl, by decide, fun k hk => absurd hk (Nat.not_lt_zero k), rfl, fun j => ?_⟩
    rw [if_neg (by omega)]
    rfl
  | succ m ih =>
    obtain ⟨w, hw, hwlt, hbits, hl, hg⟩ := ih (by omega) (by omega)
    rw [forRange_succ]
    generalize forRange m _ ((0 : Int), sd) = st at hw hl hg
    have hcur : st.2.getD (12 + m) 0 = sd.getD (12 + m) 0 := by
      rw [hg (12 + m), if_neg (by omega)]
    have hsub : 12 + m - 12 = m := by omega
    dsimp only
    rw [hcur, hsub, hw]
    have hq : toInt32 (shl (spectrum.getD (12 + m) 0) (15 - q).toNat) =
        spectrumQ15 spectrum q (12 + m) := rfl
    rw [hq]
    have hlen2 : (st.2.set (12 + m)
        (WebRtc_MeanEstimatorFix (spectrumQ15 spectrum q (12 + m)) 6
          (sd.getD (12 + m) 0))).length = sd.length := by
      rw [List.length_set, hl]
    have hget : ∀ j : Nat, (st.2.set (12 + m)
        (WebRtc_MeanEstimatorFix (spectrumQ15 spectrum q (12 + m)) 6
          (sd.getD (12 + m) 0))).getD j 0 =
        if 12 ≤ j ∧ j < 12 + (m + 1) then
          WebRtc_MeanEstimatorFix (spectrumQ15 spectrum q j) 6 (sd.getD j 0)
        else sd.getD j 0 := by
      intro j
      rw [List.getD_eq_getElem?_getD, List.getElem?_set]
      by_cases hj : 12 + m = j
      · subst hj
        rw [if_pos rfl, if_pos (by omega), if_pos ⟨by omega, by omega⟩]
        rfl
      · rw [if_neg hj, ← List.getD_eq_getElem?_getD, hg j]
        by_cases hc : 12 ≤ j ∧ j < 12 + m
        · rw [if_pos hc, if_pos ⟨hc.1, by omega⟩]
        · rw [if_neg hc, if_neg (by omega)]
    by_cases hc : spectrumQ15 spectrum q (12 + m) >
        WebRtc_MeanEstimatorFix (spectrumQ15 spectrum q (12 + m)) 6 (sd.getD (12 + m) 0)
    · rw [if_pos hc]
      obtain ⟨es, elt⟩ := setBit_natCast w m hwlt (by omega)
      refine ⟨w ||| 2 ^ m, es, elt, ?_, hlen2, hget⟩
      intro k hk
      rw [Nat.testBit_or, Nat.testBit_two_pow]
      by_cases hkm : k = m
      · subst hkm
        simp only [decide_True, Bool.or_true, true_iff]
        exact hc
      · have hne : ¬ m = k := fun h => hkm h.symm
        simp only [hne, decide_False, Bool.or_false]
        exact hbits k (by omega)
    · rw [if_neg hc]
      refine ⟨w, rfl, lt_trans hwlt (Nat.pow_lt_pow_right (by decide) (Nat.lt_succ_self m)),
        ?_, hlen2, hget⟩
      intro k hk
      by_cases hkm : k = m
      · subst hkm
        rw [Nat.testBit_lt_two_pow hwlt]
        constructor
        · intro h
          exact absurd h (by decide)
        · intro h
          exact absurd h hc
      · exact hbits k (by omega)

theorem binarySpectrumFix_loops (spectrum thr : List Int) (q init : Int) :
    BinarySpectrumFix spectrum thr q init =
      ((forRange 32
        (fun (st : Int × List Int) k =>
          (if toInt32 (shl (spectrum.getD (12 + k) 0) (15 - q).toNat) >
              WebRtc_MeanEstimatorFix
                (toInt32 (shl (spectrum.getD (12 + k) 0) (15 - q).toNat)) 6
                (st.2.getD (12 + k) 0) then
            SetBit st.1 (12 + k - 12) else st.1,
            st.2.set (12 + k)
              (WebRtc_MeanEstimatorFix
                (toInt32 (shl (spectrum.getD (12 + k) 0) (15 - q).toNat)) 6
                (st.2.getD (12 + k) 0))))
        (0, (if init = 0 then
          forRange 32
            (fun (st : List Int × Int) k =>
              if spectrum.getD (12 + k) 0 > 0 then
                (st.1.set (12 + k)
                  (shr (toInt32 (shl (spectrum.getD (12 + k) 0) (15 - q).toNat)) 1), 1)
              else st) (thr, init)
          else (thr, init)).1)).1,
       (forRange 32
        (fun (st : Int × List Int) k =>
          (if toInt32 (shl (spectrum.getD (12 + k) 0) (15 - q).toNat) >
              WebRtc_MeanEstimatorFix
                (toInt32 (shl (spectrum.getD (12 + k) 0) (15 - q).toNat)) 6
                (st.2.getD (12 + k) 0) then
            SetBit st.1 (12 + k - 12) else st.1,
            st.2.set (12 + k)
              (WebRtc_MeanEstimatorFix
                (toInt32 (shl (spectrum.getD (12 + k) 0) (15 - q).toNat)) 6
                (st.2.getD (12 + k) 0))))
        (0, (if init = 0 then
          forRange 32
            (fun (st : List Int × Int) k =>
              if spectrum.getD (12 + k) 0 > 0 then
                (st.1.set (12 + k)
                  (shr (toInt32 (shl (spectrum.getD (12 + k) 0) (15 - q).toNat)) 1), 1)
              else st) (thr, init)
          else (thr, init)).1)).2,
       (if init = 0 then
          forRange 32
            (fun (st : List Int × Int) k =>
              if spectrum.getD (12 + k) 0 > 0 then
                (st.1.set (12 + k)
                  (shr (toInt32 (shl (spectrum.getD (12 + k) 0) (15 - q).toNat)) 1), 1)
              else st) (thr, init)
          else (thr, init)).2) := by
  unfold BinarySpectrumFix kBandFirst kBandLast
  dsimp only
  rw [forStep_one _ 32 12 (43 + 1) _ (by decide), forStep_one _ 32 12 (43 + 1) _ (by decide)]

theorem seeded_spec (spectrum thr : List Int) (q init : Int) (hlen : 44 ≤ thr.length) :
    (if init = 0 then
        forRange 32
          (fun (st : List Int × Int) k =>
            if spectrum.getD (12 + k) 0 > 0 then
              (st.1.set (12 + k)
                (shr (toInt32 (shl (spectrum.getD (12 + k) 0) (15 - q).toNat)) 1), 1)
            else st) (thr, init)
        else (thr, init)).1.length = thr.length ∧
    ∀ j : Nat,
      (if init = 0 then
          forRange 32
            (fun (st : List Int × Int) k =>
              if spectrum.getD (12 + k) 0 > 0 then
                (st.1.set (12 + k)
                  (shr (toInt32 (shl (spectrum.getD (12 + k) 0) (15 - q).toNat)) 1), 1)
              else st) (thr, init)
          else (thr, init)).1.getD j 0 =
        if 12 ≤ j ∧ j < 44 then seededThreshold spectrum thr q init j else thr.getD j 0 := by
  by_cases hi : init = 0
  · rw [if_pos hi]
    obtain ⟨h1, h2⟩ := seedLoop_spec spectrum thr q init 32 (by omega)
    refine ⟨h1, fun j => ?_⟩
    rw [h2 j]
    unfold seededThreshold
    by_cases hb : 12 ≤ j ∧ j < 44
    · rw [if_pos hb]
      by_cases hs : spectrum.getD j 0 > 0
      · rw [if_pos ⟨hb.1, hb.2, hs⟩, if_pos ⟨hi, hs⟩]
      · rw [if_neg (fun h => hs h.2.2), if_neg (fun h => hs h.2)]
    · rw [if_neg hb, if_neg (fun h => hb ⟨h.1, h.2.1⟩)]
  · rw [if_neg hi]
    refine ⟨rfl, fun j => ?_⟩
    unfold seededThreshold
    have hn : ¬ (init = 0 ∧ spectrum.getD j 0 > 0) := fun h => hi h.1
    rw [if_neg hn, ite_self]

theorem binarySpectrumFix_core (spectrum thr : List Int) (q init : Int)
    (hlen : 44 ≤ thr.length) :
    ∃ w : Nat,
      (BinarySpectrumFix spectrum thr q init).1 = (w : Int) ∧ w < 2 ^ 32 ∧
      (∀ k : Nat, k < 32 →
        (w.testBit k = true ↔
          spectrumQ15 spectrum q (12 + k) >
            WebRtc_MeanEstimatorFix (spectrumQ15 spectrum q (12 + k)) 6
              (seededThreshold spectrum thr q init (12 + k)))) ∧
      (BinarySpectrumFix spectrum thr q init).2.1.length = thr.length ∧
      ∀ j : Nat,
        (BinarySpectrumFix spectrum thr q init).2.1.getD j 0 =
          if 12 ≤ j ∧ j < 44 then
            WebRtc_MeanEstimatorFix (spectrumQ15 spectrum q j) 6
              (seededThreshold spectrum thr q init j)
          else thr.getD j 0 := by
  rw [binarySpectrumFix_loops]
  obtain ⟨sl, sg⟩ := seeded_spec spectrum thr q init hlen
  generalize (if init = 0 then
      forRange 32
        (fun (st : List Int × Int) k =>
          if spectrum.getD (12 + k) 0 > 0 then
            (st.1.set (12 + k)
              (shr (toInt32 (shl (spectrum.getD (12 + k) 0) (15 - q).toNat)) 1), 1)
          else st) (thr, init)
      else (thr, init)) = sd at sl sg ⊢
  dsimp only
  obtain ⟨w, hw, hwlt, hbits, hl, hg⟩ := bitLoop_spec spectrum sd.1 q 32 (le_refl 32)
    (by omega)
  refine ⟨w, hw, hwlt, ?_, by rw [hl, sl], ?_⟩
  · intro k hk
    rw [hbits k hk, sg (12 + k), if_pos (by omega)]
  · intro j
    refine (hg j).trans ?_
    by_cases hb : 12 ≤ j ∧ j < 44
    · rw [if_pos hb, if_pos hb, sg j, if_pos hb]
    · rw [if_neg hb, if_neg hb, sg j, if_neg hb]

theorem natCast_bit (w k : Nat) : shr (w : Int) k % 2 = 1 ↔ w.testBit k = true := by
  rw [shr_natCast, Nat.testBit_to_div_mod, decide_eq_true_eq]
  omega

theorem seededThreshold_congr (spectrum spectrum2 thr thr2 : List Int) (q init : Int) (i : Nat)
    (hs : spectrum2.getD i 0 = spectrum.getD i 0) (ht : thr2.getD i 0 = thr.getD i 0) :
    spectrumQ15 spectrum2 q i = spectrumQ15 spectrum q i ∧
      seededThreshold spectrum2 thr2 q init i = seededThreshold spectrum thr q init i := by
  unfold seededThreshold spectrumQ15
  rw [hs, ht]
  exact ⟨rfl, rfl⟩

theorem threshold_compare (s th : Int) (hs : 0 ≤ s ∧ s ≤ 2147483647)
    (ht : 0 ≤ th ∧ th ≤ 2147483647) :
    (s > WebRtc_MeanEstimatorFix s 6 th ↔ s > th + shr (s - th) 6) := by
  rw [meanEstimator_eq s th 6 (by omega) (by omega) (by omega)]
  have e6 : (2 : Int) ^ (6 : Int).toNat = 64 := by decide
  rw [e6]
  unfold shr
  have e64 : (2 : Int) ^ 6 = 64 := by decide
  rw [e64]
  by_cases hd : 0 ≤ s - th
  · rw [Int.tdiv_eq_ediv hd (by decide)]
  · have h1 : Int.tdiv (s - th) 64 = -((-(s - th)) / 64) := by
      have e1 : s - th = -(-(s - th)) := by omega
      rw [e1, Int.neg_tdiv, Int.tdiv_eq_ediv (by omega) (by decide)]
      simp only [neg_neg]
    rw [h1]
    omega

/-- C29. For every spectrum, `q_domain` and threshold state holding the band
(`threshold_spectrum` has more than `kBandLast = 43` entries), `BinarySpectrumFix` returns a
32-bit word in which, for each bin `i` in `[kBandFirst, kBandLast] = [12, 43]`, bit `i - 12`
is 1 if and only if `spectrum[i]` converted to Q15 is strictly greater than `threshold[i]`
as this call leaves it, which is `WebRtc_MeanEstimatorFix(spectrum_q15, 6, .)` applied to
the seeded threshold; for a `uint16_t` spectrum, `0 <= q_domain <= 15` and a non-negative
`int32_t` threshold that is the same as `spectrum_q15 > threshold + ((spectrum_q15 -
threshold) >> 6)`. Thresholds outside the band are not written, and bins outside the band
(of the spectrum and of the thresholds) do not influence the returned word. On the very
first call (flag 0, thresholds 0 as `WebRtc_InitDelayEstimatorFarend` leaves them) every
threshold in the band is first seeded to half of `spectrum_q15[i]`. -/
theorem binarySpectrumFix_bits (spectrum threshold_spectrum : List Int)
    (q_domain threshold_initialized : Int)
    (hlen : kBandLast < threshold_spectrum.length) :
    (0 ≤ (BinarySpectrumFix spectrum threshold_spectrum q_domain threshold_initialized).1 ∧
      (BinarySpectrumFix spectrum threshold_spectrum q_domain threshold_initialized).1 <
        4294967296) ∧
    (∀ i : Nat, kBandFirst ≤ i → i ≤ kBandLast →
      (BinarySpectrumFix spectrum threshold_spectrum q_domain
          threshold_initialized).2.1.getD i 0 =
        WebRtc_MeanEstimatorFix (spectrumQ15 spectrum q_domain i) 6
          (seededThreshold spectrum threshold_spectrum q_domain threshold_initialized i) ∧
      (shr (BinarySpectrumFix spectrum threshold_spectrum q_domain threshold_initialized).1
          (i - kBandFirst) % 2 = 1 ↔
        spectrumQ15 spectrum q_domain i >
          (BinarySpectrumFix spectrum threshold_spectrum q_domain
            threshold_initialized).2.1.getD i 0) ∧
      (0 ≤ spectrum.getD i 0 ∧ spectrum.getD i 0 ≤ 65535 → 0 ≤ q_domain ∧ q_domain ≤ 15 →
        0 ≤ threshold_spectrum.getD i 0 ∧ threshold_spectrum.getD i 0 ≤ 2147483647 →
        (shr (BinarySpectrumFix spectrum threshold_spectrum q_domain threshold_initialized).1
            (i - kBandFirst) % 2 = 1 ↔
          spectrumQ15 spectrum q_domain i >
            seededThreshold spectrum threshold_spectrum q_domain threshold_initialized i +
              shr (spectrumQ15 spectrum q_domain i -
                seededThreshold spectrum threshold_spectrum q_domain threshold_initialized i)
                6)) ∧
      (threshold_initialized = 0 → threshold_spectrum.getD i 0 = 0 →
        0 ≤ spectrum.getD i 0 →
        seededThreshold spectrum threshold_spectrum q_domain threshold_initialized i =
          shr (spectrumQ15 spectrum q_domain i) 1)) ∧
    (∀ i : Nat, i < kBandFirst ∨ kBandLast < i →
      (BinarySpectrumFix spectrum threshold_spectrum q_domain
          threshold_initialized).2.1.getD i 0 = threshold_spectrum.getD i 0) ∧
    (∀ spectrum2 threshold2 : List Int, kBandLast < threshold2.length →
      (∀ i : Nat, kBandFirst ≤ i → i ≤ kBandLast →
        spectrum2.getD i 0 = spectrum.getD i 0 ∧
          threshold2.getD i 0 = threshold_spectrum.getD i 0) →
      (BinarySpectrumFix spectrum2 threshold2 q_domain threshold_initialized).1 =
        (BinarySpectrumFix spectrum threshold_spectrum q_domain threshold_initialized).1) := by
  unfold kBandFirst kBandLast at *
  obtain ⟨w, hw, hwlt, hbits, hl, hg⟩ := binarySpectrumFix_core spectrum threshold_spectrum
    q_domain threshold_initialized (by omega)
  refine ⟨⟨by rw [hw]; omega, by rw [hw]; omega⟩, ?_, ?_, ?_⟩
  · intro i h1 h2
    have hgi := hg i
    rw [if_pos (by omega)] at hgi
    have hb := hbits (i - 12) (by omega)
    have e12 : 12 + (i - 12) = i := by omega
    rw [e12] at hb
    have hbit : shr (BinarySpectrumFix spectrum threshold_spectrum q_domain
        threshold_initialized).1 (i - 12) % 2 = 1 ↔
        spectrumQ15 spectrum q_domain i >
          WebRtc_MeanEstimatorFix (spectrumQ15 spectrum q_domain i) 6
            (seededThreshold spectrum threshold_spectrum q_domain threshold_initialized i) := by
      rw [hw, natCast_bit]
      exact hb
    refine ⟨hgi, by rw [hgi]; exact hbit, ?_, ?_⟩
    · intro hs hq ht
      rw [hbit]
      have hq15 : 0 ≤ spectrumQ15 spectrum q_domain i ∧
          spectrumQ15 spectrum q_domain i ≤ 2147483647 := by
        unfold spectrumQ15 shl
        have hk : (15 - q_domain).toNat ≤ 15 := by omega
        have hp1 : (2 : Int) ^ (15 - q_domain).toNat ≤ 2 ^ 15 :=
          pow_le_pow_right₀ (by decide) hk
        have hp0 : (0 : Int) < 2 ^ (15 - q_domain).toNat := by positivity
        have hm0 : 0 ≤ spectrum.getD i 0 * 2 ^ (15 - q_domain).toNat :=
          mul_nonneg hs.1 (le_of_lt hp0)
        have hm1 : spectrum.getD i 0 * 2 ^ (15 - q_domain).toNat ≤ 65535 * 2 ^ 15 :=
          mul_le_mul hs.2 hp1 (le_of_lt hp0) (by decide)
        have e15 : (65535 : Int) * 2 ^ 15 = 2147450880 := by decide
        rw [e15] at hm1
        rw [toInt32_of_range (by omega) (by omega)]
        exact ⟨hm0, by omega⟩
      have hsd : 0 ≤ seededThreshold spectrum threshold_spectrum q_domain
          threshold_initialized i ∧
          seededThreshold spectrum threshold_spectrum q_domain threshold_initialized i ≤
            2147483647 := by
        unfold seededThreshold
        split_ifs
        · unfold shr
          constructor
          · exact Int.ediv_nonneg hq15.1 (by decide)
          · have := Int.ediv_le_self (2 ^ 1) hq15.1
            omega
        · exact ht
      exact threshold_compare _ _ hq15 hsd
    · intro hi0 ht0 hs0
      unfold seededThreshold
      by_cases hpos : spectrum.getD i 0 > 0
      · rw [if_pos ⟨hi0, hpos⟩]
      · rw [if_neg (fun h => hpos h.2), ht0]
        have hz : spectrum.getD i 0 = 0 := by omega
        unfold spectrumQ15 shl
        rw [hz, zero_mul]
        decide
  · intro i hi
    rw [hg i, if_neg (by omega)]
  · intro spectrum2 threshold2 hlen2 hagree
    obtain ⟨w2, hw2, hwlt2, hbits2, _, _⟩ := binarySpectrumFix_core spectrum2 threshold2
      q_domain threshold_initialized (by omega)
    rw [hw, hw2]
    apply congrArg (fun (x : Nat) => (x : Int))
    apply Nat.eq_of_testBit_eq
    intro k
    by_cases hk : k < 32
    · have ha := hagree (12 + k) (by omega) (by omega)
      obtain ⟨c1, c2⟩ := seededThreshold_congr spectrum spectrum2 threshold_spectrum threshold2
        q_domain threshold_initialized (12 + k) ha.1 ha.2
      have h1 := hbits k hk
      have h2 := hbits2 k hk
      rw [c1, c2] at h2
      rw [Bool.eq_iff_iff, h1, h2]
    · have hp : 2 ^ 32 ≤ 2 ^ k := Nat.pow_le_pow_right (by decide) (by omega)
      rw [Nat.testBit_lt_two_pow (lt_of_lt_of_le hwlt hp),
        Nat.testBit_lt_two_pow (lt_of_lt_of_le hwlt2 hp)]

/-- Witness for C29: the first call on zero thresholds (65 bins) with `spectrum[12] = 4` in
Q0 sets bit 0. -/
theorem binarySpectrumFix_bits_witness :
    shr (BinarySpectrumFix ((List.replicate 65 0).set 12 4) (List.replicate 65 0) 0 0).1
        (12 - kBandFirst) % 2 = 1 ↔
      spectrumQ15 ((List.replicate 65 0).set 12 4) 0 12 >
        (BinarySpectrumFix ((List.replicate 65 0).set 12 4) (List.replicate 65 0) 0
          0).2.1.getD 12 0 :=
  ((binarySpectrumFix_bits ((List.replicate 65 0).set 12 4) (List.replicate 65 0) 0 0
    (by decide)).2.1 12 (by decide) (by decide)).2.1

/-! ### Channel arbitration in `WebRtcAecm_UpdateChannel` -/

theorem updateChannel_eq (aecm : AecmCore) (fs : List Int) (q : Int) (dfa : List Int)
    (mu : Int) (ee : List Int) :
    WebRtcAecm_UpdateChannel aecm fs q dfa mu ee =
      updateChannelStore (updateChannelAdapt aecm fs q dfa mu) fs ee := by
  unfold WebRtcAecm_UpdateChannel updateChannelStore updateChannelAdapt
  rfl

theorem updateChannelAdapt_frame (aecm : AecmCore) (fs : List Int) (q : Int) (dfa : List Int)
    (mu : Int) : MseFrame aecm (updateChannelAdapt aecm fs q dfa mu) := by
  unfold updateChannelAdapt
  have h0 : MseFrame aecm aecm := ⟨rfl, rfl, rfl, rfl, rfl, rfl, rfl, rfl, rfl, rfl, rfl, rfl⟩
  split_ifs
  · apply forRange_invariant (fun s => MseFrame aecm s)
    · intro s i hs
      dsimp only
      split_ifs
      · exact hs
      · exact hs
    · exact h0
  · exact h0

theorem absDiffSum_succ (xs ys : List Int) (n : Nat) :
    absDiffSum xs ys (n + 1) = absDiffSum xs ys n + |xs.getD n 0 - ys.getD n 0| := by
  unfold absDiffSum
  rw [List.range_succ, List.map_append, List.sum_append]
  simp only [List.map_cons, List.map_nil, List.sum_cons, List.sum_nil, add_zero]

theorem abs_w32_eq (d : Int) (h0 : -65535 ≤ d) (h1 : d ≤ 65535) :
    WEBRTC_SPL_ABS_W32 d = |d| ∧ 0 ≤ |d| ∧ |d| ≤ 65535 := by
  unfold WEBRTC_SPL_ABS_W32
  rw [toInt32_of_range (x := d) (by omega) (by omega)]
  by_cases hd : d ≥ 0
  · rw [if_pos hd, abs_of_nonneg hd]
    exact ⟨rfl, hd, h1⟩
  · rw [if_neg hd, toInt32_of_range (by omega) (by omega), abs_of_neg (by omega)]
    exact ⟨rfl, by omega, by omega⟩

theorem mseLoop_spec (a : AecmCore) (n : Nat)
    (hn : ∀ i : Nat, i < n →
      -32768 ≤ a.nearLogEnergy.getD i 0 ∧ a.nearLogEnergy.getD i 0 ≤ 32767)
    (hs : ∀ i : Nat, i < n →
      -32768 ≤ a.echoStoredLogEnergy.getD i 0 ∧ a.echoStoredLogEnergy.getD i 0 ≤ 32767)
    (ha : ∀ i : Nat, i < n →
      -32768 ≤ a.echoAdaptLogEnergy.getD i 0 ∧ a.echoAdaptLogEnergy.getD i 0 ≤ 32767)
    (hn20 : n ≤ 20) :
    forRange n
      (fun (m : Int × Int) i =>
        let d1 := toInt32 (a.echoStoredLogEnergy.getD i 0 - a.nearLogEnergy.getD i 0)
        let d2 := toInt32 (a.echoAdaptLogEnergy.getD i 0 - a.nearLogEnergy.getD i 0)
        (toInt32 (m.1 + WEBRTC_SPL_ABS_W32 d1), toInt32 (m.2 + WEBRTC_SPL_ABS_W32 d2)))
      (0, 0) =
      (absDiffSum a.echoStoredLogEnergy a.nearLogEnergy n,
        absDiffSum a.echoAdaptLogEnergy a.nearLogEnergy n) ∧
    (0 ≤ absDiffSum a.echoStoredLogEnergy a.nearLogEnergy n ∧
      absDiffSum a.echoStoredLogEnergy a.nearLogEnergy n ≤ 65535 * n) ∧
    (0 ≤ absDiffSum a.echoAdaptLogEnergy a.nearLogEnergy n ∧
      absDiffSum a.echoAdaptLogEnergy a.nearLogEnergy n ≤ 65535 * n) := by
  induction n with
  | zero => exact ⟨rfl, ⟨le_refl _, le_refl _⟩, ⟨le_refl _, le_refl _⟩⟩
  | succ k ih =>
    obtain ⟨e, b1, b2⟩ := ih (fun i hi => hn i (by omega)) (fun i hi => hs i (by omega))
      (fun i hi => ha i (by omega)) (by omega)
    have h1 := hn k (by omega)
    have h2 := hs k (by omega)
    have h3 := ha k (by omega)
    rw [forRange_succ, e, absDiffSum_succ, absDiffSum_succ]
    dsimp only
    rw [toInt32_of_range (x := a.echoStoredLogEnergy.getD k 0 - a.nearLogEnergy.getD k 0)
        (by omega) (by omega),
      toInt32_of_range (x := a.echoAdaptLogEnergy.getD k 0 - a.nearLogEnergy.getD k 0)
        (by omega) (by omega)]
    obtain ⟨w1, w2, w3⟩ := abs_w32_eq (a.echoStoredLogEnergy.getD k 0 -
      a.nearLogEnergy.getD k 0) (by omega) (by omega)
    obtain ⟨v1, v2, v3⟩ := abs_w32_eq (a.echoAdaptLogEnergy.getD k 0 -
      a.nearLogEnergy.getD k 0) (by omega) (by omega)
    rw [w1, v1]
    generalize |a.echoStoredLogEnergy.getD k 0 - a.nearLogEnergy.getD k 0| = x at w2 w3 ⊢
    generalize |a.echoAdaptLogEnergy.getD k 0 - a.nearLogEnergy.getD k 0| = y at v2 v3 ⊢
    generalize absDiffSum a.echoStoredLogEnergy a.nearLogEnergy k = S at b1 ⊢
    generalize absDiffSum a.echoAdaptLogEnergy a.nearLogEnergy k = A at b2 ⊢
    push_cast
    rw [toInt32_of_range (x := S + x) (by omega) (by omega),
      toInt32_of_range (x := A + y) (by omega) (by omega)]
    exact ⟨rfl, ⟨by omega, by omega⟩, ⟨by omega, by omega⟩⟩

theorem mseSums_spec (a : AecmCore)
    (hn : ∀ i : Nat, i < 20 →
      -32768 ≤ a.nearLogEnergy.getD i 0 ∧ a.nearLogEnergy.getD i 0 ≤ 32767)
    (hs : ∀ i : Nat, i < 20 →
      -32768 ≤ a.echoStoredLogEnergy.getD i 0 ∧ a.echoStoredLogEnergy.getD i 0 ≤ 32767)
    (ha : ∀ i : Nat, i < 20 →
      -32768 ≤ a.echoAdaptLogEnergy.getD i 0 ∧ a.echoAdaptLogEnergy.getD i 0 ≤ 32767) :
    mseSums a =
      (absDiffSum a.echoStoredLogEnergy a.nearLogEnergy 20,
        absDiffSum a.echoAdaptLogEnergy a.nearLogEnergy 20) ∧
    (0 ≤ absDiffSum a.echoStoredLogEnergy a.nearLogEnergy 20 ∧
      absDiffSum a.echoStoredLogEnergy a.nearLogEnergy 20 ≤ 1310700) ∧
    (0 ≤ absDiffSum a.echoAdaptLogEnergy a.nearLogEnergy 20 ∧
      absDiffSum a.echoAdaptLogEnergy a.nearLogEnergy 20 ≤ 1310700) := by
  obtain ⟨e, b1, b2⟩ := mseLoop_spec a 20 hn hs ha (le_refl 20)
  exact ⟨e, ⟨b1.1, by have := b1.2; push_cast at this; omega⟩,
    ⟨b2.1, by have := b2.2; push_cast at this; omega⟩⟩

theorem mseSums_congr (a b : AecmCore) (h1 : b.nearLogEnergy = a.nearLogEnergy)
    (h2 : b.echoStoredLogEnergy = a.echoStoredLogEnergy)
    (h3 : b.echoAdaptLogEnergy = a.echoAdaptLogEnergy) : mseSums b = mseSums a := by
  unfold mseSums
  rw [h1, h2, h3]

theorem reset_fields (a : AecmCore) :
    (ResetAdaptiveChannelC a).channelAdapt16 =
        memcpyList a.channelAdapt16 0 a.channelStored 0 PART_LEN1 ∧
      (ResetAdaptiveChannelC a).channelStored = a.channelStored := by
  simp only [ResetAdaptiveChannelC, and_self]

theorem reset32_congr (a b : AecmCore) (h1 : b.channelStored = a.channelStored)
    (h2 : b.channelAdapt32 = a.channelAdapt32) :
    (ResetAdaptiveChannelC b).channelAdapt32 = (ResetAdaptiveChannelC a).channelAdapt32 := by
  simp only [ResetAdaptiveChannelC, h1, h2]

theorem store_fields (a : AecmCore) (fs ee : List Int) :
    (StoreAdaptiveChannelC a fs ee).1.channelStored =
        memcpyList a.channelStored 0 a.channelAdapt16 0 PART_LEN1 ∧
      (StoreAdaptiveChannelC a fs ee).1.channelAdapt16 = a.channelAdapt16 ∧
      (StoreAdaptiveChannelC a fs ee).1.channelAdapt32 = a.channelAdapt32 := by
  simp only [StoreAdaptiveChannelC, and_self]

/-- C23. In `WebRtcAecm_UpdateChannel` outside the startup-store case (the store test
`(startupState == 0) & currentVADValue` is false), with `mseChannelCount` in `[0, 29]`, the
newest 20 log-energy entries `int16_t` values and the old sums in `[0, 20 * 65535]`:
`mseChannelCount` becomes `c`, which is 0 when `farLogEnergy < farEnergyMSE` and the
incremented count otherwise, unless `c` reaches `MIN_MSE_COUNT + 10 = 30`, which is the only
way the test `c >= 30` holds; exactly then the arbitration runs on `mseStored = S` and
`mseAdapt = A`, the sums over the newest 20 history entries of
`|echoStoredLogEnergy[i] - nearLogEnergy[i]|` and `|echoAdaptLogEnergy[i] - nearLogEnergy[i]|`:
the adaptive channel is reset to the stored one iff `32*S < 29*A` and
`32*mseStoredOld < 29*mseAdaptOld`; else the adaptive channel is copied to the stored one iff
`29*S > 32*A`, `A < mseThreshold` and `mseAdaptOld < mseThreshold`; else neither channel
changes; and in all three cases `mseChannelCount` becomes 0 and `mseStoredOld`, `mseAdaptOld`
become `S`, `A`. The channels are compared with the core `updateChannelAdapt` leaves, that
is after the NLMS update of this call. -/
theorem channel_arbitration (aecm : AecmCore) (fs : List Int) (q : Int) (dfa : List Int)
    (mu : Int) (ee : List Int) (c S A : Int)
    (hout : ¬ (aecm.startupState = 0 ∧ aecm.currentVADValue % 2 ≠ 0))
    (hcnt : 0 ≤ aecm.mseChannelCount ∧ aecm.mseChannelCount ≤ 29)
    (hn : ∀ i : Nat, i < 20 →
      -32768 ≤ aecm.nearLogEnergy.getD i 0 ∧ aecm.nearLogEnergy.getD i 0 ≤ 32767)
    (hs : ∀ i : Nat, i < 20 →
      -32768 ≤ aecm.echoStoredLogEnergy.getD i 0 ∧ aecm.echoStoredLogEnergy.getD i 0 ≤ 32767)
    (ha : ∀ i : Nat, i < 20 →
      -32768 ≤ aecm.echoAdaptLogEnergy.getD i 0 ∧ aecm.echoAdaptLogEnergy.getD i 0 ≤ 32767)
    (hold : (0 ≤ aecm.mseStoredOld ∧ aecm.mseStoredOld ≤ 1310700) ∧
      (0 ≤ aecm.mseAdaptOld ∧ aecm.mseAdaptOld ≤ 1310700))
    (hc : c = if aecm.farLogEnergy < aecm.farEnergyMSE then 0 else aecm.mseChannelCount + 1)
    (hS : S = absDiffSum aecm.echoStoredLogEnergy aecm.nearLogEnergy MIN_MSE_COUNT)
    (hA : A = absDiffSum aecm.echoAdaptLogEnergy aecm.nearLogEnergy MIN_MSE_COUNT) :
    (c ≥ (MIN_MSE_COUNT : Int) + 10 ↔ c = 30) ∧
    (WebRtcAecm_UpdateChannel aecm fs q dfa mu ee).1.mseChannelCount =
      (if c = 30 then 0 else c) ∧
    (WebRtcAecm_UpdateChannel aecm fs q dfa mu ee).1.mseStoredOld =
      (if c = 30 then S else aecm.mseStoredOld) ∧
    (WebRtcAecm_UpdateChannel aecm fs q dfa mu ee).1.mseAdaptOld =
      (if c = 30 then A else aecm.mseAdaptOld) ∧
    (WebRtcAecm_UpdateChannel aecm fs q dfa mu ee).1.channelAdapt16 =
      (if c = 30 ∧ (32 * S < 29 * A ∧ 32 * aecm.mseStoredOld < 29 * aecm.mseAdaptOld) then
        memcpyList (updateChannelAdapt aecm fs q dfa mu).channelAdapt16 0 aecm.channelStored 0
          PART_LEN1
      else (updateChannelAdapt aecm fs q dfa mu).channelAdapt16) ∧
    (WebRtcAecm_UpdateChannel aecm fs q dfa mu ee).1.channelAdapt32 =
      (if c = 30 ∧ (32 * S < 29 * A ∧ 32 * aecm.mseStoredOld < 29 * aecm.mseAdaptOld) then
        (ResetAdaptiveChannelC (updateChannelAdapt aecm fs q dfa mu)).channelAdapt32
      else (updateChannelAdapt aecm fs q dfa mu).channelAdapt32) ∧
    (WebRtcAecm_UpdateChannel aecm fs q dfa mu ee).1.channelStored =
      (if c = 30 ∧ ¬ (32 * S < 29 * A ∧ 32 * aecm.mseStoredOld < 29 * aecm.mseAdaptOld) ∧
          (29 * S > 32 * A ∧ A < aecm.mseThreshold ∧ aecm.mseAdaptOld < aecm.mseThreshold) then
        memcpyList aecm.channelStored 0 (updateChannelAdapt aecm fs q dfa mu).channelAdapt16 0
          PART_LEN1
      else aecm.channelStored) ∧
    (0 ≤ (WebRtcAecm_UpdateChannel aecm fs q dfa mu ee).1.mseChannelCount ∧
      (WebRtcAecm_UpdateChannel aecm fs q dfa mu ee).1.mseChannelCount ≤ 29) ∧
    (0 ≤ (WebRtcAecm_UpdateChannel aecm fs q dfa mu ee).1.mseStoredOld ∧
      (WebRtcAecm_UpdateChannel aecm fs q dfa mu ee).1.mseStoredOld ≤ 1310700) ∧
    (0 ≤ (WebRtcAecm_UpdateChannel aecm fs q dfa mu ee).1.mseAdaptOld ∧
      (WebRtcAecm_UpdateChannel aecm fs q dfa mu ee).1.mseAdaptOld ≤ 1310700) := by
  rw [updateChannel_eq]
  obtain ⟨f1, f2, f3, f4, f5, f6, f7, f8, f9, f10, f11, f12⟩ :=
    updateChannelAdapt_frame aecm fs q dfa mu
  generalize updateChannelAdapt aecm fs q dfa mu = a1 at *
  rw [← f1, ← f2] at hout
  rw [← f5] at hcnt
  rw [← f6] at hn
  rw [← f7] at hs
  rw [← f8] at ha
  rw [← f9, ← f10] at hold
  rw [← f3, ← f4, ← f5] at hc
  rw [← f6, ← f7] at hS
  rw [← f6, ← f8] at hA
  rw [← f9, ← f10, ← f11, ← f12]
  clear f1 f2 f3 f4 f5 f6 f7 f8 f9 f10 f11 f12
  obtain ⟨em, bS, bA⟩ := mseSums_spec a1 hn hs ha
  have hS2 : absDiffSum a1.echoStoredLogEnergy a1.nearLogEnergy 20 = S := hS.symm
  have hA2 : absDiffSum a1.echoAdaptLogEnergy a1.nearLogEnergy 20 = A := hA.symm
  rw [hS2, hA2] at em
  rw [hS2] at bS
  rw [hA2] at bA
  clear hS hA hS2 hA2 hn hs ha
  unfold updateChannelStore
  rw [if_neg hout]
  have hM : ((MIN_MSE_COUNT : Nat) : Int) + 10 = 30 := by decide
  rw [hM]
  have h32S : toInt32 (shl S MSE_RESOLUTION) = 32 * S := by
    unfold shl MSE_RESOLUTION
    rw [toInt32_of_range (by omega) (by omega)]
    omega
  have h32A : toInt32 (shl A MSE_RESOLUTION) = 32 * A := by
    unfold shl MSE_RESOLUTION
    rw [toInt32_of_range (by omega) (by omega)]
    omega
  have h29S : toInt32 (MIN_MSE_DIFF * S) = 29 * S := by
    unfold MIN_MSE_DIFF
    exact toInt32_of_range (by omega) (by omega)
  have h29A : toInt32 (MIN_MSE_DIFF * A) = 29 * A := by
    unfold MIN_MSE_DIFF
    exact toInt32_of_range (by omega) (by omega)
  have h32So : toInt32 (shl a1.mseStoredOld MSE_RESOLUTION) = 32 * a1.mseStoredOld := by
    unfold shl MSE_RESOLUTION
    rw [toInt32_of_range (by omega) (by omega)]
    omega
  have h29Ao : toInt32 (MIN_MSE_DIFF * a1.mseAdaptOld) = 29 * a1.mseAdaptOld := by
    unfold MIN_MSE_DIFF
    exact toInt32_of_range (by omega) (by omega)
  by_cases hfar : a1.farLogEnergy < a1.farEnergyMSE
  · rw [if_pos hfar] at hc
    have h30 : ¬ ((0 : Int) ≥ 30) := by decide
    have hne : ¬ (c = 30) := by omega
    simp only [hfar, if_true, h30, if_false, hne, false_and]
    exact ⟨⟨fun h => by omega, fun h => h.elim⟩, hc.symm, trivial, trivial, trivial, trivial,
      trivial, ⟨le_refl 0, by decide⟩, hold.1, hold.2⟩
  · rw [if_neg hfar] at hc
    have e16 : toInt16 (a1.mseChannelCount + 1) = c := by
      rw [toInt16_of_range (by omega) (by omega)]
      exact hc.symm
    by_cases h30 : c ≥ 30
    · have hc30 : c = 30 := by omega
      have em2 : mseSums { a1 with mseChannelCount := c } = (S, A) :=
        (mseSums_congr a1 _ rfl rfl rfl).trans em
      simp only [hfar, if_false, e16, h30, if_true]
      rw [em2]
      by_cases hD : 32 * S < 29 * A ∧ 32 * a1.mseStoredOld < 29 * a1.mseAdaptOld
      · simp only [h32S, h32A, h29S, h29A, h32So, h29Ao, hD, hc30, true_and, and_self,
          if_true]
        refine ⟨(reset_fields _).1, reset32_congr a1 _ rfl rfl, ?_, ⟨le_refl 0, by decide⟩,
          bS, bA⟩
        rw [(reset_fields _).2]
        simp only [not_true_eq_false, false_and, if_false]
      · by_cases hE : 29 * S > 32 * A ∧ A < a1.mseThreshold ∧ a1.mseAdaptOld < a1.mseThreshold
        · simp only [h32S, h32A, h29S, h29A, h32So, h29Ao, hD, hE, hc30, true_and, and_self,
            if_true, if_false, not_false_eq_true]
          exact ⟨(store_fields _ _ _).2.1, (store_fields _ _ _).2.2, (store_fields _ _ _).1,
            ⟨le_refl 0, by decide⟩, bS, bA⟩
        · simp only [h32S, h32A, h29S, h29A, h32So, h29Ao, hD, hE, hc30, true_and, and_self,
            if_true, if_false, not_false_eq_true, and_false, false_and]
          exact ⟨⟨le_refl 0, by decide⟩, bS, bA⟩
    · have hne : ¬ (c = 30) := by omega
      simp only [hfar, if_false, e16, h30, hne, false_and]
      exact ⟨trivial, trivial, trivial, trivial, trivial, trivial, trivial,
        ⟨by omega, by omega⟩, hold.1, hold.2⟩

/-- Witness for C23: the initialised core (8 kHz) with `mseChannelCount = 29`, no adaptation
(`mu = 0`): the count reaches 30, the sums are 0, and the count is reset to 0. -/
theorem channel_arbitration_witness :
    (WebRtcAecm_UpdateChannel { initialisedInstance.aecmCore with mseChannelCount := 29 }
      (List.replicate 65 0) 0 (List.replicate 65 0) 0
      (List.replicate 65 0)).1.mseChannelCount = (if (30 : Int) = 30 then 0 else 30) :=
  (channel_arbitration { initialisedInstance.aecmCore with mseChannelCount := 29 }
    (List.replicate 65 0) 0 (List.replicate 65 0) 0 (List.replicate 65 0) 30 0 0
    (by decide) (by decide) (by decide) (by decide) (by decide) (by decide) (by decide)
    (by decide) (by decide)).2.1


/-! ### Binary length -/

theorem bitLength_zero (fuel : Nat) : bitLength fuel 0 = 0 := by
  cases fuel <;> rfl

/-- With enough fuel, `bitLength fuel v` is the number of binary digits of `v`. -/
theorem bitLength_spec (fuel : Nat) :
    ∀ v : Nat, v ≠ 0 → v < 2 ^ fuel →
      v < 2 ^ bitLength fuel v ∧ 2 ^ bitLength fuel v ≤ 2 * v := by
  induction fuel with
  | zero =>
    intro v hv hf
    simp only [pow_zero] at hf
    omega
  | succ k ih =>
    intro v hv hf
    have e : bitLength (k + 1) v = bitLength k (v / 2) + 1 := by
      simp only [bitLength, hv, if_false]
    rw [e, pow_succ]
    rw [pow_succ] at hf
    by_cases h0 : v / 2 = 0
    · rw [h0, bitLength_zero]
      simp only [pow_zero]
      omega
    · have h := ih (v / 2) h0 (by omega)
      omega

/-- The fuel `v` is enough for `v`. -/
theorem bitLength_self (v : Nat) (hv : v ≠ 0) :
    v < 2 ^ bitLength v v ∧ 2 ^ bitLength v v ≤ 2 * v :=
  bitLength_spec v v hv (Nat.lt_two_pow v)

/-! ### Normalisation shift counts -/

/-- The leading-zero count of a positive 32-bit value `v`: `v * 2 ^ clz` fills bit 31. -/
theorem clz_spec (v : Int) (h0 : 0 < v) (h1 : v < 4294967296) :
    ∃ n : Nat, __clz_uint32 v = (n : Int) ∧ n ≤ 31 ∧
      (v + 1) * 2 ^ n ≤ 4294967296 ∧ 2147483648 ≤ v * 2 ^ n := by
  obtain ⟨m, rfl⟩ := Int.eq_ofNat_of_zero_le (le_of_lt h0)
  have hm0 : m ≠ 0 := by omega
  have hm : m < 2 ^ 32 := by
    have : m < 4294967296 := by omega
    simpa using this
  obtain ⟨b1, b2⟩ := bitLength_spec 32 m hm0 hm
  generalize hb : bitLength 32 m = bl at b1 b2
  have e2 : (2 : Nat) ^ 32 = 4294967296 := by norm_num
  have hbl : bl ≤ 32 := by
    by_contra hc
    have : 2 ^ 33 ≤ 2 ^ bl := Nat.pow_le_pow_right (by decide) (by omega)
    have e : (2 : Nat) ^ 33 = 8589934592 := by norm_num
    omega
  have hbl0 : 1 ≤ bl := by
    by_contra hc
    have : bl = 0 := by omega
    subst this
    simp only [pow_zero] at b1
    omega
  have e : 2 ^ bl * 2 ^ (32 - bl) = 2 ^ 32 := by
    rw [← pow_add]
    congr 1
    omega
  refine ⟨32 - bl, ?_, by omega, ?_, ?_⟩
  · have : ¬ ((m : Int) ≤ 0) := by omega
    simp only [__clz_uint32, this, if_false, Int.toNat_ofNat, hb]
    omega
  · have : (m + 1) * 2 ^ (32 - bl) ≤ 2 ^ bl * 2 ^ (32 - bl) :=
      Nat.mul_le_mul_right _ b1
    have h3 : (m + 1) * 2 ^ (32 - bl) ≤ 4294967296 := by omega
    exact_mod_cast h3
  · have : 2 ^ bl * 2 ^ (32 - bl) ≤ 2 * m * 2 ^ (32 - bl) := Nat.mul_le_mul_right _ b2
    have h3 : 2147483648 ≤ m * 2 ^ (32 - bl) := by
      have : 2 * m * 2 ^ (32 - bl) = 2 * (m * 2 ^ (32 - bl)) := by ring
      omega
    exact_mod_cast h3

/-- The leading-zero count of a magnitude `0 < v < W`, where `W * 2 ^ d = 2 ^ 32`,
is `r + d` with `(v + 1) * 2 ^ r ≤ W ≤ v * 2 ^ (r + 1)`. -/
theorem clz_norm (v W : Int) (d : Nat) (hW : W * 2 ^ d = 4294967296) (hd : 1 ≤ d)
    (h0 : 0 < v) (h1 : v < W) :
    ∃ r : Nat, __clz_uint32 v = (r : Int) + d ∧ r + d ≤ 31 ∧
      (v + 1) * 2 ^ r ≤ W ∧ W ≤ v * 2 ^ (r + 1) := by
  have hp : (0 : Int) < 2 ^ d := by positivity
  have hW0 : 0 < W := by omega
  have hWle : W ≤ 4294967296 := by nlinarith
  obtain ⟨n, hn, hn31, c1, c2⟩ := clz_spec v h0 (by omega)
  have hnd : d ≤ n := by
    by_contra hc
    have h5 : n ≤ d - 1 := by omega
    have h6 : (2 : Int) ^ n ≤ 2 ^ (d - 1) := pow_le_pow_right₀ (by norm_num) h5
    have h7 : (2 : Int) ^ d = 2 * 2 ^ (d - 1) := by
      rw [← pow_succ']
      congr 1
      omega
    have hq : (0 : Int) < 2 ^ (d - 1) := by positivity
    have h8 : v * 2 ^ n ≤ v * 2 ^ (d - 1) := mul_le_mul_of_nonneg_left h6 (le_of_lt h0)
    have h9 : v * 2 ^ (d - 1) < W * 2 ^ (d - 1) := mul_lt_mul_of_pos_right h1 hq
    rw [h7] at hW
    have : W * (2 * 2 ^ (d - 1)) = 2 * (W * 2 ^ (d - 1)) := by ring
    omega
  obtain ⟨r, rfl⟩ : ∃ r, n = r + d := ⟨n - d, by omega⟩
  refine ⟨r, by rw [hn]; push_cast; ring, hn31, ?_, ?_⟩
  · rw [pow_add, ← mul_assoc] at c1
    rw [← hW] at c1
    exact le_of_mul_le_mul_right c1 hp
  · rw [pow_add, ← mul_assoc] at c2
    have e : v * 2 ^ (r + 1) * 2 ^ d = 2 * (v * 2 ^ r * 2 ^ d) := by
      rw [pow_succ]
      ring
    have : W * 2 ^ d ≤ v * 2 ^ (r + 1) * 2 ^ d := by
      rw [e, hW]
      omega
    exact le_of_mul_le_mul_right this hp

/-- The shift-count property from the bounds of `clz_norm`, for the magnitude `v` of `a`
(`v = a` for positive `a`, `v = -a - 1` for negative `a`). -/
theorem isNormShift_of_bounds (W a v : Int) (r : Nat)
    (hv : (0 < a ∧ v = a) ∨ (a < 0 ∧ v = -a - 1))
    (c1 : (v + 1) * 2 ^ r ≤ W) (c2 : W ≤ v * 2 ^ (r + 1)) :
    IsNormShift W a (r : Int) := by
  have hp : (0 : Int) < 2 ^ r := by positivity
  have e : (2 : Int) ^ (r + 1) = 2 * 2 ^ r := by rw [pow_succ']
  rw [e] at c2
  unfold IsNormShift
  rw [Int.toNat_ofNat, e]
  rcases hv with ⟨ha, rfl⟩ | ⟨ha, rfl⟩
  · have e1 : (v + 1) * 2 ^ r = v * 2 ^ r + 2 ^ r := by ring
    have e2 : v * (2 * 2 ^ r) = 2 * (v * 2 ^ r) := by ring
    rw [e1] at c1
    rw [e2] at c2 ⊢
    have hx : 0 < v * 2 ^ r := by positivity
    generalize v * 2 ^ r = X at *
    generalize (2 : Int) ^ r = Y at *
    omega
  · have e1 : (-a - 1 + 1) * 2 ^ r = -(a * 2 ^ r) := by ring
    have e2 : (-a - 1) * (2 * 2 ^ r) = -(2 * (a * 2 ^ r)) - 2 * 2 ^ r := by ring
    have e3 : a * (2 * 2 ^ r) = 2 * (a * 2 ^ r) := by ring
    rw [e1] at c1
    rw [e2] at c2
    rw [e3]
    have hx : a * 2 ^ r < 0 := by nlinarith
    generalize a * 2 ^ r = X at *
    generalize (2 : Int) ^ r = Y at *
    omega

/-- The value of a 32-bit normalisation (`NormW32`, `WebRtcSpl_NormW32`: `d = 1`;
`WebRtcSpl_NormW16`: `d = 17`) for a non-zero `a` other than `-1`. -/
theorem norm_value (W a : Int) (d : Nat) (hW : W * 2 ^ d = 4294967296) (hd : 1 ≤ d)
    (hlo : -W ≤ a) (hhi : a < W) (h0 : a ≠ 0) (h1 : a ≠ -1) :
    0 < toUint32 (if a < 0 then -a - 1 else a) ∧
      IsNormShift W a
        (toInt16 (toUint32 (__clz_uint32 (toUint32 (if a < 0 then -a - 1 else a))) - d)) := by
  have hp : (1 : Int) ≤ 2 ^ d := one_le_pow₀ (by norm_num)
  have hWle : W ≤ 4294967296 := by nlinarith
  have hv0 : 0 < (if a < 0 then -a - 1 else a) := by split_ifs <;> omega
  have hvW : (if a < 0 then -a - 1 else a) < W := by split_ifs <;> omega
  have hvv : (0 < a ∧ (if a < 0 then -a - 1 else a) = a) ∨
      (a < 0 ∧ (if a < 0 then -a - 1 else a) = -a - 1) := by
    split_ifs with h
    · exact Or.inr ⟨h, rfl⟩
    · exact Or.inl ⟨by omega, rfl⟩
  generalize (if a < 0 then -a - 1 else a) = v at hv0 hvW hvv
  have ev : toUint32 v = v := by
    unfold toUint32
    omega
  rw [ev]
  obtain ⟨r, hr, hr31, c1, c2⟩ := clz_norm v W d hW hd hv0 hvW
  have er : toInt16 (toUint32 (__clz_uint32 v) - d) = (r : Int) := by
    rw [hr]
    unfold toInt16 toUint32
    omega
  rw [er]
  exact ⟨hv0, isNormShift_of_bounds W a v r hvv c1 c2⟩

/-- C40: for every 32-bit `a` other than `-1`, `NormW32` and `WebRtcSpl_NormW32` call
`__clz_uint32` with a positive argument and return the number of steps `a` can be
shifted left without leaving the `int32` range (0 for `a = 0`), and likewise
`WebRtcSpl_NormW16` for every 16-bit `a` other than `-1`; at `a = -1` all three call
`__clz_uint32(0)`, which violates its assertion `v > 0`. -/
theorem norm_shift_counts :
    (NormW32Asserted (-1) = none ∧ WebRtcSpl_NormW32Asserted (-1) = none ∧
      WebRtcSpl_NormW16Asserted (-1) = none) ∧
    (∀ a : Int, -2147483648 ≤ a → a < 2147483648 → a ≠ -1 →
      NormW32Asserted a = some (NormW32 a) ∧
      WebRtcSpl_NormW32Asserted a = some (WebRtcSpl_NormW32 a) ∧
      (a = 0 → NormW32 a = 0 ∧ WebRtcSpl_NormW32 a = 0) ∧
      (a ≠ 0 → IsNormShift 2147483648 a (NormW32 a) ∧
        IsNormShift 2147483648 a (WebRtcSpl_NormW32 a))) ∧
    (∀ a : Int, -32768 ≤ a → a < 32768 → a ≠ -1 →
      WebRtcSpl_NormW16Asserted a = some (WebRtcSpl_NormW16 a) ∧
      (a = 0 → WebRtcSpl_NormW16 a = 0) ∧
      (a ≠ 0 → IsNormShift 32768 a (WebRtcSpl_NormW16 a))) := by
  refine ⟨⟨by decide, by decide, by decide⟩, ?_, ?_⟩
  · intro a hlo hhi h1
    by_cases h0 : a = 0
    · subst h0
      exact ⟨by decide, by decide, fun _ => ⟨by decide, by decide⟩, fun h => absurd rfl h⟩
    · obtain ⟨hpos, hn⟩ := norm_value 2147483648 a 1 (by norm_num) (le_refl 1) hlo hhi h0 h1
      have hpos' : toUint32 (if a < 0 then -a - 1 else a) > 0 := hpos
      refine ⟨?_, ?_, fun h => absurd h h0, fun _ => ⟨?_, ?_⟩⟩
      · simp only [NormW32Asserted, NormW32, clzAsserted, h0, hpos', if_false, if_true,
          Option.map_some']
      · simp only [WebRtcSpl_NormW32Asserted, WebRtcSpl_NormW32, clzAsserted, h0, hpos',
          if_false, if_true, Option.map_some']
      · simp only [NormW32, h0, if_false]
        exact hn
      · simp only [WebRtcSpl_NormW32, h0, if_false]
        exact hn
  · intro a hlo hhi h1
    by_cases h0 : a = 0
    · subst h0
      exact ⟨by decide, fun _ => by decide, fun h => absurd rfl h⟩
    · obtain ⟨hpos, hn⟩ := norm_value 32768 a 17 (by norm_num) (by norm_num) hlo hhi h0 h1
      have hpos' : toUint32 (if a < 0 then -a - 1 else a) > 0 := hpos
      refine ⟨?_, fun h => absurd h h0, fun _ => ?_⟩
      · simp only [WebRtcSpl_NormW16Asserted, WebRtcSpl_NormW16, clzAsserted, h0, hpos',
          if_false, if_true, Option.map_some']
      · simp only [WebRtcSpl_NormW16, h0, if_false]
        exact hn

/-- Witness of C40 at `a = 12345` (18 free bits in 32, 2 in 16). -/
theorem norm_shift_counts_witness :
    NormW32Asserted 12345 = some 17 ∧ IsNormShift 2147483648 12345 (NormW32 12345) ∧
      WebRtcSpl_NormW16Asserted 12345 = some 1 ∧
      IsNormShift 32768 12345 (WebRtcSpl_NormW16 12345) :=
  have h := norm_shift_counts
  ⟨(h.2.1 12345 (by decide) (by decide) (by decide)).1.trans (by decide),
    ((h.2.1 12345 (by decide) (by decide) (by decide)).2.2.2 (by decide)).1,
    (h.2.2 12345 (by decide) (by decide) (by decide)).1.trans (by decide),
    (h.2.2 12345 (by decide) (by decide) (by decide)).2.2 (by decide)⟩

/-! ### The random generator of the comfort noise -/

/-- Masking a natural number with `2 ^ 31 - 1` keeps its 31 low bits. -/
theorem land_mask31 (x : Int) (h : 0 ≤ x) : Int.land x (2147483648 - 1) = x % 2147483648 := by
  obtain ⟨n, rfl⟩ := Int.eq_ofNat_of_zero_le h
  have e : Int.land (n : Int) (2147483648 - 1) = ((n &&& (2 ^ 31 - 1) : Nat) : Int) := rfl
  rw [e, Nat.and_pow_two_sub_one_eq_mod]
  norm_num

/-- The closed form of `IncreaseSeed`. -/
theorem increaseSeed_eq (seed : Int) : IncreaseSeed seed = (seed * 69069 + 1) % 2147483648 := by
  have d : (2147483648 : Int) ∣ 4294967296 := ⟨2, by norm_num⟩
  unfold IncreaseSeed
  rw [land_mask31 _ (by unfold toUint32; omega)]
  unfold toUint32
  have e : (seed * 69069 % 4294967296 + 1) % 4294967296 % 2147483648 =
      (seed * 69069 + 1) % 2147483648 := by
    rw [Int.emod_emod_of_dvd _ d, Int.add_emod, Int.emod_emod_of_dvd _ d, ← Int.add_emod]
  rw [e]
  generalize (seed * 69069 + 1) = y
  omega

/-- Every value produced by `WebRtcSpl_RandU` is in `[0, 32767]`. -/
theorem randU_range (seed : Int) :
    0 ≤ (WebRtcSpl_RandU seed).1 ∧ (WebRtcSpl_RandU seed).1 ≤ 32767 ∧
      (WebRtcSpl_RandU seed).2 = IncreaseSeed seed := by
  have e16 : (2 : Int) ^ 16 = 65536 := by norm_num
  simp only [WebRtcSpl_RandU, increaseSeed_eq, shr, toInt16, e16]
  generalize (seed * 69069 + 1) = y
  refine ⟨?_, ?_, trivial⟩ <;> omega

/-- Every entry of the vector filled by `WebRtcSpl_RandUArray` is in `[0, 32767]`. -/
theorem randUArray_range (n : Nat) (seed : Int) :
    (WebRtcSpl_RandUArray n seed).1.length = n ∧
      ∀ r ∈ (WebRtcSpl_RandUArray n seed).1, 0 ≤ r ∧ r ≤ 32767 := by
  unfold WebRtcSpl_RandUArray
  induction n with
  | zero =>
    rw [forRange_zero]
    exact ⟨rfl, fun r hr => absurd hr (List.not_mem_nil r)⟩
  | succ k ih =>
    rw [forRange_succ]
    obtain ⟨h1, h2⟩ := ih
    refine ⟨?_, ?_⟩
    · simp only [List.length_append, List.length_singleton, h1]
    · intro r hr
      simp only [List.mem_append, List.mem_singleton] at hr
      rcases hr with hr | hr
      · exact h2 r hr
      · rw [hr]
        exact ⟨(randU_range _).1, (randU_range _).2.1⟩

set_option maxRecDepth 8000 in
/-- The cosine table has 360 entries. -/
theorem kCosTable_length : WebRtcAecm_kCosTable.length = 360 := by
  decide

set_option maxRecDepth 8000 in
/-- The sine table has 360 entries. -/
theorem kSinTable_length : WebRtcAecm_kSinTable.length = 360 := by
  decide

/-- C39: `IncreaseSeed` replaces the seed by `(seed * 69069 + 1) mod 2 ^ 31`; every
value returned by `WebRtcSpl_RandU`, and every entry of the array that `ComfortNoise`
draws with `WebRtcSpl_RandUArray`, is in `[0, 32767]`; and for such a value `r` the
table index `(359 * r) >> 15` is in `[0, 359]`, inside the 360 entries of
`WebRtcAecm_kCosTable` and `WebRtcAecm_kSinTable`. -/
theorem comfort_noise_table_index :
    (∀ seed : Int, IncreaseSeed seed = (seed * 69069 + 1) % 2147483648) ∧
    (∀ seed : Int, 0 ≤ (WebRtcSpl_RandU seed).1 ∧ (WebRtcSpl_RandU seed).1 ≤ 32767 ∧
      (WebRtcSpl_RandU seed).2 = IncreaseSeed seed) ∧
    (∀ (seed : Int) (i : Nat),
      0 ≤ (WebRtcSpl_RandUArray PART_LEN seed).1.getD i 0 ∧
        (WebRtcSpl_RandUArray PART_LEN seed).1.getD i 0 ≤ 32767) ∧
    (∀ r : Int, 0 ≤ r → r ≤ 32767 →
      0 ≤ toInt16 (shr (359 * r) 15) ∧ toInt16 (shr (359 * r) 15) ≤ 359 ∧
        (toInt16 (shr (359 * r) 15)).toNat < WebRtcAecm_kCosTable.length ∧
        (toInt16 (shr (359 * r) 15)).toNat < WebRtcAecm_kSinTable.length) := by
  refine ⟨increaseSeed_eq, randU_range, ?_, ?_⟩
  · intro seed i
    obtain ⟨hl, hr⟩ := randUArray_range PART_LEN seed
    by_cases hi : i < (WebRtcSpl_RandUArray PART_LEN seed).1.length
    · rw [List.getD_eq_getElem _ _ hi]
      exact hr _ (List.getElem_mem hi)
    · rw [List.getD_eq_default _ _ (by omega)]
      exact ⟨le_refl 0, by decide⟩
  · intro r h0 h1
    have hc := kCosTable_length
    have hs := kSinTable_length
    have e15 : (2 : Int) ^ 15 = 32768 := by norm_num
    rw [hc, hs]
    unfold toInt16 shr
    rw [e15]
    have q0 : 0 ≤ 359 * r / 32768 := Int.ediv_nonneg (by omega) (by norm_num)
    have q1 : 359 * r / 32768 < 359 := Int.ediv_lt_of_lt_mul (by norm_num) (by omega)
    generalize 359 * r / 32768 = q at q0 q1
    refine ⟨?_, ?_, ?_, ?_⟩ <;> omega

/-- Witness of C39 at the largest generator value `r = 32767`: the index is 358. -/
theorem comfort_noise_table_index_witness :
    0 ≤ toInt16 (shr (359 * 32767) 15) ∧ toInt16 (shr (359 * 32767) 15) ≤ 359 ∧
      (toInt16 (shr (359 * 32767) 15)).toNat < WebRtcAecm_kCosTable.length ∧
      (toInt16 (shr (359 * 32767) 15)).toNat < WebRtcAecm_kSinTable.length :=
  comfort_noise_table_index.2.2.2 32767 (by norm_num) (by norm_num)

/-! ### Creation of the far-end delay estimator -/

/-- C37: `WebRtc_CreateDelayEstimatorFarend` returns an estimator exactly when
`spectrum_size >= kBandLast = 43` and `history_size > 1`; the estimator has a mean
spectrum of `spectrum_size` elements, which holds all bins `12..43` read by
`BinarySpectrumFix` when `spectrum_size >= 44`; but `spectrum_size = 43` is accepted
too, and then bin `kBandLast = 43` lies outside the 43 elements. -/
theorem create_farend_spectrum_size :
    (∀ s h : Int, (WebRtc_CreateDelayEstimatorFarend s h).isSome = true ↔
      (s ≥ 43 ∧ h > 1)) ∧
    (∀ (s h : Int) (e : DelayEstimatorFarend),
      WebRtc_CreateDelayEstimatorFarend s h = some e →
        e.spectrum_size = s ∧ e.mean_far_spectrum.length = s.toNat ∧
        (s ≥ 44 → ∀ i : Nat, kBandFirst ≤ i → i ≤ kBandLast →
          i < e.mean_far_spectrum.length)) ∧
    (∃ e : DelayEstimatorFarend, WebRtc_CreateDelayEstimatorFarend 43 2 = some e ∧
      e.spectrum_size = 43 ∧ e.mean_far_spectrum.length = 43 ∧
      ¬ (kBandLast < e.mean_far_spectrum.length)) := by
  refine ⟨?_, ?_, ?_⟩
  · intro s h
    unfold WebRtc_CreateDelayEstimatorFarend WebRtc_CreateBinaryDelayEstimatorFarend
    simp only [kBandLast, Nat.cast_ofNat]
    by_cases hs : s ≥ 43
    · by_cases hh : h > 1
      · simp only [hs, hh, if_true, Option.isSome_some, and_self]
      · simp only [hs, hh, if_true, if_false, Option.isSome_none, and_false]
        decide
    · simp only [hs, if_false, Option.isSome_none, false_and]
      decide
  · intro s h e he
    unfold WebRtc_CreateDelayEstimatorFarend WebRtc_CreateBinaryDelayEstimatorFarend at he
    simp only [kBandLast, Nat.cast_ofNat] at he
    by_cases hs : s ≥ 43
    · by_cases hh : h > 1
      · simp only [hs, hh, if_true, Option.some.injEq] at he
        subst he
        refine ⟨rfl, List.length_replicate _ _, ?_⟩
        intro h44 i _ hi
        simp only [List.length_replicate]
        simp only [kBandLast] at hi
        omega
      · simp only [hs, hh, if_true, if_false] at he
        exact absurd he (by simp)
    · simp only [hs, if_false] at he
      exact absurd he (by simp)
  · exact ⟨_, rfl, rfl, rfl, by decide⟩

/-- Witness of C37 for the sizes the echo canceller uses (`PART_LEN1 = 65` bins,
`MAX_DELAY = 100` blocks): every bin `12..43` is inside the mean spectrum. -/
theorem create_farend_spectrum_size_witness :
    (WebRtc_CreateDelayEstimatorFarend 65 100).isSome = true ∧
      ((WebRtc_CreateDelayEstimatorFarend 65 100).map
        (fun e => decide (e.spectrum_size = 65 ∧ e.mean_far_spectrum.length = 65))) =
        some true :=
  ⟨(create_farend_spectrum_size.1 65 100).2 ⟨by decide, by decide⟩, by decide⟩

/-! ### Failing configuration calls -/

/-- C38 (amended): a `WebRtcAecm_set_config` call that returns a non-zero code leaves
`echoMode`, `supGain`, `supGainOld` and the four `supGainErrParam` fields unchanged;
the core `cngMode` keeps its value too, except when the instance is initialised and
`config.cngMode` is valid (then `echoMode` is out of range and `config.cngMode` has
already been written). No other field changes. -/
theorem set_config_failure_state (aecm : AecMobile) (config : AecmConfig)
    (h : (WebRtcAecm_set_config (some aecm) config).1 ≠ 0) :
    ∃ a : AecMobile, (WebRtcAecm_set_config (some aecm) config).2 = some a ∧
      a = { aecm with aecmCore := { aecm.aecmCore with cngMode := a.aecmCore.cngMode } } ∧
      a.aecmCore.cngMode =
        (if aecm.initFlag = 42 ∧ (config.cngMode = 0 ∨ config.cngMode = 1)
          then config.cngMode else aecm.aecmCore.cngMode) ∧
      a.echoMode = aecm.echoMode ∧ a.aecmCore.supGain = aecm.aecmCore.supGain ∧
      a.aecmCore.supGainOld = aecm.aecmCore.supGainOld ∧
      a.aecmCore.supGainErrParamA = aecm.aecmCore.supGainErrParamA ∧
      a.aecmCore.supGainErrParamD = aecm.aecmCore.supGainErrParamD ∧
      a.aecmCore.supGainErrParamDiffAB = aecm.aecmCore.supGainErrParamDiffAB ∧
      a.aecmCore.supGainErrParamDiffBD = aecm.aecmCore.supGainErrParamDiffBD := by
  unfold WebRtcAecm_set_config at h ⊢
  dsimp only at h ⊢
  by_cases hi : aecm.initFlag ≠ kInitCheck
  · rw [if_pos hi]
    have hn : ¬ (aecm.initFlag = 42 ∧ (config.cngMode = 0 ∨ config.cngMode = 1)) :=
      fun hh => hi hh.1
    refine ⟨aecm, rfl, rfl, ?_, rfl, rfl, rfl, rfl, rfl, rfl, rfl⟩
    rw [if_neg hn]
  · rw [if_neg hi] at h ⊢
    have hi' : aecm.initFlag = 42 := not_not.mp hi
    by_cases hc : config.cngMode ≠ AecmFalse ∧ config.cngMode ≠ AecmTrue
    · rw [if_pos hc]
      have hn : ¬ (aecm.initFlag = 42 ∧ (config.cngMode = 0 ∨ config.cngMode = 1)) := by
        simp only [AecmFalse, AecmTrue] at hc
        omega
      refine ⟨aecm, rfl, rfl, ?_, rfl, rfl, rfl, rfl, rfl, rfl, rfl⟩
      rw [if_neg hn]
    · rw [if_neg hc] at h ⊢
      have hp : aecm.initFlag = 42 ∧ (config.cngMode = 0 ∨ config.cngMode = 1) := by
        simp only [AecmFalse, AecmTrue] at hc
        omega
      by_cases he : config.echoMode < 0 ∨ config.echoMode > 4
      · rw [if_pos he]
        refine ⟨_, rfl, rfl, ?_, rfl, rfl, rfl, rfl, rfl, rfl, rfl⟩
        rw [if_pos hp]
      · rw [if_neg he] at h
        exact absurd rfl h

/-- Witness of C38 (amended): an invalid `cngMode` on the initialised instance. -/
theorem set_config_failure_state_witness :
    ∃ a : AecMobile,
      (WebRtcAecm_set_config (some initialisedInstance) { cngMode := 2, echoMode := 3 }).2 =
        some a ∧
      a = { initialisedInstance with
            aecmCore := { initialisedInstance.aecmCore with cngMode := a.aecmCore.cngMode } } ∧
      a.aecmCore.cngMode =
        (if initialisedInstance.initFlag = 42 ∧ ((2 : Int) = 0 ∨ (2 : Int) = 1)
          then 2 else initialisedInstance.aecmCore.cngMode) ∧
      a.echoMode = initialisedInstance.echoMode ∧
      a.aecmCore.supGain = initialisedInstance.aecmCore.supGain ∧
      a.aecmCore.supGainOld = initialisedInstance.aecmCore.supGainOld ∧
      a.aecmCore.supGainErrParamA = initialisedInstance.aecmCore.supGainErrParamA ∧
      a.aecmCore.supGainErrParamD = initialisedInstance.aecmCore.supGainErrParamD ∧
      a.aecmCore.supGainErrParamDiffAB = initialisedInstance.aecmCore.supGainErrParamDiffAB ∧
      a.aecmCore.supGainErrParamDiffBD = initialisedInstance.aecmCore.supGainErrParamDiffBD :=
  set_config_failure_state initialisedInstance { cngMode := 2, echoMode := 3 } (by decide)

/-- Counterexample to C38 as stated: on the initialised instance (comfort noise on) the
call with `cngMode = 0` and the invalid `echoMode = 5` returns
`AECM_BAD_PARAMETER_ERROR` and has switched the core `cngMode` to 0. -/
theorem set_config_failure_counterexample :
    initialisedInstance.aecmCore.cngMode = 1 ∧
      (WebRtcAecm_set_config (some initialisedInstance) { cngMode := 0, echoMode := 5 }).1 =
        12004 ∧
      ((WebRtcAecm_set_config (some initialisedInstance) { cngMode := 0, echoMode := 5 }).2.map
        (fun a => a.aecmCore.cngMode)) = some 0 := by
  refine ⟨by rfl, by rfl, by rfl⟩

/-! ### Delay compensation of the far-end FIFO -/

/-- The far-end FIFO after `WebRtcAecm_DelayComp`: only the read cursor moves, backwards,
by at most `10 * FRAME_LEN = 800` elements. -/
theorem delayComp_ring (aecm : AecMobile)
    (hN : 2 * aecm.farendBuf.element_count ≤ INT_MAX) (h : RingInv aecm.farendBuf) :
    RingInv (WebRtcAecm_DelayComp aecm).farendBuf ∧
      (WebRtcAecm_DelayComp aecm).farendBuf.element_count = aecm.farendBuf.element_count ∧
      (WebRtcAecm_DelayComp aecm).farendBuf.write_pos = aecm.farendBuf.write_pos ∧
      (WebRtcAecm_DelayComp aecm).farendBuf.data = aecm.farendBuf.data ∧
      WebRtc_available_read aecm.farendBuf ≤
        WebRtc_available_read (WebRtcAecm_DelayComp aecm).farendBuf ∧
      WebRtc_available_read (WebRtcAecm_DelayComp aecm).farendBuf ≤
        WebRtc_available_read aecm.farendBuf + 10 * FRAME_LEN := by
  unfold WebRtcAecm_DelayComp
  lift_lets
  intro nSampFar maxStuffSamp nSampSndCard delayNew n0 n1 nSampAdd
  have hadd : 80 ≤ nSampAdd ∧ nSampAdd ≤ 800 := by
    simp only [nSampAdd, n1, maxStuffSamp, FRAME_LEN]
    clear_value n0
    split_ifs <;> omega
  clear_value nSampAdd n0 delayNew nSampSndCard nSampFar
  by_cases hc : delayNew > (FAR_BUF_LEN : Int) - FRAME_LEN * aecm.aecmCore.mult
  · rw [if_pos hc]
    obtain ⟨m1, m2, m3, m4, m5, m6⟩ := move_props hN h (-nSampAdd)
    refine ⟨m1, m2, m3, m4, ?_, ?_⟩
    · show WebRtc_available_read aecm.farendBuf ≤
        WebRtc_available_read (WebRtc_MoveReadPtr aecm.farendBuf (-nSampAdd)).2
      rw [m5] at m6
      omega
    · show WebRtc_available_read (WebRtc_MoveReadPtr aecm.farendBuf (-nSampAdd)).2 ≤
        WebRtc_available_read aecm.farendBuf + 10 * FRAME_LEN
      rw [m5] at m6
      unfold FRAME_LEN
      omega
  · rw [if_neg hc]
    exact ⟨h, rfl, rfl, rfl, le_refl _, Nat.le_add_right _ _⟩

/-- C34 (amended): a `WebRtcAecm_BufferFarend` call on an armed instance (initialised,
start-up finished) with 80 or 160 samples returns 0 and writes the samples to the
far-end FIFO left by `WebRtcAecm_DelayComp`, and the stuffing of `WebRtcAecm_DelayComp`
moves the read cursor of that FIFO backwards by at most `10 * FRAME_LEN = 800` samples:
the number of readable samples grows by at most 800, nothing else in the FIFO changes. -/
theorem bufferFarend_rewind_bound (aecm : AecMobile) (farend : List Int) (n : Nat)
    (hi : aecm.initFlag = 42) (hs : aecm.ECstartup = 0) (hn : n = 80 ∨ n = 160)
    (hN : 2 * aecm.farendBuf.element_count ≤ INT_MAX) (h : RingInv aecm.farendBuf) :
    WebRtcAecm_BufferFarend (some aecm) (some farend) n =
      (0, some { WebRtcAecm_DelayComp aecm with
                 farendBuf :=
                   (WebRtc_WriteBuffer (WebRtcAecm_DelayComp aecm).farendBuf farend n).2 }) ∧
      (WebRtcAecm_DelayComp aecm).farendBuf.write_pos = aecm.farendBuf.write_pos ∧
      (WebRtcAecm_DelayComp aecm).farendBuf.data = aecm.farendBuf.data ∧
      WebRtc_available_read aecm.farendBuf ≤
        WebRtc_available_read (WebRtcAecm_DelayComp aecm).farendBuf ∧
      WebRtc_available_read (WebRtcAecm_DelayComp aecm).farendBuf ≤
        WebRtc_available_read aecm.farendBuf + 10 * FRAME_LEN := by
  obtain ⟨-, -, d3, d4, d5, d6⟩ := delayComp_ring aecm hN h
  refine ⟨?_, d3, d4, d5, d6⟩
  have he : WebRtcAecm_GetBufferFarendError (some aecm) (some farend) n = 0 := by
    have hn' : ¬ (n ≠ 80 ∧ n ≠ 160) := by omega
    simp only [WebRtcAecm_GetBufferFarendError, Option.isNone_some, hi, kInitCheck, hn',
      ne_eq, not_true_eq_false, if_false, Bool.false_eq_true]
  unfold WebRtcAecm_BufferFarend
  simp only [he, ne_eq, not_true_eq_false, if_false, hs, if_true]

/-! ### The probability of the last delay -/

/-- The `last_delay_probability` after a `WebRtc_ProcessBinarySpectrum` call with matching
history sizes: the incremented value, lowered to the best candidate value when the call
updates the delay estimate. -/
theorem process_last_delay_probability (e : BinaryDelayEstimator)
    (f : BinaryDelayEstimatorFarend) (x : Int) (hsz : f.history_size = e.history_size) :
    (WebRtc_ProcessBinarySpectrum e f x).2.last_delay_probability =
      if confirmsUpdate e f x = true then
        min (binaryStatistics e f x).candidate.value_best_candidate
          (toInt32 (e.last_delay_probability + 1))
      else toInt32 (e.last_delay_probability + 1) := by
  unfold WebRtc_ProcessBinarySpectrum confirmsUpdate
  rw [if_neg (not_not.mpr hsz)]
  lift_lets
  intro st s2 valid_candidate
  have h0 : st.state.last_delay_probability = toInt32 (e.last_delay_probability + 1) := rfl
  have h2 : s2.last_delay_probability = toInt32 (e.last_delay_probability + 1) := by
    simp only [s2]
    split_ifs
    · exact h0
    · exact h0
  clear_value s2 valid_candidate
  simp only [decide_eq_true_eq]
  by_cases hc : st.non_stationary_farend ≠ 0 ∧ valid_candidate ≠ 0
  · rw [if_pos hc, if_pos hc]
    have ha : (acceptCandidate s2 st.candidate).last_delay_probability =
        if st.candidate.value_best_candidate < s2.last_delay_probability then
          st.candidate.value_best_candidate
        else s2.last_delay_probability := by
      unfold acceptCandidate
      dsimp only
      split_ifs <;> rfl
    show (acceptCandidate s2 st.candidate).last_delay_probability = _
    rw [ha, h2]
    split_ifs with hlt
    · exact (min_eq_left (le_of_lt hlt)).symm
    · exact (min_eq_right (not_lt.mp hlt)).symm
  · rw [if_neg hc, if_neg hc]
    exact h2

/-- The best candidate value of a call on a state that satisfies `DelayInv` is in
`[0, 16384]`, and for a positive history size it is the minimum of the updated
`mean_bit_counts`. -/
theorem best_candidate_spec (e : BinaryDelayEstimator) (f : BinaryDelayEstimatorFarend)
    (x : Int) (hsz : f.history_size = e.history_size) (hinv : DelayInv f e) :
    (0 ≤ (binaryStatistics e f x).candidate.value_best_candidate ∧
      (binaryStatistics e f x).candidate.value_best_candidate ≤ 16384) ∧
    (0 < e.history_size →
      (∃ k : Nat, (k : Int) < e.history_size ∧
        (WebRtc_ProcessBinarySpectrum e f x).2.mean_bit_counts.getD k 0 =
          (binaryStatistics e f x).candidate.value_best_candidate) ∧
      ∀ j : Nat, (j : Int) < e.history_size →
        (binaryStatistics e f x).candidate.value_best_candidate ≤
          (WebRtc_ProcessBinarySpectrum e f x).2.mean_bit_counts.getD j 0) := by
  have hinv' := delayInv_process f e x hinv
  obtain ⟨-, m2, m3, -⟩ := process_match e f x hsz
  have hm : ∀ i : Nat, i < e.history_size.toNat →
      0 ≤ (WebRtc_ProcessBinarySpectrum e f x).2.mean_bit_counts.getD i 0 ∧
      (WebRtc_ProcessBinarySpectrum e f x).2.mean_bit_counts.getD i 0 < 16384 := by
    intro i hi
    exact hinv'.2.1 i (by rw [m2]; omega)
  obtain ⟨a1, a2, a3⟩ := findCandidate_argmin _ e.history_size.toNat hm
  have hcand : (binaryStatistics e f x).candidate =
      forRange e.history_size.toNat
        (candidateStep (WebRtc_ProcessBinarySpectrum e f x).2.mean_bit_counts)
        { candidate_delay := -1, value_best_candidate := kMaxBitCountsQ9,
          value_worst_candidate := 0 } := by
    rw [m3]
    rfl
  rw [hcand]
  by_cases hpos : 0 < e.history_size
  · obtain ⟨k, w, c1, c2, c3, c4, c5, c6⟩ := a2 (by omega)
    have hk := hm k c2
    refine ⟨by rw [← c4]; omega, fun _ => ⟨⟨k, by omega, c4⟩, ?_⟩⟩
    intro j hj
    exact (a1 j (by omega)).1
  · have hz := (a3 (by omega)).1
    refine ⟨by rw [hz]; omega, fun hp => absurd hp hpos⟩

/-- C31 (amended): in every `WebRtc_ProcessBinarySpectrum` call (matching history sizes,
on a state reachable from the two initialisations) that confirms an update,
`last_delay_probability` is afterwards the smaller of `best` and its previous value plus
1; in every other call it is its previous value plus 1. Here `best` is the minimum of the
updated `mean_bit_counts`. -/
theorem last_delay_probability_rule (f0 f : BinaryDelayEstimatorFarend)
    (e0 e : BinaryDelayEstimator) (x : Int) (h : DelayReachable f0 e0 f e)
    (hsz : f.history_size = e.history_size) (hpos : 0 < e.history_size)
    (hlo : -2147483648 ≤ e.last_delay_probability)
    (hhi : e.last_delay_probability < 2147483647) :
    (confirmsUpdate e f x = true →
      (WebRtc_ProcessBinarySpectrum e f x).2.last_delay_probability =
        min (binaryStatistics e f x).candidate.value_best_candidate
          (e.last_delay_probability + 1)) ∧
    (confirmsUpdate e f x = false →
      (WebRtc_ProcessBinarySpectrum e f x).2.last_delay_probability =
        e.last_delay_probability + 1) ∧
    (∃ k : Nat, (k : Int) < e.history_size ∧
      (WebRtc_ProcessBinarySpectrum e f x).2.mean_bit_counts.getD k 0 =
        (binaryStatistics e f x).candidate.value_best_candidate) ∧
    (∀ j : Nat, (j : Int) < e.history_size →
      (binaryStatistics e f x).candidate.value_best_candidate ≤
        (WebRtc_ProcessBinarySpectrum e f x).2.mean_bit_counts.getD j 0) := by
  have hp := process_last_delay_probability e f x hsz
  rw [toInt32_of_range (by omega) (by omega)] at hp
  obtain ⟨-, b2⟩ := best_candidate_spec e f x hsz (delayInv_reachable f0 e0 f e h)
  refine ⟨fun hc => ?_, fun hc => ?_, (b2 hpos).1, (b2 hpos).2⟩
  · rw [hp, if_pos hc]
  · rw [hp, if_neg (by rw [hc]; decide)]

/-- Witness of C31 (amended): the first call after the initialisations and one far-end
spectrum does not confirm an update; the probability goes from 16384 to 16385. -/
theorem last_delay_probability_rule_witness :
    (WebRtc_ProcessBinarySpectrum (WebRtc_InitBinaryDelayEstimator delayEstimator0)
      (WebRtc_AddBinaryFarSpectrum (WebRtc_InitBinaryDelayEstimatorFarend delayFarend0) 5)
      3).2.last_delay_probability =
    (WebRtc_InitBinaryDelayEstimator delayEstimator0).last_delay_probability + 1 :=
  (last_delay_probability_rule delayFarend0
    (WebRtc_AddBinaryFarSpectrum (WebRtc_InitBinaryDelayEstimatorFarend delayFarend0) 5)
    delayEstimator0 (WebRtc_InitBinaryDelayEstimator delayEstimator0) 3
    (.add 5 (by decide) (by decide) .init) (by decide) (by decide) (by decide)
    (by decide)).2.1 (by decide)

/-- Counterexample to C31 as stated: after `driftInputs` the estimate has been confirmed
with `last_delay_probability = 9538`; the next call (far end `0xFFFFFFFF`, near end 0)
confirms an update again, with `best = 9591`, and leaves `last_delay_probability` at
`9538 + 1 = 9539`, not at `best`. -/
theorem last_delay_probability_counterexample :
    confirmsUpdate (delayRun driftInputs).2
        (WebRtc_AddBinaryFarSpectrum (delayRun driftInputs).1 4294967295) 0 = true ∧
      (binaryStatistics (delayRun driftInputs).2
        (WebRtc_AddBinaryFarSpectrum (delayRun driftInputs).1 4294967295)
        0).candidate.value_best_candidate = 9591 ∧
      (delayRun driftInputs).2.last_delay_probability = 9538 ∧
      (WebRtc_ProcessBinarySpectrum (delayRun driftInputs).2
        (WebRtc_AddBinaryFarSpectrum (delayRun driftInputs).1 4294967295)
        0).2.last_delay_probability = 9539 := by
  decide!

/-! ### The adaptive threshold `minimum_probability` -/

/-- The `minimum_probability` after a `WebRtc_ProcessBinarySpectrum` call with matching
history sizes is the one the statistics part computes. -/
theorem process_minimum_probability (e : BinaryDelayEstimator)
    (f : BinaryDelayEstimatorFarend) (x : Int) (hsz : f.history_size = e.history_size) :
    (WebRtc_ProcessBinarySpectrum e f x).2.minimum_probability =
      (binaryStatistics e f x).state.minimum_probability := by
  unfold WebRtc_ProcessBinarySpectrum
  rw [if_neg (not_not.mpr hsz)]
  lift_lets
  intro st s2 valid_candidate
  have h2 : s2.minimum_probability = st.state.minimum_probability := by
    simp only [s2]
    split_ifs
    · rfl
    · rfl
  clear_value s2 valid_candidate
  have ha : (acceptCandidate s2 st.candidate).minimum_probability =
      s2.minimum_probability := by
    unfold acceptCandidate
    dsimp only
    split_ifs <;> rfl
  show (if st.non_stationary_farend ≠ 0 ∧ valid_candidate ≠ 0 then
    acceptCandidate s2 st.candidate else s2).minimum_probability = _
  split_ifs
  · rw [ha, h2]
  · exact h2

/-- The threshold update of the statistics part, for a best candidate value in
`[0, 16384]`. -/
theorem statistics_minimum_probability (e : BinaryDelayEstimator)
    (f : BinaryDelayEstimatorFarend) (x : Int)
    (hb : 0 ≤ (binaryStatistics e f x).candidate.value_best_candidate ∧
      (binaryStatistics e f x).candidate.value_best_candidate ≤ 16384) :
    (binaryStatistics e f x).state.minimum_probability =
      if (binaryStatistics e f x).valley_depth > 2816 ∧
          max ((binaryStatistics e f x).candidate.value_best_candidate + 1024) 8704 <
            e.minimum_probability then
        max ((binaryStatistics e f x).candidate.value_best_candidate + 1024) 8704
      else e.minimum_probability := by
  have hd : (binaryStatistics e f x).state.minimum_probability =
      if e.minimum_probability > kProbabilityLowerLimit ∧
          (binaryStatistics e f x).valley_depth > kProbabilityMinSpread then
        if e.minimum_probability >
            (if toInt32 ((binaryStatistics e f x).candidate.value_best_candidate +
                kProbabilityOffset) < kProbabilityLowerLimit then kProbabilityLowerLimit
              else toInt32 ((binaryStatistics e f x).candidate.value_best_candidate +
                kProbabilityOffset)) then
          (if toInt32 ((binaryStatistics e f x).candidate.value_best_candidate +
              kProbabilityOffset) < kProbabilityLowerLimit then kProbabilityLowerLimit
            else toInt32 ((binaryStatistics e f x).candidate.value_best_candidate +
              kProbabilityOffset))
        else e.minimum_probability
      else e.minimum_probability := rfl
  rw [hd]
  generalize (binaryStatistics e f x).candidate.value_best_candidate = b at hb ⊢
  generalize (binaryStatistics e f x).valley_depth = v
  unfold kProbabilityOffset kProbabilityLowerLimit kProbabilityMinSpread
  rw [toInt32_of_range (by omega) (by omega)]
  have hmax : max (b + 1024) 8704 = if b + 1024 < 8704 then 8704 else b + 1024 := by
    split_ifs with hlt
    · exact max_eq_right (le_of_lt hlt)
    · exact max_eq_left (not_lt.mp hlt)
  rw [hmax]
  generalize e.minimum_probability = m
  split_ifs <;> omega

/-- Bounds of `minimum_probability` in the reachable states. -/
theorem minimum_probability_bounds (f0 : BinaryDelayEstimatorFarend)
    (e0 : BinaryDelayEstimator) (f : BinaryDelayEstimatorFarend) (e : BinaryDelayEstimator)
    (h : DelayReachable f0 e0 f e) :
    8704 ≤ e.minimum_probability ∧ e.minimum_probability ≤ 16384 := by
  induction h with
  | init =>
    have e : (WebRtc_InitBinaryDelayEstimator e0).minimum_probability = 16384 := rfl
    rw [e]
    omega
  | add x _ _ _ ih => exact ih
  | @process f e x _ _ hr ih =>
    by_cases hsz : f.history_size = e.history_size
    · have hb := (best_candidate_spec e f x hsz (delayInv_reachable f0 e0 f e hr)).1
      rw [process_minimum_probability e f x hsz, statistics_minimum_probability e f x hb]
      generalize (binaryStatistics e f x).candidate.value_best_candidate = b at hb ⊢
      have hmax : max (b + 1024) 8704 = if b + 1024 < 8704 then 8704 else b + 1024 := by
        split_ifs with hlt
        · exact max_eq_right (le_of_lt hlt)
        · exact max_eq_left (not_lt.mp hlt)
      rw [hmax]
      split_ifs <;> omega
    · rw [process_mismatch e f x hsz]
      exact ih

/-- C32: `WebRtc_InitBinaryDelayEstimator` sets `minimum_probability` to
`32 * 512 = 16384`; in every state reachable by `WebRtc_AddBinaryFarSpectrum` and
`WebRtc_ProcessBinarySpectrum` calls it is in `[8704, 16384]`; a
`WebRtc_ProcessBinarySpectrum` call never increases it, and (when the call reaches the
computation, i.e. the history sizes match) it changes exactly when
`valley_depth > 2816` and `max(best + 1024, 8704)` is smaller than the current value,
and then to `max(best + 1024, 8704)`. -/
theorem minimum_probability_ratchet (f0 : BinaryDelayEstimatorFarend)
    (e0 : BinaryDelayEstimator) (f : BinaryDelayEstimatorFarend) (e : BinaryDelayEstimator)
    (h : DelayReachable f0 e0 f e) :
    (WebRtc_InitBinaryDelayEstimator e0).minimum_probability = 32 * 512 ∧
    (8704 ≤ e.minimum_probability ∧ e.minimum_probability ≤ 16384) ∧
    ∀ x : Int, 0 ≤ x → x < 4294967296 →
      (WebRtc_ProcessBinarySpectrum e f x).2.minimum_probability ≤ e.minimum_probability ∧
      8704 ≤ (WebRtc_ProcessBinarySpectrum e f x).2.minimum_probability ∧
      (f.history_size = e.history_size →
        (WebRtc_ProcessBinarySpectrum e f x).2.minimum_probability =
          if (binaryStatistics e f x).valley_depth > 2816 ∧
              max ((binaryStatistics e f x).candidate.value_best_candidate + 1024) 8704 <
                e.minimum_probability then
            max ((binaryStatistics e f x).candidate.value_best_candidate + 1024) 8704
          else e.minimum_probability) := by
  have hb := minimum_probability_bounds f0 e0 f e h
  refine ⟨rfl, hb, ?_⟩
  intro x hx0 hx1
  have hb' := minimum_probability_bounds f0 e0 f _ (.process x hx0 hx1 h)
  refine ⟨?_, hb'.1, ?_⟩
  · by_cases hsz : f.history_size = e.history_size
    · have hbest := (best_candidate_spec e f x hsz (delayInv_reachable f0 e0 f e h)).1
      rw [process_minimum_probability e f x hsz, statistics_minimum_probability e f x hbest]
      split_ifs with hc
      · exact le_of_lt hc.2
      · exact le_refl _
    · rw [process_mismatch e f x hsz]
  · intro hsz
    have hbest := (best_candidate_spec e f x hsz (delayInv_reachable f0 e0 f e h)).1
    rw [process_minimum_probability e f x hsz, statistics_minimum_probability e f x hbest]

/-- Witness of C32: the first call after the initialisations and one far-end spectrum
has a valley of depth 80 and leaves `minimum_probability` at 16384. -/
theorem minimum_probability_ratchet_witness :
    (WebRtc_ProcessBinarySpectrum (WebRtc_InitBinaryDelayEstimator delayEstimator0)
      (WebRtc_AddBinaryFarSpectrum (WebRtc_InitBinaryDelayEstimatorFarend delayFarend0)
        4294967295) 4294967295).2.minimum_probability = 16384 :=
  ((minimum_probability_ratchet delayFarend0 delayEstimator0
    (WebRtc_AddBinaryFarSpectrum (WebRtc_InitBinaryDelayEstimatorFarend delayFarend0)
      4294967295)
    (WebRtc_InitBinaryDelayEstimator delayEstimator0)
    (.add 4294967295 (by decide) (by decide) .init)).2.2 4294967295 (by decide)
    (by decide)).2.2 (by decide) |>.trans (by decide)

/-! ### The start-up check of the sound card latency -/

/-- The product `counter * nBlocks10ms` in `size_t`, for small values. -/
theorem sizeT_product (c : Int) (n : Nat) (h0 : 0 ≤ c) (h1 : c ≤ 100) (hn : n ≤ 2) :
    (toSizeT ((toSizeT c : Int) * n) : Int) = c * n := by
  rw [toSizeT_of_nonneg h0 (by omega)]
  have h3 : 0 ≤ c * n := by positivity
  have h4 : c * n ≤ 200 := by nlinarith
  exact toSizeT_of_nonneg h3 (by omega)

/-- One pass of the start-up check while it is running: it either ends with
`bufSizeStart` in `[0, 50]` or goes on with one more call counted. -/
theorem processStartup_check (a : AecMobile) (n : Nat) (k : Int) (hn : 1 ≤ n) (hn2 : n ≤ 2)
    (hc : a.checkBuffSize ≠ 0) (hk : a.checkBufSizeCtr = k) (hk0 : 0 ≤ k ∧ k ≤ 50)
    (hcnt : 0 ≤ a.counter ∧ a.counter ≤ 5)
    (hsum : a.counter ≠ 0 → 0 ≤ a.sum ∧ a.sum ≤ 510 * a.counter)
    (hms : 10 ≤ a.msInSndCardBuf ∧ a.msInSndCardBuf ≤ 510)
    (hmult : a.aecmCore.mult = 1 ∨ a.aecmCore.mult = 2) :
    (processStartup a n).initFlag = a.initFlag ∧
      (processStartup a n).aecmCore = a.aecmCore ∧
      (((processStartup a n).checkBuffSize = 0 ∧ 0 ≤ (processStartup a n).bufSizeStart ∧
          (processStartup a n).bufSizeStart ≤ 50) ∨
        ((processStartup a n).checkBuffSize ≠ 0 ∧
          (processStartup a n).ECstartup = a.ECstartup ∧
          (processStartup a n).checkBufSizeCtr = k + 1 ∧ k + 1 ≤ 50 ∧
          0 ≤ (processStartup a n).counter ∧ (processStartup a n).counter ≤ 5 ∧
          ((processStartup a n).counter ≠ 0 → 0 ≤ (processStartup a n).sum ∧
            (processStartup a n).sum ≤ 510 * (processStartup a n).counter))) := by
  unfold processStartup
  lift_lets
  intro nmbr b0
  have s0 : b0.initFlag = a.initFlag ∧ b0.aecmCore = a.aecmCore ∧
      b0.ECstartup = a.ECstartup ∧ b0.msInSndCardBuf = a.msInSndCardBuf ∧
      b0.checkBuffSize = a.checkBuffSize ∧ b0.checkBufSizeCtr = k + 1 ∧
      b0.counter = a.counter ∧ b0.sum = a.sum := by
    refine ⟨rfl, rfl, rfl, rfl, rfl, ?_, rfl, rfl⟩
    show toInt16 (a.checkBufSizeCtr + 1) = k + 1
    rw [hk, toInt16_of_range (by omega) (by omega)]
  clear_value b0
  obtain ⟨s01, s02, s03, s04, s05, s06, s07, s08⟩ := s0
  intro b1
  have s1 : b1.initFlag = a.initFlag ∧ b1.aecmCore = a.aecmCore ∧
      b1.ECstartup = a.ECstartup ∧ b1.msInSndCardBuf = a.msInSndCardBuf ∧
      b1.checkBuffSize = a.checkBuffSize ∧ b1.checkBufSizeCtr = k + 1 ∧
      b1.counter = a.counter ∧ (0 ≤ b1.sum ∧ b1.sum ≤ 510 * a.counter) := by
    by_cases h0 : b0.counter = 0
    · simp only [b1, if_pos h0]
      refine ⟨s01, s02, s03, s04, s05, s06, s07, le_refl 0, by omega⟩
    · simp only [b1, if_neg h0]
      refine ⟨s01, s02, s03, s04, s05, s06, s07, ?_⟩
      rw [s08]
      exact hsum (by rw [← s07]; exact h0)
  clear_value b1
  clear s01 s02 s03 s04 s05 s06 s07 s08 hsum
  obtain ⟨s11, s12, s13, s14, s15, s16, s17, s18⟩ := s1
  intro scaled bound
  clear_value bound scaled
  intro b2
  have s2 : b2.initFlag = a.initFlag ∧ b2.aecmCore = a.aecmCore ∧
      b2.ECstartup = a.ECstartup ∧ b2.msInSndCardBuf = a.msInSndCardBuf ∧
      b2.checkBuffSize = a.checkBuffSize ∧ b2.checkBufSizeCtr = k + 1 ∧
      (0 ≤ b2.counter ∧ b2.counter ≤ 6) ∧
      (b2.counter ≠ 0 → 0 ≤ b2.sum ∧ b2.sum ≤ 510 * b2.counter) := by
    by_cases hlt : F64.lt (F64.ofInt (Int.natAbs (b1.firstVal - b1.msInSndCardBuf))) bound = true
    · simp only [b2, if_pos hlt]
      have e1 : toInt16 (b1.counter + 1) = a.counter + 1 := by
        rw [s17, toInt16_of_range (by omega) (by omega)]
      have e2 : toInt16 (b1.sum + b1.msInSndCardBuf) = b1.sum + a.msInSndCardBuf := by
        rw [s14, toInt16_of_range (by omega) (by omega)]
      rw [e1, e2]
      exact ⟨s11, s12, s13, s14, s15, s16, by omega, fun _ => by omega⟩
    · simp only [b2, if_neg hlt]
      exact ⟨s11, s12, s13, s14, s15, s16, by omega, fun h => absurd rfl h⟩
  clear_value b2
  clear s11 s12 s13 s14 s15 s16 s17 s18
  obtain ⟨s21, s22, s23, s24, s25, s26, s27, s28⟩ := s2
  intro q
  have hq : b2.counter ≠ 0 → 0 ≤ q := by
    intro h0
    have hs := s28 h0
    simp only [q]
    rw [s22]
    have hm0 : 0 ≤ 3 * b2.sum * a.aecmCore.mult := by
      rcases hmult with hm | hm <;> rw [hm] <;> omega
    rw [Int.tdiv_eq_ediv hm0 (by omega)]
    exact Int.ediv_nonneg hm0 (by omega)
  clear_value q
  intro b3
  have hprod := sizeT_product b2.counter n s27.1 (by omega) hn2
  have s3 : b3.initFlag = a.initFlag ∧ b3.aecmCore = a.aecmCore ∧
      b3.ECstartup = a.ECstartup ∧ b3.msInSndCardBuf = a.msInSndCardBuf ∧
      b3.checkBufSizeCtr = k + 1 ∧
      ((b3.checkBuffSize = 0 ∧ 0 ≤ b3.bufSizeStart ∧ b3.bufSizeStart ≤ 50) ∨
        (b3.checkBuffSize = a.checkBuffSize ∧ 0 ≤ b3.counter ∧ b3.counter ≤ 5 ∧
          (b3.counter ≠ 0 → 0 ≤ b3.sum ∧ b3.sum ≤ 510 * b3.counter))) := by
    by_cases h6 : toSizeT ((toSizeT b2.counter : Int) * n) ≥ 6
    · simp only [b3, if_pos h6]
      refine ⟨s21, s22, s23, s24, s26, Or.inl ⟨trivial, ?_⟩⟩
      have h6' : (6 : Int) ≤ b2.counter * n := by
        rw [← hprod]
        exact_mod_cast h6
      have hcn : b2.counter ≠ 0 := by
        intro h0
        rw [h0] at h6'
        omega
      have hq0 := hq hcn
      unfold BUF_SIZE_FRAMES
      split_ifs
      · rw [toInt16_of_range (by omega) (by omega)]
        omega
      · exact ⟨by decide, by decide⟩
    · simp only [b3, if_neg h6]
      refine ⟨s21, s22, s23, s24, s26, Or.inr ⟨s25, s27.1, ?_, s28⟩⟩
      have h6' : b2.counter * n < 6 := by
        rw [← hprod]
        exact_mod_cast (not_le.mp h6)
      have hn' : (1 : Int) ≤ n := by exact_mod_cast hn
      nlinarith
  clear_value b3
  clear hprod hq s21 s22 s23 s24 s25 s26 s27 s28
  obtain ⟨s31, s32, s33, s34, s36, s37⟩ := s3
  intro q2
  have hq2 : 0 ≤ q2 := by
    simp only [q2]
    rw [s32, s34]
    have hm0 : 0 ≤ 3 * a.msInSndCardBuf * a.aecmCore.mult := by
      rcases hmult with hm | hm <;> rw [hm] <;> omega
    rw [Int.tdiv_eq_ediv hm0 (by omega)]
    exact Int.ediv_nonneg hm0 (by omega)
  clear_value q2
  intro a1
  have hprod := sizeT_product b3.checkBufSizeCtr n (by omega) (by omega) hn2
  have s4 : a1.initFlag = a.initFlag ∧ a1.aecmCore = a.aecmCore ∧
      a1.ECstartup = a.ECstartup ∧
      ((a1.checkBuffSize = 0 ∧ 0 ≤ a1.bufSizeStart ∧ a1.bufSizeStart ≤ 50) ∨
        (a1.checkBuffSize ≠ 0 ∧ a1.checkBufSizeCtr = k + 1 ∧ k + 1 ≤ 50 ∧
          0 ≤ a1.counter ∧ a1.counter ≤ 5 ∧
          (a1.counter ≠ 0 → 0 ≤ a1.sum ∧ a1.sum ≤ 510 * a1.counter))) := by
    simp only [a1, if_pos hc]
    by_cases h50 : toSizeT ((toSizeT b3.checkBufSizeCtr : Int) * n) > 50
    · rw [if_pos h50]
      refine ⟨s31, s32, s33, Or.inl ⟨rfl, ?_⟩⟩
      show 0 ≤ toInt16 (if q2 < (BUF_SIZE_FRAMES : Int) then q2 else (BUF_SIZE_FRAMES : Int)) ∧
        toInt16 (if q2 < (BUF_SIZE_FRAMES : Int) then q2 else (BUF_SIZE_FRAMES : Int)) ≤ 50
      unfold BUF_SIZE_FRAMES
      split_ifs
      · rw [toInt16_of_range (by omega) (by omega)]
        omega
      · exact ⟨by decide, by decide⟩
    · rw [if_neg h50]
      refine ⟨s31, s32, s33, ?_⟩
      rcases s37 with h | h
      · exact Or.inl h
      · refine Or.inr ⟨by rw [h.1]; exact hc, s36, ?_, h.2⟩
        have h50' : b3.checkBufSizeCtr * n ≤ 50 := by
          rw [← hprod]
          exact_mod_cast (not_lt.mp h50)
        have hn' : (1 : Int) ≤ n := by exact_mod_cast hn
        rw [s36] at h50'
        nlinarith
  clear_value a1
  clear hprod hq2 s31 s32 s33 s34 s36 s37
  obtain ⟨s41, s42, s43, s44⟩ := s4
  by_cases hz : a1.checkBuffSize = 0
  · rw [if_pos hz]
    have hA : 0 ≤ a1.bufSizeStart ∧ a1.bufSizeStart ≤ 50 := by
      rcases s44 with h | h
      · exact h.2
      · exact absurd hz h.1
    split_ifs
    · exact ⟨s41, s42, Or.inl ⟨hz, hA⟩⟩
    · exact ⟨s41, s42, Or.inl ⟨hz, hA⟩⟩
    · exact ⟨s41, s42, Or.inl ⟨hz, hA⟩⟩
  · rw [if_neg hz]
    refine ⟨s41, s42, ?_⟩
    rcases s44 with h | h
    · exact absurd h.1 hz
    · exact Or.inr ⟨h.1, s43, h.2⟩

/-- After the check has ended, the start-up pass leaves `checkBuffSize`, `bufSizeStart`
and `initFlag` alone. -/
theorem processStartup_ended (a : AecMobile) (n : Nat) (hc : a.checkBuffSize = 0) :
    (processStartup a n).initFlag = a.initFlag ∧
      (processStartup a n).checkBuffSize = 0 ∧
      (processStartup a n).bufSizeStart = a.bufSizeStart := by
  unfold processStartup
  lift_lets
  intro nmbr b0 b1 scaled bound b2 q b3 q2 a1
  have h1 : a1 = a := by
    simp only [a1]
    rw [if_neg (not_not.mpr hc)]
  clear_value a1 q2 b3 q b2 bound scaled b1 b0 nmbr
  subst h1
  rw [if_pos hc]
  split_ifs
  · exact ⟨rfl, hc, rfl⟩
  · exact ⟨rfl, hc, rfl⟩
  · exact ⟨rfl, hc, rfl⟩

/-- One frame of the armed branch of `WebRtcAecm_Process` leaves `checkBuffSize`,
`bufSizeStart` and `initFlag` alone. -/
theorem processFrameStep_check (noisy : List Int) (clean : Option (List Int))
    (st : ProcessLoop) (i : Nat) :
    (processFrameStep noisy clean st i).aecm.initFlag = st.aecm.initFlag ∧
      (processFrameStep noisy clean st i).aecm.checkBuffSize = st.aecm.checkBuffSize ∧
      (processFrameStep noisy clean st i).aecm.bufSizeStart = st.aecm.bufSizeStart := by
  unfold processFrameStep
  by_cases hf : st.failed = true
  · rw [if_pos hf]
    exact ⟨rfl, rfl, rfl⟩
  · rw [if_neg hf]
    lift_lets
    intro aecm nmbr rd a1
    have h1 : a1.initFlag = st.aecm.initFlag ∧ a1.checkBuffSize = st.aecm.checkBuffSize ∧
        a1.bufSizeStart = st.aecm.bufSizeStart := by
      simp only [a1]
      split_ifs
      · exact ⟨rfl, rfl, rfl⟩
      · exact ⟨rfl, rfl, rfl⟩
    clear_value a1
    intro farend a2
    have h2 : a2.initFlag = st.aecm.initFlag ∧ a2.checkBuffSize = st.aecm.checkBuffSize ∧
        a2.bufSizeStart = st.aecm.bufSizeStart := by
      simp only [a2]
      split_ifs
      · exact h1
      · exact h1
    clear_value a2
    intro r
    clear_value r
    exact h2

/-- The instance after a `WebRtcAecm_Process` call on an initialised instance with 80 or
160 samples. -/
theorem process_state (a : AecMobile) (noisy : List Int) (clean : Option (List Int))
    (o : List Int) (n : Nat) (ms : Int) (hi : a.initFlag = 42) (hn : n = 80 ∨ n = 160) :
    (WebRtcAecm_Process (some a) (some noisy) clean (some o) n ms).2.1 =
      some (if a.ECstartup ≠ 0 then
        processStartup
          { a with msInSndCardBuf :=
              toInt16 ((if ms < 0 then 0 else if ms > 500 then 500 else ms) + 10) }
          (n / FRAME_LEN / toSizeT a.aecmCore.mult)
      else
        (forRange (n / FRAME_LEN) (processFrameStep noisy clean)
          { aecm :=
              { a with msInSndCardBuf :=
                  toInt16 ((if ms < 0 then 0 else if ms > 500 then 500 else ms) + 10) },
            out := o, failed := false }).aecm) := by
  have h1 : ¬ (n ≠ 80 ∧ n ≠ 160) := by omega
  unfold WebRtcAecm_Process
  simp only [kInitCheck, hi, ne_eq, not_true_eq_false, if_false, h1]
  by_cases hs : a.ECstartup = 0
  · simp only [hs, not_true_eq_false, if_false]
    split_ifs <;> rfl
  · simp only [hs, not_false_eq_true, if_true]

/-- The armed frame loop of `WebRtcAecm_Process` leaves `checkBuffSize`, `bufSizeStart`
and `initFlag` alone. -/
theorem processFrames_check (noisy : List Int) (clean : Option (List Int))
    (st : ProcessLoop) (m : Nat) :
    (forRange m (processFrameStep noisy clean) st).aecm.initFlag = st.aecm.initFlag ∧
      (forRange m (processFrameStep noisy clean) st).aecm.checkBuffSize =
        st.aecm.checkBuffSize ∧
      (forRange m (processFrameStep noisy clean) st).aecm.bufSizeStart =
        st.aecm.bufSizeStart := by
  apply forRange_invariant (fun (s : ProcessLoop) =>
    s.aecm.initFlag = st.aecm.initFlag ∧ s.aecm.checkBuffSize = st.aecm.checkBuffSize ∧
      s.aecm.bufSizeStart = st.aecm.bufSizeStart)
  · intro s i hs
    obtain ⟨p1, p2, p3⟩ := processFrameStep_check noisy clean s i
    exact ⟨p1.trans hs.1, p2.trans hs.2.1, p3.trans hs.2.2⟩
  · exact ⟨rfl, rfl, rfl⟩

/-- One `WebRtcAecm_Process` call keeps `StartupCheck`, with one more call counted, when
the call has at least one 10 ms block (`nrOfSamples = 160` if `mult = 2`). -/
theorem process_startupCheck (mult : Int) (k : Nat) (a : AecMobile) (c : ProcessArgs)
    (hm : mult = 1 ∨ mult = 2) (hn : c.nrOfSamples = 80 ∨ c.nrOfSamples = 160)
    (hn2 : mult = 2 → c.nrOfSamples = 160) (h : StartupCheck mult k a) :
    ∃ a' : AecMobile,
      (WebRtcAecm_Process (some a) (some c.nearendNoisy) c.nearendClean (some c.out)
        c.nrOfSamples c.msInSndCardBuf).2.1 = some a' ∧ StartupCheck mult (k + 1) a' := by
  obtain ⟨hi, hcase⟩ := h
  rw [process_state a _ _ _ _ _ hi hn]
  refine ⟨_, rfl, ?_⟩
  generalize hms : toInt16 ((if c.msInSndCardBuf < 0 then 0
    else if c.msInSndCardBuf > 500 then 500 else c.msInSndCardBuf) + 10) = ms
  have hmsr : 10 ≤ ms ∧ ms ≤ 510 := by
    rw [← hms]
    split_ifs
    · exact ⟨by decide, by decide⟩
    · exact ⟨by decide, by decide⟩
    · rw [toInt16_of_range (by omega) (by omega)]
      omega
  clear hms
  by_cases hs : a.ECstartup ≠ 0
  · rw [if_pos hs]
    rcases hcase with hA | hB
    · obtain ⟨e1, e2, e3⟩ := processStartup_ended { a with msInSndCardBuf := ms }
        (c.nrOfSamples / FRAME_LEN / toSizeT a.aecmCore.mult) hA.1
      refine ⟨e1.trans hi, Or.inl ⟨e2, ?_⟩⟩
      rw [e3]
      exact hA.2
    · obtain ⟨b1, b2, b3, b4, b5, b6, b7, b8⟩ := hB
      have hnb : 1 ≤ c.nrOfSamples / FRAME_LEN / toSizeT a.aecmCore.mult ∧
          c.nrOfSamples / FRAME_LEN / toSizeT a.aecmCore.mult ≤ 2 := by
        rw [b3]
        unfold FRAME_LEN
        rcases hm with hm | hm
        · subst hm
          have : toSizeT 1 = 1 := by decide
          rw [this]
          omega
        · have h160 := hn2 hm
          subst hm
          have : toSizeT 2 = 2 := by decide
          rw [this, h160]
          decide
      obtain ⟨p1, p2, p3⟩ := processStartup_check { a with msInSndCardBuf := ms }
        (c.nrOfSamples / FRAME_LEN / toSizeT a.aecmCore.mult) k hnb.1 hnb.2 b1 b4
        ⟨by omega, by omega⟩ ⟨b6, b7⟩ b8 hmsr (by rw [b3]; exact hm)
      refine ⟨p1.trans hi, ?_⟩
      rcases p3 with q | q
      · exact Or.inl q
      · obtain ⟨q1, q2, q3, q4, q5⟩ := q
        exact Or.inr ⟨q1, by rw [q2]; exact b2, by rw [p2]; exact b3,
          by rw [q3]; push_cast; rfl, by omega, q5⟩
  · rw [if_neg hs]
    obtain ⟨f1, f2, f3⟩ := processFrames_check c.nearendNoisy c.nearendClean
      { aecm := { a with msInSndCardBuf := ms }, out := c.out, failed := false }
      (c.nrOfSamples / FRAME_LEN)
    rcases hcase with hA | hB
    · refine ⟨f1.trans hi, Or.inl ⟨f2.trans hA.1, ?_⟩⟩
      rw [f3]
      exact hA.2
    · exact absurd hB.2.1 hs

/-- Consecutive `WebRtcAecm_Process` calls keep `StartupCheck`. -/
theorem processCalls_startupCheck (mult : Int) (hm : mult = 1 ∨ mult = 2)
    (calls : List ProcessArgs) :
    ∀ (k : Nat) (a : AecMobile),
      (∀ c ∈ calls, (c.nrOfSamples = 80 ∨ c.nrOfSamples = 160) ∧
        (mult = 2 → c.nrOfSamples = 160)) →
      StartupCheck mult k a →
      ∃ a' : AecMobile, processCalls (some a) calls = some a' ∧
        StartupCheck mult (k + calls.length) a' := by
  induction calls with
  | nil =>
    intro k a _ h
    exact ⟨a, rfl, h⟩
  | cons c cs ih =>
    intro k a hc h
    obtain ⟨a1, e1, h1⟩ := process_startupCheck mult k a c hm
      (hc c (List.mem_cons_self c cs)).1 (hc c (List.mem_cons_self c cs)).2 h
    obtain ⟨a2, e2, h2⟩ := ih (k + 1) a1 (fun d hd => hc d (List.mem_cons_of_mem c hd)) h1
    refine ⟨a2, ?_, ?_⟩
    · show processCalls (WebRtcAecm_Process (some a) (some c.nearendNoisy) c.nearendClean
        (some c.out) c.nrOfSamples c.msInSndCardBuf).2.1 cs = some a2
      rw [e1]
      exact e2
    · have e : k + (c :: cs).length = k + 1 + cs.length := by
        simp only [List.length_cons]
        omega
      rw [e]
      exact h2

/-- The start-up state `WebRtcAecm_Init` leaves. -/
theorem init_startupCheck (s : AecMobile) (f : Int) (hf : f = 8000 ∨ f = 16000) :
    ∃ a : AecMobile, (WebRtcAecm_Init (some s) f).2 = some a ∧
      StartupCheck (f / 8000) 0 a ∧ a.checkBuffSize = 1 ∧ a.ECstartup = 1 ∧
      a.aecmCore.mult = f / 8000 := by
  rcases hf with h | h <;> subst h
  · refine ⟨_, rfl, ⟨rfl, Or.inr ⟨?_, ?_, rfl, rfl, by decide, ?_, ?_, ?_⟩⟩, rfl, rfl, rfl⟩
    · show (1 : Int) ≠ 0
      decide
    · show (1 : Int) ≠ 0
      decide
    · show (0 : Int) ≤ 0
      decide
    · show (0 : Int) ≤ 5
      decide
    · intro h0
      exact absurd rfl h0
  · refine ⟨_, rfl, ⟨rfl, Or.inr ⟨?_, ?_, rfl, rfl, by decide, ?_, ?_, ?_⟩⟩, rfl, rfl, rfl⟩
    · show (1 : Int) ≠ 0
      decide
    · show (1 : Int) ≠ 0
      decide
    · show (0 : Int) ≤ 0
      decide
    · show (0 : Int) ≤ 5
      decide
    · intro h0
      exact absurd rfl h0

/-- C33 in the configurations whose calls hold a whole 10 ms block: for `sampFreq = 8000`
with `nrOfSamples` 80 or 160 at each call, and for `sampFreq = 16000` with
`nrOfSamples = 160` at each call, and every sequence of latency values, the start-up
buffer-size check has ended after 51 consecutive `WebRtcAecm_Process` calls following
`WebRtcAecm_Init` (and stays ended): `checkBuffSize == 0` and `bufSizeStart` is in
`[0, 50]`. -/
theorem startup_check_ends (s : AecMobile) (f : Int) (calls : List ProcessArgs)
    (hf : f = 8000 ∨ f = 16000)
    (hc : ∀ c ∈ calls, (c.nrOfSamples = 80 ∨ c.nrOfSamples = 160) ∧
      (f = 16000 → c.nrOfSamples = 160))
    (hl : 51 ≤ calls.length) :
    ∃ a : AecMobile, processCalls (WebRtcAecm_Init (some s) f).2 calls = some a ∧
      a.checkBuffSize = 0 ∧ 0 ≤ a.bufSizeStart ∧ a.bufSizeStart ≤ 50 := by
  obtain ⟨a0, e0, h0, -⟩ := init_startupCheck s f hf
  have hm : f / 8000 = 1 ∨ f / 8000 = 2 := by
    rcases hf with h | h <;> subst h
    · exact Or.inl (by decide)
    · exact Or.inr (by decide)
  have hc' : ∀ c ∈ calls, (c.nrOfSamples = 80 ∨ c.nrOfSamples = 160) ∧
      (f / 8000 = 2 → c.nrOfSamples = 160) := by
    intro c hcm
    refine ⟨(hc c hcm).1, fun h2 => (hc c hcm).2 ?_⟩
    rcases hf with h | h <;> subst h
    · exact absurd h2 (by decide)
    · rfl
  obtain ⟨a, e, h⟩ := processCalls_startupCheck (f / 8000) hm calls 0 a0 hc' h0
  refine ⟨a, by rw [e0]; exact e, ?_⟩
  rcases h.2 with hA | hB
  · exact hA
  · have := hB.2.2.2.2.1
    omega

/-- Witness of C33: 51 silent 80-sample calls after `WebRtcAecm_Init(8000)`. -/
theorem startup_check_ends_witness :
    ∃ a : AecMobile,
      processCalls (WebRtcAecm_Init (some createdInstance) 8000).2
        (List.replicate 51 silentCall) = some a ∧
      a.checkBuffSize = 0 ∧ 0 ≤ a.bufSizeStart ∧ a.bufSizeStart ≤ 50 :=
  startup_check_ends createdInstance 8000 (List.replicate 51 silentCall) (Or.inl rfl)
    (fun c hc => by
      rw [List.eq_of_mem_replicate hc]
      exact ⟨Or.inl rfl, fun h => absurd h (by decide)⟩)
    (by rw [List.length_replicate])

/-- A start-up pass of a call without a whole 10 ms block (`nBlocks10ms = 0`) cannot end
the check. -/
theorem processStartup_idle (a : AecMobile) (hc : a.checkBuffSize ≠ 0) :
    (processStartup a 0).initFlag = a.initFlag ∧
      (processStartup a 0).aecmCore = a.aecmCore ∧
      (processStartup a 0).checkBuffSize = a.checkBuffSize ∧
      (processStartup a 0).ECstartup = a.ECstartup := by
  unfold processStartup
  lift_lets
  intro nmbr b0
  have s0 : b0.initFlag = a.initFlag ∧ b0.aecmCore = a.aecmCore ∧
      b0.checkBuffSize = a.checkBuffSize ∧ b0.ECstartup = a.ECstartup :=
    ⟨rfl, rfl, rfl, rfl⟩
  clear_value b0
  intro b1
  have s1 : b1.initFlag = a.initFlag ∧ b1.aecmCore = a.aecmCore ∧
      b1.checkBuffSize = a.checkBuffSize ∧ b1.ECstartup = a.ECstartup := by
    simp only [b1]
    split_ifs
    · exact s0
    · exact s0
  clear_value b1
  clear s0
  intro scaled bound
  clear_value bound scaled
  intro b2
  have s2 : b2.initFlag = a.initFlag ∧ b2.aecmCore = a.aecmCore ∧
      b2.checkBuffSize = a.checkBuffSize ∧ b2.ECstartup = a.ECstartup := by
    simp only [b2]
    split_ifs
    · exact s1
    · exact s1
  clear_value b2
  clear s1
  intro q
  clear_value q
  intro b3
  have z : ∀ x : Nat, ¬ (toSizeT ((x : Int) * ((0 : Nat) : Int)) ≥ 6) ∧
      ¬ (toSizeT ((x : Int) * ((0 : Nat) : Int)) > 50) := by
    intro x
    have e : (x : Int) * ((0 : Nat) : Int) = 0 := by simp
    rw [e]
    exact ⟨by decide, by decide⟩
  have s3 : b3 = b2 := by
    simp only [b3]
    rw [if_neg (z _).1]
  clear_value b3
  subst s3
  intro q2
  clear_value q2
  intro a1
  have s4 : a1 = b3 := by
    simp only [a1]
    rw [if_pos hc, if_neg (z _).2]
  clear_value a1
  subst s4
  have hnz : ¬ (a1.checkBuffSize = 0) := by
    rw [s2.2.2.1]
    exact hc
  rw [if_neg hnz]
  exact s2

/-- At `mult = 2` a call with 80 samples leaves a running start-up check running. -/
theorem process_idle (a : AecMobile) (c : ProcessArgs) (hn : c.nrOfSamples = 80)
    (h : a.initFlag = 42 ∧ a.aecmCore.mult = 2 ∧ a.checkBuffSize = 1 ∧ a.ECstartup = 1) :
    ∃ a' : AecMobile,
      (WebRtcAecm_Process (some a) (some c.nearendNoisy) c.nearendClean (some c.out)
        c.nrOfSamples c.msInSndCardBuf).2.1 = some a' ∧
      a'.initFlag = 42 ∧ a'.aecmCore.mult = 2 ∧ a'.checkBuffSize = 1 ∧ a'.ECstartup = 1 := by
  obtain ⟨hi, hm, hc, hs⟩ := h
  rw [process_state a _ _ _ _ _ hi (Or.inl hn)]
  refine ⟨_, rfl, ?_⟩
  have hs' : a.ECstartup ≠ 0 := by
    rw [hs]
    decide
  rw [if_pos hs']
  have hnb : c.nrOfSamples / FRAME_LEN / toSizeT a.aecmCore.mult = 0 := by
    rw [hm, hn]
    decide
  rw [hnb]
  generalize toInt16 ((if c.msInSndCardBuf < 0 then 0
    else if c.msInSndCardBuf > 500 then 500 else c.msInSndCardBuf) + 10) = ms
  have hc' : ({ a with msInSndCardBuf := ms } : AecMobile).checkBuffSize ≠ 0 := by
    show a.checkBuffSize ≠ 0
    rw [hc]
    decide
  obtain ⟨p1, p2, p3, p4⟩ := processStartup_idle { a with msInSndCardBuf := ms } hc'
  exact ⟨p1.trans hi, by rw [p2]; exact hm, p3.trans hc, p4.trans hs⟩

/-- At `mult = 2`, calls with 80 samples never end the start-up check. -/
theorem processCalls_idle (calls : List ProcessArgs) :
    ∀ a : AecMobile, (∀ c ∈ calls, c.nrOfSamples = 80) →
      (a.initFlag = 42 ∧ a.aecmCore.mult = 2 ∧ a.checkBuffSize = 1 ∧ a.ECstartup = 1) →
      ∃ a' : AecMobile, processCalls (some a) calls = some a' ∧
        (a'.initFlag = 42 ∧ a'.aecmCore.mult = 2 ∧ a'.checkBuffSize = 1 ∧
          a'.ECstartup = 1) := by
  induction calls with
  | nil =>
    intro a _ h
    exact ⟨a, rfl, h⟩
  | cons c cs ih =>
    intro a hc h
    obtain ⟨a1, e1, h1⟩ := process_idle a c (hc c (List.mem_cons_self c cs)) h
    obtain ⟨a2, e2, h2⟩ := ih a1 (fun d hd => hc d (List.mem_cons_of_mem c hd)) h1
    refine ⟨a2, ?_, h2⟩
    show processCalls (WebRtcAecm_Process (some a) (some c.nearendNoisy) c.nearendClean
      (some c.out) c.nrOfSamples c.msInSndCardBuf).2.1 cs = some a2
    rw [e1]
    exact e2

/-- C33 in the fourth configuration: after `WebRtcAecm_Init(16000)` and 51 calls with 80
samples each (`nBlocks10ms = 1 / 2 = 0`) the start-up check is still running:
`checkBuffSize` is 1 and the canceller is still in start-up mode. -/
theorem startup_check_counterexample :
    ∃ a : AecMobile,
      processCalls (WebRtcAecm_Init (some createdInstance) 16000).2
        (List.replicate 51 silentCall) = some a ∧
      a.checkBuffSize = 1 ∧ a.ECstartup = 1 := by
  obtain ⟨a0, e0, -, h1, h2, h3⟩ := init_startupCheck createdInstance 16000 (Or.inr rfl)
  have hm : a0.aecmCore.mult = 2 := by
    rw [h3]
    decide
  obtain ⟨a, e, h⟩ := processCalls_idle (List.replicate 51 silentCall) a0
    (fun c hc => by rw [List.eq_of_mem_replicate hc]; rfl)
    ⟨by
      obtain ⟨a0', e0', h0', -⟩ := init_startupCheck createdInstance 16000 (Or.inr rfl)
      rw [e0] at e0'
      cases e0'
      exact h0'.1, hm, h1, h2⟩
  exact ⟨a, by rw [e0]; exact e, h.2.2.1, h.2.2.2⟩


/-! ### The far-end time buffer is left alone by the block processing -/

theorem farFrame_refl (a : AecmCore) : FarFrame a a := ⟨rfl, rfl, rfl, rfl, rfl, rfl⟩

theorem farFrame_trans {a b c : AecmCore} (h1 : FarFrame a b) (h2 : FarFrame b c) :
    FarFrame a c :=
  ⟨h2.1.trans h1.1, h2.2.1.trans h1.2.1, h2.2.2.1.trans h1.2.2.1,
    h2.2.2.2.1.trans h1.2.2.2.1, h2.2.2.2.2.1.trans h1.2.2.2.2.1,
    h2.2.2.2.2.2.trans h1.2.2.2.2.2⟩

theorem farFrame_ite {a x y : AecmCore} (c : Prop) [Decidable c] (hx : FarFrame a x)
    (hy : FarFrame a y) : FarFrame a (if c then x else y) := by
  split_ifs
  · exact hx
  · exact hy

theorem farFrame_ite_fst {α : Type} {a : AecmCore} {x y : AecmCore × α} (c : Prop)
    [Decidable c] (hx : FarFrame a x.1) (hy : FarFrame a y.1) :
    FarFrame a (if c then x else y).1 := by
  split_ifs
  · exact hx
  · exact hy

set_option maxRecDepth 10000 in
theorem calcEnergies_far (a : AecmCore) (fs : List Int) (q ne : Int) (ee : List Int) :
    FarFrame a (WebRtcAecm_CalcEnergies a fs q ne ee).1 := by
  unfold WebRtcAecm_CalcEnergies
  lift_lets
  intro nearLogEnergy le farLogEnergy echoAdaptLogEnergy echoStoredLogEnergy a1
    increase_max_shifts decrease_max_shifts increase_min_shifts decrease_min_shifts
    farEnergyMin farEnergyMax farEnergyMaxMin t0 t1 tmp16 b c a2 a3 a4
  have h1 : FarFrame a a1 := ⟨rfl, rfl, rfl, rfl, rfl, rfl⟩
  have hb : FarFrame a1 b := ⟨rfl, rfl, rfl, rfl, rfl, rfl⟩
  have hc : FarFrame b c :=
    farFrame_ite _ ⟨rfl, rfl, rfl, rfl, rfl, rfl⟩ (farFrame_ite _ ⟨rfl, rfl, rfl, rfl, rfl, rfl⟩ ⟨rfl, rfl, rfl, rfl, rfl, rfl⟩)
  have h2 : FarFrame a a2 :=
    farFrame_ite _ (farFrame_trans h1 (farFrame_trans hb (farFrame_trans hc
      ⟨rfl, rfl, rfl, rfl, rfl, rfl⟩))) h1
  have h3 : FarFrame a a3 :=
    farFrame_ite _ (farFrame_ite _ (farFrame_trans h2 ⟨rfl, rfl, rfl, rfl, rfl, rfl⟩) h2)
      (farFrame_trans h2 ⟨rfl, rfl, rfl, rfl, rfl, rfl⟩)
  have h4 : FarFrame a a4 :=
    farFrame_ite _ (farFrame_ite _ (farFrame_trans h3 ⟨rfl, rfl, rfl, rfl, rfl, rfl⟩)
      (farFrame_trans h3 ⟨rfl, rfl, rfl, rfl, rfl, rfl⟩)) h3
  exact h4

theorem updateChannelLoop_far (a : AecmCore) (fs : List Int) (q : Int) (dfa : List Int)
    (mu : Int) (n : Nat) :
    FarFrame a (forRange n
      (fun (a : AecmCore) i =>
        let r := updateChannelBin a fs q dfa mu i
        if r.2 then
          { a with
            channelAdapt32 := a.channelAdapt32.set i r.1
            channelAdapt16 := a.channelAdapt16.set i (toInt16 (shr r.1 16)) }
        else a)
      a) := by
  apply forRange_invariant (fun s => FarFrame a s)
  · intro s i hs
    exact farFrame_ite _ (farFrame_trans hs ⟨rfl, rfl, rfl, rfl, rfl, rfl⟩) hs
  · exact farFrame_refl a


theorem storeAdaptive_far (a : AecmCore) (fs ee : List Int) :
    FarFrame a (StoreAdaptiveChannelC a fs ee).1 := by
  simp only [FarFrame, StoreAdaptiveChannelC, and_self]

theorem resetAdaptive_far (a : AecmCore) : FarFrame a (ResetAdaptiveChannelC a) := by
  simp only [FarFrame, ResetAdaptiveChannelC, and_self]

set_option maxRecDepth 100000 in
theorem updateChannel_far (a : AecmCore) (fs : List Int) (q : Int) (dfa : List Int)
    (mu : Int) (ee : List Int) :
    FarFrame a (WebRtcAecm_UpdateChannel a fs q dfa mu ee).1 := by
  have hloop := updateChannelLoop_far a fs q dfa mu PART_LEN1
  unfold WebRtcAecm_UpdateChannel
  lift_lets
  intro a1 
  have h1 : FarFrame a a1 := farFrame_ite _ hloop (farFrame_refl a)
  clear_value a1
  intro a2
  have h2 : FarFrame a a2 :=
    farFrame_ite _ (farFrame_trans h1 ⟨rfl, rfl, rfl, rfl, rfl, rfl⟩)
      (farFrame_trans h1 ⟨rfl, rfl, rfl, rfl, rfl, rfl⟩)
  clear_value a2
  intro m mseStored mseAdapt
  clear_value m mseStored mseAdapt
  intro s
  have hs : FarFrame a s.1 := farFrame_trans h2 (storeAdaptive_far a2 fs ee)
  clear_value s
  intro scaled_threshold thr src
  have hsrc : FarFrame a src := hs
  clear_value scaled_threshold thr src
  intro r
  have hr : FarFrame a r.1 :=
    farFrame_ite_fst _ (farFrame_trans h2 (resetAdaptive_far a2))
      (farFrame_ite_fst _ (farFrame_trans hsrc ⟨rfl, rfl, rfl, rfl, rfl, rfl⟩) h2)
  clear_value r
  intro src2
  have hsrc2 : FarFrame a src2 := hr
  clear_value src2
  exact farFrame_ite_fst _ (farFrame_trans h1 (storeAdaptive_far a1 fs ee))
    (farFrame_ite_fst _ (farFrame_trans hsrc2 ⟨rfl, rfl, rfl, rfl, rfl, rfl⟩) h2)

theorem processBlockChannel_far (a : AecmCore) (delay : Int) (dfa : List Int) (s : Int) :
    FarFrame a (processBlockChannel a delay dfa s).core := by
  unfold processBlockChannel
  lift_lets
  intro al zerosXBuf e
  have he : FarFrame a e.1 := calcEnergies_far a _ _ _ _
  clear_value e
  intro mu src a1
  have h1 : FarFrame a a1 := farFrame_trans he ⟨rfl, rfl, rfl, rfl, rfl, rfl⟩
  clear_value a1
  intro u
  exact farFrame_trans h1 (updateChannel_far a1 _ _ _ _ _)

theorem calcSuppressionGain_far (a : AecmCore) :
    FarFrame a (WebRtcAecm_CalcSuppressionGain a).2 := ⟨rfl, rfl, rfl, rfl, rfl, rfl⟩

theorem wienerFilter_far (a : AecmCore) (ee dfa : List Int) (g z : Int) :
    FarFrame a (wienerFilter a ee dfa g z).core := by
  unfold wienerFilter
  apply forRange_invariant (fun (s : WienerState) => FarFrame a s.core)
  · intro s i hs
    exact farFrame_trans hs ⟨rfl, rfl, rfl, rfl, rfl, rfl⟩
  · exact farFrame_refl a

theorem comfortNoise_far (a : AecmCore) (dfa : List Int) (out : List ComplexInt16)
    (lambda : List Int) : FarFrame a (ComfortNoise a dfa out lambda).1 := by
  unfold ComfortNoise
  lift_lets
  intro shiftFromNearToNoise a0 minTrackShift a1 r2 noiseRShift16 rnd randW16 u uReal uImag
  have h0 : FarFrame a a0 := farFrame_ite _ ⟨rfl, rfl, rfl, rfl, rfl, rfl⟩ (farFrame_refl a)
  have h1 : FarFrame a a1 := by
    apply forRange_invariant (fun s => FarFrame a s)
    · intro s i hs
      exact farFrame_trans hs ⟨rfl, rfl, rfl, rfl, rfl, rfl⟩
    · exact h0
  exact farFrame_trans h1 ⟨rfl, rfl, rfl, rfl, rfl, rfl⟩

theorem inverseFFT_far (a : AecmCore) (efw : List ComplexInt16) (out : List Int)
    (hasClean : Bool) : FarFrame a (InverseFFTAndWindow a efw out hasClean).1 := by
  unfold InverseFFTAndWindow
  lift_lets
  intro fft0 c0 cN fft inv ifft_out outCFFT r
  clear_value r
  simp only [FarFrame, and_self]

theorem processBlockTrace_far (a : AecmCore) (f : BlockFront) (d : Int) :
    FarFrame a (processBlockTrace a f d).wiener.core := by
  unfold processBlockTrace
  lift_lets
  intro delay0 delay ch
  have hch : FarFrame a ch.core := processBlockChannel_far a _ _ _
  clear_value ch
  intro g
  have hg : FarFrame a g.2 := farFrame_trans hch (calcSuppressionGain_far _)
  clear_value g
  intro w
  have hw : FarFrame a w.core := farFrame_trans hg (wienerFilter_far _ _ _ _ _)
  clear_value w
  intro hnl1
  exact hw

theorem processBlockFront_far (a : AecmCore) (far near : List Int)
    (clean : Option (List Int)) :
    FarFrame a (processBlockFront a far near clean).core := by
  cases clean with
  | none =>
    unfold processBlockFront
    lift_lets
    intro a0
    have h0 : FarFrame a a0 :=
      farFrame_ite _ ⟨rfl, rfl, rfl, rfl, rfl, rfl⟩ (farFrame_refl a)
    clear_value a0
    intro a1
    have h1 : FarFrame a a1 := farFrame_trans h0 (by simp only [FarFrame, a1, and_self])
    clear_value a1
    intro far0 noisy
    clear_value far0 noisy
    intro a2
    have h2 : FarFrame a a2 := farFrame_trans h1 ⟨rfl, rfl, rfl, rfl, rfl, rfl⟩
    clear_value a2
    intro a3
    have h3 : FarFrame a a3 := farFrame_trans h2 ⟨rfl, rfl, rfl, rfl, rfl, rfl⟩
    clear_value a3
    exact farFrame_trans h3 (by simp only [FarFrame, WebRtcAecm_UpdateFarHistory, and_self])
  | some c =>
    unfold processBlockFront
    lift_lets
    intro a0
    have h0 : FarFrame a a0 :=
      farFrame_ite _ ⟨rfl, rfl, rfl, rfl, rfl, rfl⟩ (farFrame_refl a)
    clear_value a0
    intro a1
    have h1 : FarFrame a a1 := farFrame_trans h0 (by simp only [FarFrame, a1, and_self])
    clear_value a1
    intro far0 noisy
    clear_value far0 noisy
    intro a2
    have h2 : FarFrame a a2 := farFrame_trans h1 ⟨rfl, rfl, rfl, rfl, rfl, rfl⟩
    clear_value a2
    intro a3n cl a3
    clear_value a3n cl
    have h3 : FarFrame a a3 := farFrame_trans h2 ⟨rfl, rfl, rfl, rfl, rfl, rfl⟩
    clear_value a3
    exact farFrame_trans h3 (by simp only [FarFrame, WebRtcAecm_UpdateFarHistory, and_self])

theorem processBlockBack_far (a : AecmCore) (far near : List Int)
    (clean : Option (List Int)) (out : List Int) :
    FarFrame (processBlockFront a far near clean).core
      (WebRtcAecm_ProcessBlock a far near clean out).2.1 := by
  unfold WebRtcAecm_ProcessBlock
  dsimp only
  generalize processBlockFront a far near clean = f
  split_ifs with h1 h2 h3
  · simp only [FarFrame, and_self]
  · simp only [FarFrame, and_self]
  · dsimp only
    refine farFrame_trans ?_ (inverseFFT_far _ _ _ _)
    refine farFrame_trans ?_ (comfortNoise_far _ _ _ _)
    refine farFrame_trans ?_ (processBlockTrace_far _ f _)
    simp only [FarFrame, and_self]
  · dsimp only
    refine farFrame_trans ?_ (inverseFFT_far _ _ _ _)
    refine farFrame_trans ?_ (processBlockTrace_far _ f _)
    simp only [FarFrame, and_self]

/-- `WebRtcAecm_ProcessBlock` leaves the far-end time buffer, its cursors, the known delays
and `mult` alone. -/
theorem processBlock_far (a : AecmCore) (far near : List Int) (clean : Option (List Int))
    (out : List Int) : FarFrame a (WebRtcAecm_ProcessBlock a far near clean out).2.1 :=
  farFrame_trans (processBlockFront_far a far near clean)
    (processBlockBack_far a far near clean out)

/-! ### The far-end time buffer of `WebRtcAecm_ProcessFrame` -/

/-- A loop whose body does not change the state leaves it as it is. -/
theorem forStep_fixed {σ : Type} (body : σ → Nat → σ) (fuel lo hi step : Nat) (s : σ)
    (h : ∀ i, body s i = s) : forStep fuel lo hi step body s = s := by
  induction fuel generalizing lo with
  | zero => rfl
  | succ k ih =>
    unfold forStep
    split_ifs
    · rw [h lo]
      exact ih _
    · rfl

/-- A loop whose body changes the state in the first pass only. -/
theorem forStep_settle {σ : Type} (body : σ → Nat → σ) (fuel lo hi step : Nat) (s : σ)
    (hlt : lo < hi) (h : ∀ i, body (body s lo) i = body s lo) :
    forStep (fuel + 1) lo hi step body s = body s lo := by
  unfold forStep
  rw [if_pos hlt]
  exact forStep_fixed body fuel _ hi step _ h

/-- `WebRtcAecm_BufferFarFrame` with a frame of 80 samples: the write cursor advances by
80 modulo `FAR_BUF_LEN`, and the frame is stored at the old cursor, wrapping around. -/
theorem bufferFarFrame_spec (c : AecmCore) (far : List Int)
    (hlen : c.farBuf.length = 256)
    (hw : 0 ≤ c.farBufWritePos ∧ c.farBufWritePos ≤ 256) :
    (WebRtcAecm_BufferFarFrame c far 80).farBuf.length = 256 ∧
      (WebRtcAecm_BufferFarFrame c far 80).farBufWritePos =
        (if c.farBufWritePos + 80 > 256 then c.farBufWritePos + 80 - 256
          else c.farBufWritePos + 80) ∧
      (∀ j : Nat, j < 80 →
        (WebRtcAecm_BufferFarFrame c far 80).farBuf.getD
          ((c.farBufWritePos.toNat + j) % 256) 0 = far.getD j 0) ∧
      (WebRtcAecm_BufferFarFrame c far 80).farBufReadPos = c.farBufReadPos ∧
      (WebRtcAecm_BufferFarFrame c far 80).knownDelay = c.knownDelay ∧
      (WebRtcAecm_BufferFarFrame c far 80).lastKnownDelay = c.lastKnownDelay ∧
      (WebRtcAecm_BufferFarFrame c far 80).mult = c.mult := by
  obtain ⟨w, hwe⟩ := Int.eq_ofNat_of_zero_le hw.1
  have hw256 : w ≤ 256 := by omega
  unfold WebRtcAecm_BufferFarFrame
  have e80 : (80 : Int).toNat = 79 + 1 := rfl
  rw [e80, forStep_settle]
  · dsimp only
    by_cases hc : c.farBufWritePos + 80 > (FAR_BUF_LEN : Int)
    · rw [if_pos hc]
      dsimp only
      have hc' : w + 80 > 256 := by
        unfold FAR_BUF_LEN at hc
        omega
      have ewl : toInt32 ((FAR_BUF_LEN : Int) - c.farBufWritePos) = ((256 - w : Nat) : Int) := by
        unfold FAR_BUF_LEN
        rw [toInt32_of_range (by omega) (by omega)]
        omega
      rw [ewl]
      have erem : toInt32 (80 - ((256 - w : Nat) : Int)) = ((w + 80 - 256 : Nat) : Int) := by
        rw [toInt32_of_range (by omega) (by omega)]
        omega
      rw [erem, hwe]
      simp only [Int.toNat_ofNat, Int.toNat_zero]
      refine ⟨?_, ?_, ?_, by first | rfl | trivial, by first | rfl | trivial,
        by first | rfl | trivial, by first | rfl | trivial⟩
      · rw [memcpyList_length, memcpyList_length]
        exact hlen
      · have hc2 : (w : Int) + 80 > 256 := by omega
        rw [if_pos hc2, toInt32_of_range (by omega) (by omega)]
        omega
      · intro j hj
        rw [List.getD_eq_getElem?_getD, memcpyList_getElem?, memcpyList_getElem?,
          memcpyList_length]
        by_cases hjw : j < 256 - w
        · have e1 : (w + j) % 256 = w + j := Nat.mod_eq_of_lt (by omega)
          rw [e1]
          have h1 : ¬ (0 ≤ w + j ∧ w + j < 0 + (w + 80 - 256) ∧ w + j < c.farBuf.length) := by
            omega
          have h2 : w ≤ w + j ∧ w + j < w + (256 - w) ∧ w + j < c.farBuf.length := by
            omega
          rw [if_neg h1, if_pos h2, Option.getD_some]
          apply congrArg (fun k => far.getD k 0)
          omega
        · have e1 : (w + j) % 256 = w + j - 256 := by omega
          rw [e1]
          have h1 : 0 ≤ w + j - 256 ∧ w + j - 256 < 0 + (w + 80 - 256) ∧
              w + j - 256 < c.farBuf.length := by omega
          rw [if_pos h1, Option.getD_some]
          apply congrArg (fun k => far.getD k 0)
          omega
    · rw [if_neg hc]
      dsimp only
      have hc' : w + 80 ≤ 256 := by
        unfold FAR_BUF_LEN at hc
        omega
      rw [hwe]
      simp only [Int.toNat_ofNat, Int.toNat_zero]
      have e80' : (80 : Int).toNat = 80 := rfl
      rw [e80']
      refine ⟨?_, ?_, ?_, by first | rfl | trivial, by first | rfl | trivial,
        by first | rfl | trivial, by first | rfl | trivial⟩
      · rw [memcpyList_length]
        exact hlen
      · have hc2 : ¬ ((w : Int) + 80 > 256) := by omega
        rw [if_neg hc2, toInt32_of_range (by omega) (by omega)]
      · intro j hj
        rw [List.getD_eq_getElem?_getD, memcpyList_getElem?]
        have e1 : (w + j) % 256 = w + j := Nat.mod_eq_of_lt (by omega)
        rw [e1]
        have h2 : w ≤ w + j ∧ w + j < w + 80 ∧ w + j < c.farBuf.length := by omega
        rw [if_pos h2, Option.getD_some]
        apply congrArg (fun k => far.getD k 0)
        omega
  · decide
  · intro i
    dsimp only
    by_cases hc : c.farBufWritePos + 80 > (FAR_BUF_LEN : Int)
    · rw [if_pos hc]
      dsimp only
      have hn : ¬ ((0 : Int) + toInt32 (80 - toInt32 ((FAR_BUF_LEN : Int) - c.farBufWritePos)) >
          (FAR_BUF_LEN : Int)) := by
        unfold FAR_BUF_LEN at hc ⊢
        have e1 : toInt32 (((256 : Nat) : Int) - c.farBufWritePos) = 256 - c.farBufWritePos :=
          toInt32_of_range (by omega) (by omega)
        rw [e1, toInt32_of_range (by omega) (by omega)]
        omega
      rw [if_neg hn]
    · rw [if_neg hc]
      dsimp only
      rw [if_neg hc]

/-- `WebRtcAecm_FetchFarFrame` of 80 samples at an unchanged delay: the frame is read at
the read cursor (taken modulo `FAR_BUF_LEN`), wrapping around, and the cursor advances
by 80 modulo `FAR_BUF_LEN`. -/
theorem fetchFarFrame_spec (b : AecmCore) (kd : Int)
    (hr : 0 ≤ b.farBufReadPos ∧ b.farBufReadPos ≤ 256) (hk : b.lastKnownDelay = kd) :
    (WebRtcAecm_FetchFarFrame b 80 kd).1.length = 80 ∧
      (∀ j : Nat, j < 80 →
        (WebRtcAecm_FetchFarFrame b 80 kd).1.getD j 0 =
          b.farBuf.getD ((b.farBufReadPos.toNat + j) % 256) 0) ∧
      (WebRtcAecm_FetchFarFrame b 80 kd).2.farBufReadPos =
        (if b.farBufReadPos % 256 + 80 > 256 then b.farBufReadPos % 256 + 80 - 256
          else b.farBufReadPos % 256 + 80) ∧
      (WebRtcAecm_FetchFarFrame b 80 kd).2.farBuf = b.farBuf ∧
      (WebRtcAecm_FetchFarFrame b 80 kd).2.farBufWritePos = b.farBufWritePos ∧
      (WebRtcAecm_FetchFarFrame b 80 kd).2.knownDelay = b.knownDelay ∧
      (WebRtcAecm_FetchFarFrame b 80 kd).2.lastKnownDelay = kd ∧
      (WebRtcAecm_FetchFarFrame b 80 kd).2.mult = b.mult := by
  obtain ⟨r, hre⟩ := Int.eq_ofNat_of_zero_le hr.1
  have hr256 : r ≤ 256 := by omega
  unfold WebRtcAecm_FetchFarFrame
  have e80 : (80 : Int).toNat = 79 + 1 := rfl
  have ed : toInt32 (kd - b.lastKnownDelay) = 0 := by
    rw [hk, sub_self]
    rfl
  have ep0 : toInt32 (b.farBufReadPos - 0) = (r : Int) := by
    rw [sub_zero, toInt32_of_range (by omega) (by omega), hre]
  have ep2 : (if (r : Int) > ((FAR_BUF_LEN : Nat) : Int) - 1 then
      (r : Int) - ((FAR_BUF_LEN : Nat) : Int) * ((r : Int) / 256) else (r : Int)) =
      ((r % 256 : Nat) : Int) := by
    unfold FAR_BUF_LEN
    split_ifs <;> omega
  have hp : r % 256 < 256 := Nat.mod_lt _ (by decide)
  have em : b.farBufReadPos % 256 = ((r % 256 : Nat) : Int) := by
    rw [hre]
    omega
  have e1j : ∀ j : Nat, (b.farBufReadPos.toNat + j) % 256 = (r % 256 + j) % 256 := by
    intro j
    rw [hre, Int.toNat_ofNat]
    omega
  simp only [e1j, em]
  generalize r % 256 = p at ep2 hp
  have hneg : ¬ ((r : Int) < 0) := by omega
  rw [ed, ep0, if_neg hneg, ep2, e80, forStep_settle]
  · dsimp only
    by_cases hc : (p : Int) + 80 > ((FAR_BUF_LEN : Nat) : Int)
    · rw [if_pos hc]
      dsimp only
      have hc' : p + 80 > 256 := by
        unfold FAR_BUF_LEN at hc
        omega
      have erl : toInt32 (((FAR_BUF_LEN : Nat) : Int) - (p : Int)) = ((256 - p : Nat) : Int) := by
        unfold FAR_BUF_LEN
        rw [toInt32_of_range (by omega) (by omega)]
        omega
      rw [erl]
      have erem : toInt32 (80 - ((256 - p : Nat) : Int)) = ((p + 80 - 256 : Nat) : Int) := by
        rw [toInt32_of_range (by omega) (by omega)]
        omega
      rw [erem]
      simp only [Int.toNat_ofNat, Int.toNat_zero]
      have e80' : (80 : Int).toNat = 80 := rfl
      refine ⟨?_, ?_, ?_, by first | rfl | trivial, by first | rfl | trivial,
        by first | rfl | trivial, by first | rfl | trivial, by first | rfl | trivial⟩
      · rw [memcpyList_length, memcpyList_length, List.length_replicate]
      · intro j hj
        rw [List.getD_eq_getElem?_getD, memcpyList_getElem?, memcpyList_getElem?,
          memcpyList_length, List.length_replicate]
        by_cases hjw : j < 256 - p
        · have e1 : (p + j) % 256 = p + j := Nat.mod_eq_of_lt (by omega)
          rw [e1]
          have h1 : ¬ (256 - p ≤ j ∧ j < 256 - p + (p + 80 - 256) ∧ j < 80) := by omega
          have h2 : 0 ≤ j ∧ j < 0 + (256 - p) ∧ j < 80 := by omega
          rw [if_neg h1, if_pos h2, Option.getD_some]
          apply congrArg (fun k => b.farBuf.getD k 0)
          omega
        · have e1 : (p + j) % 256 = p + j - 256 := by omega
          rw [e1]
          have h1 : 256 - p ≤ j ∧ j < 256 - p + (p + 80 - 256) ∧ j < 80 := by omega
          rw [if_pos h1, Option.getD_some]
          apply congrArg (fun k => b.farBuf.getD k 0)
          omega
      · have hc2 : (p : Int) + 80 > 256 := by omega
        rw [if_pos hc2, toInt32_of_range (by omega) (by omega)]
        omega
    · rw [if_neg hc]
      dsimp only
      have hc' : p + 80 ≤ 256 := by
        unfold FAR_BUF_LEN at hc
        omega
      simp only [Int.toNat_ofNat, Int.toNat_zero]
      have e80' : (80 : Int).toNat = 80 := rfl
      rw [e80']
      refine ⟨?_, ?_, ?_, by first | rfl | trivial, by first | rfl | trivial,
        by first | rfl | trivial, by first | rfl | trivial, by first | rfl | trivial⟩
      · rw [memcpyList_length, List.length_replicate]
      · intro j hj
        rw [List.getD_eq_getElem?_getD, memcpyList_getElem?, List.length_replicate]
        have e1 : (p + j) % 256 = p + j := Nat.mod_eq_of_lt (by omega)
        rw [e1]
        have h2 : 0 ≤ j ∧ j < 0 + 80 ∧ j < 80 := by omega
        rw [if_pos h2, Option.getD_some]
        apply congrArg (fun k => b.farBuf.getD k 0)
        omega
      · have hc2 : ¬ ((p : Int) + 80 > 256) := by omega
        rw [if_neg hc2, toInt32_of_range (by omega) (by omega)]
  · decide
  · intro i
    dsimp only
    by_cases hc : (p : Int) + 80 > ((FAR_BUF_LEN : Nat) : Int)
    · rw [if_pos hc]
      dsimp only
      have hn : ¬ ((0 : Int) + toInt32 (80 - toInt32 (((FAR_BUF_LEN : Nat) : Int) - (p : Int))) >
          ((FAR_BUF_LEN : Nat) : Int)) := by
        unfold FAR_BUF_LEN at hc ⊢
        have e1 : toInt32 (((256 : Nat) : Int) - (p : Int)) = 256 - (p : Int) :=
          toInt32_of_range (by omega) (by omega)
        rw [e1, toInt32_of_range (by omega) (by omega)]
        omega
      rw [if_neg hn]
    · rw [if_neg hc]
      dsimp only
      rw [if_neg hc]

theorem processFrameBlock_far (hasClean : Bool) (st : FrameLoop) :
    FarFrame st.core (processFrameBlock hasClean st).core := by
  unfold processFrameBlock
  lift_lets
  intro aecm far noisy clean a1
  have h1 : FarFrame st.core a1 := by simp only [FarFrame, a1, aecm, and_self]
  clear_value a1 far noisy clean
  intro r
  have hr : FarFrame st.core r.2.1 := farFrame_trans h1 (processBlock_far a1 _ _ _ _)
  clear_value r
  split_ifs
  · exact hr
  · exact farFrame_trans hr (by simp only [FarFrame, and_self])

theorem processFrameLoop_far (hasClean : Bool) (fuel : Nat) :
    ∀ st : FrameLoop, FarFrame st.core (processFrameLoop hasClean fuel st).core := by
  induction fuel with
  | zero =>
    intro st
    exact farFrame_refl _
  | succ k ih =>
    intro st
    unfold processFrameLoop
    split_ifs
    · exact farFrame_refl _
    · exact farFrame_trans (processFrameBlock_far hasClean st) (ih _)
    · exact farFrame_refl _

theorem processFrameTail_far (a1 : AecmCore) (fr near : List Int)
    (clean : Option (List Int)) (out : List Int) (res : Int × AecmCore × List Int)
    (hres : res =
      (let a2 : AecmCore :=
        { a1 with
          farFrameBuf := (WebRtc_WriteBuffer a1.farFrameBuf fr FRAME_LEN).2
          nearNoisyFrameBuf := (WebRtc_WriteBuffer a1.nearNoisyFrameBuf near FRAME_LEN).2
          nearCleanFrameBuf :=
            match clean with
            | none => a1.nearCleanFrameBuf
            | some c => (WebRtc_WriteBuffer a1.nearCleanFrameBuf c FRAME_LEN).2 }
      let l := processFrameLoop clean.isSome
        (WebRtc_available_read a2.farFrameBuf / PART_LEN + 1) { core := a2, failed := false }
      if l.failed then (-1, l.core, out)
      else
        let size := toInt32 (WebRtc_available_read l.core.outFrameBuf)
        let ob :=
          if size < FRAME_LEN then
            (WebRtc_MoveReadPtr l.core.outFrameBuf (size - FRAME_LEN)).2
          else l.core.outFrameBuf
        let rd := WebRtc_ReadBuffer ob FRAME_LEN
        ((0 : Int), { l.core with outFrameBuf := rd.self },
          memcpyList out 0 rd.elements 0 FRAME_LEN))) :
    FarFrame a1 res.2.1 := by
  subst hres
  lift_lets
  intro a2
  have h2 : FarFrame a1 a2 := by simp only [FarFrame, a2, and_self]
  clear_value a2
  intro l
  have el : l = processFrameLoop clean.isSome
      (WebRtc_available_read a2.farFrameBuf / PART_LEN + 1) { core := a2, failed := false } := by
    simp only [l]
  clear_value l
  have hl : FarFrame a1 l.core := by
    rw [el]
    exact farFrame_trans h2 (processFrameLoop_far clean.isSome
      (WebRtc_available_read a2.farFrameBuf / PART_LEN + 1) { core := a2, failed := false })
  clear el
  intro size ob rd src
  have hs : FarFrame a1 src := hl
  clear_value src rd ob size
  split_ifs
  · dsimp only
    exact hl
  · dsimp only
    refine farFrame_trans hs ?_
    simp only [FarFrame, and_self]

/-- After the far frame has been buffered and fetched, `WebRtcAecm_ProcessFrame` leaves
the far-end time buffer, its cursors, the known delays and `mult` alone. -/
theorem processFrame_far (c : AecmCore) (far near : List Int) (clean : Option (List Int))
    (out : List Int) :
    FarFrame
      (WebRtcAecm_FetchFarFrame (WebRtcAecm_BufferFarFrame c far FRAME_LEN) FRAME_LEN
        (WebRtcAecm_BufferFarFrame c far FRAME_LEN).knownDelay).2
      (WebRtcAecm_ProcessFrame c far near clean out).2.1 :=
  processFrameTail_far
    (WebRtcAecm_FetchFarFrame (WebRtcAecm_BufferFarFrame c far FRAME_LEN) FRAME_LEN
      (WebRtcAecm_BufferFarFrame c far FRAME_LEN).knownDelay).2
    (WebRtcAecm_FetchFarFrame (WebRtcAecm_BufferFarFrame c far FRAME_LEN) FRAME_LEN
      (WebRtcAecm_BufferFarFrame c far FRAME_LEN).knownDelay).1 near clean out
    (WebRtcAecm_ProcessFrame c far near clean out) rfl

/-- A list of length `n` is determined by its `n` elements. -/
theorem list_eq_map_getD (l : List Int) (n : Nat) (g : Nat → Int) (hl : l.length = n)
    (h : ∀ j : Nat, j < n → l.getD j 0 = g j) : l = (List.range n).map g := by
  apply List.ext_getElem
  · rw [List.length_map, List.length_range, hl]
  · intro i h1 h2
    rw [List.getElem_map, List.getElem_range]
    have := h i (by omega)
    rw [List.getD_eq_getElem _ _ h1] at this
    exact this

/-- The far-end time buffer after `WebRtcAecm_InitCore`. -/
theorem initCore_far (c0 : AecmCore) (fs : Int) (h : (WebRtcAecm_InitCore c0 fs).1 = 0) :
    (WebRtcAecm_InitCore c0 fs).2.farBuf = c0.farBuf ∧
      (WebRtcAecm_InitCore c0 fs).2.knownDelay = 0 ∧
      (WebRtcAecm_InitCore c0 fs).2.lastKnownDelay = 0 ∧
      (WebRtcAecm_InitCore c0 fs).2.farBufReadPos = 0 ∧
      (WebRtcAecm_InitCore c0 fs).2.farBufWritePos = 0 := by
  unfold WebRtcAecm_InitCore at h ⊢
  by_cases hc : fs ≠ 8000 ∧ fs ≠ 16000
  · rw [if_pos hc] at h
    simp at h
  · rw [if_neg hc]
    dsimp only
    split_ifs <;> simp only [WebRtcAecm_InitEchoPathCore, and_self]

/-- One `WebRtcAecm_ProcessFrame` call keeps `FarInv`, and the frame it fetches is the
frame it has just stored. -/
theorem farInv_frame (c : AecmCore) (far near : List Int) (clean : Option (List Int))
    (out : List Int) (h : FarInv c) :
    FarInv (WebRtcAecm_ProcessFrame c far near clean out).2.1 ∧
      (WebRtcAecm_FetchFarFrame (WebRtcAecm_BufferFarFrame c far FRAME_LEN) FRAME_LEN
        (WebRtcAecm_BufferFarFrame c far FRAME_LEN).knownDelay).1 =
        (List.range FRAME_LEN).map (fun j => far.getD j 0) := by
  obtain ⟨hlen, hk, hlk, hrw, hw0, hw1⟩ := h
  have hfar := processFrame_far c far near clean out
  have hb : _ := bufferFarFrame_spec c far hlen ⟨hw0, hw1⟩
  have e80 : WebRtcAecm_BufferFarFrame c far 80 =
      WebRtcAecm_BufferFarFrame c far FRAME_LEN := rfl
  rw [e80] at hb
  generalize WebRtcAecm_BufferFarFrame c far FRAME_LEN = b at hb hfar ⊢
  obtain ⟨b1, b2, b3, b4, b5, b6, b7⟩ := hb
  have hbr : 0 ≤ b.farBufReadPos ∧ b.farBufReadPos ≤ 256 := by
    rw [b4, hrw]
    exact ⟨hw0, hw1⟩
  have hf : _ := fetchFarFrame_spec b b.knownDelay hbr
    (b6.trans (hlk.trans (b5.trans hk).symm))
  have e80' : WebRtcAecm_FetchFarFrame b 80 b.knownDelay =
      WebRtcAecm_FetchFarFrame b FRAME_LEN b.knownDelay := rfl
  rw [e80'] at hf
  generalize WebRtcAecm_FetchFarFrame b FRAME_LEN b.knownDelay = f at hf hfar ⊢
  obtain ⟨f1, f2, f3, f4, f5, f6, f7, -⟩ := hf
  obtain ⟨g1, g2, g3, g4, g5, -⟩ := hfar
  generalize (WebRtcAecm_ProcessFrame c far near clean out).2.1 = res at g1 g2 g3 g4 g5 ⊢
  refine ⟨⟨?_, ?_, ?_, ?_, ?_, ?_⟩, ?_⟩
  · rw [g1, f4]
    exact b1
  · rw [g4, f6, b5, hk]
  · rw [g5, f7, b5, hk]
  · rw [g3, g2, f3, f5, b2, b4, hrw]
    unfold FAR_BUF_LEN at hw1
    split_ifs <;> omega
  · rw [g2, f5, b2]
    split_ifs <;> omega
  · rw [g2, f5, b2]
    unfold FAR_BUF_LEN at hw1 ⊢
    split_ifs <;> omega
  · apply list_eq_map_getD f.1 FRAME_LEN _ f1
    intro j hj
    rw [f2 j hj, b4, hrw]
    exact b3 j hj

/-- C36: in every state reachable from a successful `WebRtcAecm_InitCore` (on a core
whose far-end time buffer has `FAR_BUF_LEN = 256` samples) by `WebRtcAecm_ProcessFrame`
calls, `knownDelay` and `lastKnownDelay` are both 0, and `farBufReadPos` and
`farBufWritePos` are equal (so equal modulo 256) and in `[0, 256]`; consequently the
frame `WebRtcAecm_FetchFarFrame` returns inside the next `WebRtcAecm_ProcessFrame` call
consists of the 80 samples of the far-end frame that `WebRtcAecm_BufferFarFrame` has
stored in that call. -/
theorem far_buffer_cursors (c0 : AecmCore) (fs : Int) (a : AecmCore)
    (hlen : c0.farBuf.length = FAR_BUF_LEN) (h : FrameReachable c0 fs a) :
    (a.knownDelay = 0 ∧ a.lastKnownDelay = 0) ∧
    (a.farBufReadPos = a.farBufWritePos ∧ a.farBufReadPos % 256 = a.farBufWritePos % 256) ∧
    (0 ≤ a.farBufReadPos ∧ a.farBufReadPos ≤ 256 ∧ 0 ≤ a.farBufWritePos ∧
      a.farBufWritePos ≤ 256) ∧
    (∀ farend : List Int,
      (WebRtcAecm_FetchFarFrame (WebRtcAecm_BufferFarFrame a farend FRAME_LEN) FRAME_LEN
        (WebRtcAecm_BufferFarFrame a farend FRAME_LEN).knownDelay).1 =
        (List.range FRAME_LEN).map (fun j => farend.getD j 0)) ∧
    (∀ farend : List Int, farend.length = FRAME_LEN →
      (WebRtcAecm_FetchFarFrame (WebRtcAecm_BufferFarFrame a farend FRAME_LEN) FRAME_LEN
        (WebRtcAecm_BufferFarFrame a farend FRAME_LEN).knownDelay).1 = farend) := by
  have hinv : FarInv a := by
    induction h with
    | init h0 =>
      obtain ⟨i1, i2, i3, i4, i5⟩ := initCore_far c0 fs h0
      refine ⟨by rw [i1]; exact hlen, i2, i3, i4.trans i5.symm, by rw [i5],
        by rw [i5]; decide⟩
    | frame far near clean out _ ih => exact (farInv_frame _ far near clean out ih).1
  have hfetch := fun farend : List Int => (farInv_frame a farend [] none [] hinv).2
  obtain ⟨-, hk, hlk, hrw, hw0, hw1⟩ := hinv
  have hw1' : a.farBufWritePos ≤ 256 := hw1
  refine ⟨⟨hk, hlk⟩, ⟨hrw, by rw [hrw]⟩, ⟨by omega, by omega, hw0, hw1'⟩, hfetch, ?_⟩
  intro farend hl
  rw [hfetch farend]
  symm
  exact list_eq_map_getD farend FRAME_LEN _ hl (fun j _ => rfl)

set_option maxRecDepth 20000 in
/-- The far-end time buffer of the created core has `FAR_BUF_LEN` samples. -/
theorem createdCore_farBuf : createdInstance.aecmCore.farBuf.length = FAR_BUF_LEN := by
  decide

/-- Witness of C36: after `WebRtcAecm_InitCore(8000)` on the created core and one
`WebRtcAecm_ProcessFrame` call, the next call fetches the frame it stores. -/
theorem far_buffer_cursors_witness :
    (WebRtcAecm_FetchFarFrame
      (WebRtcAecm_BufferFarFrame
        (WebRtcAecm_ProcessFrame (WebRtcAecm_InitCore createdInstance.aecmCore 8000).2
          (List.replicate 80 1) (List.replicate 80 2) none (List.replicate 80 0)).2.1
        (List.replicate 80 7) FRAME_LEN) FRAME_LEN
      (WebRtcAecm_BufferFarFrame
        (WebRtcAecm_ProcessFrame (WebRtcAecm_InitCore createdInstance.aecmCore 8000).2
          (List.replicate 80 1) (List.replicate 80 2) none (List.replicate 80 0)).2.1
        (List.replicate 80 7) FRAME_LEN).knownDelay).1 = List.replicate 80 7 :=
  (far_buffer_cursors createdInstance.aecmCore 8000
    (WebRtcAecm_ProcessFrame (WebRtcAecm_InitCore createdInstance.aecmCore 8000).2
      (List.replicate 80 1) (List.replicate 80 2) none (List.replicate 80 0)).2.1
    createdCore_farBuf
    (FrameReachable.frame (List.replicate 80 1) (List.replicate 80 2) none
      (List.replicate 80 0) (FrameReachable.init (by decide)))).2.2.2.2
    (List.replicate 80 7) (List.length_replicate 80 7)

/-! ### The 16-bit and 32-bit adaptive channels -/

set_option maxRecDepth 1000000 in
/-- C6 fails on the code. After `WebRtcAecm_InitCore(8000)` every bin has
`channelAdapt16[k] == channelAdapt32[k] >> 16`. Three blocks later (far-end spectra of a
quiet block followed by two loud ones, silent near end), immediately after
`WebRtcAecm_UpdateChannel` returns, bin 32 has `channelAdapt16[32] == 181` while
`channelAdapt32[32] >> 16 == 1451`, and bin 7 has `channelAdapt16[7] == 2` while
`channelAdapt32[7] >> 16 == 22`: `WebRtcAecm_CalcEnergies` has divided `channelAdapt16` by 8
without changing `channelAdapt32`, and `WebRtcAecm_UpdateChannel` has not updated these
bins. -/
theorem channel_adapt_sync_lost :
    ((List.range 65).all fun k =>
      decide (initialisedCore.channelAdapt16.getD k 0 =
        shr (initialisedCore.channelAdapt32.getD k 0) 16)) = true ∧
    thirdBlockCore.channelAdapt16.getD 32 0 = 181 ∧
    shr (thirdBlockCore.channelAdapt32.getD 32 0) 16 = 1451 ∧
    thirdBlockCore.channelAdapt16.getD 7 0 = 2 ∧
    shr (thirdBlockCore.channelAdapt32.getD 7 0) 16 = 22 := by
  decide!


/-- `WebRtcAecm_BufferFarFrame` leaves `mult` alone. -/
theorem bufferFarFrame_mult (c : AecmCore) (farend : List Int) (n : Int) :
    (WebRtcAecm_BufferFarFrame c farend n).mult = c.mult := by
  unfold WebRtcAecm_BufferFarFrame
  lift_lets
  intro r
  have hr : r.1.mult = c.mult := by
    apply forStep_invariant (fun (st : AecmCore × Int × Int) => st.1.mult = c.mult)
    · intro st i hs
      dsimp only
      split_ifs
      · exact hs
      · exact hs
    · rfl
  clear_value r
  intro a
  exact hr

/-- `WebRtcAecm_FetchFarFrame` leaves `mult` alone. -/
theorem fetchFarFrame_mult (c : AecmCore) (n k : Int) :
    (WebRtcAecm_FetchFarFrame c n k).2.mult = c.mult := by
  unfold WebRtcAecm_FetchFarFrame
  lift_lets
  intro delayChange p0 p1 p2 a0
  have h0 : a0.mult = c.mult := rfl
  clear_value a0
  intro r
  have hr : r.1.mult = c.mult := by
    apply forStep_invariant (fun (st : AecmCore × List Int × Int × Int) => st.1.mult = c.mult)
    · intro st i hs
      dsimp only
      split_ifs
      · exact hs
      · exact hs
    · exact h0
  clear_value r
  intro a
  exact hr

/-- `WebRtcAecm_ProcessFrame` leaves `mult` alone. -/
theorem processFrame_mult (c : AecmCore) (far near : List Int) (clean : Option (List Int))
    (out : List Int) : (WebRtcAecm_ProcessFrame c far near clean out).2.1.mult = c.mult := by
  have h := (processFrame_far c far near clean out).2.2.2.2.2
  rw [h, fetchFarFrame_mult, bufferFarFrame_mult]

/-- `WebRtcAecm_EstBufDelay` with 510 ms of sound-card latency on a narrow-band instance
whose far-end FIFO is empty: the FIFO is not touched. -/
theorem estBufDelay_late (a : AecMobile) (hr : WebRtc_available_read a.farendBuf = 0)
    (hm : a.aecmCore.mult = 1) :
    (WebRtcAecm_EstBufDelay a 510).farendBuf = a.farendBuf ∧
      (WebRtcAecm_EstBufDelay a 510).initFlag = a.initFlag ∧
      (WebRtcAecm_EstBufDelay a 510).ECstartup = a.ECstartup ∧
      (WebRtcAecm_EstBufDelay a 510).msInSndCardBuf = a.msInSndCardBuf ∧
      (WebRtcAecm_EstBufDelay a 510).aecmCore = a.aecmCore := by
  unfold WebRtcAecm_EstBufDelay
  lift_lets
  intro nSampFar nSampSndCard delayNew0 moved
  have hmoved : moved = false := by
    simp only [moved, delayNew0, nSampSndCard, nSampFar, hr, hm]
    decide
  clear_value moved delayNew0 nSampSndCard nSampFar
  subst hmoved
  intro farendBuf
  have hfb : farendBuf = a.farendBuf := rfl
  clear_value farendBuf
  intro delayNew fd filtDelay diff timeForDelayChange
  clear_value timeForDelayChange diff filtDelay fd delayNew
  exact ⟨hfb, rfl, rfl, rfl, rfl⟩

/-- One frame of the armed branch of `WebRtcAecm_Process` on a narrow-band instance with
510 ms of latency, `mult = 1` and an empty far-end FIFO: the far end is the old frame,
and the FIFO, the latency and the mode are left alone. -/
theorem processFrameStep_late (noisy : List Int) (clean : Option (List Int))
    (st : ProcessLoop) (hf : st.failed = false) (h8 : st.aecm.sampFreq = 8000)
    (hr : WebRtc_available_read st.aecm.farendBuf = 0)
    (hms : st.aecm.msInSndCardBuf = 510) (hm : st.aecm.aecmCore.mult = 1) :
    (processFrameStep noisy clean st 0).aecm.farendBuf = st.aecm.farendBuf ∧
      (processFrameStep noisy clean st 0).aecm.initFlag = st.aecm.initFlag ∧
      (processFrameStep noisy clean st 0).aecm.ECstartup = st.aecm.ECstartup ∧
      (processFrameStep noisy clean st 0).aecm.msInSndCardBuf = 510 ∧
      (processFrameStep noisy clean st 0).aecm.aecmCore.mult = 1 := by
  unfold processFrameStep
  have hnf : ¬ (st.failed = true) := by
    rw [hf]
    decide
  rw [if_neg hnf]
  lift_lets
  intro aecm nmbr rd a1
  have h1 : a1 = st.aecm := by
    have hn : ¬ (nmbr > 0) := by
      simp only [nmbr, aecm, hr]
      decide
    simp only [a1]
    rw [if_neg hn]
  clear_value a1
  subst h1
  intro farend
  clear_value farend rd nmbr
  intro a2
  have h2 : a2 = WebRtcAecm_EstBufDelay st.aecm 510 := by
    simp only [a2]
    rw [if_pos (Or.inl ⟨trivial, h8⟩), hms]
  clear_value a2
  subst h2
  obtain ⟨e1, e2, e3, e4, e5⟩ := estBufDelay_late st.aecm hr hm
  intro r
  have hrm : r.2.1.mult = 1 := by
    simp only [r]
    rw [processFrame_mult, e5]
    exact hm
  clear_value r
  exact ⟨e1, e2, e3, e4.trans hms, hrm⟩

/-- A `WebRtcAecm_Process` call with 80 samples and 500 ms of latency on an armed
narrow-band instance with `mult = 1` and an empty far-end FIFO: the instance stays armed,
its FIFO stays empty, and `msInSndCardBuf` is 510. -/
theorem process_late (a : AecMobile) (noisy : List Int) (clean : Option (List Int))
    (o : List Int) (hi : a.initFlag = 42) (hs : a.ECstartup = 0) (h8 : a.sampFreq = 8000)
    (hr : WebRtc_available_read a.farendBuf = 0) (hm : a.aecmCore.mult = 1) :
    ∃ a' : AecMobile,
      (WebRtcAecm_Process (some a) (some noisy) clean (some o) 80 500).2.1 = some a' ∧
      a'.farendBuf = a.farendBuf ∧ a'.initFlag = 42 ∧ a'.ECstartup = 0 ∧
      a'.msInSndCardBuf = 510 ∧ a'.aecmCore.mult = 1 := by
  rw [process_state a noisy clean o 80 500 hi (Or.inl rfl)]
  refine ⟨_, rfl, ?_⟩
  have hs' : ¬ (a.ECstartup ≠ 0) := not_not.mpr hs
  rw [if_neg hs']
  have e1 : 80 / FRAME_LEN = 0 + 1 := rfl
  rw [e1, forRange_succ, forRange_zero]
  obtain ⟨p1, p2, p3, p4, p5⟩ := processFrameStep_late noisy clean
    { aecm :=
        { a with msInSndCardBuf :=
            toInt16 ((if (500 : Int) < 0 then 0 else if (500 : Int) > 500 then 500 else 500)
              + 10) },
      out := o, failed := false } rfl h8 hr rfl hm
  exact ⟨p1, p2.trans hi, p3.trans hs, p4, p5⟩

/-- `WebRtcAecm_DelayComp` on an instance with 510 ms of latency, `mult = 1` and an empty
far-end FIFO of 4000 elements: the read cursor is moved back by `10 * FRAME_LEN = 800`
samples. -/
theorem delayComp_late (a : AecMobile) (hms : a.msInSndCardBuf = 510)
    (hm : a.aecmCore.mult = 1) (hc : a.farendBuf.element_count = 4000)
    (hi : RingInv a.farendBuf) (hr : WebRtc_available_read a.farendBuf = 0) :
    WebRtc_available_read (WebRtcAecm_DelayComp a).farendBuf = 800 := by
  have hN : a.farendBuf.element_count ≤ INT_MAX := by
    rw [hc]
    decide
  have hN2 : 2 * a.farendBuf.element_count ≤ INT_MAX := by
    rw [hc]
    decide
  have hw := available_write_of_inv hN hi
  rw [hr, hc] at hw
  unfold WebRtcAecm_DelayComp
  lift_lets
  intro nSampFar maxStuffSamp nSampSndCard delayNew n0 n1 nSampAdd
  have hadd : nSampAdd = 800 := by
    simp only [nSampAdd, n1, n0, maxStuffSamp, nSampSndCard, nSampFar, hms, hm, hr]
    decide
  have hd : delayNew > (FAR_BUF_LEN : Int) - FRAME_LEN * a.aecmCore.mult := by
    simp only [delayNew, nSampSndCard, nSampFar, hms, hm, hr]
    decide
  clear_value nSampAdd n1 n0 delayNew nSampSndCard maxStuffSamp nSampFar
  subst hadd
  rw [if_pos hd]
  obtain ⟨-, -, -, -, m5, m6⟩ := move_props hN2 hi (-800)
  rw [hr, hw] at m5
  rw [m5, hr] at m6
  show WebRtc_available_read (WebRtc_MoveReadPtr a.farendBuf (-800)).2 = 800
  generalize WebRtc_available_read (WebRtc_MoveReadPtr a.farendBuf (-800)).2 = x at m6 ⊢
  omega

set_option maxRecDepth 100000 in
/-- The armed instance: initialised, out of start-up, narrow band, with an empty far-end
FIFO of 4000 elements. -/
theorem armedInstance_state :
    ([armedInstance.initFlag, armedInstance.ECstartup, armedInstance.sampFreq,
        armedInstance.aecmCore.mult, armedInstance.msInSndCardBuf],
      [armedInstance.farendBuf.read_pos, armedInstance.farendBuf.write_pos,
        armedInstance.farendBuf.element_count],
      decide (armedInstance.farendBuf.rw_wrap = Wrap.SAME_WRAP)) =
    ([42, 0, 8000, 1, 10], [0, 0, 4000], true) := by
  decide!

/-- The fields of the armed instance, one by one. -/
theorem armedInstance_fields :
    armedInstance.initFlag = 42 ∧ armedInstance.ECstartup = 0 ∧
      armedInstance.sampFreq = 8000 ∧ armedInstance.aecmCore.mult = 1 ∧
      armedInstance.farendBuf.element_count = 4000 ∧ RingInv armedInstance.farendBuf ∧
      WebRtc_available_read armedInstance.farendBuf = 0 := by
  have h := armedInstance_state
  simp only [Prod.mk.injEq, List.cons.injEq, and_true, decide_eq_true_eq] at h
  obtain ⟨⟨h1, h2, h3, h4, -⟩, ⟨h5, h6, h7⟩, h8⟩ := h
  have hN : armedInstance.farendBuf.element_count ≤ INT_MAX := by
    rw [h7]
    decide
  have hinv : RingInv armedInstance.farendBuf := by
    refine ⟨fun _ => ?_, fun hd => ?_⟩
    · rw [h5, h6, h7]
      exact ⟨le_refl _, by decide⟩
    · rw [h8] at hd
      exact absurd hd (by decide)
  refine ⟨h1, h2, h3, h4, h7, hinv, ?_⟩
  rw [(available_read_of_inv hN hinv).1 h8, h5, h6]

/-- Witness of C34 (amended): `WebRtcAecm_BufferFarend` with 80 samples on the armed
instance. -/
theorem bufferFarend_rewind_bound_witness :
    WebRtcAecm_BufferFarend (some armedInstance) (some (List.replicate 80 1)) 80 =
      (0, some { WebRtcAecm_DelayComp armedInstance with
                 farendBuf :=
                   (WebRtc_WriteBuffer (WebRtcAecm_DelayComp armedInstance).farendBuf
                     (List.replicate 80 1) 80).2 }) ∧
      (WebRtcAecm_DelayComp armedInstance).farendBuf.write_pos =
        armedInstance.farendBuf.write_pos ∧
      (WebRtcAecm_DelayComp armedInstance).farendBuf.data = armedInstance.farendBuf.data ∧
      WebRtc_available_read armedInstance.farendBuf ≤
        WebRtc_available_read (WebRtcAecm_DelayComp armedInstance).farendBuf ∧
      WebRtc_available_read (WebRtcAecm_DelayComp armedInstance).farendBuf ≤
        WebRtc_available_read armedInstance.farendBuf + 10 * FRAME_LEN :=
  bufferFarend_rewind_bound armedInstance (List.replicate 80 1) 80
    armedInstance_fields.1 armedInstance_fields.2.1 (Or.inl rfl)
    (by rw [armedInstance_fields.2.2.2.2.1]; decide) armedInstance_fields.2.2.2.2.2.1

/-- Counterexample to C34 as stated: a `WebRtcAecm_Process` call with 500 ms of latency
on the armed instance (far-end FIFO empty) leaves an armed instance on which
`WebRtcAecm_DelayComp`, as the next `WebRtcAecm_BufferFarend` call runs it, moves the read
cursor of the far-end FIFO back by 800 samples, more than `10 * PART_LEN = 640`. -/
theorem bufferFarend_rewind_counterexample :
    ∃ a : AecMobile,
      (WebRtcAecm_Process (some armedInstance) (some (List.replicate 80 0)) none
        (some (List.replicate 80 0)) 80 500).2.1 = some a ∧
      a.initFlag = 42 ∧ a.ECstartup = 0 ∧ WebRtc_available_read a.farendBuf = 0 ∧
      WebRtc_available_read (WebRtcAecm_DelayComp a).farendBuf = 800 ∧
      10 * PART_LEN < 800 ∧
      (WebRtcAecm_BufferFarend (some a) (some (List.replicate 80 1)) 80).1 = 0 := by
  obtain ⟨h1, h2, h3, h4, h5, h6, h7⟩ := armedInstance_fields
  obtain ⟨a, e, p1, p2, p3, p4, p5⟩ := process_late armedInstance (List.replicate 80 0) none
    (List.replicate 80 0) h1 h2 h3 h7 h4
  refine ⟨a, e, p2, p3, ?_, ?_, by decide, ?_⟩
  · rw [p1]
    exact h7
  · exact delayComp_late a p4 p5 (by rw [p1]; exact h5) (by rw [p1]; exact h6)
      (by rw [p1]; exact h7)
  · have he : WebRtcAecm_GetBufferFarendError (some a) (some (List.replicate 80 1)) 80
        = 0 := by
      simp only [WebRtcAecm_GetBufferFarendError, Option.isNone_some, p2, kInitCheck,
        ne_eq, not_true_eq_false, if_false, Bool.false_eq_true, false_and]
    unfold WebRtcAecm_BufferFarend
    simp only [he, ne_eq, not_true_eq_false, if_false]

/-! ### The frame ring buffers in `WebRtcAecm_ProcessFrame` -/

/-- `WebRtcAecm_BufferFarFrame` leaves the frame ring buffers alone. -/
theorem bufferFarFrame_frame (c : AecmCore) (farend : List Int) (n : Int) :
    CoreFrame c (WebRtcAecm_BufferFarFrame c farend n) := by
  unfold WebRtcAecm_BufferFarFrame
  lift_lets
  intro r
  have hr : CoreFrame c r.1 := by
    apply forStep_invariant (fun (st : AecmCore × Int × Int) => CoreFrame c st.1)
    · intro st i hs
      dsimp only
      split_ifs
      · exact coreFrame_trans hs (by simp only [CoreFrame, and_self])
      · exact hs
    · exact coreFrame_refl c
  clear_value r
  intro a
  exact coreFrame_trans hr (by simp only [CoreFrame, a, and_self])

/-- `WebRtcAecm_FetchFarFrame` leaves the frame ring buffers alone. -/
theorem fetchFarFrame_frame (c : AecmCore) (n k : Int) :
    CoreFrame c (WebRtcAecm_FetchFarFrame c n k).2 := by
  unfold WebRtcAecm_FetchFarFrame
  lift_lets
  intro delayChange p0 p1 p2 a0
  have h0 : CoreFrame c a0 := by simp only [CoreFrame, a0, and_self]
  clear_value a0
  intro r
  have hr : CoreFrame c r.1 := by
    apply forStep_invariant (fun (st : AecmCore × List Int × Int × Int) => CoreFrame c st.1)
    · intro st i hs
      dsimp only
      split_ifs
      · exact coreFrame_trans hs (by simp only [CoreFrame, and_self])
      · exact hs
    · exact h0
  clear_value r
  intro a
  exact coreFrame_trans hr (by simp only [CoreFrame, a, and_self])

/-! ### Occupancy of the frame ring buffers -/

/-- The size, the free space and the read cursor of a frame ring buffer that holds `n`
elements. -/
theorem ringOcc_bounds (b : RingBuffer) (n : Nat) (h : RingOcc b n) :
    b.element_count ≤ INT_MAX ∧ 2 * b.element_count ≤ INT_MAX ∧ n ≤ 144 ∧
      WebRtc_available_write b = 144 - n ∧ b.read_pos ≤ 144 := by
  obtain ⟨hi, hc, ha⟩ := h
  have hN : b.element_count ≤ INT_MAX := by
    rw [hc]
    decide
  have hN2 : 2 * b.element_count ≤ INT_MAX := by
    rw [hc]
    decide
  have hle := available_read_le hN hi
  have hw := available_write_of_inv hN hi
  rw [ha, hc] at hle
  rw [ha, hc] at hw
  refine ⟨hN, hN2, hle, hw, ?_⟩
  obtain ⟨i1, i2⟩ := hi
  cases hwr : b.rw_wrap
  · have := i1 hwr
    omega
  · have := i2 hwr
    omega

/-- A frame ring buffer is empty after `WebRtc_InitBuffer`. -/
theorem ringOcc_init (b0 : RingBuffer) (h : b0.element_count = 144) :
    RingOcc (WebRtc_InitBuffer b0) 0 := by
  have hi := ringInv_init b0
  have hc : (WebRtc_InitBuffer b0).element_count = 144 := h
  have hN : (WebRtc_InitBuffer b0).element_count ≤ INT_MAX := by
    rw [hc]
    decide
  refine ⟨hi, hc, ?_⟩
  rw [(available_read_of_inv hN hi).1 rfl]
  rfl

/-- Writing `m` elements that fit adds `m` readable elements. -/
theorem ringOcc_write (b : RingBuffer) (n : Nat) (d : List Int) (m : Nat)
    (h : RingOcc b n) (hfit : n + m ≤ 144) : RingOcc (WebRtc_WriteBuffer b d m).2 (n + m) := by
  obtain ⟨hN, -, -, hw, -⟩ := ringOcc_bounds b n h
  obtain ⟨hi, hc, ha⟩ := h
  obtain ⟨w1, w2, w3, -, w5, -⟩ := write_props hN hi d m
  refine ⟨w2, w3.trans hc, ?_⟩
  rw [w5, w1, ha, hw]
  omega

/-- Moving the read cursor back by `k` elements that fit adds `k` readable elements. -/
theorem ringOcc_move_back (b : RingBuffer) (n k : Nat) (h : RingOcc b n)
    (hk : n + k ≤ 144) : RingOcc (WebRtc_MoveReadPtr b (-(k : Int))).2 (n + k) := by
  obtain ⟨-, hN2, -, hw, -⟩ := ringOcc_bounds b n h
  obtain ⟨hi, hc, ha⟩ := h
  obtain ⟨m1, m2, -, -, m5, m6⟩ := move_props hN2 hi (-(k : Int))
  refine ⟨m1, m2.trans hc, ?_⟩
  rw [m5, ha, hw] at m6
  generalize WebRtc_available_read (WebRtc_MoveReadPtr b (-(k : Int))).2 = x at m6 ⊢
  omega

/-- Reading `m` of the `n` readable elements leaves `n - m`. -/
theorem ringOcc_read (b : RingBuffer) (n m : Nat) (h : RingOcc b n) (hm : m ≤ n) :
    RingOcc (WebRtc_ReadBuffer b m).self (n - m) ∧ (WebRtc_ReadBuffer b m).read_count = m := by
  obtain ⟨hN, hN2, hn, hw, hr⟩ := ringOcc_bounds b n h
  obtain ⟨hi, hc, ha⟩ := h
  have hN' : (144 : Nat) ≤ 2147483647 := by decide
  obtain ⟨e1, -, e3⟩ := read_eval m 144 b.read_pos n hc rfl ha hN' hr hn
  have emin : min n m = m := Nat.min_eq_right hm
  rw [emin] at e1 e3
  obtain ⟨m1, m2, -, -, m5, m6⟩ := move_props hN2 hi ((m : Nat) : Int)
  refine ⟨⟨by rw [e3]; exact m1, by rw [e3]; exact m2.trans hc, ?_⟩, e1⟩
  rw [e3]
  rw [m5, ha, hw] at m6
  generalize WebRtc_available_read (WebRtc_MoveReadPtr b (m : Int)).2 = x at m6 ⊢
  omega

/-- The far-end frame buffer of the core that `WebRtcAecm_ProcessFrame` returns after a
successful call is the one the block loop left. -/
theorem frameResult_far (src : AecmCore) (r : RingBuffer) (M : List Int) (o : Option Int) :
    (((0 : Int), { src with outFrameBuf := r }, M), o).1.2.1.farFrameBuf = src.farFrameBuf :=
  rfl

/-- The output frame buffer of the core that `WebRtcAecm_ProcessFrame` returns after a
successful call is the one the output frame was read from. -/
theorem frameResult_out (src : AecmCore) (r : RingBuffer) (M : List Int) (o : Option Int) :
    (((0 : Int), { src with outFrameBuf := r }, M), o).1.2.1.outFrameBuf = r :=
  rfl

/-- One pass of the block loop of `WebRtcAecm_ProcessFrame` takes `PART_LEN` samples
from `farFrameBuf` and, unless the block fails, adds `PART_LEN` samples to
`outFrameBuf`. -/
theorem processFrameBlock_occ (hasClean : Bool) (st : FrameLoop) (F O : Nat)
    (hF : RingOcc st.core.farFrameBuf F) (hO : RingOcc st.core.outFrameBuf O)
    (h64 : 64 ≤ F) (hfit : O + 64 ≤ 144) :
    (processFrameBlock hasClean st).failed = true ∨
      ((processFrameBlock hasClean st).failed = false ∧
        RingOcc (processFrameBlock hasClean st).core.farFrameBuf (F - 64) ∧
        RingOcc (processFrameBlock hasClean st).core.outFrameBuf (O + 64)) := by
  unfold processFrameBlock
  lift_lets
  intro aecm far noisy clean a1
  have e1 : a1.farFrameBuf = (WebRtc_ReadBuffer st.core.farFrameBuf PART_LEN).self := by
    simp only [a1, far, aecm]
  have e2 : a1.outFrameBuf = st.core.outFrameBuf := by
    simp only [a1, aecm]
  clear_value a1
  intro r
  have hb := processBlock_frame a1 far.elements noisy.elements
    (if hasClean = true then some clean.elements else none) (List.replicate PART_LEN 0)
  have hfr := processBlockFront_frame a1 far.elements noisy.elements
    (if hasClean = true then some clean.elements else none)
  have e3 : r.2.1.farFrameBuf = (WebRtc_ReadBuffer st.core.farFrameBuf PART_LEN).self :=
    (hb.1.trans hfr.1).trans e1
  have e4 : r.2.1.outFrameBuf = st.core.outFrameBuf := (hb.2.1.trans hfr.2.1).trans e2
  clear hb hfr
  clear_value r
  by_cases hr : r.1 = -1
  · left
    rw [if_pos hr]
  · right
    rw [if_neg hr]
    dsimp only
    refine ⟨rfl, ?_, ?_⟩
    · rw [e3]
      exact (ringOcc_read _ F 64 hF h64).1
    · rw [e4]
      exact ringOcc_write _ O _ 64 hO hfit

/-- The block loop of `WebRtcAecm_ProcessFrame` with `F` samples in `farFrameBuf` runs
`F / 64` times: unless a block fails it leaves `F % 64` samples there and adds
`64 * (F / 64)` samples to `outFrameBuf`. -/
theorem processFrameLoop_occ (hasClean : Bool) (fuel : Nat) :
    ∀ (st : FrameLoop) (F O : Nat), st.failed = false →
      RingOcc st.core.farFrameBuf F → RingOcc st.core.outFrameBuf O →
      F / 64 < fuel → O + 64 * (F / 64) ≤ 144 →
      (processFrameLoop hasClean fuel st).failed = true ∨
        ((processFrameLoop hasClean fuel st).failed = false ∧
          RingOcc (processFrameLoop hasClean fuel st).core.farFrameBuf (F % 64) ∧
          RingOcc (processFrameLoop hasClean fuel st).core.outFrameBuf
            (O + 64 * (F / 64))) := by
  induction fuel with
  | zero =>
    intro st F O _ _ _ hf _
    omega
  | succ k ih =>
    intro st F O hnf hF hO hf hfit
    unfold processFrameLoop
    have hnf' : ¬ (st.failed = true) := by
      rw [hnf]
      decide
    rw [if_neg hnf']
    by_cases hc : WebRtc_available_read st.core.farFrameBuf ≥ PART_LEN
    · rw [if_pos hc]
      have h64 : 64 ≤ F := by
        rw [hF.2.2] at hc
        exact hc
      have hdiv : F / 64 = (F - 64) / 64 + 1 := by omega
      have hmod : F % 64 = (F - 64) % 64 := by omega
      rcases processFrameBlock_occ hasClean st F O hF hO h64 (by omega) with hb | ⟨b1, b2, b3⟩
      · left
        generalize processFrameBlock hasClean st = p at hb ⊢
        cases k with
        | zero => exact hb
        | succ j =>
          unfold processFrameLoop
          rw [if_pos hb]
          exact hb
      · rcases ih (processFrameBlock hasClean st) (F - 64) (O + 64) b1 b2 b3 (by omega)
          (by omega) with hl | ⟨l1, l2, l3⟩
        · exact Or.inl hl
        · right
          refine ⟨l1, ?_, ?_⟩
          · rw [hmod]
            exact l2
          · have e : O + 64 * (F / 64) = O + 64 + 64 * ((F - 64) / 64) := by omega
            rw [e]
            exact l3
    · rw [if_neg hc]
      have h64 : F < 64 := by
        rw [hF.2.2] at hc
        unfold PART_LEN at hc
        omega
      right
      have hdiv : F / 64 = 0 := by omega
      have hmod : F % 64 = F := by omega
      rw [hdiv, hmod]
      exact ⟨hnf, hF, hO⟩

/-- The part of `WebRtcAecm_ProcessFrame` after the far frame has been fetched, at the
level of the occupancy of the two frame ring buffers: with `F` samples in `farFrameBuf`
and `O` in `outFrameBuf` on entry, the call fails or finds
`size = O + 64 * ((F + 80) / 64)` and leaves `(F + 80) % 64` and `max size 80 - 80`
samples. -/
theorem processFrameTail_occ (a1 : AecmCore) (fr near : List Int)
    (clean : Option (List Int)) (out : List Int) (F O : Nat)
    (hF : RingOcc a1.farFrameBuf F) (hO : RingOcc a1.outFrameBuf O)
    (hF80 : F + 80 ≤ 144) (hfit : O + 64 * ((F + 80) / 64) ≤ 144)
    (p : (Int × AecmCore × List Int) × Option Int)
    (hp : p =
      (let a2 : AecmCore :=
        { a1 with
          farFrameBuf := (WebRtc_WriteBuffer a1.farFrameBuf fr FRAME_LEN).2
          nearNoisyFrameBuf := (WebRtc_WriteBuffer a1.nearNoisyFrameBuf near FRAME_LEN).2
          nearCleanFrameBuf :=
            match clean with
            | none => a1.nearCleanFrameBuf
            | some c => (WebRtc_WriteBuffer a1.nearCleanFrameBuf c FRAME_LEN).2 }
      let l := processFrameLoop clean.isSome
        (WebRtc_available_read a2.farFrameBuf / PART_LEN + 1) { core := a2, failed := false }
      (if l.failed then (-1, l.core, out)
        else
          let size := toInt32 (WebRtc_available_read l.core.outFrameBuf)
          let ob :=
            if size < FRAME_LEN then
              (WebRtc_MoveReadPtr l.core.outFrameBuf (size - FRAME_LEN)).2
            else l.core.outFrameBuf
          let rd := WebRtc_ReadBuffer ob FRAME_LEN
          ((0 : Int), { l.core with outFrameBuf := rd.self },
            memcpyList out 0 rd.elements 0 FRAME_LEN),
        if l.failed then none
        else some (toInt32 (WebRtc_available_read l.core.outFrameBuf))))) :
    (p.1.1 = -1 ∧ p.2 = none) ∨
      (p.1.1 = 0 ∧ p.2 = some ((O + 64 * ((F + 80) / 64) : Nat) : Int) ∧
        RingOcc p.1.2.1.farFrameBuf ((F + 80) % 64) ∧
        RingOcc p.1.2.1.outFrameBuf (max (O + 64 * ((F + 80) / 64)) 80 - 80)) := by
  subst hp
  lift_lets
  intro a2
  have h2f : RingOcc a2.farFrameBuf (F + 80) := by
    simp only [a2]
    exact ringOcc_write _ F _ 80 hF hF80
  have h2o : RingOcc a2.outFrameBuf O := by
    simp only [a2]
    exact hO
  clear_value a2
  intro l
  have el : l = processFrameLoop clean.isSome
      (WebRtc_available_read a2.farFrameBuf / PART_LEN + 1) { core := a2, failed := false } := by
    simp only [l]
  clear_value l
  have hl := processFrameLoop_occ clean.isSome
    (WebRtc_available_read a2.farFrameBuf / PART_LEN + 1) { core := a2, failed := false }
    (F + 80) O rfl h2f h2o (by rw [h2f.2.2]; unfold PART_LEN; omega) hfit
  rw [← el] at hl
  clear el
  intro size ob rd src
  rcases hl with hfail | ⟨hok, lf, lo⟩
  · left
    clear_value src rd ob size
    rw [if_pos hfail, if_pos hfail]
    dsimp only
    exact ⟨rfl, rfl⟩
  · right
    have hnf : ¬ (l.failed = true) := by
      rw [hok]
      decide
    generalize hS : O + 64 * ((F + 80) / 64) = S at lo hfit ⊢
    have hsize : size = (S : Int) := by
      simp only [size]
      rw [lo.2.2, toInt32_of_range (by omega) (by omega)]
    have hob : RingOcc ob (max S 80) := by
      simp only [ob]
      rw [hsize]
      by_cases hlt : (S : Int) < ((FRAME_LEN : Nat) : Int)
      · rw [if_pos hlt]
        have hS80 : S < 80 := by
          unfold FRAME_LEN at hlt
          omega
        have ek : (S : Int) - ((FRAME_LEN : Nat) : Int) = -((80 - S : Nat) : Int) := by
          unfold FRAME_LEN
          omega
        rw [ek]
        have em : max S 80 = S + (80 - S) := by omega
        rw [em]
        exact ringOcc_move_back _ S (80 - S) lo (by omega)
      · rw [if_neg hlt]
        have hS80 : 80 ≤ S := by
          unfold FRAME_LEN at hlt
          omega
        have em : max S 80 = S := by omega
        rw [em]
        exact lo
    clear_value ob
    have hrd : RingOcc rd.self (max S 80 - 80) := by
      simp only [rd]
      exact (ringOcc_read ob (max S 80) 80 hob (by omega)).1
    have lf2 : RingOcc src.farFrameBuf ((F + 80) % 64) := lf
    have hsz : toInt32 (WebRtc_available_read l.core.outFrameBuf) = (S : Int) := hsize
    clear_value rd src size
    rw [if_neg hnf, if_neg hnf, hsz]
    refine ⟨rfl, rfl, ?_, ?_⟩
    · rw [frameResult_far]
      exact lf2
    · rw [frameResult_out]
      exact hrd

/-- One `WebRtcAecm_ProcessFrame` call at the level of the occupancy of the two frame ring
buffers: with `F` samples in `farFrameBuf` and `O` in `outFrameBuf` before the call, the
call fails (returns -1) or returns 0 after finding `size = O + 64 * ((F + 80) / 64)`
samples in `outFrameBuf`, and leaves `(F + 80) % 64` and `max size 80 - 80` samples. -/
theorem processFrame_occ (c : AecmCore) (far near : List Int) (clean : Option (List Int))
    (out : List Int) (F O : Nat) (hF : RingOcc c.farFrameBuf F)
    (hO : RingOcc c.outFrameBuf O) (hF80 : F + 80 ≤ 144)
    (hfit : O + 64 * ((F + 80) / 64) ≤ 144) :
    ((WebRtcAecm_ProcessFrame c far near clean out).1 = -1 ∧
        processFrameSize c far near clean = none) ∨
      ((WebRtcAecm_ProcessFrame c far near clean out).1 = 0 ∧
        processFrameSize c far near clean = some ((O + 64 * ((F + 80) / 64) : Nat) : Int) ∧
        RingOcc (WebRtcAecm_ProcessFrame c far near clean out).2.1.farFrameBuf
          ((F + 80) % 64) ∧
        RingOcc (WebRtcAecm_ProcessFrame c far near clean out).2.1.outFrameBuf
          (max (O + 64 * ((F + 80) / 64)) 80 - 80)) := by
  have h1 : CoreFrame c
      (WebRtcAecm_FetchFarFrame (WebRtcAecm_BufferFarFrame c far FRAME_LEN) FRAME_LEN
        (WebRtcAecm_BufferFarFrame c far FRAME_LEN).knownDelay).2 :=
    coreFrame_trans (bufferFarFrame_frame c far FRAME_LEN)
      (fetchFarFrame_frame (WebRtcAecm_BufferFarFrame c far FRAME_LEN) FRAME_LEN
        (WebRtcAecm_BufferFarFrame c far FRAME_LEN).knownDelay)
  have hF1 := hF
  rw [← h1.1] at hF1
  have hO1 := hO
  rw [← h1.2.1] at hO1
  have key := processFrameTail_occ
    (WebRtcAecm_FetchFarFrame (WebRtcAecm_BufferFarFrame c far FRAME_LEN) FRAME_LEN
      (WebRtcAecm_BufferFarFrame c far FRAME_LEN).knownDelay).2
    (WebRtcAecm_FetchFarFrame (WebRtcAecm_BufferFarFrame c far FRAME_LEN) FRAME_LEN
      (WebRtcAecm_BufferFarFrame c far FRAME_LEN).knownDelay).1 near clean out F O hF1 hO1
    hF80 hfit
    (WebRtcAecm_ProcessFrame c far near clean out, processFrameSize c far near clean) rfl
  generalize WebRtcAecm_ProcessFrame c far near clean out = A at key ⊢
  generalize processFrameSize c far near clean = B at key ⊢
  exact key

/-! ### Saving and restoring the echo path around a re-initialisation -/

section EchoPathRestore

attribute [local irreducible] memcpyList forRange initNoiseEst

end EchoPathRestore

/-- The return value of a successful `WebRtcAecm_ProcessFrame` call. -/
theorem frameResult_ret (c : AecmCore) (M : List Int) : ((0 : Int), c, M).1 = 0 :=
  rfl

theorem estFrame_refl (a : AecmCore) : EstFrame a a := ⟨rfl, rfl⟩

theorem estFrame_trans {a b c : AecmCore} (h1 : EstFrame a b) (h2 : EstFrame b c) :
    EstFrame a c :=
  ⟨h2.1.trans h1.1, h2.2.trans h1.2⟩

theorem estFrame_ite {a x y : AecmCore} (c : Prop) [Decidable c] (hx : EstFrame a x)
    (hy : EstFrame a y) : EstFrame a (if c then x else y) := by
  split_ifs
  · exact hx
  · exact hy

theorem estFrame_ite_fst {α : Type} {a : AecmCore} {x y : AecmCore × α} (c : Prop)
    [Decidable c] (hx : EstFrame a x.1) (hy : EstFrame a y.1) :
    EstFrame a (if c then x else y).1 := by
  split_ifs
  · exact hx
  · exact hy

set_option maxRecDepth 10000 in
theorem calcEnergies_est (a : AecmCore) (fs : List Int) (q ne : Int) (ee : List Int) :
    EstFrame a (WebRtcAecm_CalcEnergies a fs q ne ee).1 := by
  unfold WebRtcAecm_CalcEnergies
  lift_lets
  intro nearLogEnergy le farLogEnergy echoAdaptLogEnergy echoStoredLogEnergy a1
    increase_max_shifts decrease_max_shifts increase_min_shifts decrease_min_shifts
    farEnergyMin farEnergyMax farEnergyMaxMin t0 t1 tmp16 b c a2 a3 a4
  have h1 : EstFrame a a1 := ⟨rfl, rfl⟩
  have hb : EstFrame a1 b := ⟨rfl, rfl⟩
  have hc : EstFrame b c :=
    estFrame_ite _ ⟨rfl, rfl⟩ (estFrame_ite _ ⟨rfl, rfl⟩ ⟨rfl, rfl⟩)
  have h2 : EstFrame a a2 :=
    estFrame_ite _ (estFrame_trans h1 (estFrame_trans hb (estFrame_trans hc
      ⟨rfl, rfl⟩))) h1
  have h3 : EstFrame a a3 :=
    estFrame_ite _ (estFrame_ite _ (estFrame_trans h2 ⟨rfl, rfl⟩) h2)
      (estFrame_trans h2 ⟨rfl, rfl⟩)
  have h4 : EstFrame a a4 :=
    estFrame_ite _ (estFrame_ite _ (estFrame_trans h3 ⟨rfl, rfl⟩)
      (estFrame_trans h3 ⟨rfl, rfl⟩)) h3
  exact h4

theorem updateChannelLoop_est (a : AecmCore) (fs : List Int) (q : Int) (dfa : List Int)
    (mu : Int) (n : Nat) :
    EstFrame a (forRange n
      (fun (a : AecmCore) i =>
        let r := updateChannelBin a fs q dfa mu i
        if r.2 then
          { a with
            channelAdapt32 := a.channelAdapt32.set i r.1
            channelAdapt16 := a.channelAdapt16.set i (toInt16 (shr r.1 16)) }
        else a)
      a) := by
  apply forRange_invariant (fun s => EstFrame a s)
  · intro s i hs
    exact estFrame_ite _ (estFrame_trans hs ⟨rfl, rfl⟩) hs
  · exact estFrame_refl a


theorem storeAdaptive_est (a : AecmCore) (fs ee : List Int) :
    EstFrame a (StoreAdaptiveChannelC a fs ee).1 := by
  simp only [EstFrame, StoreAdaptiveChannelC, and_self]

theorem resetAdaptive_est (a : AecmCore) : EstFrame a (ResetAdaptiveChannelC a) := by
  simp only [EstFrame, ResetAdaptiveChannelC, and_self]

set_option maxRecDepth 100000 in
theorem updateChannel_est (a : AecmCore) (fs : List Int) (q : Int) (dfa : List Int)
    (mu : Int) (ee : List Int) :
    EstFrame a (WebRtcAecm_UpdateChannel a fs q dfa mu ee).1 := by
  have hloop := updateChannelLoop_est a fs q dfa mu PART_LEN1
  unfold WebRtcAecm_UpdateChannel
  lift_lets
  intro a1 
  have h1 : EstFrame a a1 := estFrame_ite _ hloop (estFrame_refl a)
  clear_value a1
  intro a2
  have h2 : EstFrame a a2 :=
    estFrame_ite _ (estFrame_trans h1 ⟨rfl, rfl⟩)
      (estFrame_trans h1 ⟨rfl, rfl⟩)
  clear_value a2
  intro m mseStored mseAdapt
  clear_value m mseStored mseAdapt
  intro s
  have hs : EstFrame a s.1 := estFrame_trans h2 (storeAdaptive_est a2 fs ee)
  clear_value s
  intro scaled_threshold thr src
  have hsrc : EstFrame a src := hs
  clear_value scaled_threshold thr src
  intro r
  have hr : EstFrame a r.1 :=
    estFrame_ite_fst _ (estFrame_trans h2 (resetAdaptive_est a2))
      (estFrame_ite_fst _ (estFrame_trans hsrc ⟨rfl, rfl⟩) h2)
  clear_value r
  intro src2
  have hsrc2 : EstFrame a src2 := hr
  clear_value src2
  exact estFrame_ite_fst _ (estFrame_trans h1 (storeAdaptive_est a1 fs ee))
    (estFrame_ite_fst _ (estFrame_trans hsrc2 ⟨rfl, rfl⟩) h2)

theorem processBlockChannel_est (a : AecmCore) (delay : Int) (dfa : List Int) (s : Int) :
    EstFrame a (processBlockChannel a delay dfa s).core := by
  unfold processBlockChannel
  lift_lets
  intro al zerosXBuf e
  have he : EstFrame a e.1 := calcEnergies_est a _ _ _ _
  clear_value e
  intro mu src a1
  have h1 : EstFrame a a1 := estFrame_trans he ⟨rfl, rfl⟩
  clear_value a1
  intro u
  exact estFrame_trans h1 (updateChannel_est a1 _ _ _ _ _)

theorem calcSuppressionGain_est (a : AecmCore) :
    EstFrame a (WebRtcAecm_CalcSuppressionGain a).2 := ⟨rfl, rfl⟩

theorem wienerFilter_est (a : AecmCore) (ee dfa : List Int) (g z : Int) :
    EstFrame a (wienerFilter a ee dfa g z).core := by
  unfold wienerFilter
  apply forRange_invariant (fun (s : WienerState) => EstFrame a s.core)
  · intro s i hs
    exact estFrame_trans hs ⟨rfl, rfl⟩
  · exact estFrame_refl a

theorem comfortNoise_est (a : AecmCore) (dfa : List Int) (out : List ComplexInt16)
    (lambda : List Int) : EstFrame a (ComfortNoise a dfa out lambda).1 := by
  unfold ComfortNoise
  lift_lets
  intro shiftFromNearToNoise a0 minTrackShift a1 r2 noiseRShift16 rnd randW16 u uReal uImag
  have h0 : EstFrame a a0 := estFrame_ite _ ⟨rfl, rfl⟩ (estFrame_refl a)
  have h1 : EstFrame a a1 := by
    apply forRange_invariant (fun s => EstFrame a s)
    · intro s i hs
      exact estFrame_trans hs ⟨rfl, rfl⟩
    · exact h0
  exact estFrame_trans h1 ⟨rfl, rfl⟩

theorem inverseFFT_est (a : AecmCore) (efw : List ComplexInt16) (out : List Int)
    (hasClean : Bool) : EstFrame a (InverseFFTAndWindow a efw out hasClean).1 := by
  unfold InverseFFTAndWindow
  lift_lets
  intro fft0 c0 cN fft inv ifft_out outCFFT r
  clear_value r
  simp only [EstFrame, and_self]

theorem processBlockTrace_est (a : AecmCore) (f : BlockFront) (d : Int) :
    EstFrame a (processBlockTrace a f d).wiener.core := by
  unfold processBlockTrace
  lift_lets
  intro delay0 delay ch
  have hch : EstFrame a ch.core := processBlockChannel_est a _ _ _
  clear_value ch
  intro g
  have hg : EstFrame a g.2 := estFrame_trans hch (calcSuppressionGain_est _)
  clear_value g
  intro w
  have hw : EstFrame a w.core := estFrame_trans hg (wienerFilter_est _ _ _ _ _)
  clear_value w
  intro hnl1
  exact hw

theorem processBlockFront_est (a : AecmCore) (far near : List Int)
    (clean : Option (List Int)) :
    EstFrame a (processBlockFront a far near clean).core := by
  cases clean with
  | none =>
    unfold processBlockFront
    lift_lets
    intro a0
    have h0 : EstFrame a a0 :=
      estFrame_ite _ ⟨rfl, rfl⟩ (estFrame_refl a)
    clear_value a0
    intro a1
    have h1 : EstFrame a a1 := estFrame_trans h0 (by simp only [EstFrame, a1, and_self])
    clear_value a1
    intro far0 noisy
    clear_value far0 noisy
    intro a2
    have h2 : EstFrame a a2 := estFrame_trans h1 ⟨rfl, rfl⟩
    clear_value a2
    intro a3
    have h3 : EstFrame a a3 := estFrame_trans h2 ⟨rfl, rfl⟩
    clear_value a3
    exact estFrame_trans h3 (by simp only [EstFrame, WebRtcAecm_UpdateFarHistory, and_self])
  | some c =>
    unfold processBlockFront
    lift_lets
    intro a0
    have h0 : EstFrame a a0 :=
      estFrame_ite _ ⟨rfl, rfl⟩ (estFrame_refl a)
    clear_value a0
    intro a1
    have h1 : EstFrame a a1 := estFrame_trans h0 (by simp only [EstFrame, a1, and_self])
    clear_value a1
    intro far0 noisy
    clear_value far0 noisy
    intro a2
    have h2 : EstFrame a a2 := estFrame_trans h1 ⟨rfl, rfl⟩
    clear_value a2
    intro a3n cl a3
    clear_value a3n cl
    have h3 : EstFrame a a3 := estFrame_trans h2 ⟨rfl, rfl⟩
    clear_value a3
    exact estFrame_trans h3 (by simp only [EstFrame, WebRtcAecm_UpdateFarHistory, and_self])


theorem engineInv_est {a b : AecmCore} (h : EstFrame a b) (ha : EngineInv a) : EngineInv b := by
  unfold EngineInv EstimatorShape at ha ⊢
  rw [h.1, h.2]
  exact ha

/-- `WebRtcSpl_MaxAbsValueW16` returns a value in `[0, 32767]`. -/
theorem maxAbsValueW16_range (v : List Int) (n : Nat) :
    0 ≤ WebRtcSpl_MaxAbsValueW16 v n ∧ WebRtcSpl_MaxAbsValueW16 v n ≤ 32767 := by
  unfold WebRtcSpl_MaxAbsValueW16
  lift_lets
  intro maximum
  have h : 0 ≤ maximum := by
    apply forRange_invariant (fun (m : Int) => 0 ≤ m)
    · intro s i hs
      dsimp only
      split_ifs <;> omega
    · exact le_refl 0
  clear_value maximum
  split_ifs with hm
  · decide
  · rw [toInt16_of_range (by omega) (by omega)]
    omega

/-- `WebRtcSpl_NormW16` of a value in `[0, 32767]` is in `[0, 15]`. -/
theorem normW16_bound (a : Int) (h0 : 0 ≤ a) (h1 : a ≤ 32767) :
    0 ≤ WebRtcSpl_NormW16 a ∧ WebRtcSpl_NormW16 a ≤ 15 := by
  unfold WebRtcSpl_NormW16
  by_cases ha : a = 0
  · rw [if_pos ha]
    decide
  · rw [if_neg ha, if_neg (by omega : ¬ a < 0), toUint32_of_range h0 (by omega)]
    obtain ⟨r, hr, hr31, -, -⟩ :=
      clz_norm a 32768 17 (by norm_num) (by decide) (by omega) (by omega)
    rw [hr]
    unfold toInt16 toUint32
    omega

set_option maxRecDepth 100000 in
/-- The Q-domain `TimeToFrequencyDomain` returns is in `[0, 15]`. -/
theorem timeToFrequencyDomain_scaling (a : AecmCore) (t : List Int) :
    0 ≤ (TimeToFrequencyDomain a t).time_signal_scaling ∧
      (TimeToFrequencyDomain a t).time_signal_scaling ≤ 15 := by
  have h := maxAbsValueW16_range t PART_LEN2
  exact normW16_bound _ h.1 h.2

/-- The front part of `WebRtcAecm_ProcessBlock` leaves the delay estimators alone and hands
on Q-domains of at most 15. -/
theorem processBlockFront_engine (a : AecmCore) (far near : List Int)
    (clean : Option (List Int)) :
    EstFrame a (processBlockFront a far near clean).core ∧
      (processBlockFront a far near clean).far_q ≤ 15 ∧
      (processBlockFront a far near clean).zerosDBufNoisy ≤ 15 := by
  cases clean with
  | none =>
    unfold processBlockFront
    lift_lets
    intro a0
    have h0 : EstFrame a a0 := estFrame_ite _ ⟨rfl, rfl⟩ (estFrame_refl a)
    clear_value a0
    intro a1
    have h1 : EstFrame a a1 := estFrame_trans h0 (by simp only [EstFrame, a1, and_self])
    clear_value a1
    intro far0 noisy
    have q1 : far0.time_signal_scaling ≤ 15 := (timeToFrequencyDomain_scaling a1 a1.xBuf).2
    have q2 : 0 ≤ noisy.time_signal_scaling ∧ noisy.time_signal_scaling ≤ 15 :=
      timeToFrequencyDomain_scaling a1 a1.dBufNoisy
    clear_value far0 noisy
    intro a2
    have h2 : EstFrame a a2 := estFrame_trans h1 ⟨rfl, rfl⟩
    clear_value a2
    intro a3
    have h3 : EstFrame a a3 := estFrame_trans h2 ⟨rfl, rfl⟩
    clear_value a3
    refine ⟨estFrame_trans h3 (by simp only [EstFrame, WebRtcAecm_UpdateFarHistory, and_self]),
      q1, ?_⟩
    show toInt16 noisy.time_signal_scaling ≤ 15
    rw [toInt16_of_range (by omega) (by omega)]
    exact q2.2
  | some c =>
    unfold processBlockFront
    lift_lets
    intro a0
    have h0 : EstFrame a a0 := estFrame_ite _ ⟨rfl, rfl⟩ (estFrame_refl a)
    clear_value a0
    intro a1
    have h1 : EstFrame a a1 := estFrame_trans h0 (by simp only [EstFrame, a1, and_self])
    clear_value a1
    intro far0 noisy
    have q1 : far0.time_signal_scaling ≤ 15 := (timeToFrequencyDomain_scaling a1 a1.xBuf).2
    have q2 : 0 ≤ noisy.time_signal_scaling ∧ noisy.time_signal_scaling ≤ 15 :=
      timeToFrequencyDomain_scaling a1 a1.dBufNoisy
    clear_value far0 noisy
    intro a2
    have h2 : EstFrame a a2 := estFrame_trans h1 ⟨rfl, rfl⟩
    clear_value a2
    intro a3n cl a3
    clear_value a3n cl
    have h3 : EstFrame a a3 := estFrame_trans h2 ⟨rfl, rfl⟩
    clear_value a3
    refine ⟨estFrame_trans h3 (by simp only [EstFrame, WebRtcAecm_UpdateFarHistory, and_self]),
      q1, ?_⟩
    show toInt16 noisy.time_signal_scaling ≤ 15
    rw [toInt16_of_range (by omega) (by omega)]
    exact q2.2

/-- `WebRtc_AddFarSpectrumFix` with the spectrum size of the estimator and a Q-domain of
at most 15 returns 0 and keeps the shape and the invariant of the estimators. -/
theorem addFarSpectrumFix_engine (fe : DelayEstimatorFarend) (e : BinaryDelayEstimator)
    (sp : List Int) (q : Int) (hs : fe.spectrum_size = PART_LEN1) (hq : q ≤ 15)
    (hl : 44 ≤ fe.mean_far_spectrum.length) (hd : DelayInv fe.binary_farend e) :
    (WebRtc_AddFarSpectrumFix fe sp PART_LEN1 q).1 = 0 ∧
      (WebRtc_AddFarSpectrumFix fe sp PART_LEN1 q).2.spectrum_size = PART_LEN1 ∧
      (WebRtc_AddFarSpectrumFix fe sp PART_LEN1 q).2.binary_farend.history_size =
        fe.binary_farend.history_size ∧
      44 ≤ (WebRtc_AddFarSpectrumFix fe sp PART_LEN1 q).2.mean_far_spectrum.length ∧
      DelayInv (WebRtc_AddFarSpectrumFix fe sp PART_LEN1 q).2.binary_farend e := by
  obtain ⟨w, hw, hw32, -, hlen, -⟩ :=
    binarySpectrumFix_core sp fe.mean_far_spectrum q fe.far_spectrum_initialized hl
  unfold WebRtc_AddFarSpectrumFix
  rw [if_neg (by rw [hs]; exact fun h => h rfl), if_neg (by omega)]
  dsimp only
  refine ⟨rfl, hs, rfl, by rw [hlen]; exact hl, ?_⟩
  rw [hw]
  exact delayInv_add _ _ _ (by omega) (by
    have : (w : Int) < 4294967296 := by
      have e : (2 : Nat) ^ 32 = 4294967296 := by norm_num
      omega
    exact this) hd

/-- `WebRtc_DelayEstimatorProcessFix` with the spectrum size of the estimator, a Q-domain
of at most 15 and equal history sizes does not return -1 and keeps the shape and the
invariant of the estimators. -/
theorem delayEstimatorProcessFix_engine (de : DelayEstimator)
    (bf : BinaryDelayEstimatorFarend) (sp : List Int) (q : Int)
    (hs : de.spectrum_size = PART_LEN1) (hq : q ≤ 15)
    (hh : bf.history_size = de.binary_handle.history_size)
    (hd : DelayInv bf de.binary_handle) :
    (WebRtc_DelayEstimatorProcessFix de bf sp PART_LEN1 q).1 ≠ -1 ∧
      (WebRtc_DelayEstimatorProcessFix de bf sp PART_LEN1 q).2.spectrum_size = PART_LEN1 ∧
      (WebRtc_DelayEstimatorProcessFix de bf sp PART_LEN1 q).2.binary_handle.history_size =
        de.binary_handle.history_size ∧
      DelayInv bf (WebRtc_DelayEstimatorProcessFix de bf sp PART_LEN1 q).2.binary_handle := by
  unfold WebRtc_DelayEstimatorProcessFix
  rw [if_neg (by rw [hs]; exact fun h => h rfl), if_neg (by omega)]
  dsimp only
  generalize (BinarySpectrumFix sp de.mean_near_spectrum q de.near_spectrum_initialized).1 = x
  obtain ⟨p1, p2, -⟩ := process_match de.binary_handle bf x hh
  have hI := delayInv_process bf de.binary_handle x hd
  refine ⟨?_, hs, p2, hI⟩
  rw [p1]
  have h3 := hI.2.2
  omega

/-- `WebRtcAecm_ProcessBlock` on a core whose delay estimators are in order returns 0 and
leaves them in order. -/
theorem processBlock_engine (a : AecmCore) (far near : List Int) (clean : Option (List Int))
    (out : List Int) (h : EngineInv a) :
    (WebRtcAecm_ProcessBlock a far near clean out).1 = 0 ∧
      EngineInv (WebRtcAecm_ProcessBlock a far near clean out).2.1 := by
  obtain ⟨hf, hq1, hq2⟩ := processBlockFront_engine a far near clean
  have hI := engineInv_est hf h
  unfold WebRtcAecm_ProcessBlock
  dsimp only
  generalize processBlockFront a far near clean = f at hf hq1 hq2 hI ⊢
  obtain ⟨⟨s1, s2, s3, s4⟩, hD⟩ := hI
  obtain ⟨a1, a2, a3, a4, a5⟩ := addFarSpectrumFix_engine f.core.delay_estimator_farend
    f.core.delay_estimator.binary_handle f.xfa f.far_q s1 hq1 s4 hD
  obtain ⟨p1, p2, p3, p4⟩ := delayEstimatorProcessFix_engine f.core.delay_estimator
    (WebRtc_AddFarSpectrumFix f.core.delay_estimator_farend f.xfa PART_LEN1
      f.far_q).2.binary_farend f.dfaNoisy f.zerosDBufNoisy s2 hq2 (by rw [a3]; exact s3) a5
  have hE : EngineInv
      ({ ({ f.core with
            delay_estimator_farend :=
              (WebRtc_AddFarSpectrumFix f.core.delay_estimator_farend f.xfa PART_LEN1
                f.far_q).2 } : AecmCore) with
          delay_estimator :=
            (WebRtc_DelayEstimatorProcessFix f.core.delay_estimator
              (WebRtc_AddFarSpectrumFix f.core.delay_estimator_farend f.xfa PART_LEN1
                f.far_q).2.binary_farend f.dfaNoisy PART_LEN1 f.zerosDBufNoisy).2 } :
        AecmCore) :=
    ⟨⟨a2, p2, by rw [a3, p3]; exact s3, a4⟩, p4⟩
  rw [if_neg (by rw [a1]; decide), if_neg p1]
  split_ifs with h3
  · dsimp only
    refine ⟨rfl, engineInv_est ?_ hE⟩
    refine estFrame_trans ?_ (inverseFFT_est _ _ _ _)
    refine estFrame_trans ?_ (comfortNoise_est _ _ _ _)
    exact processBlockTrace_est _ f _
  · dsimp only
    refine ⟨rfl, engineInv_est ?_ hE⟩
    refine estFrame_trans ?_ (inverseFFT_est _ _ _ _)
    exact processBlockTrace_est _ f _

/-- `WebRtcAecm_BufferFarFrame` leaves the delay estimators alone. -/
theorem bufferFarFrame_est (c : AecmCore) (farend : List Int) (n : Int) :
    EstFrame c (WebRtcAecm_BufferFarFrame c farend n) := by
  unfold WebRtcAecm_BufferFarFrame
  lift_lets
  intro r
  have hr : EstFrame c r.1 := by
    apply forStep_invariant (fun (st : AecmCore × Int × Int) => EstFrame c st.1)
    · intro st i hs
      dsimp only
      split_ifs
      · exact estFrame_trans hs (by simp only [EstFrame, and_self])
      · exact hs
    · exact estFrame_refl c
  clear_value r
  intro a
  exact estFrame_trans hr (by simp only [EstFrame, a, and_self])

/-- `WebRtcAecm_FetchFarFrame` leaves the delay estimators alone. -/
theorem fetchFarFrame_est (c : AecmCore) (n k : Int) :
    EstFrame c (WebRtcAecm_FetchFarFrame c n k).2 := by
  unfold WebRtcAecm_FetchFarFrame
  lift_lets
  intro delayChange p0 p1 p2 a0
  have h0 : EstFrame c a0 := by simp only [EstFrame, a0, and_self]
  clear_value a0
  intro r
  have hr : EstFrame c r.1 := by
    apply forStep_invariant (fun (st : AecmCore × List Int × Int × Int) => EstFrame c st.1)
    · intro st i hs
      dsimp only
      split_ifs
      · exact estFrame_trans hs (by simp only [EstFrame, and_self])
      · exact hs
    · exact h0
  clear_value r
  intro a
  exact estFrame_trans hr (by simp only [EstFrame, a, and_self])

/-- One pass of the block loop of `WebRtcAecm_ProcessFrame` on a core whose delay
estimators are in order does not fail and leaves them in order. -/
theorem processFrameBlock_engine (hasClean : Bool) (st : FrameLoop) (h : EngineInv st.core) :
    (processFrameBlock hasClean st).failed = false ∧
      EngineInv (processFrameBlock hasClean st).core := by
  unfold processFrameBlock
  lift_lets
  intro aecm far noisy clean a1
  have h1 : EngineInv a1 := engineInv_est (by simp only [EstFrame, a1, and_self, aecm]) h
  clear_value a1
  intro r
  obtain ⟨r0, rI⟩ := processBlock_engine a1 far.elements noisy.elements
    (if hasClean then some clean.elements else none) (List.replicate PART_LEN 0) h1
  have e0 : r.1 = 0 := r0
  have eI : EngineInv r.2.1 := rI
  clear_value r
  intro src
  rw [if_neg (by rw [e0]; decide)]
  exact ⟨rfl, engineInv_est (by simp only [EstFrame, src, and_self]) eI⟩

/-- The block loop of `WebRtcAecm_ProcessFrame` on a core whose delay estimators are in
order does not fail and leaves them in order. -/
theorem processFrameLoop_engine (hasClean : Bool) (fuel : Nat) (st : FrameLoop)
    (hf : st.failed = false) (h : EngineInv st.core) :
    (processFrameLoop hasClean fuel st).failed = false ∧
      EngineInv (processFrameLoop hasClean fuel st).core := by
  induction fuel generalizing st with
  | zero => exact ⟨hf, h⟩
  | succ k ih =>
    unfold processFrameLoop
    rw [if_neg (by rw [hf]; decide)]
    split_ifs
    · obtain ⟨b0, bI⟩ := processFrameBlock_engine hasClean st h
      exact ih _ b0 bI
    · exact ⟨hf, h⟩

/-- The core that `WebRtcAecm_ProcessFrame` returns after a successful call has the delay
estimators the block loop left. -/
theorem frameResult_est (src : AecmCore) (r : RingBuffer) (M : List Int) :
    EstFrame src ((0 : Int), { src with outFrameBuf := r }, M).2.1 :=
  ⟨rfl, rfl⟩

/-- The part of `WebRtcAecm_ProcessFrame` after the far frame has been fetched, on a core
whose delay estimators are in order: it returns 0 and leaves them in order. -/
theorem processFrameTail_engine (a1 : AecmCore) (fr near : List Int)
    (clean : Option (List Int)) (out : List Int) (res : Int × AecmCore × List Int)
    (hres : res =
      (let a2 : AecmCore :=
        { a1 with
          farFrameBuf := (WebRtc_WriteBuffer a1.farFrameBuf fr FRAME_LEN).2
          nearNoisyFrameBuf := (WebRtc_WriteBuffer a1.nearNoisyFrameBuf near FRAME_LEN).2
          nearCleanFrameBuf :=
            match clean with
            | none => a1.nearCleanFrameBuf
            | some c => (WebRtc_WriteBuffer a1.nearCleanFrameBuf c FRAME_LEN).2 }
      let l := processFrameLoop clean.isSome
        (WebRtc_available_read a2.farFrameBuf / PART_LEN + 1) { core := a2, failed := false }
      if l.failed then (-1, l.core, out)
      else
        let size := toInt32 (WebRtc_available_read l.core.outFrameBuf)
        let ob :=
          if size < FRAME_LEN then
            (WebRtc_MoveReadPtr l.core.outFrameBuf (size - FRAME_LEN)).2
          else l.core.outFrameBuf
        let rd := WebRtc_ReadBuffer ob FRAME_LEN
        ((0 : Int), { l.core with outFrameBuf := rd.self },
          memcpyList out 0 rd.elements 0 FRAME_LEN)))
    (h1 : EngineInv a1) :
    res.1 = 0 ∧ EngineInv res.2.1 := by
  subst hres
  lift_lets
  intro a2
  have h2 : EngineInv a2 := engineInv_est (by simp only [EstFrame, a2, and_self]) h1
  clear_value a2
  intro l
  have el : l = processFrameLoop clean.isSome
      (WebRtc_available_read a2.farFrameBuf / PART_LEN + 1) { core := a2, failed := false } := by
    simp only [l]
  clear_value l
  obtain ⟨l0, lI⟩ := processFrameLoop_engine clean.isSome
    (WebRtc_available_read a2.farFrameBuf / PART_LEN + 1) { core := a2, failed := false } rfl h2
  rw [← el] at l0 lI
  clear el
  intro size ob rd src
  have hs : EngineInv src := lI
  clear_value src rd ob size
  have hnf : ¬ (l.failed = true) := by
    rw [l0]
    decide
  rw [if_neg hnf]
  exact ⟨frameResult_ret _ _, engineInv_est (frameResult_est src _ _) hs⟩

/-- `WebRtcAecm_ProcessFrame` on a core whose delay estimators are in order returns 0 and
leaves them in order. -/
theorem processFrame_engine (c : AecmCore) (far near : List Int) (clean : Option (List Int))
    (out : List Int) (h : EngineInv c) :
    (WebRtcAecm_ProcessFrame c far near clean out).1 = 0 ∧
      EngineInv (WebRtcAecm_ProcessFrame c far near clean out).2.1 :=
  processFrameTail_engine
    (WebRtcAecm_FetchFarFrame (WebRtcAecm_BufferFarFrame c far FRAME_LEN) FRAME_LEN
      (WebRtcAecm_BufferFarFrame c far FRAME_LEN).knownDelay).2
    (WebRtcAecm_FetchFarFrame (WebRtcAecm_BufferFarFrame c far FRAME_LEN) FRAME_LEN
      (WebRtcAecm_BufferFarFrame c far FRAME_LEN).knownDelay).1 near clean out
    (WebRtcAecm_ProcessFrame c far near clean out) rfl
    (engineInv_est (fetchFarFrame_est _ _ _)
      (engineInv_est (bufferFarFrame_est c far FRAME_LEN) h))

/-- `WebRtcAecm_InitCore` with a valid sampling frequency puts the delay estimators of a core
created by `WebRtcAecm_CreateCore` in order. -/
theorem initCore_engine (c : AecmCore) (fs : Int) (hfs : fs = 8000 ∨ fs = 16000)
    (h : EstimatorShape c) :
    (WebRtcAecm_InitCore c fs).1 = 0 ∧ EngineInv (WebRtcAecm_InitCore c fs).2 := by
  obtain ⟨s1, s2, s3, s4⟩ := h
  have hE : EngineInv
      ({ c with
          delay_estimator_farend := WebRtc_InitDelayEstimatorFarend c.delay_estimator_farend
          delay_estimator := WebRtc_InitDelayEstimator c.delay_estimator } : AecmCore) := by
    refine ⟨⟨s1, s2, s3, ?_⟩, delayInv_init _ _⟩
    show 44 ≤ (forRange c.delay_estimator_farend.spectrum_size.toNat
      (fun (h : List Int) i => h.set i 0) c.delay_estimator_farend.mean_far_spectrum).length
    rw [forRange_set_length]
    exact s4
  unfold WebRtcAecm_InitCore
  rw [if_neg (by omega)]
  dsimp only
  refine ⟨rfl, engineInv_est ?_ hE⟩
  split_ifs <;> simp only [EstFrame, WebRtcAecm_InitEchoPathCore, and_self]

/-- The core `WebRtcAecm_CreateCore` returns has the estimator shape. -/
theorem createdCore_shape : EstimatorShape createdInstance.aecmCore := by
  refine ⟨by decide, by decide, by decide, by decide⟩

/-! ### Stuffing of the output frame buffer -/


/-- The two frame ring buffers after `WebRtcAecm_InitCore`. -/
theorem initCore_rings (c0 : AecmCore) (fs : Int) (h : (WebRtcAecm_InitCore c0 fs).1 = 0) :
    (WebRtcAecm_InitCore c0 fs).2.farFrameBuf = WebRtc_InitBuffer c0.farFrameBuf ∧
      (WebRtcAecm_InitCore c0 fs).2.outFrameBuf = WebRtc_InitBuffer c0.outFrameBuf := by
  unfold WebRtcAecm_InitCore at h ⊢
  by_cases hc : fs ≠ 8000 ∧ fs ≠ 16000
  · rw [if_pos hc] at h
    simp at h
  · rw [if_neg hc]
    dsimp only
    split_ifs <;> simp only [WebRtcAecm_InitEchoPathCore, and_self]

/-- The occupancies repeat with period 4 from the third call on. -/
theorem frameOccupancy_cycle (m : Nat) :
    frameOccupancy (4 * m + 3) = (48, 0) ∧ frameOccupancy (4 * m + 4) = (0, 48) ∧
      frameOccupancy (4 * m + 5) = (16, 32) ∧ frameOccupancy (4 * m + 6) = (32, 16) := by
  induction m with
  | zero => decide
  | succ k ih =>
    obtain ⟨-, -, -, h6⟩ := ih
    have e3 : frameOccupancy (4 * (k + 1) + 3) = (48, 0) := by
      show frameOccupancy ((4 * k + 6) + 1) = (48, 0)
      unfold frameOccupancy
      rw [h6]
      decide
    have e4 : frameOccupancy (4 * (k + 1) + 4) = (0, 48) := by
      show frameOccupancy ((4 * (k + 1) + 3) + 1) = (0, 48)
      unfold frameOccupancy
      rw [e3]
      decide
    have e5 : frameOccupancy (4 * (k + 1) + 5) = (16, 32) := by
      show frameOccupancy ((4 * (k + 1) + 4) + 1) = (16, 32)
      unfold frameOccupancy
      rw [e4]
      decide
    have e6 : frameOccupancy (4 * (k + 1) + 6) = (32, 16) := by
      show frameOccupancy ((4 * (k + 1) + 5) + 1) = (32, 16)
      unfold frameOccupancy
      rw [e5]
      decide
    exact ⟨e3, e4, e5, e6⟩

/-- The occupancies before call `n + 1` leave room for the far-end frame and for the
output blocks, and the samples found in `outFrameBuf` are fewer than 80 exactly in the
first three calls. -/
theorem frameOccupancy_size (n : Nat) :
    (frameOccupancy n).1 + 80 ≤ 144 ∧
      (frameOccupancy n).2 + 64 * (((frameOccupancy n).1 + 80) / 64) ≤ 144 ∧
      ((frameOccupancy n).2 + 64 * (((frameOccupancy n).1 + 80) / 64) < 80 ↔ n < 3) := by
  by_cases h3 : n < 3
  · have hn : n = 0 ∨ n = 1 ∨ n = 2 := by omega
    rcases hn with rfl | rfl | rfl <;> decide
  · obtain ⟨m, r, hr, rfl⟩ : ∃ m r, r < 4 ∧ n = 4 * m + 3 + r :=
      ⟨(n - 3) / 4, (n - 3) % 4, by omega, by omega⟩
    obtain ⟨c3, c4, c5, c6⟩ := frameOccupancy_cycle m
    have hr4 : r = 0 ∨ r = 1 ∨ r = 2 ∨ r = 3 := by omega
    rcases hr4 with rfl | rfl | rfl | rfl
    · rw [show 4 * m + 3 + 0 = 4 * m + 3 from rfl, c3]
      refine ⟨by decide, by decide, ?_⟩
      constructor
      · intro h
        exact absurd h (by decide)
      · intro h
        omega
    · rw [show 4 * m + 3 + 1 = 4 * m + 4 from rfl, c4]
      refine ⟨by decide, by decide, ?_⟩
      constructor
      · intro h
        exact absurd h (by decide)
      · intro h
        omega
    · rw [show 4 * m + 3 + 2 = 4 * m + 5 from rfl, c5]
      refine ⟨by decide, by decide, ?_⟩
      constructor
      · intro h
        exact absurd h (by decide)
      · intro h
        omega
    · rw [show 4 * m + 3 + 3 = 4 * m + 6 from rfl, c6]
      refine ⟨by decide, by decide, ?_⟩
      constructor
      · intro h
        exact absurd h (by decide)
      · intro h
        omega

/-- A `WebRtcAecm_InitCore` call that returns 0 had a valid sampling frequency. -/
theorem initCore_valid (c0 : AecmCore) (fs : Int) (h : (WebRtcAecm_InitCore c0 fs).1 = 0) :
    fs = 8000 ∨ fs = 16000 := by
  by_contra hc
  have hc2 : fs ≠ 8000 ∧ fs ≠ 16000 := by omega
  unfold WebRtcAecm_InitCore at h
  rw [if_pos hc2] at h
  have h1 : (-1 : Int) = 0 := h
  exact absurd h1 (by decide)

/-- After `n` `WebRtcAecm_ProcessFrame` calls the two frame ring buffers hold
`frameOccupancy n` samples, and the delay estimators are in order. -/
theorem frameRun_occ (c0 : AecmCore) (fs : Int) (n : Nat) (a : AecmCore)
    (hf : c0.farFrameBuf.element_count = FRAME_LEN + PART_LEN)
    (ho : c0.outFrameBuf.element_count = FRAME_LEN + PART_LEN) (hs : EstimatorShape c0)
    (h : FrameRun c0 fs n a) :
    RingOcc a.farFrameBuf (frameOccupancy n).1 ∧ RingOcc a.outFrameBuf (frameOccupancy n).2 ∧
      EngineInv a := by
  induction h with
  | init h0 =>
    obtain ⟨e1, e2⟩ := initCore_rings c0 fs h0
    refine ⟨?_, ?_, (initCore_engine c0 fs (initCore_valid c0 fs h0) hs).2⟩
    · rw [e1]
      exact ringOcc_init _ hf
    · rw [e2]
      exact ringOcc_init _ ho
  | frame far near clean out hrun ih =>
    rename_i k b
    obtain ⟨s1, s2, -⟩ := frameOccupancy_size k
    obtain ⟨r0, rI⟩ := processFrame_engine b far near clean out ih.2.2
    rcases processFrame_occ b far near clean out _ _ ih.1 ih.2.1 s1 s2 with hfail | hsucc
    · rw [hfail.1] at r0
      exact absurd r0 (by decide)
    · exact ⟨hsucc.2.2.1, hsucc.2.2.2, rI⟩

/-- C35: after a successful `WebRtcAecm_InitCore` on a core as `WebRtcAecm_CreateCore`
builds it (frame ring buffers of `FRAME_LEN + PART_LEN` elements, delay estimators for
`PART_LEN1` bins with equal history sizes) and any `n` `WebRtcAecm_ProcessFrame` calls, the
next call returns 0 (the block engine succeeds), it finds
`size = O + 64 * ((F + 80) / 64)` samples in `outFrameBuf` at line 711 (for the occupancies
`(F, O) = frameOccupancy n`), it takes the stuffing branch `size < FRAME_LEN` exactly when
`n < 3`, i.e. in the first three calls and not only in the first, and its read leaves
`max size 80 - 80` samples: it drains `FRAME_LEN` samples from the `max size 80` there are
after the stuffing. -/
theorem frame_out_stuffing (c0 : AecmCore) (fs : Int) (n : Nat) (a : AecmCore)
    (far near : List Int) (clean : Option (List Int)) (out : List Int)
    (hf : c0.farFrameBuf.element_count = FRAME_LEN + PART_LEN)
    (ho : c0.outFrameBuf.element_count = FRAME_LEN + PART_LEN) (hs : EstimatorShape c0)
    (h : FrameRun c0 fs n a) :
    (WebRtcAecm_ProcessFrame a far near clean out).1 = 0 ∧
      ∃ size : Nat, processFrameSize a far near clean = some (size : Int) ∧
        size = (frameOccupancy n).2 + 64 * (((frameOccupancy n).1 + 80) / 64) ∧
        (size < FRAME_LEN ↔ n < 3) ∧
        WebRtc_available_read (WebRtcAecm_ProcessFrame a far near clean out).2.1.outFrameBuf
          = max size FRAME_LEN - FRAME_LEN := by
  obtain ⟨hF, hO, hE⟩ := frameRun_occ c0 fs n a hf ho hs h
  obtain ⟨s1, s2, s3⟩ := frameOccupancy_size n
  obtain ⟨r0, -⟩ := processFrame_engine a far near clean out hE
  rcases processFrame_occ a far near clean out _ _ hF hO s1 s2 with hfail | hsucc
  · rw [hfail.1] at r0
    exact absurd r0 (by decide)
  · exact ⟨hsucc.1, _, hsucc.2.1, rfl, s3, hsucc.2.2.2.2.2⟩

/-- Witness of C35, the second call: after `WebRtcAecm_InitCore(8000)` on the created core
and one `WebRtcAecm_ProcessFrame` call on silence, the next call (far end 1, near end 2)
returns 0, finds 64 samples in `outFrameBuf`, fewer than `FRAME_LEN`, so it takes the
stuffing branch, and leaves the buffer empty. -/
theorem frame_out_stuffing_witness :
    (WebRtcAecm_ProcessFrame
        (WebRtcAecm_ProcessFrame (WebRtcAecm_InitCore createdInstance.aecmCore 8000).2
          (List.replicate 80 0) (List.replicate 80 0) none (List.replicate 80 0)).2.1
        (List.replicate 80 1) (List.replicate 80 2) none (List.replicate 80 0)).1 = 0 ∧
      processFrameSize
        (WebRtcAecm_ProcessFrame (WebRtcAecm_InitCore createdInstance.aecmCore 8000).2
          (List.replicate 80 0) (List.replicate 80 0) none (List.replicate 80 0)).2.1
        (List.replicate 80 1) (List.replicate 80 2) none = some 64 ∧
      (64 : Int) < FRAME_LEN ∧
      WebRtc_available_read
        (WebRtcAecm_ProcessFrame
          (WebRtcAecm_ProcessFrame (WebRtcAecm_InitCore createdInstance.aecmCore 8000).2
            (List.replicate 80 0) (List.replicate 80 0) none (List.replicate 80 0)).2.1
          (List.replicate 80 1) (List.replicate 80 2) none
          (List.replicate 80 0)).2.1.outFrameBuf = 0 := by
  obtain ⟨r0, size, hsz, he, -, hrd⟩ :=
    frame_out_stuffing createdInstance.aecmCore 8000 1
      (WebRtcAecm_ProcessFrame (WebRtcAecm_InitCore createdInstance.aecmCore 8000).2
        (List.replicate 80 0) (List.replicate 80 0) none (List.replicate 80 0)).2.1
      (List.replicate 80 1) (List.replicate 80 2) none (List.replicate 80 0)
      (by decide) (by decide) createdCore_shape
      (FrameRun.frame (List.replicate 80 0) (List.replicate 80 0) none (List.replicate 80 0)
        (FrameRun.init (by decide)))
  have e64 : size = 64 := by
    rw [he]
    decide
  rw [e64] at hsz hrd
  exact ⟨r0, hsz, by decide, by rw [hrd]; decide⟩

end AECM
